import Mathlib

/-!
# Order-by-distance index selection (sql/analyzer/replace_order_by_distance.go)

A shallow embedding of `replaceIdxOrderByDistance` and its recursive helper.

Conventions of the embedding.

* A Go result `(sql.Node, transform.TreeIdentity, error)` is an
  `Except Err (Node × TreeIdentity)`: every failing `return` of the function has
  the form `return nil, transform.SameTree, err` and is rendered `.error err`;
  every successful `return n, id, nil` is rendered `.ok (n, id)`.
  `goResult` spells the Go triple out again.
* `transform.TreeIdentity` is the Go boolean type with `SameTree = true` and
  `NewTree = false`; `allSame && same` is boolean conjunction.
* The catalog and the helpers of the analyzer that the function calls but that
  live in other packages are the fields of `Env`.
* `node == sortNode` compares Go interface values.  Plan trees are values here,
  so the comparison is equality of trees; `sortNode` is either the node itself
  (it was assigned two lines above) or a node of a sortable type while `node`
  is of another type, so equality of trees and equality of pointers agree at
  every place the function makes the comparison.
-/

namespace GMS

/-! ## Data model -/

abbrev Err := String

/-- Expressions as far as the rule inspects them: literals, column references,
the distance function, and every other expression. -/
inductive Expr
  | Literal (val : String)
  | GetField (table : String) (name : String)
  | Distance (LeftChild : Expr) (RightChild : Expr)
  | Other (tag : String)
deriving DecidableEq, Repr

/-- An index descriptor: `ID()`, `IsSpatial()` and `Expressions()`. -/
structure Index where
  ID : String
  IsSpatial : Bool
  Expressions : List String
deriving DecidableEq, Repr

/-- One entry of `sql.SortFields`. -/
structure SortField where
  Column : Expr
  descending : Bool
deriving DecidableEq, Repr

/-- Value of `sql.OrderAndLimit`. -/
structure OrderAndLimit where
  OrderBy : Expr
  Limit : Option Expr
deriving DecidableEq, Repr

/-- One range of a `sql.MySQLRangeCollection`. -/
structure MySQLRange where
  lower : Option String
  upper : Option String
deriving DecidableEq, Repr

/-- Value of `sql.IndexLookup`, with the fields the rule sets. -/
structure IndexLookup where
  Index : Index
  Ranges : List MySQLRange
  VectorOrderAndLimit : OrderAndLimit
deriving DecidableEq, Repr

/-- The table under a `ResolvedTable` (`n.UnderlyingTable()`), with the answers of the
two type assertions the rule makes on it and of `SkipIndexCosting()`. -/
structure Table where
  name : String
  isIndexAddressable : Bool
  isIndexSearchable : Bool
  SkipIndexCosting : Bool
deriving DecidableEq, Repr

/-- Plan nodes.  The eight node types the rule names, `TopN` (the other
`plan.Sortable`), and `Other` for every remaining node type, with its children. -/
inductive Node
  | ResolvedTable (table : Table)
  | IndexedTableAccess (table : Table) (lookup : IndexLookup)
  | Project (projections : List Expr) (child : Node)
  | TableAlias (name : String) (child : Node)
  | Filter (expression : Expr) (child : Node)
  | Limit (limit : Expr) (child : Node)
  | Offset (offset : Expr) (child : Node)
  | Sort (sortFields : List SortField) (child : Node)
  | TopN (limit : Expr) (sortFields : List SortField) (child : Node)
  | Other (kind : String) (children : List Node)
deriving Repr

mutual
/-- Equality test on plan trees. -/
def Node.beq : Node → Node → Bool
  | .ResolvedTable t, .ResolvedTable u => decide (t = u)
  | .IndexedTableAccess t l, .IndexedTableAccess u m => decide (t = u) && decide (l = m)
  | .Project p c, .Project q d => decide (p = q) && Node.beq c d
  | .TableAlias a c, .TableAlias b d => decide (a = b) && Node.beq c d
  | .Filter e c, .Filter f d => decide (e = f) && Node.beq c d
  | .Limit e c, .Limit f d => decide (e = f) && Node.beq c d
  | .Offset e c, .Offset f d => decide (e = f) && Node.beq c d
  | .Sort s c, .Sort t d => decide (s = t) && Node.beq c d
  | .TopN e s c, .TopN f t d => decide (e = f) && decide (s = t) && Node.beq c d
  | .Other k cs, .Other l ds => decide (k = l) && Node.beqList cs ds
  | _, _ => false
/-- Equality test on lists of plan trees. -/
def Node.beqList : List Node → List Node → Bool
  | [], [] => true
  | c :: cs, d :: ds => Node.beq c d && Node.beqList cs ds
  | _, _ => false
end

instance : BEq Node := ⟨Node.beq⟩

/-- The nodes of the interface `plan.Sortable`: a `Sort` or a `TopN`. -/
inductive Sortable
  | Sort (sortFields : List SortField) (child : Node)
  | TopN (limit : Expr) (sortFields : List SortField) (child : Node)

/-- The plan node a sortable node is. -/
def Sortable.toNode : Sortable → Node
  | .Sort sf c => .Sort sf c
  | .TopN l sf c => .TopN l sf c

/-- The type-switch case `case plan.Sortable:` (line 17). -/
def Node.asSortable : Node → Option Sortable
  | .Sort sf c => some (.Sort sf c)
  | .TopN l sf c => some (.TopN l sf c)
  | _ => none

/-- The method `GetSortFields()`. -/
def Sortable.GetSortFields : Sortable → List SortField
  | .Sort sf _ => sf
  | .TopN _ sf _ => sf

/-- The method `SortFields.ToExpressions()`: the column of every sort field, in order. -/
def ToExpressions (sf : List SortField) : List Expr :=
  sf.map (fun f => f.Column)

/-- The method `Children()`. -/
def Node.Children : Node → List Node
  | .ResolvedTable _ => []
  | .IndexedTableAccess _ _ => []
  | .Project _ c => [c]
  | .TableAlias _ c => [c]
  | .Filter _ c => [c]
  | .Limit _ c => [c]
  | .Offset _ c => [c]
  | .Sort _ c => [c]
  | .TopN _ _ c => [c]
  | .Other _ cs => cs

/-- The error of a reconstruction with a wrong number of children. -/
def ErrInvalidChildrenNumber : Err := "invalid children number"

/-- Modelled from the spec: the method `WithChildren` of the plan nodes (package `plan`,
outside the analysed sources).  Section 3: a node exposes "a reconstruction operation
accepting a replacement child sequence"; "a node's child count is fixed by its variant;
reconstruction with a wrong count is a programming error". -/
def Node.WithChildren : Node → List Node → Except Err Node
  | .ResolvedTable t, [] => .ok (.ResolvedTable t)
  | .IndexedTableAccess t l, [] => .ok (.IndexedTableAccess t l)
  | .Project p _, [c] => .ok (.Project p c)
  | .TableAlias a _, [c] => .ok (.TableAlias a c)
  | .Filter e _, [c] => .ok (.Filter e c)
  | .Limit e _, [c] => .ok (.Limit e c)
  | .Offset e _, [c] => .ok (.Offset e c)
  | .Sort s _, [c] => .ok (.Sort s c)
  | .TopN e s _, [c] => .ok (.TopN e s c)
  | .Other k cs, ds => if ds.length = cs.length then .ok (.Other k ds) else .error ErrInvalidChildrenNumber
  | _, _ => .error ErrInvalidChildrenNumber

/-- The type `transform.TreeIdentity`, a Go `bool`. -/
abbrev TreeIdentity := Bool

/-- The constant `transform.SameTree`. -/
abbrev SameTree : TreeIdentity := true

/-- The constant `transform.NewTree`. -/
abbrev NewTree : TreeIdentity := false

/-- The `*sql.Context`: the rule only hands it to `GetIndexes`. -/
structure Context where
  cancelled : Bool
deriving DecidableEq, Repr

/-- The `*plan.Scope`: the rule only hands it to `getTableAliases`. -/
structure Scope where
  schemas : List (List String)
deriving DecidableEq, Repr

/-- The result of `getTableAliases`. -/
abbrev TableAliases := List (String × String)

/-- The catalog and the functions of other packages that the rule calls.
`staticAccessError` is the failure, if any, of `plan.NewStaticIndexedAccessForTableNode`. -/
structure Env where
  GetIndexes : Context → Table → Except Err (List Index)
  CanSupportOrderBy : Index → Expr → Bool
  getTableAliases : Sortable → Scope → Except Err TableAliases
  normalizeExpressions : TableAliases → List Expr → List Expr
  aliasedExpressionsInNode : Sortable → List (String × String)
  staticAccessError : Table → IndexLookup → Option Err

/-- The name under which an index lists a column reference: `table.column`; no name
for an expression that is not a plain column reference. -/
def Expr.columnName : Expr → Option String
  | .GetField t n => some (t ++ "." ++ n)
  | _ => none

/-- Modelled from the spec: the function `isSortFieldsValidPrefix` (package `analyzer`, in a
file that is outside the analysed sources).  Section 4.5, step 4: an index is kept only
when its "expression list has the target column as its first (prefix) entry": every
expression, in order, is a plain column reference named by the index expression at the
same position.  The spec gives no rule for the alias map, which is not consulted. -/
def isSortFieldsValidPrefix : List Expr → List (String × String) → List String → Bool
  | [], _, _ => true
  | _ :: _, _, [] => false
  | e :: es, sfAliases, c :: cs =>
    decide (e.columnName = some c) && isSortFieldsValidPrefix es sfAliases cs

/-- Modelled from the spec: the constructor `plan.NewStaticIndexedAccessForTableNode`
(package `plan`, outside the analysed sources).  Section 4.5, step 5: "Replace the
table leaf with an indexed-access node wrapping it"; the node holds the table and the
lookup it was given.  When the constructor fails is left to the environment. -/
def NewStaticIndexedAccessForTableNode (env : Env) (table : Table) (lookup : IndexLookup) :
    Except Err Node :=
  match env.staticAccessError table lookup with
  | some err => .error err
  | none => .ok (.IndexedTableAccess table lookup)

/-! ## The rule -/

/-- Lines 56-67: the operand of the distance that is taken as the column, if one of
the operands is a literal; the left operand is tested first. -/
def distanceColumn (LeftChild RightChild : Expr) : Option Expr :=
  match LeftChild with
  | .Literal _ => some RightChild
  | _ =>
    match RightChild with
    | .Literal _ => some LeftChild
    | _ => none

/-- Lines 69-80: the loop over the candidate indexes, which stops at the first index that
is not spatial, supports the ordering and passes `isSortFieldsValidPrefix`. -/
def selectIndex (env : Env) (distance column : Expr) (sfAliases : List (String × String)) :
    List Index → Option Index
  | [] => none
  | idxCandidate :: rest =>
    if idxCandidate.IsSpatial then selectIndex env distance column sfAliases rest
    else if !env.CanSupportOrderBy idxCandidate distance then
      selectIndex env distance column sfAliases rest
    else if isSortFieldsValidPrefix [column] sfAliases idxCandidate.Expressions then
      some idxCandidate
    else selectIndex env distance column sfAliases rest

/-- Lines 85-88: the limit of the sort node when it is a `TopN`. -/
def sortLimit : Sortable → Option Expr
  | .TopN limit _ _ => some limit
  | .Sort _ _ => none

/-- Lines 19-103: the case `*plan.ResolvedTable` of the type switch. -/
def resolvedTableCase (env : Env) (ctx : Context) (scope : Scope) (table : Table)
    (sortNode : Option Sortable) : Except Err (Node × TreeIdentity) :=
  let n := Node.ResolvedTable table
  match sortNode with
  | none => .ok (n, SameTree)
  | some sortNode =>
    if !table.isIndexAddressable then .ok (n, SameTree)
    else if table.isIndexSearchable && table.SkipIndexCosting then .ok (n, SameTree)
    else
      match env.getTableAliases sortNode scope with
      | .error _ => .ok (n, SameTree)
      | .ok tableAliases =>
        match env.GetIndexes ctx table with
        | .error err => .error err
        | .ok idxs =>
          let sfExprs := env.normalizeExpressions tableAliases (ToExpressions sortNode.GetSortFields)
          let sfAliases := env.aliasedExpressionsInNode sortNode
          if sfExprs.length ≠ 1 then .ok (n, SameTree)
          else
            match sfExprs.head? with
            | some (.Distance LeftChild RightChild) =>
              let distance := Expr.Distance LeftChild RightChild
              match distanceColumn LeftChild RightChild with
              | none => .ok (n, SameTree)
              | some column =>
                match selectIndex env distance column sfAliases idxs with
                | none => .ok (n, SameTree)
                | some idx =>
                  let lookup : IndexLookup :=
                    { Index := idx
                      Ranges := []
                      VectorOrderAndLimit := { OrderBy := distance, Limit := sortLimit sortNode } }
                  match NewStaticIndexedAccessForTableNode env table lookup with
                  | .error err => .error err
                  | .ok nn => .ok (nn, NewTree)
            | _ => .ok (n, SameTree)

/-- Line 111: the node types of the children the rule descends into. -/
def Node.isDescended : Node → Bool
  | .Project _ _ => true
  | .TableAlias _ _ => true
  | .ResolvedTable _ => true
  | .Filter _ _ => true
  | .Limit _ _ => true
  | .Offset _ _ => true
  | .Sort _ _ => true
  | .IndexedTableAccess _ _ => true
  | _ => false

/-- Lines 110-115: the switch on a child; `rec` is the result of the recursive call. -/
def childResult (child : Node) (rec : Except Err (Node × TreeIdentity)) :
    Except Err (Node × TreeIdentity) :=
  if child.isDescended then rec else .ok (child, SameTree)

/-- Lines 107-120: one turn of the loop over the children, for a child whose result is
`first`, followed by the remaining turns, whose outcome is `rest`. -/
def loopStep (first : Except Err (Node × TreeIdentity))
    (rest : Except Err (List Node × TreeIdentity)) : Except Err (List Node × TreeIdentity) :=
  match first with
  | .error err => .error err
  | .ok (newChild, same) =>
    match rest with
    | .error err => .error err
    | .ok (newChildren, allSame) => .ok (newChild :: newChildren, same && allSame)

/-- Lines 17-18: a sortable node becomes the sort context of what is below it. -/
def sortContext (node : Node) (sortNode : Option Sortable) : Option Sortable :=
  match node.asSortable with
  | some n => some n
  | none => sortNode

/-- The comparison `node == sortNode` of line 127. -/
def isSortNode (node : Node) (sortNode : Option Sortable) : Bool :=
  match sortNode with
  | some s => node == s.toNode
  | none => false

/-- Lines 122-135: what the rule returns after the loop over the children. -/
def finish (node : Node) (sortNode : Option Sortable) :
    Except Err (List Node × TreeIdentity) → Except Err (Node × TreeIdentity)
  | .error err => .error err
  | .ok (newChildren, allSame) =>
    if allSame then .ok (node, SameTree)
    else if isSortNode node sortNode then
      match newChildren with
      | first :: _ => .ok (first, NewTree)
      | [] => .error "index out of range"
    else
      match node.WithChildren newChildren with
      | .error err => .error err
      | .ok newNode => .ok (newNode, NewTree)

mutual
/-- The function `replaceIdxOrderByDistanceHelper` (lines 15-136).  For a node with a
single child the loop of lines 107-120 is written out for that child; for a `Sort` or a
`TopN` the sort context is the node itself (line 18).  The theorem `helper_inner` gives
the uniform form: `finish node sortNode (visitChildren node.Children sortNode)` with the
sort context of lines 17-18. -/
def replaceIdxOrderByDistanceHelper (env : Env) (ctx : Context) (scope : Scope) :
    Node → Option Sortable → Except Err (Node × TreeIdentity)
  | .ResolvedTable table, sortNode => resolvedTableCase env ctx scope table sortNode
  | .IndexedTableAccess t l, sortNode =>
    finish (.IndexedTableAccess t l) sortNode (.ok ([], SameTree))
  | .Project p c, sortNode =>
    finish (.Project p c) sortNode
      (loopStep (childResult c (replaceIdxOrderByDistanceHelper env ctx scope c sortNode))
        (.ok ([], SameTree)))
  | .TableAlias a c, sortNode =>
    finish (.TableAlias a c) sortNode
      (loopStep (childResult c (replaceIdxOrderByDistanceHelper env ctx scope c sortNode))
        (.ok ([], SameTree)))
  | .Filter e c, sortNode =>
    finish (.Filter e c) sortNode
      (loopStep (childResult c (replaceIdxOrderByDistanceHelper env ctx scope c sortNode))
        (.ok ([], SameTree)))
  | .Limit e c, sortNode =>
    finish (.Limit e c) sortNode
      (loopStep (childResult c (replaceIdxOrderByDistanceHelper env ctx scope c sortNode))
        (.ok ([], SameTree)))
  | .Offset e c, sortNode =>
    finish (.Offset e c) sortNode
      (loopStep (childResult c (replaceIdxOrderByDistanceHelper env ctx scope c sortNode))
        (.ok ([], SameTree)))
  | .Sort s c, _ =>
    finish (.Sort s c) (some (.Sort s c))
      (loopStep
        (childResult c (replaceIdxOrderByDistanceHelper env ctx scope c (some (.Sort s c))))
        (.ok ([], SameTree)))
  | .TopN e s c, _ =>
    finish (.TopN e s c) (some (.TopN e s c))
      (loopStep
        (childResult c (replaceIdxOrderByDistanceHelper env ctx scope c (some (.TopN e s c))))
        (.ok ([], SameTree)))
  | .Other k cs, sortNode =>
    finish (.Other k cs) sortNode (visitChildren env ctx scope cs sortNode)
/-- Lines 105-120: the loop over the children of a node, with the sort context in force. -/
def visitChildren (env : Env) (ctx : Context) (scope : Scope) :
    List Node → Option Sortable → Except Err (List Node × TreeIdentity)
  | [], _ => .ok ([], SameTree)
  | child :: rest, sortNode =>
    loopStep (childResult child (replaceIdxOrderByDistanceHelper env ctx scope child sortNode))
      (visitChildren env ctx scope rest sortNode)
end

/-- The rule `replaceIdxOrderByDistance` (lines 11-13); the analyzer, the rule selector and
the query flags are not used by it. -/
def replaceIdxOrderByDistance (env : Env) (ctx : Context) (n : Node) (scope : Scope) :
    Except Err (Node × TreeIdentity) :=
  replaceIdxOrderByDistanceHelper env ctx scope n none

/-- The Go triple `(sql.Node, transform.TreeIdentity, error)` a result stands for. -/
def goResult : Except Err (Node × TreeIdentity) → Option Node × TreeIdentity × Option Err
  | .ok (n, same) => (some n, same, none)
  | .error err => (none, SameTree, some err)

/-! ## Notions used to state the properties of the rule -/

/-- The ordering requirement of a sort context, as lines 33, 43 and 49-67 compute it:
the distance expression that is its single normalized sort key, and the operand of the
distance taken as the column.  There is none when `getTableAliases` fails or the sort
keys have another shape. -/
def orderingRequirement (env : Env) (scope : Scope) (s : Sortable) : Option (Expr × Expr) :=
  match env.getTableAliases s scope with
  | .error _ => none
  | .ok tableAliases =>
    match env.normalizeExpressions tableAliases (ToExpressions s.GetSortFields) with
    | [.Distance l r] =>
      match distanceColumn l r with
      | some column => some (.Distance l r, column)
      | none => none
    | _ => none

/-- The sort keys have the shape the rule asks for: one key, a distance with a literal on
one side and a plain column reference on the other. -/
def distanceShape (sfExprs : List Expr) : Prop :=
  ∃ lit tbl nm, sfExprs = [.Distance (.Literal lit) (.GetField tbl nm)] ∨
    sfExprs = [.Distance (.GetField tbl nm) (.Literal lit)]

/-- The three tests of lines 70-76 on a candidate index. -/
def qualifies (env : Env) (distance column : Expr) (sfAliases : List (String × String))
    (idx : Index) : Bool :=
  !idx.IsSpatial && env.CanSupportOrderBy idx distance &&
    isSortFieldsValidPrefix [column] sfAliases idx.Expressions

/-- The lookup built at lines 90-97 for an index, a distance and a sort context. -/
def lookupFor (idx : Index) (distance : Expr) (s : Sortable) : IndexLookup :=
  { Index := idx
    Ranges := []
    VectorOrderAndLimit := { OrderBy := distance, Limit := sortLimit s } }

/-- A run of the helper on `node` with sort context `sortNode` comes to the table `t` with
the sort context `s`: either `node` is that table, or the loop over the children of `node`
comes to a child of a descended type, every turn before it having returned without error,
and the run on that child comes to the table. -/
inductive Reached (env : Env) (ctx : Context) (scope : Scope) :
    Node → Option Sortable → Table → Option Sortable → Prop
  | table (t : Table) (sortNode : Option Sortable) :
      Reached env ctx scope (.ResolvedTable t) sortNode t sortNode
  | child (node : Node) (sortNode : Option Sortable) (before : List Node) (c : Node)
      (after : List Node) (t : Table) (s : Option Sortable) :
      node.Children = before ++ c :: after →
      c.isDescended = true →
      (∀ d ∈ before, ∀ e, childResult d
        (replaceIdxOrderByDistanceHelper env ctx scope d (sortContext node sortNode)) ≠ .error e) →
      Reached env ctx scope c (sortContext node sortNode) t s →
      Reached env ctx scope node sortNode t s

mutual
/-- Number of indexed-access nodes of a plan tree. -/
def Node.indexedAccesses : Node → Nat
  | .ResolvedTable _ => 0
  | .IndexedTableAccess _ _ => 1
  | .Project _ c => c.indexedAccesses
  | .TableAlias _ c => c.indexedAccesses
  | .Filter _ c => c.indexedAccesses
  | .Limit _ c => c.indexedAccesses
  | .Offset _ c => c.indexedAccesses
  | .Sort _ c => c.indexedAccesses
  | .TopN _ _ c => c.indexedAccesses
  | .Other _ cs => Node.indexedAccessesList cs
/-- Number of indexed-access nodes of a list of plan trees. -/
def Node.indexedAccessesList : List Node → Nat
  | [] => 0
  | c :: cs => c.indexedAccesses + Node.indexedAccessesList cs
end

/-- A node of a type the rule descends into that has a child (line 111), without the
child: `Project`, `TableAlias`, `Filter`, `Limit`, `Offset` or `Sort`. -/
inductive Ancestor
  | Project (projections : List Expr)
  | TableAlias (name : String)
  | Filter (expression : Expr)
  | Limit (limit : Expr)
  | Offset (offset : Expr)
  | Sort (sortFields : List SortField)
deriving DecidableEq, Repr

/-- The node that has `child` as its child. -/
def Ancestor.over : Ancestor → Node → Node
  | .Project p, child => .Project p child
  | .TableAlias a, child => .TableAlias a child
  | .Filter e, child => .Filter e child
  | .Limit e, child => .Limit e child
  | .Offset e, child => .Offset e child
  | .Sort s, child => .Sort s child

/-- The tree in which `node` lies below the given ancestors, the first of them being the
root. -/
def underAncestors : List Ancestor → Node → Node
  | [], node => node
  | a :: others, node => a.over (underAncestors others node)

/-! ## A concrete catalog, used to run the rule on examples -/

/-- A table with index metadata. -/
def vectors : Table :=
  { name := "vectors", isIndexAddressable := true, isIndexSearchable := false,
    SkipIndexCosting := false }

/-- A table without index metadata. -/
def plainTable : Table :=
  { name := "plain", isIndexAddressable := false, isIndexSearchable := false,
    SkipIndexCosting := false }

/-- A table that opts out of index costing. -/
def skippingTable : Table :=
  { name := "skipping", isIndexAddressable := true, isIndexSearchable := true,
    SkipIndexCosting := true }

/-- A table whose catalog lookup fails. -/
def brokenTable : Table :=
  { name := "broken", isIndexAddressable := true, isIndexSearchable := false,
    SkipIndexCosting := false }

/-- A spatial index on the column `vectors.v`. -/
def spatialIdx : Index := { ID := "v_spatial", IsSpatial := true, Expressions := ["vectors.v"] }

/-- The primary key, on the column `vectors.id`. -/
def primaryIdx : Index := { ID := "primary", IsSpatial := false, Expressions := ["vectors.id"] }

/-- A vector index on the column `vectors.v`. -/
def vIdx : Index := { ID := "v_idx", IsSpatial := false, Expressions := ["vectors.v"] }

/-- A second vector index on the column `vectors.v`. -/
def vIdx2 : Index := { ID := "v_idx2", IsSpatial := false, Expressions := ["vectors.v"] }

/-- A catalog: `vectors` has four indexes, `broken` fails, the vector indexes support
ordering by a distance, aliases are empty and normalisation changes nothing. -/
def exampleEnv : Env :=
  { GetIndexes := fun _ t =>
      if t.name = "broken" then .error "catalog unavailable"
      else if t.name = "vectors" then .ok [spatialIdx, primaryIdx, vIdx, vIdx2]
      else .ok []
    CanSupportOrderBy := fun idx e =>
      match e with
      | .Distance _ _ => idx.ID != "primary"
      | _ => false
    getTableAliases := fun _ _ => .ok []
    normalizeExpressions := fun _ es => es
    aliasedExpressionsInNode := fun _ => []
    staticAccessError := fun _ _ => none }

/-- The same catalog, whose tables have only a spatial index and a primary key. -/
def noVectorEnv : Env :=
  { exampleEnv with GetIndexes := fun _ _ => .ok [spatialIdx, primaryIdx] }

/-- A context that is not cancelled. -/
def exampleCtx : Context := { cancelled := false }

/-- The empty scope. -/
def emptyScope : Scope := { schemas := [] }

/-- The expression `VEC_DISTANCE('[0,0]', vectors.v)`. -/
def distExpr : Expr := .Distance (.Literal "[0,0]") (.GetField "vectors" "v")

/-- The sort fields `ORDER BY VEC_DISTANCE('[0,0]', vectors.v)`. -/
def distFields : List SortField := [{ Column := distExpr, descending := false }]

/-- The sort fields `ORDER BY vectors.id`. -/
def idFields : List SortField := [{ Column := .GetField "vectors" "id", descending := false }]

/-- The lookup the rule builds for `vectors` under a plain `Sort`. -/
def exampleLookup (limit : Option Expr) : IndexLookup :=
  { Index := vIdx, Ranges := [], VectorOrderAndLimit := { OrderBy := distExpr, Limit := limit } }

/-- A join of a rewritable sorted scan and a sorted scan of the table whose catalog
lookup fails. -/
def brokenJoin : Node :=
  .Other "Join" [.Sort distFields (.ResolvedTable vectors),
    .Limit (.Literal "1") (.Sort distFields (.ResolvedTable brokenTable))]

/-- A sort by the primary key over a filter over a sort by distance over the table. -/
def nestedSorts : Node :=
  .Sort idFields (.Filter (.Other "cond") (.Sort distFields (.ResolvedTable vectors)))

/-- A projection over a `TopN` by distance with limit 5 over the table. -/
def projectedTopN : Node :=
  .Project [] (.TopN (.Literal "5") distFields (.ResolvedTable vectors))

/-! ## Events (sql/analyzer/load_events.go)

The rule `loadEvents` and its helpers.  A Go result `(sql.EventDetails, error)` is the pair
of the details and the optional error; a result `(sql.Node, transform.TreeIdentity, error)` is
an `Except SqlError (EventNode × TreeIdentity)` as for the other rule. -/

/-- An error made by `Kind.New(args...)`: the error kind and its arguments. -/
structure SqlError where
  kind : String
  args : List String
deriving DecidableEq, Repr

/-- The error `sql.ErrEventsNotSupported.New(name)`. -/
def ErrEventsNotSupported (name : String) : SqlError :=
  { kind := "ErrEventsNotSupported", args := [name] }

/-- The error `sql.ErrUnknownEvent.New(name)`. -/
def ErrUnknownEvent (name : String) : SqlError :=
  { kind := "ErrUnknownEvent", args := [name] }

/-- The error `sql.ErrEventCreateStatementInvalid.New(statement)`. -/
def ErrEventCreateStatementInvalid (statement : String) : SqlError :=
  { kind := "ErrEventCreateStatementInvalid", args := [statement] }

/-- The error `sql.ErrInvalidChildrenNumber.New(node, got, expected)`. -/
def ErrInvalidChildrenNumberOf (node : String) (got expected : Nat) : SqlError :=
  { kind := "ErrInvalidChildrenNumber", args := [node, toString got, toString expected] }

/-- A `sql.EventDefinition`, with the fields the code reads. -/
structure EventDefinition where
  Name : String
  CreateStatement : String
  CreatedAt : String
  LastAltered : String
  LastExecuted : String
  SqlMode : String
deriving DecidableEq, Repr

/-- A `sql.EventDetails`; the code does not look inside it. -/
structure EventDetails where
  Name : String
  Definition : String
  Created : String
  LastAltered : String
  LastExecuted : String
deriving DecidableEq, Repr

/-- The zero value `sql.EventDetails{}`. -/
def EventDetails.zero : EventDetails :=
  { Name := "", Definition := "", Created := "", LastAltered := "", LastExecuted := "" }

/-- A `sql.Database`: its `Name()` and the answer of the type assertion
`db.(sql.EventDatabase)`. -/
structure Database where
  Name : String
  isEventDatabase : Bool
deriving DecidableEq, Repr

/-- What `b.Parse` returns for the CREATE statement of an event: a `*plan.CreateEvent`, given
by its statement, or another node. -/
inductive ParsedStatement
  | CreateEvent (statement : String)
  | OtherNode (kind : String)
deriving DecidableEq, Repr

/-- The event catalog and the functions of other packages that the rule calls: `GetEvents`
and `GetEvent` of an event database (`GetEvent` answers the definition and whether the event
exists, or an error), the failure, if any, of `planbuilder.New`, the parser `b.Parse` under
the parser options of a SQL mode, and `(*plan.CreateEvent).GetEventDetails`. -/
structure EventEnv where
  GetEvents : Context → Database → Except SqlError (List EventDefinition)
  GetEvent : Context → Database → String → Except SqlError (EventDefinition × Bool)
  plannerError : Context → Option SqlError
  Parse : Context → String → String → Except SqlError ParsedStatement
  GetEventDetails : Context → String → String → String → String → String →
    EventDetails × Option SqlError

/-- The function `GetEventDetailsFromEventDefinition` (lines 97-112). -/
def GetEventDetailsFromEventDefinition (env : EventEnv) (ctx : Context)
    (event : EventDefinition) : EventDetails × Option SqlError :=
  match env.plannerError ctx with
  | some err => (EventDetails.zero, some err)
  | none =>
    match env.Parse ctx event.SqlMode event.CreateStatement with
    | .error err => (EventDetails.zero, some err)
    | .ok (.OtherNode _) =>
      (EventDetails.zero, some (ErrEventCreateStatementInvalid event.CreateStatement))
    | .ok (.CreateEvent statement) =>
      env.GetEventDetails ctx statement event.CreatedAt event.LastAltered event.LastExecuted
        "+00:00"

/-- Lines 69-75: the loop over the event definitions, which stops at the first error. -/
def loadEventDetails (env : EventEnv) (ctx : Context) :
    List EventDefinition → Except SqlError (List EventDetails)
  | [] => .ok []
  | event :: events =>
    match GetEventDetailsFromEventDefinition env ctx event with
    | (_, some err) => .error err
    | (ed, none) =>
      match loadEventDetails env ctx events with
      | .error err => .error err
      | .ok loadedEvents => .ok (ed :: loadedEvents)

/-- The function `loadEventsFromDb` (lines 62-78). -/
def loadEventsFromDb (env : EventEnv) (ctx : Context) (db : Database) :
    Except SqlError (List EventDetails) :=
  if db.isEventDatabase then
    match env.GetEvents ctx db with
    | .error err => .error err
    | .ok events => loadEventDetails env ctx events
  else .ok []

/-- The function `loadEventFromDb` (lines 80-93). -/
def loadEventFromDb (env : EventEnv) (ctx : Context) (db : Database) (name : String) :
    EventDetails × Option SqlError :=
  if !db.isEventDatabase then (EventDetails.zero, some (ErrEventsNotSupported db.Name))
  else
    match env.GetEvent ctx db name with
    | .error err => (EventDetails.zero, some err)
    | .ok (event, exists_) =>
      if !exists_ then (EventDetails.zero, some (ErrUnknownEvent name))
      else GetEventDetailsFromEventDefinition env ctx event

/-- What a plan node is apart from its children: the three nodes the rule loads events
for, and every other node. -/
inductive EventNodeKind
  | ShowEvents (db : Database) (Events : List EventDetails)
  | ShowCreateEvent (db : Database) (EventName : String) (Event : EventDetails)
  | AlterEvent (db : Database) (EventName : String) (Event : EventDetails)
  | Other (tag : String)
deriving DecidableEq, Repr

/-- A plan tree as `loadEvents` sees it: a node and its children. -/
inductive EventNode
  | mk (kind : EventNodeKind) (children : List EventNode)
deriving Repr

/-- The method `Children()`. -/
def EventNode.Children : EventNode → List EventNode
  | .mk _ children => children

/-- What the node is apart from its children. -/
def EventNode.kind : EventNode → EventNodeKind
  | .mk kind _ => kind

/-- Modelled from the spec: the method `WithChildren` of the plan nodes (package `plan`,
outside the analysed sources).  Section 3: "a reconstruction operation accepting a
replacement child sequence"; "a node's child count is fixed by its variant; reconstruction
with a wrong count is a programming error". -/
def EventNode.WithChildren : EventNode → List EventNode → Except SqlError EventNode
  | .mk kind children, newChildren =>
    if newChildren.length = children.length then .ok (.mk kind newChildren)
    else .error (ErrInvalidChildrenNumberOf "node" newChildren.length children.length)

/-- Modelled from the spec: the second half of `transform.Node` (package `transform`, outside
the analysed sources), after the children were rewritten.  Section 4.1: "if all children
report SameTree, skip reconstruction and pass the original node through; if any child
changed, reconstruct the parent with the new children (NewTree); finally apply the node-level
function, combining its identity with the children's"; "a reconstruction error immediately
aborts the traversal and propagates". -/
def transformFinish (f : EventNode → Except SqlError (EventNode × TreeIdentity))
    (node : EventNode) :
    Except SqlError (List EventNode × TreeIdentity) → Except SqlError (EventNode × TreeIdentity)
  | .error err => .error err
  | .ok (newChildren, sameC) =>
    match (if sameC then .ok node else node.WithChildren newChildren) with
    | .error err => .error err
    | .ok rebuilt =>
      match f rebuilt with
      | .error err => .error err
      | .ok (newNode, sameN) => .ok (newNode, sameC && sameN)

/-- Modelled from the spec: one turn of the loop of `transform.Node` over the children, for a
child whose rewrite is `first`, followed by the remaining turns.  Section 4.1: "rewrite each
child first, track identity"; a child that reports SameTree stays as it is. -/
def transformStep (child : EventNode) (first : Except SqlError (EventNode × TreeIdentity))
    (others : Except SqlError (List EventNode × TreeIdentity)) :
    Except SqlError (List EventNode × TreeIdentity) :=
  match first with
  | .error err => .error err
  | .ok (newChild, same) =>
    match others with
    | .error err => .error err
    | .ok (newChildren, sameC) =>
      .ok ((if same then child else newChild) :: newChildren, same && sameC)

mutual
/-- Modelled from the spec: the function `transform.Node` (package `transform`, outside the
analysed sources).  Section 4.1: "given a node and a rewrite function, recursively rewrite
every descendant, then apply the function to the (possibly rebuilt) node itself; return the
resulting node and whether anything changed"; a post-order traversal. -/
def transformNode (f : EventNode → Except SqlError (EventNode × TreeIdentity)) :
    EventNode → Except SqlError (EventNode × TreeIdentity)
  | .mk kind children => transformFinish f (.mk kind children) (transformChildren f children)
/-- The loop of `transform.Node` over the children of a node. -/
def transformChildren (f : EventNode → Except SqlError (EventNode × TreeIdentity)) :
    List EventNode → Except SqlError (List EventNode × TreeIdentity)
  | [] => .ok ([], SameTree)
  | child :: others =>
    transformStep child (transformNode f child) (transformChildren f others)
end

/-- Lines 30-59: the function that `loadEvents` hands to `transform.Node`.  The node is
copied and the loaded events are stored in the copy. -/
def loadEventsInNode (env : EventEnv) (ctx : Context) :
    EventNode → Except SqlError (EventNode × TreeIdentity)
  | .mk (.ShowEvents db _) children =>
    match loadEventsFromDb env ctx db with
    | .error err => .error err
    | .ok loadedEvents => .ok (.mk (.ShowEvents db loadedEvents) children, NewTree)
  | .mk (.ShowCreateEvent db EventName _) children =>
    match loadEventFromDb env ctx db EventName with
    | (_, some err) => .error err
    | (loadedEvent, none) =>
      .ok (.mk (.ShowCreateEvent db EventName loadedEvent) children, NewTree)
  | .mk (.AlterEvent db EventName _) children =>
    match loadEventFromDb env ctx db EventName with
    | (_, some err) => .error err
    | (loadedEvent, none) => .ok (.mk (.AlterEvent db EventName loadedEvent) children, NewTree)
  | .mk (.Other tag) children => .ok (.mk (.Other tag) children, SameTree)

/-- The rule `loadEvents` (lines 26-60); the span of the tracer is left out. -/
def loadEvents (env : EventEnv) (ctx : Context) (n : EventNode) :
    Except SqlError (EventNode × TreeIdentity) :=
  transformNode (loadEventsInNode env ctx) n

/-- The node is a `ShowEvents`, a `ShowCreateEvent` or an `AlterEvent`. -/
def EventNodeKind.loadsEvents : EventNodeKind → Bool
  | .Other _ => false
  | _ => true

mutual
/-- The tree contains a `ShowEvents`, a `ShowCreateEvent` or an `AlterEvent` node. -/
def EventNode.hasEventNode : EventNode → Bool
  | .mk kind children => kind.loadsEvents || EventNode.hasEventNodeList children
/-- One of the trees contains a `ShowEvents`, a `ShowCreateEvent` or an `AlterEvent` node. -/
def EventNode.hasEventNodeList : List EventNode → Bool
  | [] => false
  | c :: cs => c.hasEventNode || EventNode.hasEventNodeList cs
end

/-- An event catalog with the event `nightly` in the database `mydb`. -/
def nightlyDefinition : EventDefinition :=
  { Name := "nightly", CreateStatement := "CREATE EVENT nightly ...", CreatedAt := "t0",
    LastAltered := "t1", LastExecuted := "t2", SqlMode := "" }

/-- The details of the event `nightly`. -/
def nightlyDetails : EventDetails :=
  { Name := "nightly", Definition := "CREATE EVENT nightly ...", Created := "t0",
    LastAltered := "t1", LastExecuted := "t2" }

/-- A database with events. -/
def mydb : Database := { Name := "mydb", isEventDatabase := true }

/-- A database without events. -/
def plaindb : Database := { Name := "plaindb", isEventDatabase := false }

/-- An event catalog that does not look at the context. -/
def exampleEventEnv : EventEnv :=
  { GetEvents := fun _ _ => .ok [nightlyDefinition]
    GetEvent := fun _ _ name =>
      if name = "nightly" then .ok (nightlyDefinition, true)
      else if name = "broken" then .error { kind := "ErrCatalog", args := [] }
      else .ok (nightlyDefinition, false)
    plannerError := fun _ => none
    Parse := fun _ _ statement => .ok (.CreateEvent statement)
    GetEventDetails := fun _ statement created altered executed _ =>
      ({ Name := "nightly", Definition := statement, Created := created,
         LastAltered := altered, LastExecuted := executed }, none) }

/-- A context whose cancellation signal has been triggered. -/
def cancelledCtx : Context := { cancelled := true }

/-- A tree with a `ShowEvents` node whose events are already loaded. -/
def loadedShowEvents : EventNode :=
  .mk (.Other "Describe") [.mk (.ShowEvents mydb [nightlyDetails]) []]

/-- The event catalog answers the same under two contexts. -/
def EventEnv.sameAnswers (env : EventEnv) (ctx ctx2 : Context) : Prop :=
  (∀ db, env.GetEvents ctx db = env.GetEvents ctx2 db) ∧
  (∀ db name, env.GetEvent ctx db name = env.GetEvent ctx2 db name) ∧
  env.plannerError ctx = env.plannerError ctx2 ∧
  (∀ mode statement, env.Parse ctx mode statement = env.Parse ctx2 mode statement) ∧
  (∀ a b c d e, env.GetEventDetails ctx a b c d e = env.GetEventDetails ctx2 a b c d e)

/-! ## Decimals (github.com/shopspring/decimal)

The arbitrary-precision decimals that the division code computes with: `value * 10 ^ exp`.
The functions below follow the library functions of the same names. -/

/-- A `decimal.Decimal`: the number `value * 10 ^ exp`. -/
structure Decimal where
  value : Int
  exp : Int
deriving DecidableEq, Repr

/-- The function `decimal.New(value, exp)`. -/
def Decimal.New (value exp : Int) : Decimal := { value := value, exp := exp }

/-- The function `decimal.NewFromInt(value)`. -/
def Decimal.NewFromInt (value : Int) : Decimal := { value := value, exp := 0 }

/-- The variable `decimal.Zero`, which is `New(0, 1)`. -/
def Decimal.Zero : Decimal := Decimal.New 0 1

/-- The method `Exponent()`. -/
def Decimal.Exponent (d : Decimal) : Int := d.exp

/-- The method `rescale(exp)`: the same number with the given exponent; digits that do not
fit are cut off (`big.Int.Quo` truncates toward zero). -/
def Decimal.rescale (d : Decimal) (exp : Int) : Decimal :=
  if d.exp = exp then d
  else
    let diff := (exp - d.exp).natAbs
    if exp > d.exp then { value := Int.tdiv d.value (10 ^ diff), exp := exp }
    else { value := d.value * 10 ^ diff, exp := exp }

/-- The method `Truncate(precision)`: digits after the first `precision` fractional digits are
cut off without rounding. -/
def Decimal.Truncate (d : Decimal) (precision : Int) : Decimal :=
  if precision ≥ 0 ∧ -precision > d.exp then d.rescale (-precision) else d

/-- The method `Round(places)`: rounds to `places` fractional digits, half away from zero.
The value is taken to `places + 1` digits, five is added toward the sign, and the last
digit is dropped by `big.Int.DivMod` (Euclidean) with the correction for negative values. -/
def Decimal.Round (d : Decimal) (places : Int) : Decimal :=
  if d.exp = -places then d
  else
    let ret := d.rescale (-places - 1)
    let shifted := if ret.value < 0 then ret.value - 5 else ret.value + 5
    let q := Int.ediv shifted 10
    let m := Int.emod shifted 10
    let q := if q < 0 ∧ m ≠ 0 then q + 1 else q
    { value := q, exp := ret.exp + 1 }

/-- The method `QuoRem(d2, precision)`: quotient `q`, an integer multiple of
`10 ^ (-precision)` obtained by truncation (`big.Int.QuoRem`), and remainder `r` with
`d = d2 * q + r`. -/
def Decimal.QuoRem (d d2 : Decimal) (precision : Int) : Decimal × Decimal :=
  let scale := -precision
  let e := d.exp - d2.exp - scale
  if e < 0 then
    let aa := d.value
    let bb := d2.value * 10 ^ (-e).natAbs
    ({ value := Int.tdiv aa bb, exp := scale }, { value := Int.tmod aa bb, exp := d.exp })
  else
    let aa := d.value * 10 ^ e.natAbs
    let bb := d2.value
    ({ value := Int.tdiv aa bb, exp := scale }, { value := Int.tmod aa bb, exp := scale + d2.exp })

/-- The method `Abs()`. -/
def Decimal.Abs (d : Decimal) : Decimal := { value := d.value.natAbs, exp := d.exp }

/-- The method `Cmp(d2)`: both numbers are brought to the smaller exponent and the values
compared; `-1`, `0` or `1`. -/
def Decimal.Cmp (d d2 : Decimal) : Int :=
  let e := min d.exp d2.exp
  let a := (d.rescale e).value
  let b := (d2.rescale e).value
  if a < b then -1 else if a = b then 0 else 1

/-- The method `Equal(d2)`. -/
def Decimal.Equal (d d2 : Decimal) : Bool := d.Cmp d2 = 0

/-- The method `Add(d2)`. -/
def Decimal.Add (d d2 : Decimal) : Decimal :=
  let e := min d.exp d2.exp
  { value := (d.rescale e).value + (d2.rescale e).value, exp := e }

/-- The method `Sub(d2)`. -/
def Decimal.Sub (d d2 : Decimal) : Decimal :=
  let e := min d.exp d2.exp
  { value := (d.rescale e).value - (d2.rescale e).value, exp := e }

/-- The method `DivRound(d2, precision)`: divides and rounds to an integer multiple of
`10 ^ (-precision)`; a digit five is rounded away from zero.  The truncated quotient of
`QuoRem` is kept when twice the remainder is below the divisor, and moved by one unit away
from zero otherwise. -/
def Decimal.DivRound (d d2 : Decimal) (precision : Int) : Decimal :=
  let (q, r) := d.QuoRem d2 precision
  let r2 : Decimal := { value := r.value.natAbs * 2, exp := r.exp + precision }
  let c := r2.Cmp d2.Abs
  if c < 0 then q
  else if d.value.sign * d2.value.sign < 0 then q.Sub (New 1 (-precision))
  else q.Add (New 1 (-precision))

/-- The digits of a natural number, as `big.Int.String` writes them. -/
def Decimal.digits (n : Nat) : List Char := (toString n).data

/-- The method `string(trimTrailingZeros)`: the decimal in plain notation, with all its
fractional digits or without the trailing zeros. -/
def Decimal.string (d : Decimal) (trimTrailingZeros : Bool) : String :=
  if d.exp ≥ 0 then toString (d.rescale 0).value
  else
    let str := digits d.value.natAbs
    let n := (-d.exp).natAbs
    let intPart := if str.length > n then str.take (str.length - n) else ['0']
    let fractionalPart :=
      if str.length > n then str.drop (str.length - n)
      else List.replicate (n - str.length) '0' ++ str
    let fractionalPart :=
      if trimTrailingZeros then (fractionalPart.reverse.dropWhile (fun c => c == '0')).reverse
      else fractionalPart
    let number := if fractionalPart.length > 0 then intPart ++ ['.'] ++ fractionalPart else intPart
    String.mk (if d.value < 0 then '-' :: number else number)

/-- The method `StringFixed(places)`: the number rounded to `places` fractional digits, with
all of them written. -/
def Decimal.StringFixed (d : Decimal) (places : Int) : String := (d.Round places).string false

/-- The method `String()`. -/
def Decimal.String (d : Decimal) : String := d.string true

/-! ## Expressions (sql/expression/div.go, sql/expression/arithmetic.go)

Values are the Go values that expressions evaluate to; a floating-point value is given by
its IEEE 754 bits, and the floating-point operations are taken from the environment.  A
type is given by the answers to the questions the code asks about it.  `Eval` returns the
value, the error, and the warnings recorded on the session of the context during the call. -/

/-- A `sql.Warning`. -/
structure Warning where
  Level : String
  Code : Nat
  Message : String
deriving DecidableEq, Repr

/-- The part of a `*sql.Context` that expressions use: its session, if any, on which
warnings are recorded. -/
structure EvalContext where
  hasSession : Bool
deriving DecidableEq, Repr

/-- A Go value, as `Eval` returns it (`null` is `nil`). -/
inductive Value
  | null
  | bool (b : Bool)
  | int (v : Int)
  | int64 (v : Int)
  | uint64 (v : Nat)
  | float32 (bits : Nat)
  | float64 (bits : Nat)
  | decimal (d : Decimal)
  | text (s : String)
  | time (utc : String)
  | other (goType : String) (formatted : String)
deriving DecidableEq, Repr

/-- The comparison `r == 0` on a `float32`: positive or negative zero. -/
def float32IsZero (bits : Nat) : Bool := bits % 2 ^ 31 == 0

/-- The comparison `r == 0` on a `float64`: positive or negative zero. -/
def float64IsZero (bits : Nat) : Bool := bits % 2 ^ 63 == 0

/-- The name of the Go type of a value, as `%T` prints it. -/
def Value.goTypeName : Value → String
  | .null => "<nil>"
  | .bool _ => "bool"
  | .int _ => "int"
  | .int64 _ => "int64"
  | .uint64 _ => "uint64"
  | .float32 _ => "float32"
  | .float64 _ => "float64"
  | .decimal _ => "decimal.Decimal"
  | .text _ => "string"
  | .time _ => "time.Time"
  | .other goType _ => goType

/-- A `sql.Type`, by the answers of the predicates of package `types` and of the type
assertions that the code makes on it: `decimal` holds the precision and the scale of a decimal
type, `datetimePrecision` the precision of a `sql.DatetimeType`. -/
structure SqlType where
  name : String
  IsDeferredType : Bool
  IsText : Bool
  IsJSON : Bool
  IsFloat : Bool
  IsDatetimeType : Bool
  IsTime : Bool
  IsUnsigned : Bool
  IsSigned : Bool
  IsNumber : Bool
  decimal : Option (Nat × Nat)
  datetimePrecision : Option Nat
deriving DecidableEq, Repr

/-- A type for which every predicate answers no. -/
def SqlType.plain (name : String) : SqlType :=
  { name := name, IsDeferredType := false, IsText := false, IsJSON := false, IsFloat := false,
    IsDatetimeType := false, IsTime := false, IsUnsigned := false, IsSigned := false,
    IsNumber := false, decimal := none, datetimePrecision := none }

/-- The type `types.Float64`. -/
def SqlType.Float64 : SqlType := { SqlType.plain "DOUBLE" with IsFloat := true, IsNumber := true }

/-- The type `types.Int64`. -/
def SqlType.Int64 : SqlType := { SqlType.plain "BIGINT" with IsSigned := true, IsNumber := true }

/-- The type `types.Int32`. -/
def SqlType.Int32 : SqlType := { SqlType.plain "INT" with IsSigned := true, IsNumber := true }

/-- The type `types.Uint64`. -/
def SqlType.Uint64 : SqlType :=
  { SqlType.plain "BIGINT UNSIGNED" with IsUnsigned := true, IsNumber := true }

/-- The type `types.Uint32`. -/
def SqlType.Uint32 : SqlType :=
  { SqlType.plain "INT UNSIGNED" with IsUnsigned := true, IsNumber := true }

/-- The type `types.Text`. -/
def SqlType.Text : SqlType := { SqlType.plain "TEXT" with IsText := true }

/-- The type `types.MustCreateDecimalType(precision, scale)`. -/
def SqlType.MustCreateDecimalType (precision scale : Nat) : SqlType :=
  { SqlType.plain "DECIMAL" with IsNumber := true, decimal := some (precision, scale) }

/-- The predicate `types.IsDecimal`. -/
def SqlType.IsDecimal (t : SqlType) : Bool := t.decimal.isSome

/-- The predicate `types.IsInteger`: signed or unsigned. -/
def SqlType.IsInteger (t : SqlType) : Bool := t.IsSigned || t.IsUnsigned

/-- The constant `divPrecInc` (line 37). -/
def divPrecInc : Nat := 4

/-- The constant `divIntPrecInc` (line 40). -/
def divIntPrecInc : Nat := 9

/-- The constant `ERDivisionByZero` (line 42). -/
def ERDivisionByZero : Nat := 1365

/-- The constant `mysql.ERTruncatedWrongValue`. -/
def ERTruncatedWrongValue : Nat := 1292

/-- The constant `types.DecimalTypeMaxPrecision`. -/
def DecimalTypeMaxPrecision : Nat := 65

/-- The constant `types.DecimalTypeMaxScale`. -/
def DecimalTypeMaxScale : Nat := 30

/-- The operator strings of the parser (`sqlparser.PlusStr`, `MinusStr`, `MultStr`, `DivStr`,
`IntDivStr`, `ModStr`). -/
def PlusStr : String := "+"

/-- The constant `sqlparser.MinusStr`. -/
def MinusStr : String := "-"

/-- The constant `sqlparser.MultStr`. -/
def MultStr : String := "*"

/-- The constant `sqlparser.DivStr`. -/
def DivStr : String := "/"

/-- The constant `sqlparser.IntDivStr`. -/
def IntDivStr : String := "div"

/-- The constant `sqlparser.ModStr`. -/
def ModStr : String := "%"

/-- The error `errUnableToCast.New(lval, rval)` (arithmetic.go, line 36). -/
def errUnableToCast (lval rval : Value) : SqlError :=
  { kind := "errUnableToCast", args := [lval.goTypeName, rval.goTypeName] }

/-- The error `ErrIntDivDataOutOfRange.New(l, r)` (line 33). -/
def ErrIntDivDataOutOfRange (l r : String) : SqlError :=
  { kind := "ErrIntDivDataOutOfRange", args := [l, r] }

/-- The function `arithmeticWarning` (arithmetic.go, lines 44-52): the warning recorded
on the session, when the context is not nil and has a session. -/
def arithmeticWarning (ctx : Option EvalContext) (errCode : Nat) (errMsg : String) :
    List Warning :=
  match ctx with
  | some c => if c.hasSession then [{ Level := "Warning", Code := errCode, Message := errMsg }]
    else []
  | none => []

/-- The pieces of a text between the dots, as `strings.Split(s, ".")` gives them. -/
def splitDots : List Char → List (List Char)
  | [] => [[]]
  | c :: cs =>
    if c = '.' then [] :: splitDots cs
    else
      match splitDots cs with
      | [] => [[c]]
      | piece :: pieces => (c :: piece) :: pieces

/-- The length of a text in bytes, Go's `len`. -/
def byteLength (cs : List Char) : Nat := (cs.map (fun c => c.utf8Size)).sum

/-- The function `strings.TrimPrefix(val, "-")`. -/
def trimMinus : List Char → List Char
  | '-' :: cs => cs
  | cs => cs

/-- The function `GetDecimalPrecisionAndScale` (lines 651-659); the results are `uint8`. -/
def GetDecimalPrecisionAndScale (val : String) : Nat × Nat :=
  let precScale := splitDots (trimMinus val.data)
  let scale :=
    if precScale.length ≠ 1 then
      match precScale with
      | _ :: second :: _ => byteLength second
      | _ => 0
    else 0
  let precision := byteLength (precScale.headD []) + scale
  (precision % 256, scale % 256)

/-- The text `fmt.Sprintf("%v", v)` of a value; `formatFloat` writes a float. -/
def Value.format (formatFloat : Value → String) : Value → String
  | .null => "<nil>"
  | .bool b => if b then "true" else "false"
  | .int v => toString v
  | .int64 v => toString v
  | .uint64 v => toString v
  | .float32 bits => formatFloat (.float32 bits)
  | .float64 bits => formatFloat (.float64 bits)
  | .decimal d => d.String
  | .text s => s
  | .time utc => utc
  | .other _ formatted => formatted

/-- The function `GetPrecisionAndScale` (lines 662-679); `floatDecimal` is
`decimal.NewFromFloat` on the bits of a float.  A float never reaches the last case, so how
a float is written does not matter there. -/
def GetPrecisionAndScale (floatDecimal : Value → Decimal) (val : Value) : Nat × Nat :=
  let str :=
    match val with
    | .time utc => utc
    | .decimal v => v.StringFixed (v.Exponent * -1)
    | .float32 bits => (floatDecimal (.float32 bits)).StringFixed
        ((floatDecimal (.float32 bits)).Exponent * -1)
    | .float64 bits => (floatDecimal (.float64 bits)).StringFixed
        ((floatDecimal (.float64 bits)).Exponent * -1)
    | v => v.format (fun _ => "")
  GetDecimalPrecisionAndScale str

/-- The function `convertTimeTypeToString` (arithmetic.go, lines 418-428): a time is
written as text, and of a text only the digits are kept. -/
def convertTimeTypeToString (val : Value) : Value :=
  match val with
  | .time utc => .text (String.mk (utc.data.filter Char.isDigit))
  | .text t => .text (String.mk (t.data.filter Char.isDigit))
  | v => v

/-- Expressions: literals and column references, the four arithmetic operators (the
interface `ArithmeticOp`), unary minus, tuples, and every other expression. The two counters
stamped by the constructors are fields of the nodes. -/
inductive Expression
  | Literal (value : Value) (fieldType : SqlType)
  | GetField (fieldIndex : Nat) (fieldType : SqlType)
  | Div (LeftChild RightChild : Expression) (ops divScale : Int)
  | IntDiv (LeftChild RightChild : Expression) (ops : Int)
  | Arithmetic (LeftChild RightChild : Expression) (Op : String) (ops : Int)
  | Mod (LeftChild RightChild : Expression) (ops : Int)
  | UnaryMinus (Child : Expression)
  | Tuple (exprs : List Expression)
  | Other (name : String) (fieldType : SqlType)
deriving Repr

/-- What `Eval` returns: the value, the error, and the warnings recorded meanwhile. -/
structure EvalResult where
  val : Value
  err : Option SqlError
  warnings : List Warning
deriving DecidableEq, Repr

/-- The functions of other packages that the expressions call: `Eval` and `Type` of the
expressions that are not in the two files, `Convert` of a type (the converted value and the
error), `Convert` of the decimal type made by `CreateDecimalType(precision, scale)`, and the
floating-point operations (division, `int64(math.Floor(x))`, `decimal.NewFromFloat`, the text `%v`). -/
structure ExprEnv where
  evalOther : Expression → Option EvalContext → List Value → EvalResult
  typeOther : Expression → SqlType
  Convert : SqlType → Value → Value × Option SqlError
  DecimalConvert : Nat → Nat → Value → Value × Option SqlError
  float32Div : Nat → Nat → Nat
  float64Div : Nat → Nat → Nat
  floorToInt64 : Nat → Int
  floatDecimal : Value → Decimal
  formatFloat : Value → String

/-- The function `countDivs` (lines 456-470). -/
def countDivs : Expression → Int
  | .Div l _ _ _ => countDivs l + 1
  | .IntDiv l _ _ => countDivs l
  | .Arithmetic l _ _ _ => countDivs l
  | .Mod l _ _ => countDivs l
  | _ => 0

/-- The function `countArithmeticOps` (arithmetic.go, lines 353-363). -/
def countArithmeticOps : Expression → Int
  | .Div l r _ _ => countArithmeticOps l + countArithmeticOps r + 1
  | .IntDiv l r _ => countArithmeticOps l + countArithmeticOps r + 1
  | .Arithmetic l r _ _ => countArithmeticOps l + countArithmeticOps r + 1
  | .Mod l r _ => countArithmeticOps l + countArithmeticOps r + 1
  | _ => 0

mutual
/-- The function `setDivs` (lines 475-495): the tree with `divScale` stored in every `Div`
that is reached through arithmetic operators and tuples. -/
def setDivs : Expression → Int → Expression
  | .Div l r ops _, dScale => .Div (setDivs l dScale) (setDivs r dScale) ops dScale
  | .IntDiv l r ops, dScale => .IntDiv (setDivs l dScale) (setDivs r dScale) ops
  | .Arithmetic l r op ops, dScale => .Arithmetic (setDivs l dScale) (setDivs r dScale) op ops
  | .Mod l r ops, dScale => .Mod (setDivs l dScale) (setDivs r dScale) ops
  | .Tuple exprs, dScale => .Tuple (setDivsList exprs dScale)
  | .Literal v t, _ => .Literal v t
  | .GetField i t, _ => .GetField i t
  | .UnaryMinus c, _ => .UnaryMinus c
  | .Other n t, _ => .Other n t
/-- The loop of `setDivs` over the expressions of a tuple. -/
def setDivsList : List Expression → Int → List Expression
  | [], _ => []
  | e :: es, dScale => setDivs e dScale :: setDivsList es dScale
end

mutual
/-- The function `setArithmeticOps` (arithmetic.go, lines 367-385): the tree with the
operator count stored in every arithmetic operator that is reached through arithmetic
operators and tuples. -/
def setArithmeticOps : Expression → Int → Expression
  | .Div l r _ ds, opScale => .Div (setArithmeticOps l opScale) (setArithmeticOps r opScale) opScale ds
  | .IntDiv l r _, opScale => .IntDiv (setArithmeticOps l opScale) (setArithmeticOps r opScale) opScale
  | .Arithmetic l r op _, opScale =>
    .Arithmetic (setArithmeticOps l opScale) (setArithmeticOps r opScale) op opScale
  | .Mod l r _, opScale => .Mod (setArithmeticOps l opScale) (setArithmeticOps r opScale) opScale
  | .Tuple exprs, opScale => .Tuple (setArithmeticOpsList exprs opScale)
  | .Literal v t, _ => .Literal v t
  | .GetField i t, _ => .GetField i t
  | .UnaryMinus c, _ => .UnaryMinus c
  | .Other n t, _ => .Other n t
/-- The loop of `setArithmeticOps` over the expressions of a tuple. -/
def setArithmeticOpsList : List Expression → Int → List Expression
  | [], _ => []
  | e :: es, opScale => setArithmeticOps e opScale :: setArithmeticOpsList es opScale
end

/-- The function `isOutermostArithmeticOp` (arithmetic.go, lines 389-391). -/
def isOutermostArithmeticOp (e : Expression) (opScale : Int) : Bool :=
  opScale == countArithmeticOps e

/-- The constructor `NewDiv` (lines 60-71).  The counters are stored in the nodes of the
operands too, which the new node shares with its caller. -/
def NewDiv (left right : Expression) : Expression :=
  let a := Expression.Div left right 0 0
  let divs := countDivs a
  let a := setDivs a divs
  let ops := countArithmeticOps a
  setArithmeticOps a ops

/-- The constructor `NewIntDiv` (lines 691-696). -/
def NewIntDiv (left right : Expression) : Expression :=
  let a := Expression.IntDiv left right 0
  let ops := countArithmeticOps a
  setArithmeticOps a ops

/-- The constructor `NewArithmetic` (arithmetic.go, lines 76-81). -/
def NewArithmetic (left right : Expression) (op : String) : Expression :=
  let a := Expression.Arithmetic left right op 0
  let ops := countArithmeticOps a
  setArithmeticOps a ops

/-- Modelled from the spec: the constructor `NewMod` (file mod.go, outside the analysed
sources).  Section 9: the counter of stacked operators is "written during construction";
the constructor stamps the operator count like its three siblings. -/
def NewMod (left right : Expression) : Expression :=
  let a := Expression.Mod left right 0
  let ops := countArithmeticOps a
  setArithmeticOps a ops

/-- The constructor `NewUnaryMinus` (arithmetic.go, lines 670-672). -/
def NewUnaryMinus (child : Expression) : Expression := .UnaryMinus child

/-- The method `Operator()` of the arithmetic operators. -/
def Expression.Operator : Expression → Option String
  | .Div _ _ _ _ => some DivStr
  | .IntDiv _ _ _ => some IntDivStr
  | .Arithmetic _ _ op _ => some op
  | .Mod _ _ _ => some ModStr
  | _ => none

/-- The method `Children()` of the nodes with a `WithChildren` in the two files. -/
def Expression.Children : Expression → List Expression
  | .Div l r _ _ => [l, r]
  | .IntDiv l r _ => [l, r]
  | .Arithmetic l r _ _ => [l, r]
  | .Mod l r _ => [l, r]
  | .UnaryMinus c => [c]
  | .Tuple exprs => exprs
  | _ => []

/-- The text of an expression in an error message. -/
def Expression.describe : Expression → String
  | .Div _ _ _ _ => "Div"
  | .IntDiv _ _ _ => "IntDiv"
  | .Arithmetic _ _ op _ => "Arithmetic " ++ op
  | .Mod _ _ _ => "Mod"
  | .UnaryMinus _ => "UnaryMinus"
  | .Tuple _ => "Tuple"
  | .Literal _ _ => "Literal"
  | .GetField _ _ => "GetField"
  | .Other n _ => n

/-- The function `strings.ToLower` on the characters of the Latin alphabet. -/
def toLower (s : String) : String := String.mk (s.data.map Char.toLower)

/-- The method `(*Div).WithChildren` (lines 115-120). -/
def DivWithChildren (d : Expression) (children : List Expression) :
    Except SqlError Expression :=
  match children with
  | [left, right] => .ok (NewDiv left right)
  | _ => .error (ErrInvalidChildrenNumberOf d.describe children.length 2)

/-- The method `(*IntDiv).WithChildren` (lines 737-742). -/
def IntDivWithChildren (i : Expression) (children : List Expression) :
    Except SqlError Expression :=
  match children with
  | [left, right] => .ok (NewIntDiv left right)
  | _ => .error (ErrInvalidChildrenNumberOf i.describe children.length 2)

/-- The method `(*Arithmetic).WithChildren` (arithmetic.go, lines 223-235), for an
`Arithmetic` with operator `op`. -/
def ArithmeticWithChildren (a : Expression) (op : String) (children : List Expression) :
    Except SqlError Expression :=
  match children with
  | [left, right] =>
    if toLower op = DivStr then .ok (NewDiv left right)
    else if toLower op = ModStr then .ok (NewMod left right)
    else .ok (NewArithmetic left right op)
  | _ => .error (ErrInvalidChildrenNumberOf a.describe children.length 2)

/-- The method `(*UnaryMinus).WithChildren` (arithmetic.go, lines 759-764). -/
def UnaryMinusWithChildren (e : Expression) (children : List Expression) :
    Except SqlError Expression :=
  match children with
  | [child] => .ok (NewUnaryMinus child)
  | _ => .error (ErrInvalidChildrenNumberOf e.describe children.length 1)

/-- The method `WithChildren` of the four nodes of the two files; there is none here for the
other expressions. -/
def Expression.WithChildren (e : Expression) (children : List Expression) :
    Option (Except SqlError Expression) :=
  match e with
  | .Div _ _ _ _ => some (DivWithChildren e children)
  | .IntDiv _ _ _ => some (IntDivWithChildren e children)
  | .Arithmetic _ _ op _ => some (ArithmeticWithChildren e op children)
  | .UnaryMinus _ => some (UnaryMinusWithChildren e children)
  | _ => none

/-- The method `(*Div).determineResultType` (lines 268-333), from the types of the two
children and the operator count; the argument `outermostResult` is not used by the method.
Precision and scale are `uint8`. -/
def determineResultType (lTyp rTyp : SqlType) (ops : Int) : SqlType :=
  if rTyp.IsDeferredType then rTyp
  else if lTyp.IsDeferredType then lTyp
  else if lTyp.IsText || rTyp.IsText then SqlType.Float64
  else if lTyp.IsJSON || rTyp.IsJSON then SqlType.Float64
  else if lTyp.IsFloat || rTyp.IsFloat then SqlType.Float64
  else
    match (if lTyp.IsDatetimeType then lTyp.datetimePrecision else none) with
    | some precision =>
      let scale := (precision + divPrecInc) % 256
      let scale := if scale > DecimalTypeMaxScale then DecimalTypeMaxScale else scale
      SqlType.MustCreateDecimalType DecimalTypeMaxPrecision scale
    | none =>
      match lTyp.decimal with
      | some (prec, scale) =>
        let scale := (scale + divPrecInc) % 256
        let scale := if ops = -1 then ((scale / 9 + 1) * 9) % 256 else scale
        let prec := if ops = -1 then (prec + scale) % 256 else (prec + divPrecInc) % 256
        let prec := if prec > DecimalTypeMaxPrecision then DecimalTypeMaxPrecision else prec
        let scale := if scale > DecimalTypeMaxScale then DecimalTypeMaxScale else scale
        SqlType.MustCreateDecimalType prec scale
      | none =>
        if ops = -1 then SqlType.MustCreateDecimalType DecimalTypeMaxPrecision 9
        else SqlType.MustCreateDecimalType DecimalTypeMaxPrecision divPrecInc

/-- The method `Type()`: of a `Div` (lines 98-100), an `IntDiv` (lines 720-729) and a
`UnaryMinus` (arithmetic.go, lines 732-747); a literal, a column reference and the other
expressions have the type they were made with; the type of an `Arithmetic`, a `Mod` and a
tuple is taken from the environment. -/
def Expression.Type (env : ExprEnv) : Expression → SqlType
  | .Literal _ t => t
  | .GetField _ t => t
  | .Other _ t => t
  | .Div l r ops _ => determineResultType (l.Type env) (r.Type env) ops
  | .IntDiv l r _ =>
    if (l.Type env).IsUnsigned || (r.Type env).IsUnsigned then SqlType.Uint64
    else SqlType.Int64
  | .UnaryMinus c =>
    let typ := c.Type env
    if !typ.IsNumber then SqlType.Float64
    else if typ = SqlType.Uint32 then SqlType.Int32
    else if typ = SqlType.Uint64 then SqlType.Int64
    else typ
  | .Arithmetic l r op ops => env.typeOther (.Arithmetic l r op ops)
  | .Mod l r ops => env.typeOther (.Mod l r ops)
  | .Tuple exprs => env.typeOther (.Tuple exprs)

/-- The function `convertValueToType` (arithmetic.go, lines 397-410): the converted value,
and the warning recorded when the conversion fails. -/
def convertValueToType (env : ExprEnv) (ctx : Option EvalContext) (typ : SqlType) (val : Value)
    (isTimeType : Bool) : Value × List Warning :=
  let val := if isTimeType then convertTimeTypeToString val else val
  match env.Convert typ val with
  | (cval, some _) =>
    (cval, arithmeticWarning ctx ERTruncatedWrongValue
      ("Truncated incorrect " ++ typ.name ++ " value: '" ++ val.format env.formatFloat ++ "'"))
  | (cval, none) => (cval, [])

/-- The function `convertToDecimalValue` (lines 412-444).  `DecimalConvert precision scale`
is `Convert` of the type made by `types.CreateDecimalType(precision, scale)`. -/
def convertToDecimalValue (env : ExprEnv) (val : Value) (isTimeType : Bool) : Value :=
  let val := if isTimeType then convertTimeTypeToString val else val
  let val :=
    match val with
    | .bool v => if v then Value.int 1 else Value.int 0
    | v => v
  match val with
  | .decimal d => .decimal d
  | v =>
    let (p, s) := GetPrecisionAndScale env.floatDecimal v
    let p := if p > DecimalTypeMaxPrecision then DecimalTypeMaxPrecision else p
    let s := if s > DecimalTypeMaxScale then DecimalTypeMaxScale else s
    match env.DecimalConvert p s v with
    | (_, some _) => .decimal Decimal.Zero
    | (converted, none) => converted

/-- The value `int32(math.Ceil(float64(n) / divIntPrecInc))`: the quotient of two small
integers is off an integer by at least a ninth or is one, so the ceiling taken on the
floating-point quotient is the ceiling of the exact one. -/
def ceilDiv9 (n : Int) : Int := -(Int.ediv (-n) 9)

/-- Lines 164-174 of `(*Div).evalLeftRight`: a decimal left value with fewer fractional
digits than the scale `ts` of the declared decimal type of the left child is replaced by
`decimal.NewFromString(dVal.StringFixed(ts))`, the value written with `ts` fractional digits
and read back: the value rounded to `ts` places. -/
def padLeftValue (leftType : SqlType) (lval : Value) : Value :=
  match leftType.decimal, lval with
  | some (_, ts), .decimal dVal =>
    if (ts : Int) > dVal.Exponent * -1 then Value.decimal (dVal.Round ts) else lval
  | _, _ => lval

/-- The method `(*Div).evalLeftRight` (lines 151-182), from the type of the left child and
what the two children evaluate to; the right child is not evaluated when the left one
fails. -/
def divEvalLeftRight (leftType : SqlType) (left right : EvalResult) :
    Value × Value × Option SqlError × List Warning :=
  match left.err with
  | some err => (.null, .null, some err, left.warnings)
  | none =>
    match right.err with
    | some err => (.null, .null, some err, left.warnings ++ right.warnings)
    | none => (padLeftValue leftType left.val, right.val, none, left.warnings ++ right.warnings)

/-- The method `(*Div).convertLeftRight` (lines 191-209), for the internal type `typ`. -/
def divConvertLeftRight (env : ExprEnv) (ctx : Option EvalContext) (typ : SqlType)
    (lIsTimeType rIsTimeType : Bool) (left right : Value) : Value × Value × List Warning :=
  let l :=
    if typ.IsFloat then convertValueToType env ctx typ left lIsTimeType
    else (convertToDecimalValue env left lIsTimeType, [])
  let r :=
    if typ.IsFloat then convertValueToType env ctx typ right rIsTimeType
    else (convertToDecimalValue env right rIsTimeType, [])
  (l.1, r.1, l.2 ++ r.2)

/-- Lines 239-256: the quotient of two decimals, the divisor not being zero. -/
def divDecimals (l r : Decimal) : Decimal :=
  let lScale := -1 * l.Exponent
  let rScale := -1 * r.Exponent
  let inc := ceilDiv9 (lScale + rScale + divPrecInc)
  let inc :=
    if lScale ≠ 0 ∧ rScale ≠ 0 then
      let inc2 := ceilDiv9 lScale + ceilDiv9 rScale
      if inc2 > inc then inc2 else inc
    else inc
  let scale := inc * divIntPrecInc
  let l := l.Truncate scale
  let r := r.Truncate scale
  let res := l.DivRound r (scale + 2)
  res.Truncate scale

/-- The method `(*Div).div` (lines 211-261): the result, the error, and the warning. -/
def divValues (env : ExprEnv) (ctx : Option EvalContext) (lval rval : Value) :
    Value × Option SqlError × List Warning :=
  match lval, rval with
  | .float32 l, .float32 r =>
    if float32IsZero r then (.null, none, arithmeticWarning ctx ERDivisionByZero "Division by 0")
    else (.float32 (env.float32Div l r), none, [])
  | .float64 l, .float64 r =>
    if float64IsZero r then (.null, none, arithmeticWarning ctx ERDivisionByZero "Division by 0")
    else (.float64 (env.float64Div l r), none, [])
  | .decimal l, .decimal r =>
    if r.Equal (Decimal.NewFromInt 0) then
      (.null, none, arithmeticWarning ctx ERDivisionByZero "Division by 0")
    else (.decimal (divDecimals l r), none, [])
  | _, _ => (.null, some (errUnableToCast lval rval), [])

/-- The value of an `int64` computation in two's complement. -/
def wrapInt64 (v : Int) : Int := (v + 2 ^ 63) % 2 ^ 64 - 2 ^ 63

/-- The digits of a text as a number, if all its characters are digits. -/
def parseDigits : List Char → Nat → Option Nat
  | [], acc => some acc
  | c :: cs, acc => if c.isDigit then parseDigits cs (acc * 10 + (c.toNat - 48)) else none

/-- The function `strconv.ParseInt(s, 10, 64)`: the number, or nothing when the text is not
a number or the number does not fit. -/
def ParseInt64 (s : String) : Option Int :=
  let parsed : Option Int :=
    match s.data with
    | [] => none
    | '-' :: [] => none
    | '+' :: [] => none
    | '-' :: cs => (parseDigits cs 0).map (fun n => -(n : Int))
    | '+' :: cs => (parseDigits cs 0).map (fun n => (n : Int))
    | cs => (parseDigits cs 0).map (fun n => (n : Int))
  match parsed with
  | some v => if -(2 : Int) ^ 63 ≤ v ∧ v < 2 ^ 63 then some v else none
  | none => none

/-- The method `(*IntDiv).convertLeftRight` (lines 784-809). -/
def intDivConvertLeftRight (env : ExprEnv) (ctx : Option EvalContext) (lTyp rTyp : SqlType)
    (left right : Value) : Value × Value × List Warning :=
  let lIsTimeType := lTyp.IsTime
  let rIsTimeType := rTyp.IsTime
  let typ :=
    if lTyp.IsText || rTyp.IsText then SqlType.Float64
    else if lTyp.IsUnsigned && rTyp.IsUnsigned then SqlType.Uint64
    else if (lIsTimeType && rIsTimeType) || (lTyp.IsSigned && rTyp.IsSigned) then SqlType.Int64
    else SqlType.MustCreateDecimalType DecimalTypeMaxPrecision 0
  if typ.IsInteger || typ.IsFloat then
    let l := convertValueToType env ctx typ left lIsTimeType
    let r := convertValueToType env ctx typ right rIsTimeType
    (l.1, r.1, l.2 ++ r.2)
  else
    (convertToDecimalValue env left lIsTimeType, convertToDecimalValue env right rIsTimeType, [])

/-- The function `intDiv` (lines 811-866): the result, the error, and the warning. -/
def intDiv (env : ExprEnv) (ctx : Option EvalContext) (lval rval : Value) :
    Value × Option SqlError × List Warning :=
  match lval, rval with
  | .uint64 l, .uint64 r =>
    if r = 0 then (.null, none, arithmeticWarning ctx ERDivisionByZero "Division by 0")
    else (.uint64 (l / r), none, [])
  | .int64 l, .int64 r =>
    if r = 0 then (.null, none, arithmeticWarning ctx ERDivisionByZero "Division by 0")
    else (.int64 (wrapInt64 (Int.tdiv l r)), none, [])
  | .float64 l, .float64 r =>
    if float64IsZero r then (.null, none, arithmeticWarning ctx ERDivisionByZero "Division by 0")
    else (.int64 (env.floorToInt64 (env.float64Div l r)), none, [])
  | .decimal l, .decimal r =>
    if r.Equal (Decimal.NewFromInt 0) then
      (.null, none, arithmeticWarning ctx ERDivisionByZero "Division by 0")
    else
      let divRes := (l.DivRound r 2).Truncate 0
      match ParseInt64 divRes.String with
      | none =>
        (.null, some (ErrIntDivDataOutOfRange (l.StringFixed l.Exponent) (r.StringFixed r.Exponent)),
          [])
      | some intPart => (.int64 intPart, none, [])
  | _, _ => (.null, some (errUnableToCast lval rval), [])

/-- Lines 635-647 of `getFinalScale`: an expression that is not a `Div`, an `Arithmetic` or a
`Mod`. -/
def leafFinalScale (env : ExprEnv) (e : Expression) : Int :=
  let s :=
    match e with
    | .Literal value _ => (GetPrecisionAndScale env.floatDecimal value).2
    | _ => 0
  let s :=
    match (e.Type env).decimal with
    | some (_, ts) => if ts > s then ts else s
    | none => s
  (s : Int)

/-- Lines 568-597 of `getFinalScale`: the case of a `Div` with counter `divScale`, from the
type of its left child, what the left child evaluates to, and the final scale of the left
child. -/
def divFinalScale (env : ExprEnv) (divScale d : Int) (leftType : SqlType) (left : EvalResult)
    (leftScale : Int × Bool × List Warning) : Int × Bool × List Warning :=
  let d := d + 1
  if d = divScale then
    match left.err with
    | some _ => (0, false, left.warnings)
    | none =>
      let s := (GetPrecisionAndScale env.floatDecimal left.val).2
      let s :=
        match leftType.decimal with
        | some (_, ts) => if ts > s then ts else s
        | none => s
      let finalScale : Int := (divPrecInc : Int) + (s : Int)
      let finalScale := if finalScale > DecimalTypeMaxScale then (DecimalTypeMaxScale : Int) else finalScale
      (finalScale, true, left.warnings)
  else
    let finalScale : Int := (divPrecInc : Int) + leftScale.1
    let finalScale := if finalScale > DecimalTypeMaxScale then (DecimalTypeMaxScale : Int) else finalScale
    (finalScale, true, leftScale.2.2)

/-- Lines 140-148: the end of `(*Div).Eval`, for the node `d` with operator count `ops`, the
result of `div` and what `getFinalScale(ctx, row, d, 0)` returns. -/
def divRoundResult (d : Expression) (ops : Int) (result : Value)
    (finalScale : Int × Bool × List Warning) : Value × List Warning :=
  match result with
  | .decimal res =>
    if isOutermostArithmeticOp d ops then (.decimal (res.Round finalScale.1), finalScale.2.2)
    else (result, [])
  | _ => (result, [])

/-- Lines 123-138: `(*Div).Eval` up to the result of `div`, from the types of the children and
what they evaluate to. -/
def divEvalCore (env : ExprEnv) (ctx : Option EvalContext) (lTyp rTyp : SqlType) (ops : Int)
    (left right : EvalResult) : EvalResult :=
  match divEvalLeftRight lTyp left right with
  | (_, _, some err, w) => { val := .null, err := some err, warnings := w }
  | (lval, rval, none, w) =>
    if lval = .null ∨ rval = .null then { val := .null, err := none, warnings := w }
    else
      let typ := determineResultType lTyp rTyp ops
      let converted := divConvertLeftRight env ctx typ lTyp.IsTime rTyp.IsTime lval rval
      match divValues env ctx converted.1 converted.2.1 with
      | (_, some err, w3) =>
        { val := .null, err := some err, warnings := w ++ converted.2.2 ++ w3 }
      | (result, none, w3) =>
        { val := result, err := none, warnings := w ++ converted.2.2 ++ w3 }

/-- The method `(*IntDiv).Eval` (lines 745-776), from the types of the children and what
they evaluate to. -/
def intDivEval (env : ExprEnv) (ctx : Option EvalContext) (lTyp rTyp : SqlType)
    (left right : EvalResult) : EvalResult :=
  match left.err with
  | some err => { val := .null, err := some err, warnings := left.warnings }
  | none =>
    match right.err with
    | some err => { val := .null, err := some err, warnings := left.warnings ++ right.warnings }
    | none =>
      let w := left.warnings ++ right.warnings
      if left.val = .null ∨ right.val = .null then { val := .null, err := none, warnings := w }
      else
        let converted := intDivConvertLeftRight env ctx lTyp rTyp left.val right.val
        match intDiv env ctx converted.1 converted.2.1 with
        | (result, err, w3) => { val := result, err := err, warnings := w ++ converted.2.2 ++ w3 }

/-- The end of `(*Div).Eval` put on its core: the result is rounded when it is a decimal
and the node is the outermost arithmetic operator. -/
def divEvalFinish (d : Expression) (ops : Int) (core : EvalResult)
    (finalScale : Int × Bool × List Warning) : EvalResult :=
  match core.err with
  | some _ => core
  | none =>
    let rounded := divRoundResult d ops core.val finalScale
    { val := rounded.1, err := none, warnings := core.warnings ++ rounded.2 }

/-- Lines 599-617 of `getFinalScale`: the final scale of an `Arithmetic` from those of its
children. -/
def arithmeticFinalScale (op : String) (left right : Int × Bool × List Warning) :
    Int × Bool × List Warning :=
  let finalScale : Int :=
    if op = PlusStr ∨ op = MinusStr then
      if left.1 > right.1 then left.1 else right.1
    else if op = MultStr then left.1 + right.1
    else 0
  let finalScale := if finalScale > DecimalTypeMaxScale then (DecimalTypeMaxScale : Int) else finalScale
  (finalScale, left.2.1 || right.2.1, left.2.2 ++ right.2.2)

/-- Lines 620-631 of `getFinalScale`: the final scale of a `Mod` from those of its
children. -/
def modFinalScale (left right : Int × Bool × List Warning) : Int × Bool × List Warning :=
  let finalScale := left.1
  let finalScale := if right.1 > finalScale then right.1 else finalScale
  let finalScale := if finalScale > DecimalTypeMaxScale then (DecimalTypeMaxScale : Int) else finalScale
  (finalScale, left.2.1 || right.2.1, left.2.2 ++ right.2.2)

mutual
/-- The method `Eval`: of a `Div` (lines 123-149) and of an `IntDiv` (lines 745-758); a
literal evaluates to its value; the other expressions are evaluated by the
environment. -/
def Expression.Eval (env : ExprEnv) (ctx : Option EvalContext) (row : List Value) :
    Expression → EvalResult
  | .Literal value _ => { val := value, err := none, warnings := [] }
  | .Div l r ops divScale =>
    divEvalFinish (.Div l r ops divScale) ops
      (divEvalCore env ctx (l.Type env) (r.Type env) ops (l.Eval env ctx row)
        (r.Eval env ctx row))
      (divFinalScale env divScale 0 (l.Type env) (l.Eval env ctx row)
        (getFinalScale env ctx row l 1))
  | .IntDiv l r _ =>
    intDivEval env ctx (l.Type env) (r.Type env) (l.Eval env ctx row) (r.Eval env ctx row)
  | .GetField i t => env.evalOther (.GetField i t) ctx row
  | .Arithmetic l r op ops => env.evalOther (.Arithmetic l r op ops) ctx row
  | .Mod l r ops => env.evalOther (.Mod l r ops) ctx row
  | .UnaryMinus c => env.evalOther (.UnaryMinus c) ctx row
  | .Tuple exprs => env.evalOther (.Tuple exprs) ctx row
  | .Other n t => env.evalOther (.Other n t) ctx row
/-- The function `getFinalScale` (lines 563-648): the final scale, whether a `Div` was
met, and the warnings recorded by the evaluation of the leftmost operand. -/
def getFinalScale (env : ExprEnv) (ctx : Option EvalContext) (row : List Value) :
    Expression → Int → Int × Bool × List Warning
  | .Div l _ _ divScale, d =>
    divFinalScale env divScale d (l.Type env) (l.Eval env ctx row)
      (getFinalScale env ctx row l (d + 1))
  | .Arithmetic l r op _, d =>
    arithmeticFinalScale op (getFinalScale env ctx row l d) (getFinalScale env ctx row r d)
  | .Mod l r _, d =>
    modFinalScale (getFinalScale env ctx row l d) (getFinalScale env ctx row r d)
  | .Literal v t, _ => (leafFinalScale env (.Literal v t), false, [])
  | .GetField i t, _ => (leafFinalScale env (.GetField i t), false, [])
  | .IntDiv l r ops, _ => (leafFinalScale env (.IntDiv l r ops), false, [])
  | .UnaryMinus c, _ => (leafFinalScale env (.UnaryMinus c), false, [])
  | .Tuple exprs, _ => (leafFinalScale env (.Tuple exprs), false, [])
  | .Other n t, _ => (leafFinalScale env (.Other n t), false, [])
end

/-- An environment for the examples: a whole number is converted to the decimal of the same
value, a decimal to itself, an `int64` to the signed integer types as itself, and an
`uint64` to the unsigned ones as itself; every other conversion fails with `nil`, and
no other expression is evaluated. -/
def exampleExprEnv : ExprEnv :=
  { evalOther := fun _ _ _ => { val := .null, err := none, warnings := [] },
    typeOther := fun _ => SqlType.Float64,
    Convert := fun typ v =>
      match v with
      | .int64 i => if typ.IsSigned then (.int64 i, none)
        else (.null, some { kind := "ErrInvalidValue", args := [] })
      | .uint64 n => if typ.IsUnsigned then (.uint64 n, none)
        else (.null, some { kind := "ErrInvalidValue", args := [] })
      | _ => (.null, some { kind := "ErrInvalidValue", args := [] }),
    DecimalConvert := fun _ _ v =>
      match v with
      | .int i => (.decimal (Decimal.New i 0), none)
      | .int64 i => (.decimal (Decimal.New i 0), none)
      | .uint64 n => (.decimal (Decimal.New n 0), none)
      | .decimal d => (.decimal d, none)
      | _ => (.null, some { kind := "ErrConvertingToDecimal", args := [] }),
    float32Div := fun _ _ => 0,
    float64Div := fun _ _ => 0,
    floorToInt64 := fun _ => 0,
    floatDecimal := fun _ => Decimal.Zero,
    formatFloat := fun _ => "" }

/-- A context with a session. -/
def sessionCtx : Option EvalContext := some { hasSession := true }

/-- The literal of an `int64`, typed `BIGINT`. -/
def int64Literal (v : Int) : Expression := .Literal (.int64 v) SqlType.Int64

/-- The literal of a decimal with the type of its digits. -/
def decimalLiteral (value : Int) (precision scale : Nat) : Expression :=
  .Literal (.decimal (Decimal.New value (-(scale : Int)))) (SqlType.MustCreateDecimalType precision scale)

/-! ## Notions of the claims on expressions -/

mutual
/-- An expression without its scratch counters: `ops` and `divScale` are set to zero in
every node that the constructors stamp (through arithmetic operators and tuples). -/
def Expression.withoutCounters : Expression → Expression
  | .Div l r _ _ => .Div l.withoutCounters r.withoutCounters 0 0
  | .IntDiv l r _ => .IntDiv l.withoutCounters r.withoutCounters 0
  | .Arithmetic l r op _ => .Arithmetic l.withoutCounters r.withoutCounters op 0
  | .Mod l r _ => .Mod l.withoutCounters r.withoutCounters 0
  | .Tuple exprs => .Tuple (withoutCountersList exprs)
  | .Literal v t => .Literal v t
  | .GetField i t => .GetField i t
  | .UnaryMinus c => .UnaryMinus c
  | .Other n t => .Other n t
/-- The expressions of a tuple without their scratch counters. -/
def withoutCountersList : List Expression → List Expression
  | [] => []
  | e :: es => e.withoutCounters :: withoutCountersList es
end

/-- The number of children that `WithChildren` of a node asks for: the literal in its
length test. -/
def Expression.arity : Expression → Nat
  | .UnaryMinus _ => 1
  | _ => 2

/-- Whether an expression is a `UnaryMinus`. -/
def Expression.isUnaryMinus : Expression → Bool
  | .UnaryMinus _ => true
  | _ => false

/-- Zero in one of the five number representations: `r == 0` for the integers and the
floats, `r.Equal(decimal.NewFromInt(0))` for a decimal. -/
def Value.isZero : Value → Bool
  | .float32 bits => float32IsZero bits
  | .float64 bits => float64IsZero bits
  | .decimal d => d.Equal (Decimal.NewFromInt 0)
  | .int64 v => v == 0
  | .uint64 v => v == 0
  | _ => false

/-- Two values of the same Go type among the five number representations. -/
def Value.sameRepresentation : Value → Value → Bool
  | .float32 _, .float32 _ => true
  | .float64 _, .float64 _ => true
  | .decimal _, .decimal _ => true
  | .int64 _, .int64 _ => true
  | .uint64 _, .uint64 _ => true
  | _, _ => false

/-- The representations that `(*Div).convertLeftRight` brings the operands of `/` to:
a float or a decimal. -/
def Value.isDivRepresentation : Value → Bool
  | .float32 _ => true
  | .float64 _ => true
  | .decimal _ => true
  | _ => false

/-- The representations that `(*IntDiv).convertLeftRight` brings the operands of `div` to:
`uint64`, `int64`, `float64` or a decimal. -/
def Value.isIntDivRepresentation : Value → Bool
  | .uint64 _ => true
  | .int64 _ => true
  | .float64 _ => true
  | .decimal _ => true
  | _ => false

/-- The two operands that `(*Div).Eval` passes to `div` when the children of the node, of
types `lTyp` and `rTyp`, evaluate to `lv` and `rv`. -/
def divOperands (env : ExprEnv) (ctx : Option EvalContext) (lTyp rTyp : SqlType) (ops : Int)
    (lv rv : Value) : Value × Value :=
  let converted := divConvertLeftRight env ctx (determineResultType lTyp rTyp ops) lTyp.IsTime
    rTyp.IsTime (padLeftValue lTyp lv) rv
  (converted.1, converted.2.1)

/-- The two operands that `(*IntDiv).Eval` passes to `intDiv` when the children of the node,
of types `lTyp` and `rTyp`, evaluate to `lv` and `rv`. -/
def intDivOperands (env : ExprEnv) (ctx : Option EvalContext) (lTyp rTyp : SqlType)
    (lv rv : Value) : Value × Value :=
  let converted := intDivConvertLeftRight env ctx lTyp rTyp lv rv
  (converted.1, converted.2.1)

/-- The outcome of a division by zero: `nil` with a `nil` error, and the warning 1365
"Division by 0" among the warnings recorded when the context has a session. -/
def EvalResult.isDivisionByZero (res : EvalResult) (ctx : Option EvalContext) : Prop :=
  res.val = .null ∧ res.err = none ∧
    ∀ c, ctx = some c → c.hasSession = true →
      ({ Level := "Warning", Code := 1365, Message := "Division by 0" } : Warning) ∈ res.warnings

/-- The scale of the declared decimal type of an operand, zero for a type that is not a
decimal type. -/
def SqlType.declaredScale (t : SqlType) : Nat :=
  match t.decimal with
  | some (_, scale) => scale
  | none => 0

/-- The exact quotient of two integers rounded half away from zero to `places` decimal
places, as the decimal with that many fractional digits. -/
def roundedQuotient (l r : Int) (places : Nat) : Decimal :=
  let n := l.natAbs * 10 ^ places
  let q := n / r.natAbs
  let q := if 2 * (n % r.natAbs) ≥ r.natAbs then q + 1 else q
  { value := Int.sign l * Int.sign r * (q : Int), exp := -(places : Int) }

/-- The exact quotient of two decimals truncated toward zero. -/
def truncatedQuotient (l r : Decimal) : Int :=
  if l.exp ≥ r.exp then Int.tdiv (l.value * 10 ^ (l.exp - r.exp).natAbs) r.value
  else Int.tdiv l.value (r.value * 10 ^ (r.exp - l.exp).natAbs)

/-! ## Rule identifiers (sql/analyzer/ruleid_string.go) -/

/-- The constant `_RuleId_name` (line 120): the names of the rules, one after the other. -/
def _RuleId_name : String :=
  "validateOffsetAndLimitvalidateCreateTablevalidateExprSemresolveVariablesresolveNamedWindowsresolveSetVariablesresolveViewsliftCtesresolveCtesliftRecursiveCtesresolveDatabasesresolveTablesloadStoredProceduresvalidateDropTablessetTargetSchemasresolveCreateLikeparseColumnDefaultsresolveDropConstraintvalidateDropConstraintloadCheckConstraintsresolveCreateSelectresolveSubqueriessetViewTargetSchemaresolveUnionsresolveDescribeQuerycheckUniqueTableNamesresolveTableFunctionsresolveDeclarationsvalidateCreateTriggervalidateCreateProcedureloadInfoSchemavalidateReadOnlyDatabasevalidateReadOnlyTransactionvalidateDatabaseSetvalidatePrivilegesreresolveTablesvalidateJoinComplexityresolveNaturalJoinsresolveOrderbyLiteralsresolveFunctionsflattenTableAliasespushdownSortpushdownGroupbyAliasespushdownSubqueryAliasFiltersqualifyColumnsresolveColumnsresolveColumnDefaultsvalidateCheckConstraintresolveBarewordSetVariablesexpandStarsresolveHavingmergeUnionSchemasflattenAggregationExprsreorderProjectionresolveSubqueryExprsresolveJSONTableCrossJoinreplaceCrossJoinsmoveJoinCondsToFilterevalFilteroptimizeDistinctfinalizeSubqueriesfinalizeUnionsloadTriggersprocessTruncateresolveAlterColumnresolveGeneratorsremoveUnnecessaryConvertsassignCatalogpruneColumnsoptimizeJoinspushdownFilterssubqueryIndexesinSubqueryIndexespruneTablessetJoinScopeLeneraseProjectionreplaceSortPkinsertTopNcacheSubqueryResultscacheSubqueryAliasesInJoinsapplyHashLookupsapplyHashInresolveInsertRowsresolvePreparedInsertapplyTriggersapplyProceduresassignRoutinesmodifyUpdateExprsForJoinapplyRowUpdateAccumulatorsrollback triggersapplyFKsvalidateResolvedvalidateOrderByvalidateGroupByvalidateSchemaSourcevalidateIndexCreationvalidateOperandsvalidateCaseResultTypesvalidateIntervalUsagevalidateExplodeUsagevalidateSubqueryColumnsvalidateUnionSchemasMatchvalidateAggregationsaddAutocommitNodetrackProcessparallelizeclearWarnings"

/-- The table `_RuleId_index` (line 122): where each name starts, and where the last
one ends. -/
def _RuleId_index : List Nat :=
  [0, 22, 41, 56, 72, 91, 110, 122, 130, 141, 158, 174, 187, 207, 225, 241, 258, 277, 298, 320,
    340, 359, 376, 395, 408, 428, 449, 470, 489, 510, 533, 547, 571, 598, 617, 635, 650, 672,
    691, 713, 729, 748, 760, 782, 810, 824, 838, 859, 882, 909, 920, 933, 950, 973, 990, 1010,
    1035, 1052, 1073, 1083, 1099, 1117, 1131, 1143, 1158, 1176, 1193, 1218, 1231, 1243, 1256,
    1271, 1286, 1303, 1314, 1329, 1344, 1357, 1367, 1387, 1414, 1430, 1441, 1458, 1479, 1492,
    1507, 1521, 1545, 1571, 1588, 1596, 1612, 1627, 1642, 1662, 1683, 1699, 1722, 1743, 1763,
    1786, 1811, 1831, 1848, 1860, 1871, 1884]

/-- The slice expression `s[lo:hi]` of a string: its bytes from `lo` up to `hi`, and no
result for bounds that make the program stop (`lo > hi` or `hi > len(s)`).  The names are
written in ASCII, one byte for each character. -/
def sliceString (s : String) (lo hi : Nat) : Option String :=
  if lo ≤ hi ∧ hi ≤ s.data.length then some (String.mk ((s.data.drop lo).take (hi - lo)))
  else none

/-- The method `(RuleId).String` (lines 124-129), a `RuleId` being an `int`; no result
stands for an index or a slice out of range. -/
def RuleId.String (i : Int) : Option String :=
  if i < 0 ∨ i ≥ ((_RuleId_index.length : Int) - 1) then
    some ("RuleId(" ++ toString i ++ ")")
  else
    match _RuleId_index.get? i.toNat, _RuleId_index.get? (i.toNat + 1) with
    | some lo, some hi => sliceString _RuleId_name lo hi
    | _, _ => none

/-- The function `isOutermostDiv` (lines 541-559). -/
def isOutermostDiv : Expression → Int → Int → Bool
  | .Div l _ _ _, d, dScale => if d + 1 = dScale then true else isOutermostDiv l (d + 1) dScale
  | .IntDiv l _ _, d, dScale => isOutermostDiv l d dScale
  | .Arithmetic l _ _ _, d, dScale => isOutermostDiv l d dScale
  | .Mod l _ _, d, dScale => isOutermostDiv l d dScale
  | _, _, _ => false

/-- The function `countDivs` on an expression that may be `nil` (lines 457-459). -/
def countDivsOf : Option Expression → Int
  | none => 0
  | some e => countDivs e

/-- Whether an expression is a `*Div`. -/
def Expression.isDiv : Expression → Bool
  | .Div _ _ _ _ => true
  | _ => false

/-- Whether an expression is an `ArithmeticOp`: a `Div`, an `IntDiv`, an `Arithmetic` or a
`Mod`. -/
def Expression.isArithmeticOp : Expression → Bool
  | .Div _ _ _ _ => true
  | .IntDiv _ _ _ => true
  | .Arithmetic _ _ _ _ => true
  | .Mod _ _ _ => true
  | _ => false

/-- The left spine of an expression: the nodes met when the left child is followed from
the expression for as long as the current node is an `ArithmeticOp`; the last one is the
node at which the walk stops. -/
def leftSpine : Expression → List Expression
  | .Div l r ops ds => .Div l r ops ds :: leftSpine l
  | .IntDiv l r ops => .IntDiv l r ops :: leftSpine l
  | .Arithmetic l r op ops => .Arithmetic l r op ops :: leftSpine l
  | .Mod l r ops => .Mod l r ops :: leftSpine l
  | .Literal v t => [.Literal v t]
  | .GetField i t => [.GetField i t]
  | .UnaryMinus c => [.UnaryMinus c]
  | .Tuple exprs => [.Tuple exprs]
  | .Other n t => [.Other n t]

/-- The number of `Div` nodes on the left spine of an expression. -/
def leftSpineDivs (e : Expression) : Nat := (leftSpine e).countP Expression.isDiv

/-- The field `divScale` of a `Div`. -/
def Expression.divScale : Expression → Int
  | .Div _ _ _ ds => ds
  | _ => 0

/-- The sign of a numeral: `-` or nothing. -/
def numeralSign (negative : Bool) : List Char := if negative then ['-'] else []

/-- The expression `24 / 3 / 2 / 1`, built with `NewDiv`. -/
def chainOfThree : Expression :=
  NewDiv (NewDiv (NewDiv (int64Literal 24) (int64Literal 3)) (int64Literal 2)) (int64Literal 1)

/-- The expression `(1 / 2) / (3 / 4)`, built with `NewDiv`. -/
def divOfDivs : Expression :=
  NewDiv (NewDiv (int64Literal 1) (int64Literal 2)) (NewDiv (int64Literal 3) (int64Literal 4))

/-- The expression `1 / (2 / 3 / 4)`, built with `NewDiv`. -/
def divByChain : Expression :=
  NewDiv (int64Literal 1) (NewDiv (NewDiv (int64Literal 2) (int64Literal 3)) (int64Literal 4))

/-! ## Collations (sql/collations.go)

A `CollationID` is a `uint16`, here a natural number.  A Go string is the list of its bytes
where the code reads bytes, and a text where it is only compared.  A call either returns, or
stops the program with a run-time panic (an index out of range, the call of a nil
function). -/

/-- A `CollationID`: an `uint16`. -/
abbrev CollationID := Nat

/-- A `CharacterSetID`.  The constants are declared in character_sets.go; a character set is
known here by the name of its constant, and two constants of different names are different
character sets. -/
structure CharacterSetID where
  name : String
deriving DecidableEq, Repr

/-- The zero value of `CharacterSetID`, the character set of `Collation{}`. -/
def CharacterSetID.zero : CharacterSetID := { name := "" }

/-- A function `func(r rune) int32`, as the array of collations names it: a function literal
that returns a constant, or a function of package `encodings`. -/
inductive RuneWeight
  | constant (weight : Int)
  | encodings (name : String)
deriving DecidableEq, Repr

/-- The struct `Collation` (lines 28-37); `Sorter` is `none` for `nil`. -/
structure Collation where
  ID : CollationID
  Name : String
  CharacterSet : CharacterSetID
  IsDefault : Bool
  IsCompiled : Bool
  SortLength : Nat
  PadAttribute : String
  Sorter : Option RuneWeight
deriving DecidableEq, Repr

/-- The zero value `Collation{}`. -/
def Collation.zero : Collation :=
  { ID := 0, Name := "", CharacterSet := CharacterSetID.zero, IsDefault := false,
    IsCompiled := false, SortLength := 0, PadAttribute := "", Sorter := none }

/-! The constants of the `const` block (lines 53-358), in the order of the source. -/

def Collation_armscii8_bin : CollationID := 64
def Collation_armscii8_general_ci : CollationID := 32
def Collation_ascii_bin : CollationID := 65
def Collation_ascii_general_ci : CollationID := 11
def Collation_big5_bin : CollationID := 84
def Collation_big5_chinese_ci : CollationID := 1
def Collation_binary : CollationID := 63
def Collation_cp1250_bin : CollationID := 66
def Collation_cp1250_croatian_ci : CollationID := 44
def Collation_cp1250_czech_cs : CollationID := 34
def Collation_cp1250_general_ci : CollationID := 26
def Collation_cp1250_polish_ci : CollationID := 99
def Collation_cp1251_bin : CollationID := 50
def Collation_cp1251_bulgarian_ci : CollationID := 14
def Collation_cp1251_general_ci : CollationID := 51
def Collation_cp1251_general_cs : CollationID := 52
def Collation_cp1251_ukrainian_ci : CollationID := 23
def Collation_cp1256_bin : CollationID := 67
def Collation_cp1256_general_ci : CollationID := 57
def Collation_cp1257_bin : CollationID := 58
def Collation_cp1257_general_ci : CollationID := 59
def Collation_cp1257_lithuanian_ci : CollationID := 29
def Collation_cp850_bin : CollationID := 80
def Collation_cp850_general_ci : CollationID := 4
def Collation_cp852_bin : CollationID := 81
def Collation_cp852_general_ci : CollationID := 40
def Collation_cp866_bin : CollationID := 68
def Collation_cp866_general_ci : CollationID := 36
def Collation_cp932_bin : CollationID := 96
def Collation_cp932_japanese_ci : CollationID := 95
def Collation_dec8_bin : CollationID := 69
def Collation_dec8_swedish_ci : CollationID := 3
def Collation_eucjpms_bin : CollationID := 98
def Collation_eucjpms_japanese_ci : CollationID := 97
def Collation_euckr_bin : CollationID := 85
def Collation_euckr_korean_ci : CollationID := 19
def Collation_gb18030_bin : CollationID := 249
def Collation_gb18030_chinese_ci : CollationID := 248
def Collation_gb18030_unicode_520_ci : CollationID := 250
def Collation_gb2312_bin : CollationID := 86
def Collation_gb2312_chinese_ci : CollationID := 24
def Collation_gbk_bin : CollationID := 87
def Collation_gbk_chinese_ci : CollationID := 28
def Collation_geostd8_bin : CollationID := 93
def Collation_geostd8_general_ci : CollationID := 92
def Collation_greek_bin : CollationID := 70
def Collation_greek_general_ci : CollationID := 25
def Collation_hebrew_bin : CollationID := 71
def Collation_hebrew_general_ci : CollationID := 16
def Collation_hp8_bin : CollationID := 72
def Collation_hp8_english_ci : CollationID := 6
def Collation_keybcs2_bin : CollationID := 73
def Collation_keybcs2_general_ci : CollationID := 37
def Collation_koi8r_bin : CollationID := 74
def Collation_koi8r_general_ci : CollationID := 7
def Collation_koi8u_bin : CollationID := 75
def Collation_koi8u_general_ci : CollationID := 22
def Collation_latin1_bin : CollationID := 47
def Collation_latin1_danish_ci : CollationID := 15
def Collation_latin1_general_ci : CollationID := 48
def Collation_latin1_general_cs : CollationID := 49
def Collation_latin1_german1_ci : CollationID := 5
def Collation_latin1_german2_ci : CollationID := 31
def Collation_latin1_spanish_ci : CollationID := 94
def Collation_latin1_swedish_ci : CollationID := 8
def Collation_latin2_bin : CollationID := 77
def Collation_latin2_croatian_ci : CollationID := 27
def Collation_latin2_czech_cs : CollationID := 2
def Collation_latin2_general_ci : CollationID := 9
def Collation_latin2_hungarian_ci : CollationID := 21
def Collation_latin5_bin : CollationID := 78
def Collation_latin5_turkish_ci : CollationID := 30
def Collation_latin7_bin : CollationID := 79
def Collation_latin7_estonian_cs : CollationID := 20
def Collation_latin7_general_ci : CollationID := 41
def Collation_latin7_general_cs : CollationID := 42
def Collation_macce_bin : CollationID := 43
def Collation_macce_general_ci : CollationID := 38
def Collation_macroman_bin : CollationID := 53
def Collation_macroman_general_ci : CollationID := 39
def Collation_sjis_bin : CollationID := 88
def Collation_sjis_japanese_ci : CollationID := 13
def Collation_swe7_bin : CollationID := 82
def Collation_swe7_swedish_ci : CollationID := 10
def Collation_tis620_bin : CollationID := 89
def Collation_tis620_thai_ci : CollationID := 18
def Collation_ucs2_bin : CollationID := 90
def Collation_ucs2_croatian_ci : CollationID := 149
def Collation_ucs2_czech_ci : CollationID := 138
def Collation_ucs2_danish_ci : CollationID := 139
def Collation_ucs2_esperanto_ci : CollationID := 145
def Collation_ucs2_estonian_ci : CollationID := 134
def Collation_ucs2_general_ci : CollationID := 35
def Collation_ucs2_general_mysql500_ci : CollationID := 159
def Collation_ucs2_german2_ci : CollationID := 148
def Collation_ucs2_hungarian_ci : CollationID := 146
def Collation_ucs2_icelandic_ci : CollationID := 129
def Collation_ucs2_latvian_ci : CollationID := 130
def Collation_ucs2_lithuanian_ci : CollationID := 140
def Collation_ucs2_persian_ci : CollationID := 144
def Collation_ucs2_polish_ci : CollationID := 133
def Collation_ucs2_roman_ci : CollationID := 143
def Collation_ucs2_romanian_ci : CollationID := 131
def Collation_ucs2_sinhala_ci : CollationID := 147
def Collation_ucs2_slovak_ci : CollationID := 141
def Collation_ucs2_slovenian_ci : CollationID := 132
def Collation_ucs2_spanish2_ci : CollationID := 142
def Collation_ucs2_spanish_ci : CollationID := 135
def Collation_ucs2_swedish_ci : CollationID := 136
def Collation_ucs2_turkish_ci : CollationID := 137
def Collation_ucs2_unicode_520_ci : CollationID := 150
def Collation_ucs2_unicode_ci : CollationID := 128
def Collation_ucs2_vietnamese_ci : CollationID := 151
def Collation_ujis_bin : CollationID := 91
def Collation_ujis_japanese_ci : CollationID := 12
def Collation_utf16_bin : CollationID := 55
def Collation_utf16_croatian_ci : CollationID := 122
def Collation_utf16_czech_ci : CollationID := 111
def Collation_utf16_danish_ci : CollationID := 112
def Collation_utf16_esperanto_ci : CollationID := 118
def Collation_utf16_estonian_ci : CollationID := 107
def Collation_utf16_general_ci : CollationID := 54
def Collation_utf16_german2_ci : CollationID := 121
def Collation_utf16_hungarian_ci : CollationID := 119
def Collation_utf16_icelandic_ci : CollationID := 102
def Collation_utf16_latvian_ci : CollationID := 103
def Collation_utf16_lithuanian_ci : CollationID := 113
def Collation_utf16_persian_ci : CollationID := 117
def Collation_utf16_polish_ci : CollationID := 106
def Collation_utf16_roman_ci : CollationID := 116
def Collation_utf16_romanian_ci : CollationID := 104
def Collation_utf16_sinhala_ci : CollationID := 120
def Collation_utf16_slovak_ci : CollationID := 114
def Collation_utf16_slovenian_ci : CollationID := 105
def Collation_utf16_spanish2_ci : CollationID := 115
def Collation_utf16_spanish_ci : CollationID := 108
def Collation_utf16_swedish_ci : CollationID := 109
def Collation_utf16_turkish_ci : CollationID := 110
def Collation_utf16_unicode_520_ci : CollationID := 123
def Collation_utf16_unicode_ci : CollationID := 101
def Collation_utf16_vietnamese_ci : CollationID := 124
def Collation_utf16le_bin : CollationID := 62
def Collation_utf16le_general_ci : CollationID := 56
def Collation_utf32_bin : CollationID := 61
def Collation_utf32_croatian_ci : CollationID := 181
def Collation_utf32_czech_ci : CollationID := 170
def Collation_utf32_danish_ci : CollationID := 171
def Collation_utf32_esperanto_ci : CollationID := 177
def Collation_utf32_estonian_ci : CollationID := 166
def Collation_utf32_general_ci : CollationID := 60
def Collation_utf32_german2_ci : CollationID := 180
def Collation_utf32_hungarian_ci : CollationID := 178
def Collation_utf32_icelandic_ci : CollationID := 161
def Collation_utf32_latvian_ci : CollationID := 162
def Collation_utf32_lithuanian_ci : CollationID := 172
def Collation_utf32_persian_ci : CollationID := 176
def Collation_utf32_polish_ci : CollationID := 165
def Collation_utf32_roman_ci : CollationID := 175
def Collation_utf32_romanian_ci : CollationID := 163
def Collation_utf32_sinhala_ci : CollationID := 179
def Collation_utf32_slovak_ci : CollationID := 173
def Collation_utf32_slovenian_ci : CollationID := 164
def Collation_utf32_spanish2_ci : CollationID := 174
def Collation_utf32_spanish_ci : CollationID := 167
def Collation_utf32_swedish_ci : CollationID := 168
def Collation_utf32_turkish_ci : CollationID := 169
def Collation_utf32_unicode_520_ci : CollationID := 182
def Collation_utf32_unicode_ci : CollationID := 160
def Collation_utf32_vietnamese_ci : CollationID := 183
def Collation_utf8mb3_bin : CollationID := 83
def Collation_utf8mb3_croatian_ci : CollationID := 213
def Collation_utf8mb3_czech_ci : CollationID := 202
def Collation_utf8mb3_danish_ci : CollationID := 203
def Collation_utf8mb3_esperanto_ci : CollationID := 209
def Collation_utf8mb3_estonian_ci : CollationID := 198
def Collation_utf8mb3_general_ci : CollationID := 33
def Collation_utf8mb3_general_mysql500_ci : CollationID := 223
def Collation_utf8mb3_german2_ci : CollationID := 212
def Collation_utf8mb3_hungarian_ci : CollationID := 210
def Collation_utf8mb3_icelandic_ci : CollationID := 193
def Collation_utf8mb3_latvian_ci : CollationID := 194
def Collation_utf8mb3_lithuanian_ci : CollationID := 204
def Collation_utf8mb3_persian_ci : CollationID := 208
def Collation_utf8mb3_polish_ci : CollationID := 197
def Collation_utf8mb3_roman_ci : CollationID := 207
def Collation_utf8mb3_romanian_ci : CollationID := 195
def Collation_utf8mb3_sinhala_ci : CollationID := 211
def Collation_utf8mb3_slovak_ci : CollationID := 205
def Collation_utf8mb3_slovenian_ci : CollationID := 196
def Collation_utf8mb3_spanish2_ci : CollationID := 206
def Collation_utf8mb3_spanish_ci : CollationID := 199
def Collation_utf8mb3_swedish_ci : CollationID := 200
def Collation_utf8mb3_tolower_ci : CollationID := 76
def Collation_utf8mb3_turkish_ci : CollationID := 201
def Collation_utf8mb3_unicode_520_ci : CollationID := 214
def Collation_utf8mb3_unicode_ci : CollationID := 192
def Collation_utf8mb3_vietnamese_ci : CollationID := 215
def Collation_utf8mb4_0900_ai_ci : CollationID := 255
def Collation_utf8mb4_0900_as_ci : CollationID := 305
def Collation_utf8mb4_0900_as_cs : CollationID := 278
def Collation_utf8mb4_0900_bin : CollationID := 309
def Collation_utf8mb4_bin : CollationID := 46
def Collation_utf8mb4_croatian_ci : CollationID := 245
def Collation_utf8mb4_cs_0900_ai_ci : CollationID := 266
def Collation_utf8mb4_cs_0900_as_cs : CollationID := 289
def Collation_utf8mb4_czech_ci : CollationID := 234
def Collation_utf8mb4_da_0900_ai_ci : CollationID := 267
def Collation_utf8mb4_da_0900_as_cs : CollationID := 290
def Collation_utf8mb4_danish_ci : CollationID := 235
def Collation_utf8mb4_de_pb_0900_ai_ci : CollationID := 256
def Collation_utf8mb4_de_pb_0900_as_cs : CollationID := 279
def Collation_utf8mb4_eo_0900_ai_ci : CollationID := 273
def Collation_utf8mb4_eo_0900_as_cs : CollationID := 296
def Collation_utf8mb4_es_0900_ai_ci : CollationID := 263
def Collation_utf8mb4_es_0900_as_cs : CollationID := 286
def Collation_utf8mb4_es_trad_0900_ai_ci : CollationID := 270
def Collation_utf8mb4_es_trad_0900_as_cs : CollationID := 293
def Collation_utf8mb4_esperanto_ci : CollationID := 241
def Collation_utf8mb4_estonian_ci : CollationID := 230
def Collation_utf8mb4_et_0900_ai_ci : CollationID := 262
def Collation_utf8mb4_et_0900_as_cs : CollationID := 285
def Collation_utf8mb4_general_ci : CollationID := 45
def Collation_utf8mb4_german2_ci : CollationID := 244
def Collation_utf8mb4_hr_0900_ai_ci : CollationID := 275
def Collation_utf8mb4_hr_0900_as_cs : CollationID := 298
def Collation_utf8mb4_hu_0900_ai_ci : CollationID := 274
def Collation_utf8mb4_hu_0900_as_cs : CollationID := 297
def Collation_utf8mb4_hungarian_ci : CollationID := 242
def Collation_utf8mb4_icelandic_ci : CollationID := 225
def Collation_utf8mb4_is_0900_ai_ci : CollationID := 257
def Collation_utf8mb4_is_0900_as_cs : CollationID := 280
def Collation_utf8mb4_ja_0900_as_cs : CollationID := 303
def Collation_utf8mb4_ja_0900_as_cs_ks : CollationID := 304
def Collation_utf8mb4_la_0900_ai_ci : CollationID := 271
def Collation_utf8mb4_la_0900_as_cs : CollationID := 294
def Collation_utf8mb4_latvian_ci : CollationID := 226
def Collation_utf8mb4_lithuanian_ci : CollationID := 236
def Collation_utf8mb4_lt_0900_ai_ci : CollationID := 268
def Collation_utf8mb4_lt_0900_as_cs : CollationID := 291
def Collation_utf8mb4_lv_0900_ai_ci : CollationID := 258
def Collation_utf8mb4_lv_0900_as_cs : CollationID := 281
def Collation_utf8mb4_persian_ci : CollationID := 240
def Collation_utf8mb4_pl_0900_ai_ci : CollationID := 261
def Collation_utf8mb4_pl_0900_as_cs : CollationID := 284
def Collation_utf8mb4_polish_ci : CollationID := 229
def Collation_utf8mb4_ro_0900_ai_ci : CollationID := 259
def Collation_utf8mb4_ro_0900_as_cs : CollationID := 282
def Collation_utf8mb4_roman_ci : CollationID := 239
def Collation_utf8mb4_romanian_ci : CollationID := 227
def Collation_utf8mb4_ru_0900_ai_ci : CollationID := 306
def Collation_utf8mb4_ru_0900_as_cs : CollationID := 307
def Collation_utf8mb4_sinhala_ci : CollationID := 243
def Collation_utf8mb4_sk_0900_ai_ci : CollationID := 269
def Collation_utf8mb4_sk_0900_as_cs : CollationID := 292
def Collation_utf8mb4_sl_0900_ai_ci : CollationID := 260
def Collation_utf8mb4_sl_0900_as_cs : CollationID := 283
def Collation_utf8mb4_slovak_ci : CollationID := 237
def Collation_utf8mb4_slovenian_ci : CollationID := 228
def Collation_utf8mb4_spanish2_ci : CollationID := 238
def Collation_utf8mb4_spanish_ci : CollationID := 231
def Collation_utf8mb4_sv_0900_ai_ci : CollationID := 264
def Collation_utf8mb4_sv_0900_as_cs : CollationID := 287
def Collation_utf8mb4_swedish_ci : CollationID := 232
def Collation_utf8mb4_tr_0900_ai_ci : CollationID := 265
def Collation_utf8mb4_tr_0900_as_cs : CollationID := 288
def Collation_utf8mb4_turkish_ci : CollationID := 233
def Collation_utf8mb4_unicode_520_ci : CollationID := 246
def Collation_utf8mb4_unicode_ci : CollationID := 224
def Collation_utf8mb4_vi_0900_ai_ci : CollationID := 277
def Collation_utf8mb4_vi_0900_as_cs : CollationID := 300
def Collation_utf8mb4_vietnamese_ci : CollationID := 247
def Collation_utf8mb4_zh_0900_as_cs : CollationID := 308
def Collation_utf8_general_ci : CollationID := Collation_utf8mb3_general_ci
def Collation_utf8_tolower_ci : CollationID := Collation_utf8mb3_tolower_ci
def Collation_utf8_bin : CollationID := Collation_utf8mb3_bin
def Collation_utf8_unicode_ci : CollationID := Collation_utf8mb3_unicode_ci
def Collation_utf8_icelandic_ci : CollationID := Collation_utf8mb3_icelandic_ci
def Collation_utf8_latvian_ci : CollationID := Collation_utf8mb3_latvian_ci
def Collation_utf8_romanian_ci : CollationID := Collation_utf8mb3_romanian_ci
def Collation_utf8_slovenian_ci : CollationID := Collation_utf8mb3_slovenian_ci
def Collation_utf8_polish_ci : CollationID := Collation_utf8mb3_polish_ci
def Collation_utf8_estonian_ci : CollationID := Collation_utf8mb3_estonian_ci
def Collation_utf8_spanish_ci : CollationID := Collation_utf8mb3_spanish_ci
def Collation_utf8_swedish_ci : CollationID := Collation_utf8mb3_swedish_ci
def Collation_utf8_turkish_ci : CollationID := Collation_utf8mb3_turkish_ci
def Collation_utf8_czech_ci : CollationID := Collation_utf8mb3_czech_ci
def Collation_utf8_danish_ci : CollationID := Collation_utf8mb3_danish_ci
def Collation_utf8_lithuanian_ci : CollationID := Collation_utf8mb3_lithuanian_ci
def Collation_utf8_slovak_ci : CollationID := Collation_utf8mb3_slovak_ci
def Collation_utf8_spanish2_ci : CollationID := Collation_utf8mb3_spanish2_ci
def Collation_utf8_roman_ci : CollationID := Collation_utf8mb3_roman_ci
def Collation_utf8_persian_ci : CollationID := Collation_utf8mb3_persian_ci
def Collation_utf8_esperanto_ci : CollationID := Collation_utf8mb3_esperanto_ci
def Collation_utf8_hungarian_ci : CollationID := Collation_utf8mb3_hungarian_ci
def Collation_utf8_sinhala_ci : CollationID := Collation_utf8mb3_sinhala_ci
def Collation_utf8_german2_ci : CollationID := Collation_utf8mb3_german2_ci
def Collation_utf8_croatian_ci : CollationID := Collation_utf8mb3_croatian_ci
def Collation_utf8_unicode_520_ci : CollationID := Collation_utf8mb3_unicode_520_ci
def Collation_utf8_vietnamese_ci : CollationID := Collation_utf8mb3_vietnamese_ci
def Collation_utf8_general_mysql500_ci : CollationID := Collation_utf8mb3_general_mysql500_ci
def Collation_Default : CollationID := Collation_utf8mb4_0900_bin
def Collation_Invalid : CollationID := 0

/-- Every constant of the `const` block, in the order of the source. -/
def declaredCollations : List CollationID :=
  [Collation_armscii8_bin, Collation_armscii8_general_ci, Collation_ascii_bin,
    Collation_ascii_general_ci, Collation_big5_bin, Collation_big5_chinese_ci, Collation_binary,
    Collation_cp1250_bin, Collation_cp1250_croatian_ci, Collation_cp1250_czech_cs,
    Collation_cp1250_general_ci, Collation_cp1250_polish_ci, Collation_cp1251_bin,
    Collation_cp1251_bulgarian_ci, Collation_cp1251_general_ci, Collation_cp1251_general_cs,
    Collation_cp1251_ukrainian_ci, Collation_cp1256_bin, Collation_cp1256_general_ci,
    Collation_cp1257_bin, Collation_cp1257_general_ci, Collation_cp1257_lithuanian_ci,
    Collation_cp850_bin, Collation_cp850_general_ci, Collation_cp852_bin,
    Collation_cp852_general_ci, Collation_cp866_bin, Collation_cp866_general_ci,
    Collation_cp932_bin, Collation_cp932_japanese_ci, Collation_dec8_bin,
    Collation_dec8_swedish_ci, Collation_eucjpms_bin, Collation_eucjpms_japanese_ci,
    Collation_euckr_bin, Collation_euckr_korean_ci, Collation_gb18030_bin,
    Collation_gb18030_chinese_ci, Collation_gb18030_unicode_520_ci, Collation_gb2312_bin,
    Collation_gb2312_chinese_ci, Collation_gbk_bin, Collation_gbk_chinese_ci,
    Collation_geostd8_bin, Collation_geostd8_general_ci, Collation_greek_bin,
    Collation_greek_general_ci, Collation_hebrew_bin, Collation_hebrew_general_ci,
    Collation_hp8_bin, Collation_hp8_english_ci, Collation_keybcs2_bin,
    Collation_keybcs2_general_ci, Collation_koi8r_bin, Collation_koi8r_general_ci,
    Collation_koi8u_bin, Collation_koi8u_general_ci, Collation_latin1_bin,
    Collation_latin1_danish_ci, Collation_latin1_general_ci, Collation_latin1_general_cs,
    Collation_latin1_german1_ci, Collation_latin1_german2_ci, Collation_latin1_spanish_ci,
    Collation_latin1_swedish_ci, Collation_latin2_bin, Collation_latin2_croatian_ci,
    Collation_latin2_czech_cs, Collation_latin2_general_ci, Collation_latin2_hungarian_ci,
    Collation_latin5_bin, Collation_latin5_turkish_ci, Collation_latin7_bin,
    Collation_latin7_estonian_cs, Collation_latin7_general_ci, Collation_latin7_general_cs,
    Collation_macce_bin, Collation_macce_general_ci, Collation_macroman_bin,
    Collation_macroman_general_ci, Collation_sjis_bin, Collation_sjis_japanese_ci,
    Collation_swe7_bin, Collation_swe7_swedish_ci, Collation_tis620_bin,
    Collation_tis620_thai_ci, Collation_ucs2_bin, Collation_ucs2_croatian_ci,
    Collation_ucs2_czech_ci, Collation_ucs2_danish_ci, Collation_ucs2_esperanto_ci,
    Collation_ucs2_estonian_ci, Collation_ucs2_general_ci, Collation_ucs2_general_mysql500_ci,
    Collation_ucs2_german2_ci, Collation_ucs2_hungarian_ci, Collation_ucs2_icelandic_ci,
    Collation_ucs2_latvian_ci, Collation_ucs2_lithuanian_ci, Collation_ucs2_persian_ci,
    Collation_ucs2_polish_ci, Collation_ucs2_roman_ci, Collation_ucs2_romanian_ci,
    Collation_ucs2_sinhala_ci, Collation_ucs2_slovak_ci, Collation_ucs2_slovenian_ci,
    Collation_ucs2_spanish2_ci, Collation_ucs2_spanish_ci, Collation_ucs2_swedish_ci,
    Collation_ucs2_turkish_ci, Collation_ucs2_unicode_520_ci, Collation_ucs2_unicode_ci,
    Collation_ucs2_vietnamese_ci, Collation_ujis_bin, Collation_ujis_japanese_ci,
    Collation_utf16_bin, Collation_utf16_croatian_ci, Collation_utf16_czech_ci,
    Collation_utf16_danish_ci, Collation_utf16_esperanto_ci, Collation_utf16_estonian_ci,
    Collation_utf16_general_ci, Collation_utf16_german2_ci, Collation_utf16_hungarian_ci,
    Collation_utf16_icelandic_ci, Collation_utf16_latvian_ci, Collation_utf16_lithuanian_ci,
    Collation_utf16_persian_ci, Collation_utf16_polish_ci, Collation_utf16_roman_ci,
    Collation_utf16_romanian_ci, Collation_utf16_sinhala_ci, Collation_utf16_slovak_ci,
    Collation_utf16_slovenian_ci, Collation_utf16_spanish2_ci, Collation_utf16_spanish_ci,
    Collation_utf16_swedish_ci, Collation_utf16_turkish_ci, Collation_utf16_unicode_520_ci,
    Collation_utf16_unicode_ci, Collation_utf16_vietnamese_ci, Collation_utf16le_bin,
    Collation_utf16le_general_ci, Collation_utf32_bin, Collation_utf32_croatian_ci,
    Collation_utf32_czech_ci, Collation_utf32_danish_ci, Collation_utf32_esperanto_ci,
    Collation_utf32_estonian_ci, Collation_utf32_general_ci, Collation_utf32_german2_ci,
    Collation_utf32_hungarian_ci, Collation_utf32_icelandic_ci, Collation_utf32_latvian_ci,
    Collation_utf32_lithuanian_ci, Collation_utf32_persian_ci, Collation_utf32_polish_ci,
    Collation_utf32_roman_ci, Collation_utf32_romanian_ci, Collation_utf32_sinhala_ci,
    Collation_utf32_slovak_ci, Collation_utf32_slovenian_ci, Collation_utf32_spanish2_ci,
    Collation_utf32_spanish_ci, Collation_utf32_swedish_ci, Collation_utf32_turkish_ci,
    Collation_utf32_unicode_520_ci, Collation_utf32_unicode_ci, Collation_utf32_vietnamese_ci,
    Collation_utf8mb3_bin, Collation_utf8mb3_croatian_ci, Collation_utf8mb3_czech_ci,
    Collation_utf8mb3_danish_ci, Collation_utf8mb3_esperanto_ci, Collation_utf8mb3_estonian_ci,
    Collation_utf8mb3_general_ci, Collation_utf8mb3_general_mysql500_ci,
    Collation_utf8mb3_german2_ci, Collation_utf8mb3_hungarian_ci, Collation_utf8mb3_icelandic_ci,
    Collation_utf8mb3_latvian_ci, Collation_utf8mb3_lithuanian_ci, Collation_utf8mb3_persian_ci,
    Collation_utf8mb3_polish_ci, Collation_utf8mb3_roman_ci, Collation_utf8mb3_romanian_ci,
    Collation_utf8mb3_sinhala_ci, Collation_utf8mb3_slovak_ci, Collation_utf8mb3_slovenian_ci,
    Collation_utf8mb3_spanish2_ci, Collation_utf8mb3_spanish_ci, Collation_utf8mb3_swedish_ci,
    Collation_utf8mb3_tolower_ci, Collation_utf8mb3_turkish_ci, Collation_utf8mb3_unicode_520_ci,
    Collation_utf8mb3_unicode_ci, Collation_utf8mb3_vietnamese_ci, Collation_utf8mb4_0900_ai_ci,
    Collation_utf8mb4_0900_as_ci, Collation_utf8mb4_0900_as_cs, Collation_utf8mb4_0900_bin,
    Collation_utf8mb4_bin, Collation_utf8mb4_croatian_ci, Collation_utf8mb4_cs_0900_ai_ci,
    Collation_utf8mb4_cs_0900_as_cs, Collation_utf8mb4_czech_ci, Collation_utf8mb4_da_0900_ai_ci,
    Collation_utf8mb4_da_0900_as_cs, Collation_utf8mb4_danish_ci,
    Collation_utf8mb4_de_pb_0900_ai_ci, Collation_utf8mb4_de_pb_0900_as_cs,
    Collation_utf8mb4_eo_0900_ai_ci, Collation_utf8mb4_eo_0900_as_cs,
    Collation_utf8mb4_es_0900_ai_ci, Collation_utf8mb4_es_0900_as_cs,
    Collation_utf8mb4_es_trad_0900_ai_ci, Collation_utf8mb4_es_trad_0900_as_cs,
    Collation_utf8mb4_esperanto_ci, Collation_utf8mb4_estonian_ci,
    Collation_utf8mb4_et_0900_ai_ci, Collation_utf8mb4_et_0900_as_cs,
    Collation_utf8mb4_general_ci, Collation_utf8mb4_german2_ci, Collation_utf8mb4_hr_0900_ai_ci,
    Collation_utf8mb4_hr_0900_as_cs, Collation_utf8mb4_hu_0900_ai_ci,
    Collation_utf8mb4_hu_0900_as_cs, Collation_utf8mb4_hungarian_ci,
    Collation_utf8mb4_icelandic_ci, Collation_utf8mb4_is_0900_ai_ci,
    Collation_utf8mb4_is_0900_as_cs, Collation_utf8mb4_ja_0900_as_cs,
    Collation_utf8mb4_ja_0900_as_cs_ks, Collation_utf8mb4_la_0900_ai_ci,
    Collation_utf8mb4_la_0900_as_cs, Collation_utf8mb4_latvian_ci,
    Collation_utf8mb4_lithuanian_ci, Collation_utf8mb4_lt_0900_ai_ci,
    Collation_utf8mb4_lt_0900_as_cs, Collation_utf8mb4_lv_0900_ai_ci,
    Collation_utf8mb4_lv_0900_as_cs, Collation_utf8mb4_persian_ci,
    Collation_utf8mb4_pl_0900_ai_ci, Collation_utf8mb4_pl_0900_as_cs,
    Collation_utf8mb4_polish_ci, Collation_utf8mb4_ro_0900_ai_ci,
    Collation_utf8mb4_ro_0900_as_cs, Collation_utf8mb4_roman_ci, Collation_utf8mb4_romanian_ci,
    Collation_utf8mb4_ru_0900_ai_ci, Collation_utf8mb4_ru_0900_as_cs,
    Collation_utf8mb4_sinhala_ci, Collation_utf8mb4_sk_0900_ai_ci,
    Collation_utf8mb4_sk_0900_as_cs, Collation_utf8mb4_sl_0900_ai_ci,
    Collation_utf8mb4_sl_0900_as_cs, Collation_utf8mb4_slovak_ci, Collation_utf8mb4_slovenian_ci,
    Collation_utf8mb4_spanish2_ci, Collation_utf8mb4_spanish_ci, Collation_utf8mb4_sv_0900_ai_ci,
    Collation_utf8mb4_sv_0900_as_cs, Collation_utf8mb4_swedish_ci,
    Collation_utf8mb4_tr_0900_ai_ci, Collation_utf8mb4_tr_0900_as_cs,
    Collation_utf8mb4_turkish_ci, Collation_utf8mb4_unicode_520_ci, Collation_utf8mb4_unicode_ci,
    Collation_utf8mb4_vi_0900_ai_ci, Collation_utf8mb4_vi_0900_as_cs,
    Collation_utf8mb4_vietnamese_ci, Collation_utf8mb4_zh_0900_as_cs, Collation_utf8_general_ci,
    Collation_utf8_tolower_ci, Collation_utf8_bin, Collation_utf8_unicode_ci,
    Collation_utf8_icelandic_ci, Collation_utf8_latvian_ci, Collation_utf8_romanian_ci,
    Collation_utf8_slovenian_ci, Collation_utf8_polish_ci, Collation_utf8_estonian_ci,
    Collation_utf8_spanish_ci, Collation_utf8_swedish_ci, Collation_utf8_turkish_ci,
    Collation_utf8_czech_ci, Collation_utf8_danish_ci, Collation_utf8_lithuanian_ci,
    Collation_utf8_slovak_ci, Collation_utf8_spanish2_ci, Collation_utf8_roman_ci,
    Collation_utf8_persian_ci, Collation_utf8_esperanto_ci, Collation_utf8_hungarian_ci,
    Collation_utf8_sinhala_ci, Collation_utf8_german2_ci, Collation_utf8_croatian_ci,
    Collation_utf8_unicode_520_ci, Collation_utf8_vietnamese_ci,
    Collation_utf8_general_mysql500_ci, Collation_Default, Collation_Invalid]

/-! The character sets that the array of collations names. -/

def CharacterSet_Invalid : CharacterSetID := { name := "Invalid" }
def CharacterSet_big5 : CharacterSetID := { name := "big5" }
def CharacterSet_latin2 : CharacterSetID := { name := "latin2" }
def CharacterSet_dec8 : CharacterSetID := { name := "dec8" }
def CharacterSet_cp850 : CharacterSetID := { name := "cp850" }
def CharacterSet_latin1 : CharacterSetID := { name := "latin1" }
def CharacterSet_hp8 : CharacterSetID := { name := "hp8" }
def CharacterSet_koi8r : CharacterSetID := { name := "koi8r" }
def CharacterSet_swe7 : CharacterSetID := { name := "swe7" }
def CharacterSet_ascii : CharacterSetID := { name := "ascii" }
def CharacterSet_ujis : CharacterSetID := { name := "ujis" }
def CharacterSet_sjis : CharacterSetID := { name := "sjis" }
def CharacterSet_cp1251 : CharacterSetID := { name := "cp1251" }
def CharacterSet_hebrew : CharacterSetID := { name := "hebrew" }
def CharacterSet_tis620 : CharacterSetID := { name := "tis620" }
def CharacterSet_euckr : CharacterSetID := { name := "euckr" }
def CharacterSet_latin7 : CharacterSetID := { name := "latin7" }
def CharacterSet_koi8u : CharacterSetID := { name := "koi8u" }
def CharacterSet_gb2312 : CharacterSetID := { name := "gb2312" }
def CharacterSet_greek : CharacterSetID := { name := "greek" }
def CharacterSet_cp1250 : CharacterSetID := { name := "cp1250" }
def CharacterSet_gbk : CharacterSetID := { name := "gbk" }
def CharacterSet_cp1257 : CharacterSetID := { name := "cp1257" }
def CharacterSet_latin5 : CharacterSetID := { name := "latin5" }
def CharacterSet_armscii8 : CharacterSetID := { name := "armscii8" }
def CharacterSet_utf8mb3 : CharacterSetID := { name := "utf8mb3" }
def CharacterSet_ucs2 : CharacterSetID := { name := "ucs2" }
def CharacterSet_cp866 : CharacterSetID := { name := "cp866" }
def CharacterSet_keybcs2 : CharacterSetID := { name := "keybcs2" }
def CharacterSet_macce : CharacterSetID := { name := "macce" }
def CharacterSet_macroman : CharacterSetID := { name := "macroman" }
def CharacterSet_cp852 : CharacterSetID := { name := "cp852" }
def CharacterSet_utf8mb4 : CharacterSetID := { name := "utf8mb4" }
def CharacterSet_utf16 : CharacterSetID := { name := "utf16" }
def CharacterSet_utf16le : CharacterSetID := { name := "utf16le" }
def CharacterSet_cp1256 : CharacterSetID := { name := "cp1256" }
def CharacterSet_utf32 : CharacterSetID := { name := "utf32" }
def CharacterSet_binary : CharacterSetID := { name := "binary" }
def CharacterSet_geostd8 : CharacterSetID := { name := "geostd8" }
def CharacterSet_cp932 : CharacterSetID := { name := "cp932" }
def CharacterSet_eucjpms : CharacterSetID := { name := "eucjpms" }
def CharacterSet_gb18030 : CharacterSetID := { name := "gb18030" }

/-- The array `collationArray` (lines 364-675): 310 entries, `Collation.zero` for `{}`. -/
def collationArray : List Collation :=
  [Collation.mk Collation_Invalid "invalid"
      CharacterSet_Invalid true true 1 "NO PAD" (some (.constant 0)),
    Collation.mk Collation_big5_chinese_ci "big5_chinese_ci"
      CharacterSet_big5 true true 1 "PAD SPACE" none,
    Collation.mk Collation_latin2_czech_cs "latin2_czech_cs"
      CharacterSet_latin2 false true 4 "PAD SPACE" none,
    Collation.mk Collation_dec8_swedish_ci "dec8_swedish_ci"
      CharacterSet_dec8 true true 1 "PAD SPACE" none,
    Collation.mk Collation_cp850_general_ci "cp850_general_ci"
      CharacterSet_cp850 true true 1 "PAD SPACE" none,
    Collation.mk Collation_latin1_german1_ci "latin1_german1_ci"
      CharacterSet_latin1 false true 1 "PAD SPACE" (some (.encodings "Latin1_german1_ci_RuneWeight")),
    Collation.mk Collation_hp8_english_ci "hp8_english_ci"
      CharacterSet_hp8 true true 1 "PAD SPACE" none,
    Collation.mk Collation_koi8r_general_ci "koi8r_general_ci"
      CharacterSet_koi8r true true 1 "PAD SPACE" none,
    Collation.mk Collation_latin1_swedish_ci "latin1_swedish_ci"
      CharacterSet_latin1 true true 1 "PAD SPACE" (some (.encodings "Latin1_swedish_ci_RuneWeight")),
    Collation.mk Collation_latin2_general_ci "latin2_general_ci"
      CharacterSet_latin2 true true 1 "PAD SPACE" none,
    Collation.mk Collation_swe7_swedish_ci "swe7_swedish_ci"
      CharacterSet_swe7 true true 1 "PAD SPACE" none,
    Collation.mk Collation_ascii_general_ci "ascii_general_ci"
      CharacterSet_ascii true true 1 "PAD SPACE" (some (.encodings "Ascii_general_ci_RuneWeight")),
    Collation.mk Collation_ujis_japanese_ci "ujis_japanese_ci"
      CharacterSet_ujis true true 1 "PAD SPACE" none,
    Collation.mk Collation_sjis_japanese_ci "sjis_japanese_ci"
      CharacterSet_sjis true true 1 "PAD SPACE" none,
    Collation.mk Collation_cp1251_bulgarian_ci "cp1251_bulgarian_ci"
      CharacterSet_cp1251 false true 1 "PAD SPACE" none,
    Collation.mk Collation_latin1_danish_ci "latin1_danish_ci"
      CharacterSet_latin1 false true 1 "PAD SPACE" none,
    Collation.mk Collation_hebrew_general_ci "hebrew_general_ci"
      CharacterSet_hebrew true true 1 "PAD SPACE" none,
    Collation.zero,
    Collation.mk Collation_tis620_thai_ci "tis620_thai_ci"
      CharacterSet_tis620 true true 4 "PAD SPACE" none,
    Collation.mk Collation_euckr_korean_ci "euckr_korean_ci"
      CharacterSet_euckr true true 1 "PAD SPACE" none,
    Collation.mk Collation_latin7_estonian_cs "latin7_estonian_cs"
      CharacterSet_latin7 false true 1 "PAD SPACE" none,
    Collation.mk Collation_latin2_hungarian_ci "latin2_hungarian_ci"
      CharacterSet_latin2 false true 1 "PAD SPACE" none,
    Collation.mk Collation_koi8u_general_ci "koi8u_general_ci"
      CharacterSet_koi8u true true 1 "PAD SPACE" none,
    Collation.mk Collation_cp1251_ukrainian_ci "cp1251_ukrainian_ci"
      CharacterSet_cp1251 false true 1 "PAD SPACE" none,
    Collation.mk Collation_gb2312_chinese_ci "gb2312_chinese_ci"
      CharacterSet_gb2312 true true 1 "PAD SPACE" none,
    Collation.mk Collation_greek_general_ci "greek_general_ci"
      CharacterSet_greek true true 1 "PAD SPACE" none,
    Collation.mk Collation_cp1250_general_ci "cp1250_general_ci"
      CharacterSet_cp1250 true true 1 "PAD SPACE" none,
    Collation.mk Collation_latin2_croatian_ci "latin2_croatian_ci"
      CharacterSet_latin2 false true 1 "PAD SPACE" none,
    Collation.mk Collation_gbk_chinese_ci "gbk_chinese_ci"
      CharacterSet_gbk true true 1 "PAD SPACE" none,
    Collation.mk Collation_cp1257_lithuanian_ci "cp1257_lithuanian_ci"
      CharacterSet_cp1257 false true 1 "PAD SPACE" none,
    Collation.mk Collation_latin5_turkish_ci "latin5_turkish_ci"
      CharacterSet_latin5 true true 1 "PAD SPACE" none,
    Collation.mk Collation_latin1_german2_ci "latin1_german2_ci"
      CharacterSet_latin1 false true 2 "PAD SPACE" (some (.encodings "Latin1_german2_ci_RuneWeight")),
    Collation.mk Collation_armscii8_general_ci "armscii8_general_ci"
      CharacterSet_armscii8 true true 1 "PAD SPACE" none,
    Collation.mk Collation_utf8mb3_general_ci "utf8mb3_general_ci"
      CharacterSet_utf8mb3 true true 1 "PAD SPACE" (some (.encodings "Utf8mb3_general_ci_RuneWeight")),
    Collation.mk Collation_cp1250_czech_cs "cp1250_czech_cs"
      CharacterSet_cp1250 false true 2 "PAD SPACE" none,
    Collation.mk Collation_ucs2_general_ci "ucs2_general_ci"
      CharacterSet_ucs2 true true 1 "PAD SPACE" none,
    Collation.mk Collation_cp866_general_ci "cp866_general_ci"
      CharacterSet_cp866 true true 1 "PAD SPACE" none,
    Collation.mk Collation_keybcs2_general_ci "keybcs2_general_ci"
      CharacterSet_keybcs2 true true 1 "PAD SPACE" none,
    Collation.mk Collation_macce_general_ci "macce_general_ci"
      CharacterSet_macce true true 1 "PAD SPACE" none,
    Collation.mk Collation_macroman_general_ci "macroman_general_ci"
      CharacterSet_macroman true true 1 "PAD SPACE" none,
    Collation.mk Collation_cp852_general_ci "cp852_general_ci"
      CharacterSet_cp852 true true 1 "PAD SPACE" none,
    Collation.mk Collation_latin7_general_ci "latin7_general_ci"
      CharacterSet_latin7 true true 1 "PAD SPACE" none,
    Collation.mk Collation_latin7_general_cs "latin7_general_cs"
      CharacterSet_latin7 false true 1 "PAD SPACE" none,
    Collation.mk Collation_macce_bin "macce_bin" CharacterSet_macce false true 1 "PAD SPACE" none,
    Collation.mk Collation_cp1250_croatian_ci "cp1250_croatian_ci"
      CharacterSet_cp1250 false true 1 "PAD SPACE" none,
    Collation.mk Collation_utf8mb4_general_ci "utf8mb4_general_ci"
      CharacterSet_utf8mb4 false true 1 "PAD SPACE" (some (.encodings "Utf8mb4_general_ci_RuneWeight")),
    Collation.mk Collation_utf8mb4_bin "utf8mb4_bin"
      CharacterSet_utf8mb4 false true 1 "PAD SPACE" (some (.encodings "Utf8mb4_bin_RuneWeight")),
    Collation.mk Collation_latin1_bin "latin1_bin"
      CharacterSet_latin1 false true 1 "PAD SPACE" (some (.encodings "Latin1_bin_RuneWeight")),
    Collation.mk Collation_latin1_general_ci "latin1_general_ci"
      CharacterSet_latin1 false true 1 "PAD SPACE" (some (.encodings "Latin1_general_ci_RuneWeight")),
    Collation.mk Collation_latin1_general_cs "latin1_general_cs"
      CharacterSet_latin1 false true 1 "PAD SPACE" (some (.encodings "Latin1_general_cs_RuneWeight")),
    Collation.mk Collation_cp1251_bin "cp1251_bin"
      CharacterSet_cp1251 false true 1 "PAD SPACE" none,
    Collation.mk Collation_cp1251_general_ci "cp1251_general_ci"
      CharacterSet_cp1251 true true 1 "PAD SPACE" none,
    Collation.mk Collation_cp1251_general_cs "cp1251_general_cs"
      CharacterSet_cp1251 false true 1 "PAD SPACE" none,
    Collation.mk Collation_macroman_bin "macroman_bin"
      CharacterSet_macroman false true 1 "PAD SPACE" none,
    Collation.mk Collation_utf16_general_ci "utf16_general_ci"
      CharacterSet_utf16 true true 1 "PAD SPACE" (some (.encodings "Utf16_general_ci_RuneWeight")),
    Collation.mk Collation_utf16_bin "utf16_bin"
      CharacterSet_utf16 false true 1 "PAD SPACE" (some (.encodings "Utf16_bin_RuneWeight")),
    Collation.mk Collation_utf16le_general_ci "utf16le_general_ci"
      CharacterSet_utf16le true true 1 "PAD SPACE" none,
    Collation.mk Collation_cp1256_general_ci "cp1256_general_ci"
      CharacterSet_cp1256 true true 1 "PAD SPACE" none,
    Collation.mk Collation_cp1257_bin "cp1257_bin"
      CharacterSet_cp1257 false true 1 "PAD SPACE" none,
    Collation.mk Collation_cp1257_general_ci "cp1257_general_ci"
      CharacterSet_cp1257 true true 1 "PAD SPACE" none,
    Collation.mk Collation_utf32_general_ci "utf32_general_ci"
      CharacterSet_utf32 true true 1 "PAD SPACE" (some (.encodings "Utf32_general_ci_RuneWeight")),
    Collation.mk Collation_utf32_bin "utf32_bin"
      CharacterSet_utf32 false true 1 "PAD SPACE" (some (.encodings "Utf32_bin_RuneWeight")),
    Collation.mk Collation_utf16le_bin "utf16le_bin"
      CharacterSet_utf16le false true 1 "PAD SPACE" none,
    Collation.mk Collation_binary "binary"
      CharacterSet_binary true true 1 "NO PAD" (some (.encodings "Binary_RuneWeight")),
    Collation.mk Collation_armscii8_bin "armscii8_bin"
      CharacterSet_armscii8 false true 1 "PAD SPACE" none,
    Collation.mk Collation_ascii_bin "ascii_bin"
      CharacterSet_ascii false true 1 "PAD SPACE" (some (.encodings "Ascii_bin_RuneWeight")),
    Collation.mk Collation_cp1250_bin "cp1250_bin"
      CharacterSet_cp1250 false true 1 "PAD SPACE" none,
    Collation.mk Collation_cp1256_bin "cp1256_bin"
      CharacterSet_cp1256 false true 1 "PAD SPACE" none,
    Collation.mk Collation_cp866_bin "cp866_bin" CharacterSet_cp866 false true 1 "PAD SPACE" none,
    Collation.mk Collation_dec8_bin "dec8_bin" CharacterSet_dec8 false true 1 "PAD SPACE" none,
    Collation.mk Collation_greek_bin "greek_bin" CharacterSet_greek false true 1 "PAD SPACE" none,
    Collation.mk Collation_hebrew_bin "hebrew_bin"
      CharacterSet_hebrew false true 1 "PAD SPACE" none,
    Collation.mk Collation_hp8_bin "hp8_bin" CharacterSet_hp8 false true 1 "PAD SPACE" none,
    Collation.mk Collation_keybcs2_bin "keybcs2_bin"
      CharacterSet_keybcs2 false true 1 "PAD SPACE" none,
    Collation.mk Collation_koi8r_bin "koi8r_bin" CharacterSet_koi8r false true 1 "PAD SPACE" none,
    Collation.mk Collation_koi8u_bin "koi8u_bin" CharacterSet_koi8u false true 1 "PAD SPACE" none,
    Collation.mk Collation_utf8mb3_tolower_ci "utf8mb3_tolower_ci"
      CharacterSet_utf8mb3 false true 1 "PAD SPACE" none,
    Collation.mk Collation_latin2_bin "latin2_bin"
      CharacterSet_latin2 false true 1 "PAD SPACE" none,
    Collation.mk Collation_latin5_bin "latin5_bin"
      CharacterSet_latin5 false true 1 "PAD SPACE" none,
    Collation.mk Collation_latin7_bin "latin7_bin"
      CharacterSet_latin7 false true 1 "PAD SPACE" none,
    Collation.mk Collation_cp850_bin "cp850_bin" CharacterSet_cp850 false true 1 "PAD SPACE" none,
    Collation.mk Collation_cp852_bin "cp852_bin" CharacterSet_cp852 false true 1 "PAD SPACE" none,
    Collation.mk Collation_swe7_bin "swe7_bin" CharacterSet_swe7 false true 1 "PAD SPACE" none,
    Collation.mk Collation_utf8mb3_bin "utf8mb3_bin"
      CharacterSet_utf8mb3 false true 1 "PAD SPACE" (some (.encodings "Utf8mb3_bin_RuneWeight")),
    Collation.mk Collation_big5_bin "big5_bin" CharacterSet_big5 false true 1 "PAD SPACE" none,
    Collation.mk Collation_euckr_bin "euckr_bin" CharacterSet_euckr false true 1 "PAD SPACE" none,
    Collation.mk Collation_gb2312_bin "gb2312_bin"
      CharacterSet_gb2312 false true 1 "PAD SPACE" none,
    Collation.mk Collation_gbk_bin "gbk_bin" CharacterSet_gbk false true 1 "PAD SPACE" none,
    Collation.mk Collation_sjis_bin "sjis_bin" CharacterSet_sjis false true 1 "PAD SPACE" none,
    Collation.mk Collation_tis620_bin "tis620_bin"
      CharacterSet_tis620 false true 1 "PAD SPACE" none,
    Collation.mk Collation_ucs2_bin "ucs2_bin" CharacterSet_ucs2 false true 1 "PAD SPACE" none,
    Collation.mk Collation_ujis_bin "ujis_bin" CharacterSet_ujis false true 1 "PAD SPACE" none,
    Collation.mk Collation_geostd8_general_ci "geostd8_general_ci"
      CharacterSet_geostd8 true true 1 "PAD SPACE" none,
    Collation.mk Collation_geostd8_bin "geostd8_bin"
      CharacterSet_geostd8 false true 1 "PAD SPACE" none,
    Collation.mk Collation_latin1_spanish_ci "latin1_spanish_ci"
      CharacterSet_latin1 false true 1 "PAD SPACE" none,
    Collation.mk Collation_cp932_japanese_ci "cp932_japanese_ci"
      CharacterSet_cp932 true true 1 "PAD SPACE" none,
    Collation.mk Collation_cp932_bin "cp932_bin" CharacterSet_cp932 false true 1 "PAD SPACE" none,
    Collation.mk Collation_eucjpms_japanese_ci "eucjpms_japanese_ci"
      CharacterSet_eucjpms true true 1 "PAD SPACE" none,
    Collation.mk Collation_eucjpms_bin "eucjpms_bin"
      CharacterSet_eucjpms false true 1 "PAD SPACE" none,
    Collation.mk Collation_cp1250_polish_ci "cp1250_polish_ci"
      CharacterSet_cp1250 false true 1 "PAD SPACE" none,
    Collation.zero,
    Collation.mk Collation_utf16_unicode_ci "utf16_unicode_ci"
      CharacterSet_utf16 false true 8 "PAD SPACE" (some (.encodings "Utf16_unicode_ci_RuneWeight")),
    Collation.mk Collation_utf16_icelandic_ci "utf16_icelandic_ci"
      CharacterSet_utf16 false true 8 "PAD SPACE" none,
    Collation.mk Collation_utf16_latvian_ci "utf16_latvian_ci"
      CharacterSet_utf16 false true 8 "PAD SPACE" none,
    Collation.mk Collation_utf16_romanian_ci "utf16_romanian_ci"
      CharacterSet_utf16 false true 8 "PAD SPACE" none,
    Collation.mk Collation_utf16_slovenian_ci "utf16_slovenian_ci"
      CharacterSet_utf16 false true 8 "PAD SPACE" none,
    Collation.mk Collation_utf16_polish_ci "utf16_polish_ci"
      CharacterSet_utf16 false true 8 "PAD SPACE" none,
    Collation.mk Collation_utf16_estonian_ci "utf16_estonian_ci"
      CharacterSet_utf16 false true 8 "PAD SPACE" none,
    Collation.mk Collation_utf16_spanish_ci "utf16_spanish_ci"
      CharacterSet_utf16 false true 8 "PAD SPACE" none,
    Collation.mk Collation_utf16_swedish_ci "utf16_swedish_ci"
      CharacterSet_utf16 false true 8 "PAD SPACE" none,
    Collation.mk Collation_utf16_turkish_ci "utf16_turkish_ci"
      CharacterSet_utf16 false true 8 "PAD SPACE" none,
    Collation.mk Collation_utf16_czech_ci "utf16_czech_ci"
      CharacterSet_utf16 false true 8 "PAD SPACE" none,
    Collation.mk Collation_utf16_danish_ci "utf16_danish_ci"
      CharacterSet_utf16 false true 8 "PAD SPACE" none,
    Collation.mk Collation_utf16_lithuanian_ci "utf16_lithuanian_ci"
      CharacterSet_utf16 false true 8 "PAD SPACE" none,
    Collation.mk Collation_utf16_slovak_ci "utf16_slovak_ci"
      CharacterSet_utf16 false true 8 "PAD SPACE" none,
    Collation.mk Collation_utf16_spanish2_ci "utf16_spanish2_ci"
      CharacterSet_utf16 false true 8 "PAD SPACE" none,
    Collation.mk Collation_utf16_roman_ci "utf16_roman_ci"
      CharacterSet_utf16 false true 8 "PAD SPACE" none,
    Collation.mk Collation_utf16_persian_ci "utf16_persian_ci"
      CharacterSet_utf16 false true 8 "PAD SPACE" none,
    Collation.mk Collation_utf16_esperanto_ci "utf16_esperanto_ci"
      CharacterSet_utf16 false true 8 "PAD SPACE" none,
    Collation.mk Collation_utf16_hungarian_ci "utf16_hungarian_ci"
      CharacterSet_utf16 false true 8 "PAD SPACE" none,
    Collation.mk Collation_utf16_sinhala_ci "utf16_sinhala_ci"
      CharacterSet_utf16 false true 8 "PAD SPACE" none,
    Collation.mk Collation_utf16_german2_ci "utf16_german2_ci"
      CharacterSet_utf16 false true 8 "PAD SPACE" none,
    Collation.mk Collation_utf16_croatian_ci "utf16_croatian_ci"
      CharacterSet_utf16 false true 8 "PAD SPACE" none,
    Collation.mk Collation_utf16_unicode_520_ci "utf16_unicode_520_ci"
      CharacterSet_utf16 false true 8 "PAD SPACE" none,
    Collation.mk Collation_utf16_vietnamese_ci "utf16_vietnamese_ci"
      CharacterSet_utf16 false true 8 "PAD SPACE" none,
    Collation.zero,
    Collation.zero,
    Collation.zero,
    Collation.mk Collation_ucs2_unicode_ci "ucs2_unicode_ci"
      CharacterSet_ucs2 false true 8 "PAD SPACE" none,
    Collation.mk Collation_ucs2_icelandic_ci "ucs2_icelandic_ci"
      CharacterSet_ucs2 false true 8 "PAD SPACE" none,
    Collation.mk Collation_ucs2_latvian_ci "ucs2_latvian_ci"
      CharacterSet_ucs2 false true 8 "PAD SPACE" none,
    Collation.mk Collation_ucs2_romanian_ci "ucs2_romanian_ci"
      CharacterSet_ucs2 false true 8 "PAD SPACE" none,
    Collation.mk Collation_ucs2_slovenian_ci "ucs2_slovenian_ci"
      CharacterSet_ucs2 false true 8 "PAD SPACE" none,
    Collation.mk Collation_ucs2_polish_ci "ucs2_polish_ci"
      CharacterSet_ucs2 false true 8 "PAD SPACE" none,
    Collation.mk Collation_ucs2_estonian_ci "ucs2_estonian_ci"
      CharacterSet_ucs2 false true 8 "PAD SPACE" none,
    Collation.mk Collation_ucs2_spanish_ci "ucs2_spanish_ci"
      CharacterSet_ucs2 false true 8 "PAD SPACE" none,
    Collation.mk Collation_ucs2_swedish_ci "ucs2_swedish_ci"
      CharacterSet_ucs2 false true 8 "PAD SPACE" none,
    Collation.mk Collation_ucs2_turkish_ci "ucs2_turkish_ci"
      CharacterSet_ucs2 false true 8 "PAD SPACE" none,
    Collation.mk Collation_ucs2_czech_ci "ucs2_czech_ci"
      CharacterSet_ucs2 false true 8 "PAD SPACE" none,
    Collation.mk Collation_ucs2_danish_ci "ucs2_danish_ci"
      CharacterSet_ucs2 false true 8 "PAD SPACE" none,
    Collation.mk Collation_ucs2_lithuanian_ci "ucs2_lithuanian_ci"
      CharacterSet_ucs2 false true 8 "PAD SPACE" none,
    Collation.mk Collation_ucs2_slovak_ci "ucs2_slovak_ci"
      CharacterSet_ucs2 false true 8 "PAD SPACE" none,
    Collation.mk Collation_ucs2_spanish2_ci "ucs2_spanish2_ci"
      CharacterSet_ucs2 false true 8 "PAD SPACE" none,
    Collation.mk Collation_ucs2_roman_ci "ucs2_roman_ci"
      CharacterSet_ucs2 false true 8 "PAD SPACE" none,
    Collation.mk Collation_ucs2_persian_ci "ucs2_persian_ci"
      CharacterSet_ucs2 false true 8 "PAD SPACE" none,
    Collation.mk Collation_ucs2_esperanto_ci "ucs2_esperanto_ci"
      CharacterSet_ucs2 false true 8 "PAD SPACE" none,
    Collation.mk Collation_ucs2_hungarian_ci "ucs2_hungarian_ci"
      CharacterSet_ucs2 false true 8 "PAD SPACE" none,
    Collation.mk Collation_ucs2_sinhala_ci "ucs2_sinhala_ci"
      CharacterSet_ucs2 false true 8 "PAD SPACE" none,
    Collation.mk Collation_ucs2_german2_ci "ucs2_german2_ci"
      CharacterSet_ucs2 false true 8 "PAD SPACE" none,
    Collation.mk Collation_ucs2_croatian_ci "ucs2_croatian_ci"
      CharacterSet_ucs2 false true 8 "PAD SPACE" none,
    Collation.mk Collation_ucs2_unicode_520_ci "ucs2_unicode_520_ci"
      CharacterSet_ucs2 false true 8 "PAD SPACE" none,
    Collation.mk Collation_ucs2_vietnamese_ci "ucs2_vietnamese_ci"
      CharacterSet_ucs2 false true 8 "PAD SPACE" none,
    Collation.zero,
    Collation.zero,
    Collation.zero,
    Collation.zero,
    Collation.zero,
    Collation.zero,
    Collation.zero,
    Collation.mk Collation_ucs2_general_mysql500_ci "ucs2_general_mysql500_ci"
      CharacterSet_ucs2 false true 1 "PAD SPACE" none,
    Collation.mk Collation_utf32_unicode_ci "utf32_unicode_ci"
      CharacterSet_utf32 false true 8 "PAD SPACE" none,
    Collation.mk Collation_utf32_icelandic_ci "utf32_icelandic_ci"
      CharacterSet_utf32 false true 8 "PAD SPACE" none,
    Collation.mk Collation_utf32_latvian_ci "utf32_latvian_ci"
      CharacterSet_utf32 false true 8 "PAD SPACE" none,
    Collation.mk Collation_utf32_romanian_ci "utf32_romanian_ci"
      CharacterSet_utf32 false true 8 "PAD SPACE" none,
    Collation.mk Collation_utf32_slovenian_ci "utf32_slovenian_ci"
      CharacterSet_utf32 false true 8 "PAD SPACE" none,
    Collation.mk Collation_utf32_polish_ci "utf32_polish_ci"
      CharacterSet_utf32 false true 8 "PAD SPACE" none,
    Collation.mk Collation_utf32_estonian_ci "utf32_estonian_ci"
      CharacterSet_utf32 false true 8 "PAD SPACE" none,
    Collation.mk Collation_utf32_spanish_ci "utf32_spanish_ci"
      CharacterSet_utf32 false true 8 "PAD SPACE" none,
    Collation.mk Collation_utf32_swedish_ci "utf32_swedish_ci"
      CharacterSet_utf32 false true 8 "PAD SPACE" none,
    Collation.mk Collation_utf32_turkish_ci "utf32_turkish_ci"
      CharacterSet_utf32 false true 8 "PAD SPACE" none,
    Collation.mk Collation_utf32_czech_ci "utf32_czech_ci"
      CharacterSet_utf32 false true 8 "PAD SPACE" none,
    Collation.mk Collation_utf32_danish_ci "utf32_danish_ci"
      CharacterSet_utf32 false true 8 "PAD SPACE" none,
    Collation.mk Collation_utf32_lithuanian_ci "utf32_lithuanian_ci"
      CharacterSet_utf32 false true 8 "PAD SPACE" none,
    Collation.mk Collation_utf32_slovak_ci "utf32_slovak_ci"
      CharacterSet_utf32 false true 8 "PAD SPACE" none,
    Collation.mk Collation_utf32_spanish2_ci "utf32_spanish2_ci"
      CharacterSet_utf32 false true 8 "PAD SPACE" none,
    Collation.mk Collation_utf32_roman_ci "utf32_roman_ci"
      CharacterSet_utf32 false true 8 "PAD SPACE" none,
    Collation.mk Collation_utf32_persian_ci "utf32_persian_ci"
      CharacterSet_utf32 false true 8 "PAD SPACE" none,
    Collation.mk Collation_utf32_esperanto_ci "utf32_esperanto_ci"
      CharacterSet_utf32 false true 8 "PAD SPACE" none,
    Collation.mk Collation_utf32_hungarian_ci "utf32_hungarian_ci"
      CharacterSet_utf32 false true 8 "PAD SPACE" none,
    Collation.mk Collation_utf32_sinhala_ci "utf32_sinhala_ci"
      CharacterSet_utf32 false true 8 "PAD SPACE" none,
    Collation.mk Collation_utf32_german2_ci "utf32_german2_ci"
      CharacterSet_utf32 false true 8 "PAD SPACE" none,
    Collation.mk Collation_utf32_croatian_ci "utf32_croatian_ci"
      CharacterSet_utf32 false true 8 "PAD SPACE" none,
    Collation.mk Collation_utf32_unicode_520_ci "utf32_unicode_520_ci"
      CharacterSet_utf32 false true 8 "PAD SPACE" none,
    Collation.mk Collation_utf32_vietnamese_ci "utf32_vietnamese_ci"
      CharacterSet_utf32 false true 8 "PAD SPACE" none,
    Collation.zero,
    Collation.zero,
    Collation.zero,
    Collation.zero,
    Collation.zero,
    Collation.zero,
    Collation.zero,
    Collation.zero,
    Collation.mk Collation_utf8mb3_unicode_ci "utf8mb3_unicode_ci"
      CharacterSet_utf8mb3 false true 8 "PAD SPACE" (some (.encodings "Utf8mb3_unicode_ci_RuneWeight")),
    Collation.mk Collation_utf8mb3_icelandic_ci "utf8mb3_icelandic_ci"
      CharacterSet_utf8mb3 false true 8 "PAD SPACE" none,
    Collation.mk Collation_utf8mb3_latvian_ci "utf8mb3_latvian_ci"
      CharacterSet_utf8mb3 false true 8 "PAD SPACE" none,
    Collation.mk Collation_utf8mb3_romanian_ci "utf8mb3_romanian_ci"
      CharacterSet_utf8mb3 false true 8 "PAD SPACE" none,
    Collation.mk Collation_utf8mb3_slovenian_ci "utf8mb3_slovenian_ci"
      CharacterSet_utf8mb3 false true 8 "PAD SPACE" none,
    Collation.mk Collation_utf8mb3_polish_ci "utf8mb3_polish_ci"
      CharacterSet_utf8mb3 false true 8 "PAD SPACE" none,
    Collation.mk Collation_utf8mb3_estonian_ci "utf8mb3_estonian_ci"
      CharacterSet_utf8mb3 false true 8 "PAD SPACE" none,
    Collation.mk Collation_utf8mb3_spanish_ci "utf8mb3_spanish_ci"
      CharacterSet_utf8mb3 false true 8 "PAD SPACE" none,
    Collation.mk Collation_utf8mb3_swedish_ci "utf8mb3_swedish_ci"
      CharacterSet_utf8mb3 false true 8 "PAD SPACE" none,
    Collation.mk Collation_utf8mb3_turkish_ci "utf8mb3_turkish_ci"
      CharacterSet_utf8mb3 false true 8 "PAD SPACE" none,
    Collation.mk Collation_utf8mb3_czech_ci "utf8mb3_czech_ci"
      CharacterSet_utf8mb3 false true 8 "PAD SPACE" none,
    Collation.mk Collation_utf8mb3_danish_ci "utf8mb3_danish_ci"
      CharacterSet_utf8mb3 false true 8 "PAD SPACE" none,
    Collation.mk Collation_utf8mb3_lithuanian_ci "utf8mb3_lithuanian_ci"
      CharacterSet_utf8mb3 false true 8 "PAD SPACE" none,
    Collation.mk Collation_utf8mb3_slovak_ci "utf8mb3_slovak_ci"
      CharacterSet_utf8mb3 false true 8 "PAD SPACE" none,
    Collation.mk Collation_utf8mb3_spanish2_ci "utf8mb3_spanish2_ci"
      CharacterSet_utf8mb3 false true 8 "PAD SPACE" none,
    Collation.mk Collation_utf8mb3_roman_ci "utf8mb3_roman_ci"
      CharacterSet_utf8mb3 false true 8 "PAD SPACE" none,
    Collation.mk Collation_utf8mb3_persian_ci "utf8mb3_persian_ci"
      CharacterSet_utf8mb3 false true 8 "PAD SPACE" none,
    Collation.mk Collation_utf8mb3_esperanto_ci "utf8mb3_esperanto_ci"
      CharacterSet_utf8mb3 false true 8 "PAD SPACE" none,
    Collation.mk Collation_utf8mb3_hungarian_ci "utf8mb3_hungarian_ci"
      CharacterSet_utf8mb3 false true 8 "PAD SPACE" none,
    Collation.mk Collation_utf8mb3_sinhala_ci "utf8mb3_sinhala_ci"
      CharacterSet_utf8mb3 false true 8 "PAD SPACE" none,
    Collation.mk Collation_utf8mb3_german2_ci "utf8mb3_german2_ci"
      CharacterSet_utf8mb3 false true 8 "PAD SPACE" none,
    Collation.mk Collation_utf8mb3_croatian_ci "utf8mb3_croatian_ci"
      CharacterSet_utf8mb3 false true 8 "PAD SPACE" none,
    Collation.mk Collation_utf8mb3_unicode_520_ci "utf8mb3_unicode_520_ci"
      CharacterSet_utf8mb3 false true 8 "PAD SPACE" none,
    Collation.mk Collation_utf8mb3_vietnamese_ci "utf8mb3_vietnamese_ci"
      CharacterSet_utf8mb3 false true 8 "PAD SPACE" none,
    Collation.zero,
    Collation.zero,
    Collation.zero,
    Collation.zero,
    Collation.zero,
    Collation.zero,
    Collation.zero,
    Collation.mk Collation_utf8mb3_general_mysql500_ci "utf8mb3_general_mysql500_ci"
      CharacterSet_utf8mb3 false true 1 "PAD SPACE" none,
    Collation.mk Collation_utf8mb4_unicode_ci "utf8mb4_unicode_ci"
      CharacterSet_utf8mb4 false true 8 "PAD SPACE" (some (.encodings "Utf8mb4_unicode_ci_RuneWeight")),
    Collation.mk Collation_utf8mb4_icelandic_ci "utf8mb4_icelandic_ci"
      CharacterSet_utf8mb4 false true 8 "PAD SPACE" none,
    Collation.mk Collation_utf8mb4_latvian_ci "utf8mb4_latvian_ci"
      CharacterSet_utf8mb4 false true 8 "PAD SPACE" none,
    Collation.mk Collation_utf8mb4_romanian_ci "utf8mb4_romanian_ci"
      CharacterSet_utf8mb4 false true 8 "PAD SPACE" none,
    Collation.mk Collation_utf8mb4_slovenian_ci "utf8mb4_slovenian_ci"
      CharacterSet_utf8mb4 false true 8 "PAD SPACE" none,
    Collation.mk Collation_utf8mb4_polish_ci "utf8mb4_polish_ci"
      CharacterSet_utf8mb4 false true 8 "PAD SPACE" none,
    Collation.mk Collation_utf8mb4_estonian_ci "utf8mb4_estonian_ci"
      CharacterSet_utf8mb4 false true 8 "PAD SPACE" none,
    Collation.mk Collation_utf8mb4_spanish_ci "utf8mb4_spanish_ci"
      CharacterSet_utf8mb4 false true 8 "PAD SPACE" none,
    Collation.mk Collation_utf8mb4_swedish_ci "utf8mb4_swedish_ci"
      CharacterSet_utf8mb4 false true 8 "PAD SPACE" none,
    Collation.mk Collation_utf8mb4_turkish_ci "utf8mb4_turkish_ci"
      CharacterSet_utf8mb4 false true 8 "PAD SPACE" none,
    Collation.mk Collation_utf8mb4_czech_ci "utf8mb4_czech_ci"
      CharacterSet_utf8mb4 false true 8 "PAD SPACE" none,
    Collation.mk Collation_utf8mb4_danish_ci "utf8mb4_danish_ci"
      CharacterSet_utf8mb4 false true 8 "PAD SPACE" none,
    Collation.mk Collation_utf8mb4_lithuanian_ci "utf8mb4_lithuanian_ci"
      CharacterSet_utf8mb4 false true 8 "PAD SPACE" none,
    Collation.mk Collation_utf8mb4_slovak_ci "utf8mb4_slovak_ci"
      CharacterSet_utf8mb4 false true 8 "PAD SPACE" none,
    Collation.mk Collation_utf8mb4_spanish2_ci "utf8mb4_spanish2_ci"
      CharacterSet_utf8mb4 false true 8 "PAD SPACE" none,
    Collation.mk Collation_utf8mb4_roman_ci "utf8mb4_roman_ci"
      CharacterSet_utf8mb4 false true 8 "PAD SPACE" none,
    Collation.mk Collation_utf8mb4_persian_ci "utf8mb4_persian_ci"
      CharacterSet_utf8mb4 false true 8 "PAD SPACE" none,
    Collation.mk Collation_utf8mb4_esperanto_ci "utf8mb4_esperanto_ci"
      CharacterSet_utf8mb4 false true 8 "PAD SPACE" none,
    Collation.mk Collation_utf8mb4_hungarian_ci "utf8mb4_hungarian_ci"
      CharacterSet_utf8mb4 false true 8 "PAD SPACE" none,
    Collation.mk Collation_utf8mb4_sinhala_ci "utf8mb4_sinhala_ci"
      CharacterSet_utf8mb4 false true 8 "PAD SPACE" none,
    Collation.mk Collation_utf8mb4_german2_ci "utf8mb4_german2_ci"
      CharacterSet_utf8mb4 false true 8 "PAD SPACE" none,
    Collation.mk Collation_utf8mb4_croatian_ci "utf8mb4_croatian_ci"
      CharacterSet_utf8mb4 false true 8 "PAD SPACE" none,
    Collation.mk Collation_utf8mb4_unicode_520_ci "utf8mb4_unicode_520_ci"
      CharacterSet_utf8mb4 false true 8 "PAD SPACE" (some (.encodings "Utf8mb4_unicode_520_ci_RuneWeight")),
    Collation.mk Collation_utf8mb4_vietnamese_ci "utf8mb4_vietnamese_ci"
      CharacterSet_utf8mb4 false true 8 "PAD SPACE" none,
    Collation.mk Collation_gb18030_chinese_ci "gb18030_chinese_ci"
      CharacterSet_gb18030 true true 2 "PAD SPACE" none,
    Collation.mk Collation_gb18030_bin "gb18030_bin"
      CharacterSet_gb18030 false true 1 "PAD SPACE" none,
    Collation.mk Collation_gb18030_unicode_520_ci "gb18030_unicode_520_ci"
      CharacterSet_gb18030 false true 8 "PAD SPACE" none,
    Collation.zero,
    Collation.zero,
    Collation.zero,
    Collation.zero,
    Collation.mk Collation_utf8mb4_0900_ai_ci "utf8mb4_0900_ai_ci"
      CharacterSet_utf8mb4 true true 0 "NO PAD" (some (.encodings "Utf8mb4_0900_ai_ci_RuneWeight")),
    Collation.mk Collation_utf8mb4_de_pb_0900_ai_ci "utf8mb4_de_pb_0900_ai_ci"
      CharacterSet_utf8mb4 false true 0 "NO PAD" none,
    Collation.mk Collation_utf8mb4_is_0900_ai_ci "utf8mb4_is_0900_ai_ci"
      CharacterSet_utf8mb4 false true 0 "NO PAD" none,
    Collation.mk Collation_utf8mb4_lv_0900_ai_ci "utf8mb4_lv_0900_ai_ci"
      CharacterSet_utf8mb4 false true 0 "NO PAD" none,
    Collation.mk Collation_utf8mb4_ro_0900_ai_ci "utf8mb4_ro_0900_ai_ci"
      CharacterSet_utf8mb4 false true 0 "NO PAD" none,
    Collation.mk Collation_utf8mb4_sl_0900_ai_ci "utf8mb4_sl_0900_ai_ci"
      CharacterSet_utf8mb4 false true 0 "NO PAD" none,
    Collation.mk Collation_utf8mb4_pl_0900_ai_ci "utf8mb4_pl_0900_ai_ci"
      CharacterSet_utf8mb4 false true 0 "NO PAD" none,
    Collation.mk Collation_utf8mb4_et_0900_ai_ci "utf8mb4_et_0900_ai_ci"
      CharacterSet_utf8mb4 false true 0 "NO PAD" none,
    Collation.mk Collation_utf8mb4_es_0900_ai_ci "utf8mb4_es_0900_ai_ci"
      CharacterSet_utf8mb4 false true 0 "NO PAD" none,
    Collation.mk Collation_utf8mb4_sv_0900_ai_ci "utf8mb4_sv_0900_ai_ci"
      CharacterSet_utf8mb4 false true 0 "NO PAD" none,
    Collation.mk Collation_utf8mb4_tr_0900_ai_ci "utf8mb4_tr_0900_ai_ci"
      CharacterSet_utf8mb4 false true 0 "NO PAD" none,
    Collation.mk Collation_utf8mb4_cs_0900_ai_ci "utf8mb4_cs_0900_ai_ci"
      CharacterSet_utf8mb4 false true 0 "NO PAD" none,
    Collation.mk Collation_utf8mb4_da_0900_ai_ci "utf8mb4_da_0900_ai_ci"
      CharacterSet_utf8mb4 false true 0 "NO PAD" none,
    Collation.mk Collation_utf8mb4_lt_0900_ai_ci "utf8mb4_lt_0900_ai_ci"
      CharacterSet_utf8mb4 false true 0 "NO PAD" none,
    Collation.mk Collation_utf8mb4_sk_0900_ai_ci "utf8mb4_sk_0900_ai_ci"
      CharacterSet_utf8mb4 false true 0 "NO PAD" none,
    Collation.mk Collation_utf8mb4_es_trad_0900_ai_ci "utf8mb4_es_trad_0900_ai_ci"
      CharacterSet_utf8mb4 false true 0 "NO PAD" none,
    Collation.mk Collation_utf8mb4_la_0900_ai_ci "utf8mb4_la_0900_ai_ci"
      CharacterSet_utf8mb4 false true 0 "NO PAD" none,
    Collation.zero,
    Collation.mk Collation_utf8mb4_eo_0900_ai_ci "utf8mb4_eo_0900_ai_ci"
      CharacterSet_utf8mb4 false true 0 "NO PAD" none,
    Collation.mk Collation_utf8mb4_hu_0900_ai_ci "utf8mb4_hu_0900_ai_ci"
      CharacterSet_utf8mb4 false true 0 "NO PAD" none,
    Collation.mk Collation_utf8mb4_hr_0900_ai_ci "utf8mb4_hr_0900_ai_ci"
      CharacterSet_utf8mb4 false true 0 "NO PAD" none,
    Collation.zero,
    Collation.mk Collation_utf8mb4_vi_0900_ai_ci "utf8mb4_vi_0900_ai_ci"
      CharacterSet_utf8mb4 false true 0 "NO PAD" none,
    Collation.mk Collation_utf8mb4_0900_as_cs "utf8mb4_0900_as_cs"
      CharacterSet_utf8mb4 false true 0 "NO PAD" none,
    Collation.mk Collation_utf8mb4_de_pb_0900_as_cs "utf8mb4_de_pb_0900_as_cs"
      CharacterSet_utf8mb4 false true 0 "NO PAD" none,
    Collation.mk Collation_utf8mb4_is_0900_as_cs "utf8mb4_is_0900_as_cs"
      CharacterSet_utf8mb4 false true 0 "NO PAD" none,
    Collation.mk Collation_utf8mb4_lv_0900_as_cs "utf8mb4_lv_0900_as_cs"
      CharacterSet_utf8mb4 false true 0 "NO PAD" none,
    Collation.mk Collation_utf8mb4_ro_0900_as_cs "utf8mb4_ro_0900_as_cs"
      CharacterSet_utf8mb4 false true 0 "NO PAD" none,
    Collation.mk Collation_utf8mb4_sl_0900_as_cs "utf8mb4_sl_0900_as_cs"
      CharacterSet_utf8mb4 false true 0 "NO PAD" none,
    Collation.mk Collation_utf8mb4_pl_0900_as_cs "utf8mb4_pl_0900_as_cs"
      CharacterSet_utf8mb4 false true 0 "NO PAD" none,
    Collation.mk Collation_utf8mb4_et_0900_as_cs "utf8mb4_et_0900_as_cs"
      CharacterSet_utf8mb4 false true 0 "NO PAD" none,
    Collation.mk Collation_utf8mb4_es_0900_as_cs "utf8mb4_es_0900_as_cs"
      CharacterSet_utf8mb4 false true 0 "NO PAD" none,
    Collation.mk Collation_utf8mb4_sv_0900_as_cs "utf8mb4_sv_0900_as_cs"
      CharacterSet_utf8mb4 false true 0 "NO PAD" none,
    Collation.mk Collation_utf8mb4_tr_0900_as_cs "utf8mb4_tr_0900_as_cs"
      CharacterSet_utf8mb4 false true 0 "NO PAD" none,
    Collation.mk Collation_utf8mb4_cs_0900_as_cs "utf8mb4_cs_0900_as_cs"
      CharacterSet_utf8mb4 false true 0 "NO PAD" none,
    Collation.mk Collation_utf8mb4_da_0900_as_cs "utf8mb4_da_0900_as_cs"
      CharacterSet_utf8mb4 false true 0 "NO PAD" none,
    Collation.mk Collation_utf8mb4_lt_0900_as_cs "utf8mb4_lt_0900_as_cs"
      CharacterSet_utf8mb4 false true 0 "NO PAD" none,
    Collation.mk Collation_utf8mb4_sk_0900_as_cs "utf8mb4_sk_0900_as_cs"
      CharacterSet_utf8mb4 false true 0 "NO PAD" none,
    Collation.mk Collation_utf8mb4_es_trad_0900_as_cs "utf8mb4_es_trad_0900_as_cs"
      CharacterSet_utf8mb4 false true 0 "NO PAD" none,
    Collation.mk Collation_utf8mb4_la_0900_as_cs "utf8mb4_la_0900_as_cs"
      CharacterSet_utf8mb4 false true 0 "NO PAD" none,
    Collation.zero,
    Collation.mk Collation_utf8mb4_eo_0900_as_cs "utf8mb4_eo_0900_as_cs"
      CharacterSet_utf8mb4 false true 0 "NO PAD" none,
    Collation.mk Collation_utf8mb4_hu_0900_as_cs "utf8mb4_hu_0900_as_cs"
      CharacterSet_utf8mb4 false true 0 "NO PAD" none,
    Collation.mk Collation_utf8mb4_hr_0900_as_cs "utf8mb4_hr_0900_as_cs"
      CharacterSet_utf8mb4 false true 0 "NO PAD" none,
    Collation.zero,
    Collation.mk Collation_utf8mb4_vi_0900_as_cs "utf8mb4_vi_0900_as_cs"
      CharacterSet_utf8mb4 false true 0 "NO PAD" none,
    Collation.zero,
    Collation.zero,
    Collation.mk Collation_utf8mb4_ja_0900_as_cs "utf8mb4_ja_0900_as_cs"
      CharacterSet_utf8mb4 false true 0 "NO PAD" none,
    Collation.mk Collation_utf8mb4_ja_0900_as_cs_ks "utf8mb4_ja_0900_as_cs_ks"
      CharacterSet_utf8mb4 false true 24 "NO PAD" none,
    Collation.mk Collation_utf8mb4_0900_as_ci "utf8mb4_0900_as_ci"
      CharacterSet_utf8mb4 false true 0 "NO PAD" none,
    Collation.mk Collation_utf8mb4_ru_0900_ai_ci "utf8mb4_ru_0900_ai_ci"
      CharacterSet_utf8mb4 false true 0 "NO PAD" none,
    Collation.mk Collation_utf8mb4_ru_0900_as_cs "utf8mb4_ru_0900_as_cs"
      CharacterSet_utf8mb4 false true 0 "NO PAD" none,
    Collation.mk Collation_utf8mb4_zh_0900_as_cs "utf8mb4_zh_0900_as_cs"
      CharacterSet_utf8mb4 false true 0 "NO PAD" none,
    Collation.mk Collation_utf8mb4_0900_bin "utf8mb4_0900_bin"
      CharacterSet_utf8mb4 false true 1 "NO PAD" (some (.encodings "Utf8mb4_0900_bin_RuneWeight"))]

/-- How a call ends: it returns a value, it stops the program with a run-time panic, or,
for a loop that is given a number of steps, it has not ended within them. -/
inductive Completion (α : Type)
  | returns (value : α)
  | panics (message : String)
  | unfinished
deriving DecidableEq, Repr

/-- The call that follows a call: nothing is run after a panic. -/
def Completion.bind {α β : Type} (x : Completion α) (f : α → Completion β) : Completion β :=
  match x with
  | .returns value => f value
  | .panics message => .panics message
  | .unfinished => .unfinished

/-- The index expression `collationArray[c]`: an index of 310 or more stops the program. -/
def collationAt (c : CollationID) : Completion Collation :=
  match collationArray.get? c with
  | some collation => .returns collation
  | none => .panics "index out of range"

/-- The map `collationStringToID` as a list of assignments, the last one first. -/
abbrev CollationMap := List (String × CollationID)

/-- The assignment `m[key] = value`. -/
def mapSet (m : CollationMap) (key : String) (value : CollationID) : CollationMap :=
  (key, value) :: m

/-- The lookup `value, ok := m[key]`: the value assigned last. -/
def mapGet (m : CollationMap) (key : String) : Option CollationID :=
  match m with
  | [] => none
  | (k, v) :: rest => if k = key then some v else mapGet rest key

/-- The assignments `collationStringToID[name] = id` of lines 684-711 of `init`, in order. -/
def initAliases : List (String × CollationID) :=
  [("utf8_general_ci", Collation_utf8mb3_general_ci),
    ("utf8_tolower_ci", Collation_utf8mb3_tolower_ci),
    ("utf8_bin", Collation_utf8mb3_bin),
    ("utf8_unicode_ci", Collation_utf8mb3_unicode_ci),
    ("utf8_icelandic_ci", Collation_utf8mb3_icelandic_ci),
    ("utf8_latvian_ci", Collation_utf8mb3_latvian_ci),
    ("utf8_romanian_ci", Collation_utf8mb3_romanian_ci),
    ("utf8_slovenian_ci", Collation_utf8mb3_slovenian_ci),
    ("utf8_polish_ci", Collation_utf8mb3_polish_ci),
    ("utf8_estonian_ci", Collation_utf8mb3_estonian_ci),
    ("utf8_spanish_ci", Collation_utf8mb3_spanish_ci),
    ("utf8_swedish_ci", Collation_utf8mb3_swedish_ci),
    ("utf8_turkish_ci", Collation_utf8mb3_turkish_ci),
    ("utf8_czech_ci", Collation_utf8mb3_czech_ci),
    ("utf8_danish_ci", Collation_utf8mb3_danish_ci),
    ("utf8_lithuanian_ci", Collation_utf8mb3_lithuanian_ci),
    ("utf8_slovak_ci", Collation_utf8mb3_slovak_ci),
    ("utf8_spanish2_ci", Collation_utf8mb3_spanish2_ci),
    ("utf8_roman_ci", Collation_utf8mb3_roman_ci),
    ("utf8_persian_ci", Collation_utf8mb3_persian_ci),
    ("utf8_esperanto_ci", Collation_utf8mb3_esperanto_ci),
    ("utf8_hungarian_ci", Collation_utf8mb3_hungarian_ci),
    ("utf8_sinhala_ci", Collation_utf8mb3_sinhala_ci),
    ("utf8_german2_ci", Collation_utf8mb3_german2_ci),
    ("utf8_croatian_ci", Collation_utf8mb3_croatian_ci),
    ("utf8_unicode_520_ci", Collation_utf8mb3_unicode_520_ci),
    ("utf8_vietnamese_ci", Collation_utf8mb3_vietnamese_ci),
    ("utf8_general_mysql500_ci", Collation_utf8mb3_general_mysql500_ci)]

/-- The function `init` (lines 677-712): the map it leaves in `collationStringToID`, which
is empty before. -/
def init : CollationMap :=
  let m := collationArray.foldl
    (fun m collation => if collation.ID = 0 then m else mapSet m collation.Name collation.ID) []
  initAliases.foldl (fun m assignment => mapSet m assignment.1 assignment.2) m

/-- The variable `collationStringToID` (line 44) after `init`. -/
def collationStringToID : CollationMap := init

/-- The error `ErrCollationUnknown.New(name)`. -/
def ErrCollationUnknown (name : String) : SqlError :=
  { kind := "ErrCollationUnknown", args := [name] }

/-- The error `ErrCollationMalformedString.New(what)`. -/
def ErrCollationMalformedString (what : String) : SqlError :=
  { kind := "ErrCollationMalformedString", args := [what] }

/-- The functions of other files and packages that the collations call:
`ParseCharacterSet`, the methods `BinaryCollation`, `DefaultCollation` and `String` of a
`CharacterSetID` (character_sets.go), the functions `func(r rune) int32` of package
`encodings` by name, and the hash function of package `xxhash` on the bytes written. -/
structure CollationEnv where
  ParseCharacterSet : String → Except SqlError CharacterSetID
  BinaryCollation : CharacterSetID → CollationID
  DefaultCollation : CharacterSetID → CollationID
  characterSetString : CharacterSetID → String
  runeWeight : String → Int → Int
  Sum64 : List Nat → Nat

/-- The method `Name` (lines 758-760). -/
def CollationID.Name (c : CollationID) : Completion String :=
  (collationAt c).bind fun collation => .returns collation.Name

/-- The method `CharacterSet` (lines 763-765). -/
def CollationID.CharacterSet (c : CollationID) : Completion CharacterSetID :=
  (collationAt c).bind fun collation => .returns collation.CharacterSet

/-- The method `WorksWithCharacterSet` (lines 768-770). -/
def CollationID.WorksWithCharacterSet (c : CollationID) (cs : CharacterSetID) :
    Completion Bool :=
  (collationAt c).bind fun collation => .returns (decide (collation.CharacterSet = cs))

/-- The method `IsDefault` (lines 778-783). -/
def CollationID.IsDefault (c : CollationID) : Completion String :=
  (collationAt c).bind fun collation => .returns (if collation.IsDefault then "Yes" else "")

/-- The method `IsCompiled` (lines 786-791). -/
def CollationID.IsCompiled (c : CollationID) : Completion String :=
  (collationAt c).bind fun collation => .returns (if collation.IsCompiled then "Yes" else "")

/-- The method `SortLength` (lines 794-796). -/
def CollationID.SortLength (c : CollationID) : Completion Int :=
  (collationAt c).bind fun collation => .returns (collation.SortLength : Int)

/-- The method `PadAttribute` (lines 799-801). -/
def CollationID.PadAttribute (c : CollationID) : Completion String :=
  (collationAt c).bind fun collation => .returns collation.PadAttribute

/-- The method `Equals` (lines 804-806). -/
def CollationID.Equals (c other : CollationID) : Bool := decide (c = other)

/-- The method `Collation` (lines 809-811). -/
def CollationID.Collation (c : CollationID) : Completion Collation := collationAt c

/-- The method `Sorter` (lines 870-872). -/
def CollationID.Sorter (c : CollationID) : Completion (Option RuneWeight) :=
  (collationAt c).bind fun collation => .returns collation.Sorter

/-- The method `String` (lines 773-775). -/
def CollationID.String (c : CollationID) : Completion String :=
  (collationAt c).bind fun collation => .returns collation.Name

/-- The test `s == nil || len(*s) == 0` on an optional string. -/
def isNilOrEmpty (s : Option String) : Bool :=
  match s with
  | none => true
  | some text => text.data.isEmpty

/-- The function `ParseCollation` (lines 716-755): the collation and the error. -/
def ParseCollation (env : CollationEnv) (characterSetStr collationStr : Option String)
    (binaryAttribute : Bool) : Completion (CollationID × Option SqlError) :=
  if isNilOrEmpty characterSetStr then
    if isNilOrEmpty collationStr then
      if binaryAttribute then
        (CollationID.CharacterSet Collation_Default).bind fun characterSet =>
          .returns (env.BinaryCollation characterSet, none)
      else .returns (Collation_Default, none)
    else
      match mapGet collationStringToID (collationStr.getD "") with
      | some collation =>
        if binaryAttribute then
          (CollationID.CharacterSet collation).bind fun characterSet =>
            .returns (env.BinaryCollation characterSet, none)
        else .returns (collation, none)
      | none =>
        (CollationID.Name Collation_Invalid).bind fun invalidName =>
          if collationStr.getD "" = invalidName then .returns (Collation_Invalid, none)
          else .returns (Collation_Invalid, some (ErrCollationUnknown (collationStr.getD "")))
  else
    match env.ParseCharacterSet (characterSetStr.getD "") with
    | .error err => .returns (Collation_Invalid, some err)
    | .ok characterSet =>
      if isNilOrEmpty collationStr then
        if binaryAttribute then .returns (env.BinaryCollation characterSet, none)
        else .returns (env.DefaultCollation characterSet, none)
      else
        match mapGet collationStringToID (collationStr.getD "") with
        | none =>
          .returns (Collation_Invalid, some (ErrCollationUnknown (collationStr.getD "")))
        | some collation =>
          (CollationID.WorksWithCharacterSet collation characterSet).bind fun works =>
            if !works then
              (CollationID.String collation).bind fun collationName =>
                .returns (Collation_Invalid,
                  some { kind := "fmt.Errorf",
                         args := [env.characterSetString characterSet ++
                           " is not a valid character set for " ++ collationName] })
            else .returns (collation, none)

/-- The constant `utf8.RuneError`. -/
def RuneError : Int := 65533

/-- A continuation byte of an encoding: from `0x80` to `0xBF`. -/
def isContinuation (b : Nat) : Bool := decide (128 ≤ b ∧ b ≤ 191)

/-- The second byte that `utf8.DecodeRuneInString` accepts after the first byte `s0` of an
encoding of three or four bytes (the table `acceptRanges`): encodings that are longer than
needed, surrogates and runes above `0x10FFFF` are left out. -/
def isSecondByte (s0 s1 : Nat) : Bool :=
  decide ((if s0 = 224 then 160 else if s0 = 240 then 144 else 128) ≤ s1 ∧
    s1 ≤ (if s0 = 237 then 159 else if s0 = 244 then 143 else 191))

/-- The function `utf8.DecodeRuneInString` of the Go library on the bytes of a string: the
rune and its width in bytes; `(RuneError, 0)` for the empty string and `(RuneError, 1)` for
an encoding that is not valid or is cut short. -/
def DecodeRuneInString (s : List Nat) : Int × Nat :=
  match s with
  | [] => (RuneError, 0)
  | s0 :: rest =>
    if s0 < 128 then ((s0 : Int), 1)
    else if s0 < 194 ∨ 244 < s0 then (RuneError, 1)
    else if s0 < 224 then
      match rest with
      | s1 :: _ =>
        if isContinuation s1 then ((((s0 % 32) * 64 + s1 % 64 : Nat) : Int), 2)
        else (RuneError, 1)
      | _ => (RuneError, 1)
    else if s0 < 240 then
      match rest with
      | s1 :: s2 :: _ =>
        if isSecondByte s0 s1 ∧ isContinuation s2 then
          ((((s0 % 16) * 4096 + (s1 % 64) * 64 + s2 % 64 : Nat) : Int), 3)
        else (RuneError, 1)
      | _ => (RuneError, 1)
    else
      match rest with
      | s1 :: s2 :: s3 :: _ =>
        if isSecondByte s0 s1 ∧ isContinuation s2 ∧ isContinuation s3 then
          ((((s0 % 8) * 262144 + (s1 % 64) * 4096 + (s2 % 64) * 64 + s3 % 64 : Nat) : Int), 4)
        else (RuneError, 1)
      | _ => (RuneError, 1)

/-- The conversion `byte(x)` of an `int32` or an `uint64`: the lowest eight bits. -/
def byteOf (x : Int) : Nat := (Int.emod x 256).toNat

/-- The four bytes written for a rune weight (lines 833-838): `x >> n` on an `int32` is the
quotient by `2 ^ n` rounded down. -/
def weightBytes (runeWeight : Int) : List Nat :=
  [byteOf runeWeight, byteOf (Int.fdiv runeWeight (2 ^ 8)), byteOf (Int.fdiv runeWeight (2 ^ 16)),
    byteOf (Int.fdiv runeWeight (2 ^ 24))]

/-- The function that a `Sorter` of the array stands for. -/
def RuneWeight.apply (env : CollationEnv) : RuneWeight → Int → Int
  | .constant weight => fun _ => weight
  | .encodings name => env.runeWeight name

/-- The loop of lines 825-843, for at most `steps` runs of its body: the bytes written to
the hash, and the error.  `hash.Write` of package `xxhash` returns no error.  The call of
a `nil` function stops the program. -/
def hashRunes (env : CollationEnv) (getRuneWeight : Option RuneWeight) :
    Nat → List Nat → List Nat → Completion (List Nat × Option SqlError)
  | _, [], written => .returns (written, none)
  | 0, _ :: _, _ => .unfinished
  | steps + 1, b :: bs, written =>
    let decoded := DecodeRuneInString (b :: bs)
    if decoded.2 = 0 ∨ (decoded.2 : Int) = RuneError then
      .returns (written, some (ErrCollationMalformedString "hashing"))
    else
      match getRuneWeight with
      | none => .panics "call of a nil function"
      | some sorter =>
        hashRunes env getRuneWeight steps ((b :: bs).drop decoded.2)
          (written ++ weightBytes (sorter.apply env decoded.1))

/-- The method `HashToUint` (lines 816-846) on the bytes of a string: the hash, an
`uint64`, and the error.  `encodings.StringToBytes` gives the bytes of the string; the loop
is given as many steps as the string has bytes. -/
def CollationID.HashToUint (env : CollationEnv) (c : CollationID) (str : List Nat) :
    Completion (Nat × Option SqlError) :=
  if c = Collation_binary then .returns (env.Sum64 str % 2 ^ 64, none)
  else
    (collationAt c).bind fun collation =>
      (hashRunes env collation.Sorter str.length str []).bind fun result =>
        match result.2 with
        | some err => .returns (0, some err)
        | none => .returns (env.Sum64 result.1 % 2 ^ 64, none)

/-- The method `HashToBytes` (lines 851-866): the slice, `none` for `nil`, and the
error. -/
def CollationID.HashToBytes (env : CollationEnv) (c : CollationID) (str : List Nat) :
    Completion (Option (List Nat) × Option SqlError) :=
  (CollationID.HashToUint env c str).bind fun result =>
    match result.2 with
    | some err => .returns (none, some err)
    | none =>
      let hash := result.1
      .returns (some [hash % 256, (hash / 2 ^ 8) % 256, (hash / 2 ^ 16) % 256,
        (hash / 2 ^ 24) % 256, (hash / 2 ^ 32) % 256, (hash / 2 ^ 40) % 256,
        (hash / 2 ^ 48) % 256, (hash / 2 ^ 56) % 256], none)

/-- The struct `CollationsIterator` (lines 40-42). -/
structure CollationsIterator where
  idx : Nat
deriving DecidableEq, Repr

/-- The function `NewCollationsIterator` (lines 875-877). -/
def NewCollationsIterator : CollationsIterator := { idx := 0 }

/-- The loop of `Next` (lines 881-887) over the entries of an array from index `idx` on: what
is returned, and the index left in the iterator. -/
def nextFrom : List Collation → Nat → (Collation × Bool) × Nat
  | [], idx => ((Collation.zero, false), idx)
  | collation :: rest, idx =>
    if collation.ID = 0 then nextFrom rest (idx + 1)
    else ((collation, true), idx + 1)

/-- The method `Next` (lines 880-889): what is returned, and the iterator after the
call. -/
def CollationsIterator.Next (ci : CollationsIterator) : (Collation × Bool) × CollationsIterator :=
  let result := nextFrom (collationArray.drop ci.idx) ci.idx
  (result.1, { idx := result.2 })

/-- Modelled from the spec: the character sets of the examples.  The spec leaves the
character sets to the catalog; here `ParseCharacterSet` knows the character sets `utf8mb4`,
`latin1` and `binary`, the binary collation of a character set is the collation that MySQL
names after it with `_bin` (`binary` for `binary`), and its default collation the one
that `SHOW CHARACTER SET` lists.  A rune weighs its code point, and the hash of the bytes
written is their sum. -/
def exampleCollationEnv : CollationEnv :=
  { ParseCharacterSet := fun name =>
      if name = "utf8mb4" then .ok CharacterSet_utf8mb4
      else if name = "latin1" then .ok CharacterSet_latin1
      else if name = "binary" then .ok CharacterSet_binary
      else .error { kind := "ErrCharacterSetNotSupported", args := [name] },
    BinaryCollation := fun cs =>
      if cs = CharacterSet_utf8mb4 then Collation_utf8mb4_bin
      else if cs = CharacterSet_latin1 then Collation_latin1_bin
      else if cs = CharacterSet_binary then Collation_binary
      else Collation_Invalid,
    DefaultCollation := fun cs =>
      if cs = CharacterSet_utf8mb4 then Collation_utf8mb4_0900_ai_ci
      else if cs = CharacterSet_latin1 then Collation_latin1_swedish_ci
      else if cs = CharacterSet_binary then Collation_binary
      else Collation_Invalid,
    characterSetString := fun cs => cs.name,
    runeWeight := fun _ r => r,
    Sum64 := fun written => written.sum }

/-- The results of the first `n` calls of `Next` on an iterator. -/
def CollationsIterator.calls : Nat → CollationsIterator → List (Collation × Bool)
  | 0, _ => []
  | n + 1, ci => ci.Next.1 :: CollationsIterator.calls n ci.Next.2

/-- The entries of `collationArray` whose ID is not zero, in the order of the array. -/
def definedCollations : List Collation := collationArray.filter (fun c => decide (c.ID ≠ 0))

/-- The runes of a string, as `utf8.DecodeRuneInString` reads them one after the other, for
at most `steps` runes; no result for a string that is not well-formed. -/
def runesOf : Nat → List Nat → Option (List Int)
  | _, [] => some []
  | 0, _ :: _ => none
  | steps + 1, b :: bs =>
    let decoded := DecodeRuneInString (b :: bs)
    if decoded.1 = RuneError ∧ decoded.2 ≤ 1 then none
    else (runesOf steps ((b :: bs).drop decoded.2)).map (fun rs => decoded.1 :: rs)

/-- The runes of a well-formed string (`utf8.ValidString`). -/
def runes (s : List Nat) : Option (List Int) := runesOf s.length s

/-- The value of eight bytes read with the lowest byte first. -/
def littleEndian : List Nat → Nat
  | [] => 0
  | b :: bs => b + 256 * littleEndian bs

/-- The iterator after `n` calls of `Next`. -/
def CollationsIterator.after : Nat → CollationsIterator → CollationsIterator
  | 0, ci => ci
  | n + 1, ci => CollationsIterator.after n ci.Next.2

/-- The field `ops` of an arithmetic operator. -/
def Expression.ops : Expression → Int
  | .Div _ _ ops _ => ops
  | .IntDiv _ _ ops => ops
  | .Arithmetic _ _ _ ops => ops
  | .Mod _ _ ops => ops
  | _ => 0

/-- The arithmetic operators that are reached from an expression through the left and
right children of arithmetic operators: the expression itself comes first when it is one,
and its proper descendants follow. -/
def arithmeticOps : Expression → List Expression
  | .Div l r ops ds => .Div l r ops ds :: (arithmeticOps l ++ arithmeticOps r)
  | .IntDiv l r ops => .IntDiv l r ops :: (arithmeticOps l ++ arithmeticOps r)
  | .Arithmetic l r op ops => .Arithmetic l r op ops :: (arithmeticOps l ++ arithmeticOps r)
  | .Mod l r ops => .Mod l r ops :: (arithmeticOps l ++ arithmeticOps r)
  | _ => []

/-- The number `ceil(n / 9)` for a natural number. -/
def ceilNinth (n : Nat) : Nat := (n + 8) / 9

/-- The scale of the internal quotient of two decimals with `ls` and `rs` fractional digits:
`9 * max(ceil((ls + rs + 4) / 9), ceil(ls / 9) + ceil(rs / 9))`, the second number counting
only when `ls` and `rs` are both other than zero. -/
def quotientScale (ls rs : Nat) : Nat :=
  9 * max (ceilNinth (ls + rs + 4)) (if ls ≠ 0 ∧ rs ≠ 0 then ceilNinth ls + ceilNinth rs else 0)

/-- The exact quotient of two decimals truncated toward zero to `scale` fractional
digits. -/
def truncatedQuotientTo (l r : Decimal) (scale : Nat) : Decimal :=
  let e := l.exp - r.exp + (scale : Int)
  { value := if e ≥ 0 then Int.tdiv (l.value * 10 ^ e.natAbs) r.value
      else Int.tdiv l.value (r.value * 10 ^ e.natAbs),
    exp := -(scale : Int) }

/-- The scale that lines 239-249 of `(*Div).div` compute for two decimals. -/
def divInternalScale (l r : Decimal) : Int :=
  let lScale := -1 * l.Exponent
  let rScale := -1 * r.Exponent
  let inc := ceilDiv9 (lScale + rScale + divPrecInc)
  let inc :=
    if lScale ≠ 0 ∧ rScale ≠ 0 then
      let inc2 := ceilDiv9 lScale + ceilDiv9 rScale
      if inc2 > inc then inc2 else inc
    else inc
  inc * divIntPrecInc

/-! ## Equality of plan trees -/

theorem Node.induct {P : Node → Prop} (h : ∀ n : Node, (∀ c ∈ n.Children, P c) → P n) :
    ∀ n : Node, P n := by
  intro n
  refine Node.rec (motive_1 := P) (motive_2 := fun l => ∀ c ∈ l, P c)
    ?_ ?_ ?_ ?_ ?_ ?_ ?_ ?_ ?_ ?_ ?_ ?_ n
  · intro t; exact h _ (by intro c hc; simp [Node.Children] at hc)
  · intro t l; exact h _ (by intro c hc; simp [Node.Children] at hc)
  · intro p c ih; exact h _ (by intro d hd; simp [Node.Children] at hd; subst hd; exact ih)
  · intro a c ih; exact h _ (by intro d hd; simp [Node.Children] at hd; subst hd; exact ih)
  · intro e c ih; exact h _ (by intro d hd; simp [Node.Children] at hd; subst hd; exact ih)
  · intro e c ih; exact h _ (by intro d hd; simp [Node.Children] at hd; subst hd; exact ih)
  · intro e c ih; exact h _ (by intro d hd; simp [Node.Children] at hd; subst hd; exact ih)
  · intro s c ih; exact h _ (by intro d hd; simp [Node.Children] at hd; subst hd; exact ih)
  · intro e s c ih; exact h _ (by intro d hd; simp [Node.Children] at hd; subst hd; exact ih)
  · intro k cs ih; exact h _ (by simpa [Node.Children] using ih)
  · intro c hc; simp at hc
  · intro c cs ihc ihcs d hd
    rcases List.mem_cons.1 hd with rfl | hd
    · exact ihc
    · exact ihcs d hd

theorem Node.beq_refl_aux : ∀ n : Node, Node.beq n n = true := by
  intro n
  refine Node.rec (motive_1 := fun n => Node.beq n n = true)
    (motive_2 := fun l => Node.beqList l l = true)
    ?_ ?_ ?_ ?_ ?_ ?_ ?_ ?_ ?_ ?_ ?_ ?_ n
  all_goals intros
  all_goals simp_all [Node.beq, Node.beqList]

theorem Node.beq_self (n : Node) : (n == n) = true := Node.beq_refl_aux n

theorem isSortNode_self (s : Sortable) : isSortNode s.toNode (some s) = true := by
  simp [isSortNode, Node.beq_self]

theorem isSortNode_of_asSortable_none (node : Node) (sortNode : Option Sortable)
    (h : node.asSortable = none) : isSortNode node sortNode = false := by
  cases sortNode with
  | none => rfl
  | some s =>
    cases s <;> cases node <;>
      first
        | rfl
        | (simp [Node.asSortable] at h)

/-! ## The shape of the helper -/

theorem helper_table (env : Env) (ctx : Context) (scope : Scope) (t : Table)
    (sortNode : Option Sortable) :
    replaceIdxOrderByDistanceHelper env ctx scope (.ResolvedTable t) sortNode =
      resolvedTableCase env ctx scope t sortNode := by
  simp only [replaceIdxOrderByDistanceHelper]

theorem visitChildren_nil (env : Env) (ctx : Context) (scope : Scope)
    (sortNode : Option Sortable) :
    visitChildren env ctx scope [] sortNode = .ok ([], SameTree) := by
  simp only [visitChildren]

theorem visitChildren_cons (env : Env) (ctx : Context) (scope : Scope) (child : Node)
    (others : List Node) (sortNode : Option Sortable) :
    visitChildren env ctx scope (child :: others) sortNode =
      loopStep (childResult child (replaceIdxOrderByDistanceHelper env ctx scope child sortNode))
        (visitChildren env ctx scope others sortNode) := by
  simp only [visitChildren]

/-- The helper on a node that is not a table: the sort context is updated, the children are
visited in order, and the outcome of the loop decides what is returned. -/
theorem helper_inner (env : Env) (ctx : Context) (scope : Scope) (node : Node)
    (sortNode : Option Sortable) (h : ∀ t, node ≠ .ResolvedTable t) :
    replaceIdxOrderByDistanceHelper env ctx scope node sortNode =
      finish node (sortContext node sortNode)
        (visitChildren env ctx scope node.Children (sortContext node sortNode)) := by
  cases node with
  | ResolvedTable t => exact absurd rfl (h t)
  | _ =>
    simp only [replaceIdxOrderByDistanceHelper, visitChildren, Node.Children, sortContext,
      Node.asSortable]

theorem selectIndex_eq_find (env : Env) (distance column : Expr)
    (sfAliases : List (String × String)) (idxs : List Index) :
    selectIndex env distance column sfAliases idxs =
      idxs.find? (qualifies env distance column sfAliases) := by
  induction idxs with
  | nil => rfl
  | cons idx others ih =>
    simp only [selectIndex, List.find?, qualifies, ih]
    cases idx.IsSpatial <;> cases env.CanSupportOrderBy idx distance <;>
      cases isSortFieldsValidPrefix [column] sfAliases idx.Expressions <;> simp

/-- The table case in terms of the ordering requirement and of the first qualifying index. -/
theorem resolvedTableCase_some (env : Env) (ctx : Context) (scope : Scope) (t : Table)
    (s : Sortable) :
    resolvedTableCase env ctx scope t (some s) =
      if t.isIndexAddressable = false then .ok (.ResolvedTable t, SameTree)
      else if (t.isIndexSearchable && t.SkipIndexCosting) = true then
        .ok (.ResolvedTable t, SameTree)
      else
        match env.getTableAliases s scope with
        | .error _ => .ok (.ResolvedTable t, SameTree)
        | .ok _ =>
          match env.GetIndexes ctx t with
          | .error err => .error err
          | .ok idxs =>
            match orderingRequirement env scope s with
            | none => .ok (.ResolvedTable t, SameTree)
            | some (distance, column) =>
              match idxs.find? (qualifies env distance column (env.aliasedExpressionsInNode s)) with
              | none => .ok (.ResolvedTable t, SameTree)
              | some idx =>
                match NewStaticIndexedAccessForTableNode env t (lookupFor idx distance s) with
                | .error err => .error err
                | .ok nn => .ok (nn, NewTree) := by
  simp only [resolvedTableCase, orderingRequirement, selectIndex_eq_find, lookupFor]
  cases t.isIndexAddressable <;> simp
  by_cases hskip : t.isIndexSearchable = true ∧ t.SkipIndexCosting = true
  · simp [hskip]
  simp only [hskip, if_false]
  cases env.getTableAliases s scope with
  | error e => rfl
  | ok al =>
    simp only []
    cases env.GetIndexes ctx t with
    | error e => rfl
    | ok idxs =>
      simp only []
      rcases hsf : env.normalizeExpressions al (ToExpressions s.GetSortFields) with _ | ⟨e, rest⟩
      · simp
      · cases rest with
        | cons e2 rest2 => simp
        | nil =>
          cases e with
          | Distance l r =>
            simp only [List.length_singleton, ne_eq, not_true_eq_false, if_false, List.head?_cons]
            cases distanceColumn l r with
            | none => simp
            | some column => simp
          | _ => simp

theorem qualifies_eq_true (env : Env) (distance column : Expr)
    (sfAliases : List (String × String)) (idx : Index) :
    qualifies env distance column sfAliases idx = true ↔
      (idx.IsSpatial = false ∧ env.CanSupportOrderBy idx distance = true ∧
        isSortFieldsValidPrefix [column] sfAliases idx.Expressions = true) := by
  simp [qualifies, and_assoc]

theorem children_ne_nil_not_table (node : Node) (before : List Node) (c : Node)
    (after : List Node) (h : node.Children = before ++ c :: after) :
    ∀ t, node ≠ .ResolvedTable t := by
  intro t ht
  subst ht
  simp [Node.Children] at h

/-! ## The loop over the children -/

/-- The loop returns the children themselves with `SameTree` when every turn does. -/
theorem visitChildren_same (env : Env) (ctx : Context) (scope : Scope)
    (sortNode : Option Sortable) :
    ∀ (after before all : List Node), all = before ++ after →
      (∀ (b : List Node) (c : Node) (a : List Node), all = b ++ c :: a →
        (∀ d ∈ b, childResult d (replaceIdxOrderByDistanceHelper env ctx scope d sortNode)
          = .ok (d, SameTree)) →
        childResult c (replaceIdxOrderByDistanceHelper env ctx scope c sortNode)
          = .ok (c, SameTree)) →
      (∀ d ∈ before, childResult d (replaceIdxOrderByDistanceHelper env ctx scope d sortNode)
        = .ok (d, SameTree)) →
      visitChildren env ctx scope after sortNode = .ok (after, SameTree) := by
  intro after
  induction after with
  | nil => intro _ _ _ _ _; exact visitChildren_nil env ctx scope sortNode
  | cons c others ih =>
    intro before all hall hstep hbefore
    have hc := hstep before c others hall hbefore
    have hrest := ih (before ++ [c]) all (by simp [hall]) hstep (by
      intro d hd
      rcases List.mem_append.1 hd with hd | hd
      · exact hbefore d hd
      · simp at hd; subst hd; exact hc)
    rw [visitChildren_cons, hc, hrest]
    rfl

/-- The loop fails with the error of the first turn that fails. -/
theorem visitChildren_error (env : Env) (ctx : Context) (scope : Scope)
    (sortNode : Option Sortable) (c : Node) (after : List Node) (e : Err) :
    ∀ before : List Node,
      (∀ d ∈ before, ∀ e2, childResult d
        (replaceIdxOrderByDistanceHelper env ctx scope d sortNode) ≠ .error e2) →
      childResult c (replaceIdxOrderByDistanceHelper env ctx scope c sortNode) = .error e →
      visitChildren env ctx scope (before ++ c :: after) sortNode = .error e := by
  intro before
  induction before with
  | nil =>
    intro _ hc
    rw [List.nil_append, visitChildren_cons, hc]
    rfl
  | cons d others ih =>
    intro hbefore hc
    have hrest := ih (fun x hx => hbefore x (List.mem_cons_of_mem _ hx)) hc
    rw [List.cons_append, visitChildren_cons, hrest]
    cases hd : childResult d (replaceIdxOrderByDistanceHelper env ctx scope d sortNode) with
    | error e2 => exact absurd hd (hbefore d (List.mem_cons_self _ _) e2)
    | ok p => rfl

/-! ## No-op preservation -/

/-- The helper returns its node with `SameTree` when no table it comes to under a sort
context has a qualifying index and the catalog does not fail. -/
theorem helper_same_of_no_index (env : Env) (ctx : Context) (scope : Scope)
    (hget : ∀ t e, env.GetIndexes ctx t ≠ .error e) :
    ∀ (n : Node) (sortNode : Option Sortable),
      (∀ t s, Reached env ctx scope n sortNode t (some s) →
        ∀ distance column, orderingRequirement env scope s = some (distance, column) →
        ∀ idxs, env.GetIndexes ctx t = .ok idxs → ∀ idx ∈ idxs,
          ¬ (idx.IsSpatial = false ∧ env.CanSupportOrderBy idx distance = true ∧
            isSortFieldsValidPrefix [column] (env.aliasedExpressionsInNode s) idx.Expressions
              = true)) →
      replaceIdxOrderByDistanceHelper env ctx scope n sortNode = .ok (n, SameTree) := by
  intro n
  induction n using Node.induct with
  | h n ih =>
    intro sortNode hno
    by_cases htab : ∃ t, n = .ResolvedTable t
    · obtain ⟨t, rfl⟩ := htab
      rw [helper_table]
      cases sortNode with
      | none => rfl
      | some s =>
        rw [resolvedTableCase_some]
        have hno2 := hno t s (Reached.table t (some s))
        split
        · rfl
        split
        · rfl
        split
        · rfl
        split
        · next err hidx => exact absurd hidx (hget t err)
        · next idxs hidx =>
          split
          · rfl
          · next distance column hreq =>
            have hnone : idxs.find? (qualifies env distance column
                (env.aliasedExpressionsInNode s)) = none := by
              rw [List.find?_eq_none]
              intro idx hmem hq
              exact hno2 distance column hreq idxs hidx idx hmem
                ((qualifies_eq_true env distance column _ idx).1 hq)
            rw [hnone]
    · have hnt : ∀ t, n ≠ .ResolvedTable t := fun t ht => htab ⟨t, ht⟩
      rw [helper_inner env ctx scope n sortNode hnt]
      have hloop : visitChildren env ctx scope n.Children (sortContext n sortNode)
          = .ok (n.Children, SameTree) := by
        refine visitChildren_same env ctx scope (sortContext n sortNode) n.Children []
          n.Children rfl ?_ (by intro d hd; simp at hd)
        intro b c a hsplit hb
        unfold childResult
        split
        · next hdesc =>
          refine ih c (by rw [hsplit]; simp) (sortContext n sortNode) ?_
          intro t s hreach
          refine hno t s (Reached.child n sortNode b c a t (some s) hsplit hdesc ?_ hreach)
          intro d hd e he
          rw [hb d hd] at he
          cases he
        · rfl
      rw [hloop]
      rfl

/-- C1 (no-op preservation): when `GetIndexes` never fails and no table the rule comes to
under a sort context has an index that is non-spatial, supports ordering by the distance of
the sort and has the column of the distance as a valid prefix of its expressions, the rule
returns the input node itself with `SameTree` and a nil error. -/
theorem C1_noop_preservation (env : Env) (ctx : Context) (scope : Scope) (n : Node)
    (hget : ∀ t e, env.GetIndexes ctx t ≠ .error e)
    (hno : ∀ t s, Reached env ctx scope n none t (some s) →
      ∀ distance column, orderingRequirement env scope s = some (distance, column) →
      ∀ idxs, env.GetIndexes ctx t = .ok idxs → ∀ idx ∈ idxs,
        ¬ (idx.IsSpatial = false ∧ env.CanSupportOrderBy idx distance = true ∧
          isSortFieldsValidPrefix [column] (env.aliasedExpressionsInNode s) idx.Expressions
            = true)) :
    replaceIdxOrderByDistance env ctx n scope = .ok (n, SameTree) ∧
      goResult (replaceIdxOrderByDistance env ctx n scope) = (some n, SameTree, none) := by
  have h := helper_same_of_no_index env ctx scope hget n none hno
  unfold replaceIdxOrderByDistance
  rw [h]
  exact ⟨rfl, rfl⟩

theorem C1_noop_preservation_witness :
    (∀ t e, noVectorEnv.GetIndexes exampleCtx t ≠ .error e) ∧
      replaceIdxOrderByDistance noVectorEnv exampleCtx
          (.Project [] (.Sort distFields (.ResolvedTable vectors))) emptyScope
        = .ok (.Project [] (.Sort distFields (.ResolvedTable vectors)), SameTree) := by
  have hget : ∀ t e, noVectorEnv.GetIndexes exampleCtx t ≠ .error e := by
    intro t e h
    cases h
  refine ⟨hget, (C1_noop_preservation noVectorEnv exampleCtx emptyScope
    (.Project [] (.Sort distFields (.ResolvedTable vectors))) hget ?_).1⟩
  intro t s _ distance column _ idxs hidx idx hmem hq
  have hl : idxs = [spatialIdx, primaryIdx] := by
    have h2 : (Except.ok [spatialIdx, primaryIdx] : Except Err (List Index)) = .ok idxs := hidx
    cases h2
    rfl
  subst hl
  simp only [List.mem_cons, List.mem_singleton, List.not_mem_nil, or_false] at hmem
  rcases hmem with rfl | rfl
  · exact absurd hq.1 (by decide)
  · have h3 := hq.2.1
    cases distance <;> simp [noVectorEnv, exampleEnv, primaryIdx] at h3

/-! ## Catalog failures -/

theorem helper_error_of_reached (env : Env) (ctx : Context) (scope : Scope) (e : Err)
    (n : Node) (sortNode : Option Sortable) (t : Table) (s2 : Option Sortable)
    (hreach : Reached env ctx scope n sortNode t s2) :
    ∀ s, s2 = some s → t.isIndexAddressable = true →
      (t.isIndexSearchable && t.SkipIndexCosting) = false →
      (∀ e2, env.getTableAliases s scope ≠ .error e2) →
      env.GetIndexes ctx t = .error e →
      replaceIdxOrderByDistanceHelper env ctx scope n sortNode = .error e := by
  induction hreach with
  | table t sortNode =>
    intro s hs haddr hskip hal hfail
    subst hs
    rw [helper_table, resolvedTableCase_some]
    simp only [haddr, hskip, hfail]
    cases hta : env.getTableAliases s scope with
    | error e2 => exact absurd hta (hal e2)
    | ok al => simp
  | child node sortNode before c after t s2 hsplit hdesc hbefore _ ih =>
    intro s hs haddr hskip hal hfail
    have hc := ih s hs haddr hskip hal hfail
    rw [helper_inner env ctx scope node sortNode
      (children_ne_nil_not_table node before c after hsplit), hsplit]
    rw [visitChildren_error env ctx scope (sortContext node sortNode) c after e before hbefore
      (by unfold childResult; rw [if_pos hdesc, hc])]
    rfl

/-- C3 (catalog failure): when the rule comes to a table under a sort context and makes the
call `GetIndexes` for it (the table is index addressable, does not skip index costing, and
`getTableAliases` succeeded) and the call fails with error `e`, the whole rule returns `e`
with a nil node and `SameTree`, at whatever depth the table is and whatever the turns
before it had rewritten. -/
theorem C3_getIndexes_error (env : Env) (ctx : Context) (scope : Scope) (n : Node)
    (t : Table) (s : Sortable) (e : Err)
    (hreach : Reached env ctx scope n none t (some s))
    (haddr : t.isIndexAddressable = true)
    (hskip : (t.isIndexSearchable && t.SkipIndexCosting) = false)
    (hal : ∀ e2, env.getTableAliases s scope ≠ .error e2)
    (hfail : env.GetIndexes ctx t = .error e) :
    replaceIdxOrderByDistance env ctx n scope = .error e ∧
      goResult (replaceIdxOrderByDistance env ctx n scope) = (none, SameTree, some e) := by
  have h := helper_error_of_reached env ctx scope e n none t (some s) hreach s rfl haddr hskip
    hal hfail
  unfold replaceIdxOrderByDistance
  rw [h]
  exact ⟨rfl, rfl⟩

theorem C3_getIndexes_error_witness :
    replaceIdxOrderByDistanceHelper exampleEnv exampleCtx emptyScope
        (.Sort distFields (.ResolvedTable vectors)) none
      = .ok (.IndexedTableAccess vectors (exampleLookup none), NewTree) ∧
    exampleEnv.GetIndexes exampleCtx brokenTable = .error "catalog unavailable" ∧
    replaceIdxOrderByDistance exampleEnv exampleCtx brokenJoin emptyScope
      = .error "catalog unavailable" := by
  refine ⟨rfl, rfl, (C3_getIndexes_error exampleEnv exampleCtx emptyScope brokenJoin brokenTable
    (.Sort distFields (.ResolvedTable brokenTable)) "catalog unavailable" ?_ rfl rfl ?_ rfl).1⟩
  · refine Reached.child _ _ [.Sort distFields (.ResolvedTable vectors)] _ [] _ _ rfl rfl ?_ ?_
    · intro d hd e he
      simp only [List.mem_singleton] at hd
      subst hd
      cases he
    · refine Reached.child _ _ [] _ [] _ _ rfl rfl (by intro d hd; simp at hd) ?_
      refine Reached.child _ _ [] _ [] _ _ rfl rfl (by intro d hd; simp at hd) ?_
      exact Reached.table _ _
  · intro e2 h
    cases h

/-! ## Tables that are passed over -/

/-- C7 (passed-over tables): at a `ResolvedTable` leaf the helper returns the leaf itself
with `SameTree` and no error when there is no sort context, when the table is not index
addressable, or when it is index searchable and skips index costing; this holds whatever
`GetIndexes` would answer, so the catalog is not consulted. -/
theorem C7_table_passed_over (env : Env) (ctx : Context) (scope : Scope) (t : Table)
    (sortNode : Option Sortable)
    (h : sortNode = none ∨ t.isIndexAddressable = false ∨
      (t.isIndexSearchable = true ∧ t.SkipIndexCosting = true)) :
    ∀ getIndexes : Context → Table → Except Err (List Index),
      replaceIdxOrderByDistanceHelper { env with GetIndexes := getIndexes } ctx scope
        (.ResolvedTable t) sortNode = .ok (.ResolvedTable t, SameTree) := by
  intro getIndexes
  rw [helper_table]
  cases sortNode with
  | none => rfl
  | some s =>
    rw [resolvedTableCase_some]
    rcases h with h | h | h
    · cases h
    · simp [h]
    · simp [h]

theorem C7_table_passed_over_witness :
    skippingTable.isIndexSearchable = true ∧ skippingTable.SkipIndexCosting = true ∧
      replaceIdxOrderByDistanceHelper
          { exampleEnv with GetIndexes := fun _ _ => .error "must not be called" }
          exampleCtx emptyScope (.ResolvedTable skippingTable)
          (some (.Sort distFields (.ResolvedTable skippingTable)))
        = .ok (.ResolvedTable skippingTable, SameTree) :=
  ⟨rfl, rfl, C7_table_passed_over exampleEnv exampleCtx emptyScope skippingTable
    (some (.Sort distFields (.ResolvedTable skippingTable))) (Or.inr (Or.inr ⟨rfl, rfl⟩))
    (fun _ _ => .error "must not be called")⟩

/-! ## Tables that are replaced -/

theorem newStaticIndexedAccess_ok (env : Env) (t : Table) (lookup : IndexLookup) (r : Node)
    (h : NewStaticIndexedAccessForTableNode env t lookup = .ok r) :
    r = .IndexedTableAccess t lookup := by
  unfold NewStaticIndexedAccessForTableNode at h
  split at h
  · cases h
  · cases h; rfl

/-- What is known when the table case returns something else than the table. -/
theorem table_replaced (env : Env) (ctx : Context) (scope : Scope) (t : Table)
    (sortNode : Option Sortable) (r : Node) (same : TreeIdentity)
    (h : replaceIdxOrderByDistanceHelper env ctx scope (.ResolvedTable t) sortNode
      = .ok (r, same))
    (hrep : r ≠ .ResolvedTable t) :
    ∃ s idxs distance column idx,
      sortNode = some s ∧ env.GetIndexes ctx t = .ok idxs ∧
      orderingRequirement env scope s = some (distance, column) ∧
      idxs.find? (qualifies env distance column (env.aliasedExpressionsInNode s)) = some idx ∧
      NewStaticIndexedAccessForTableNode env t (lookupFor idx distance s) = .ok r ∧
      same = NewTree := by
  rw [helper_table] at h
  cases sortNode with
  | none =>
    have h2 : (Except.ok (Node.ResolvedTable t, SameTree) : Except Err (Node × TreeIdentity))
        = .ok (r, same) := h
    cases h2
    exact absurd rfl hrep
  | some s =>
    rw [resolvedTableCase_some] at h
    have hsame : (Except.ok (Node.ResolvedTable t, SameTree) :
        Except Err (Node × TreeIdentity)) = .ok (r, same) → False := by
      intro h2
      cases h2
      exact hrep rfl
    split at h
    · exact (hsame h).elim
    split at h
    · exact (hsame h).elim
    split at h
    · exact (hsame h).elim
    split at h
    · cases h
    · next idxs hidx =>
      split at h
      · exact (hsame h).elim
      · next distance column hreq =>
        split at h
        · exact (hsame h).elim
        · next idx hfind =>
          split at h
          · cases h
          · next nn hnn =>
            cases h
            exact ⟨s, idxs, distance, column, idx, rfl, hidx, hreq, hfind, hnn, rfl⟩

/-- C4 (first qualifying index): when the rule replaces a table, the index of the lookup is
an element of the list returned by `GetIndexes` that is not spatial, supports ordering by
the distance and has the column of the distance as a valid prefix of its expressions, and no
index before it in the list passes the three tests. -/
theorem C4_first_qualifying_index (env : Env) (ctx : Context) (scope : Scope) (t : Table)
    (sortNode : Option Sortable) (r : Node) (same : TreeIdentity)
    (h : replaceIdxOrderByDistanceHelper env ctx scope (.ResolvedTable t) sortNode
      = .ok (r, same))
    (hrep : r ≠ .ResolvedTable t) :
    ∃ s idxs distance column before idx after lookup,
      sortNode = some s ∧ env.GetIndexes ctx t = .ok idxs ∧
      orderingRequirement env scope s = some (distance, column) ∧
      idxs = before ++ idx :: after ∧
      (idx.IsSpatial = false ∧ env.CanSupportOrderBy idx distance = true ∧
        isSortFieldsValidPrefix [column] (env.aliasedExpressionsInNode s) idx.Expressions
          = true) ∧
      (∀ j ∈ before, ¬ (j.IsSpatial = false ∧ env.CanSupportOrderBy j distance = true ∧
        isSortFieldsValidPrefix [column] (env.aliasedExpressionsInNode s) j.Expressions
          = true)) ∧
      r = .IndexedTableAccess t lookup ∧ lookup.Index = idx := by
  obtain ⟨s, idxs, distance, column, idx, hs, hidx, hreq, hfind, hnn, _⟩ :=
    table_replaced env ctx scope t sortNode r same h hrep
  obtain ⟨hq, before, after, hsplit, hbefore⟩ := List.find?_eq_some.1 hfind
  refine ⟨s, idxs, distance, column, before, idx, after, lookupFor idx distance s, hs, hidx,
    hreq, hsplit, (qualifies_eq_true env distance column _ idx).1 hq, ?_,
    newStaticIndexedAccess_ok env t _ r hnn, rfl⟩
  intro j hj hqj
  have h1 := hbefore j hj
  rw [(qualifies_eq_true env distance column _ j).2 hqj] at h1
  cases h1

theorem C4_first_qualifying_index_witness :
    ∃ s idxs distance column before idx after lookup,
      some (Sortable.Sort distFields (.ResolvedTable vectors)) = some s ∧
      exampleEnv.GetIndexes exampleCtx vectors = .ok idxs ∧
      orderingRequirement exampleEnv emptyScope s = some (distance, column) ∧
      idxs = before ++ idx :: after ∧
      (idx.IsSpatial = false ∧ exampleEnv.CanSupportOrderBy idx distance = true ∧
        isSortFieldsValidPrefix [column] (exampleEnv.aliasedExpressionsInNode s)
          idx.Expressions = true) ∧
      (∀ j ∈ before, ¬ (j.IsSpatial = false ∧ exampleEnv.CanSupportOrderBy j distance = true ∧
        isSortFieldsValidPrefix [column] (exampleEnv.aliasedExpressionsInNode s) j.Expressions
          = true)) ∧
      Node.IndexedTableAccess vectors (exampleLookup none)
        = .IndexedTableAccess vectors lookup ∧ lookup.Index = idx :=
  C4_first_qualifying_index exampleEnv exampleCtx emptyScope vectors
    (some (.Sort distFields (.ResolvedTable vectors)))
    (.IndexedTableAccess vectors (exampleLookup none)) NewTree rfl (by intro h; cases h)

/-- C8 (the lookup): when the rule replaces a table, the replacement is the indexed access
built by `NewStaticIndexedAccessForTableNode` over that table, and its lookup has the
chosen index, no ranges, the distance of the sort context as `OrderBy`, and as `Limit` the
limit of the sort context when it is a `TopN` and none when it is a `Sort`. -/
theorem C8_lookup_of_replacement (env : Env) (ctx : Context) (scope : Scope) (t : Table)
    (sortNode : Option Sortable) (r : Node) (same : TreeIdentity)
    (h : replaceIdxOrderByDistanceHelper env ctx scope (.ResolvedTable t) sortNode
      = .ok (r, same))
    (hrep : r ≠ .ResolvedTable t) :
    ∃ s idxs distance column idx lookup,
      sortNode = some s ∧ env.GetIndexes ctx t = .ok idxs ∧
      orderingRequirement env scope s = some (distance, column) ∧
      selectIndex env distance column (env.aliasedExpressionsInNode s) idxs = some idx ∧
      NewStaticIndexedAccessForTableNode env t lookup = .ok r ∧
      r = .IndexedTableAccess t lookup ∧
      lookup.Index = idx ∧ lookup.Ranges = [] ∧
      lookup.VectorOrderAndLimit.OrderBy = distance ∧
      lookup.VectorOrderAndLimit.Limit =
        (match s with
         | .TopN limit _ _ => some limit
         | .Sort _ _ => none) := by
  obtain ⟨s, idxs, distance, column, idx, hs, hidx, hreq, hfind, hnn, _⟩ :=
    table_replaced env ctx scope t sortNode r same h hrep
  refine ⟨s, idxs, distance, column, idx, lookupFor idx distance s, hs, hidx, hreq, ?_, hnn,
    newStaticIndexedAccess_ok env t _ r hnn, rfl, rfl, rfl, ?_⟩
  · rw [selectIndex_eq_find]; exact hfind
  · cases s <;> rfl

theorem C8_lookup_of_replacement_witness :
    ∃ s idxs distance column idx lookup,
      some (Sortable.TopN (.Literal "5") distFields (.ResolvedTable vectors)) = some s ∧
      exampleEnv.GetIndexes exampleCtx vectors = .ok idxs ∧
      orderingRequirement exampleEnv emptyScope s = some (distance, column) ∧
      selectIndex exampleEnv distance column (exampleEnv.aliasedExpressionsInNode s) idxs
        = some idx ∧
      NewStaticIndexedAccessForTableNode exampleEnv vectors lookup
        = .ok (.IndexedTableAccess vectors (exampleLookup (some (.Literal "5")))) ∧
      Node.IndexedTableAccess vectors (exampleLookup (some (.Literal "5")))
        = .IndexedTableAccess vectors lookup ∧
      lookup.Index = idx ∧ lookup.Ranges = [] ∧
      lookup.VectorOrderAndLimit.OrderBy = distance ∧
      lookup.VectorOrderAndLimit.Limit =
        (match s with
         | .TopN limit _ _ => some limit
         | .Sort _ _ => none) :=
  C8_lookup_of_replacement exampleEnv exampleCtx emptyScope vectors
    (some (.TopN (.Literal "5") distFields (.ResolvedTable vectors)))
    (.IndexedTableAccess vectors (exampleLookup (some (.Literal "5")))) NewTree rfl
    (by intro h; cases h)

/-! ## The shape of the sort keys -/

theorem validPrefix_column (column : Expr) (sfAliases : List (String × String))
    (exprs : List String) (h : isSortFieldsValidPrefix [column] sfAliases exprs = true) :
    ∃ tbl nm, column = .GetField tbl nm := by
  cases exprs with
  | nil => simp [isSortFieldsValidPrefix] at h
  | cons c cs =>
    cases column with
    | GetField tbl nm => exact ⟨tbl, nm, rfl⟩
    | _ => simp [isSortFieldsValidPrefix, Expr.columnName] at h

theorem distanceColumn_some (l r column : Expr) (h : distanceColumn l r = some column) :
    (∃ lit, l = .Literal lit ∧ column = r) ∨ (∃ lit, r = .Literal lit ∧ column = l) := by
  cases l with
  | Literal lit =>
    simp only [distanceColumn, Option.some.injEq] at h
    exact Or.inl ⟨lit, rfl, h.symm⟩
  | _ =>
    cases r with
    | Literal lit =>
      simp only [distanceColumn, Option.some.injEq] at h
      exact Or.inr ⟨lit, rfl, h.symm⟩
    | _ => simp [distanceColumn] at h

theorem orderingRequirement_some (env : Env) (scope : Scope) (s : Sortable)
    (distance column : Expr) (h : orderingRequirement env scope s = some (distance, column)) :
    ∃ al l r, env.getTableAliases s scope = .ok al ∧
      env.normalizeExpressions al (ToExpressions s.GetSortFields) = [.Distance l r] ∧
      distance = .Distance l r ∧ distanceColumn l r = some column := by
  unfold orderingRequirement at h
  split at h
  · cases h
  · next al hal =>
    split at h
    · next l r hnorm =>
      split at h
      · next col hcol =>
        cases h
        exact ⟨al, l, r, hal, hnorm, rfl, hcol⟩
      · cases h
    · cases h

theorem shape_of_qualifying (env : Env) (scope : Scope) (s : Sortable)
    (distance column : Expr) (idx : Index)
    (hreq : orderingRequirement env scope s = some (distance, column))
    (hq : qualifies env distance column (env.aliasedExpressionsInNode s) idx = true) :
    ∃ al, env.getTableAliases s scope = .ok al ∧
      distanceShape (env.normalizeExpressions al (ToExpressions s.GetSortFields)) := by
  obtain ⟨al, l, r, hal, hnorm, _, hcol⟩ := orderingRequirement_some env scope s _ _ hreq
  obtain ⟨tbl, nm, hgf⟩ := validPrefix_column column _ _
    ((qualifies_eq_true env distance column _ idx).1 hq).2.2
  refine ⟨al, hal, ?_⟩
  rw [hnorm]
  rcases distanceColumn_some l r column hcol with ⟨lit, hl, hc⟩ | ⟨lit, hr, hc⟩
  · exact ⟨lit, tbl, nm, Or.inl (by rw [hl, ← hc, hgf])⟩
  · exact ⟨lit, tbl, nm, Or.inr (by rw [hr, ← hc, hgf])⟩

/-- C5, as stated, fails: with a sort key that is not a distance, a table whose
`GetIndexes` call fails is not returned unchanged without error; the rule returns the
error of the catalog, which it consults before it looks at the sort keys. -/
theorem C5_counterexample :
    exampleEnv.normalizeExpressions [] (ToExpressions idFields) = [.GetField "vectors" "id"] ∧
      replaceIdxOrderByDistanceHelper exampleEnv exampleCtx emptyScope
          (.ResolvedTable brokenTable) (some (.Sort idFields (.ResolvedTable brokenTable)))
        ≠ .ok (.ResolvedTable brokenTable, SameTree) ∧
      replaceIdxOrderByDistanceHelper exampleEnv exampleCtx emptyScope
          (.ResolvedTable brokenTable) (some (.Sort idFields (.ResolvedTable brokenTable)))
        = .error "catalog unavailable" := by
  refine ⟨rfl, ?_, rfl⟩
  intro h
  have h2 : (Except.error "catalog unavailable" : Except Err (Node × TreeIdentity))
      = .ok (.ResolvedTable brokenTable, SameTree) := h
  cases h2

/-- C5, amended: the rule replaces a table only when the normalized sort keys of the sort
context are a single distance with a literal on one side and a plain column reference on
the other; for every other shape of the sort keys the table is returned unchanged with
`SameTree` and no error, provided the call `GetIndexes`, which is made before the sort
keys are looked at, does not fail. -/
theorem C5_sort_key_shape (env : Env) (ctx : Context) (scope : Scope) (t : Table)
    (sortNode : Option Sortable) :
    (∀ r same, replaceIdxOrderByDistanceHelper env ctx scope (.ResolvedTable t) sortNode
        = .ok (r, same) → r ≠ .ResolvedTable t →
      ∃ s al, sortNode = some s ∧ env.getTableAliases s scope = .ok al ∧
        distanceShape (env.normalizeExpressions al (ToExpressions s.GetSortFields))) ∧
    (∀ s al, sortNode = some s → env.getTableAliases s scope = .ok al →
      (∀ e, env.GetIndexes ctx t ≠ .error e) →
      ¬ distanceShape (env.normalizeExpressions al (ToExpressions s.GetSortFields)) →
      replaceIdxOrderByDistanceHelper env ctx scope (.ResolvedTable t) sortNode
        = .ok (.ResolvedTable t, SameTree)) := by
  constructor
  · intro r same h hrep
    obtain ⟨s, idxs, distance, column, idx, hs, _, hreq, hfind, _, _⟩ :=
      table_replaced env ctx scope t sortNode r same h hrep
    obtain ⟨al, hal, hshape⟩ := shape_of_qualifying env scope s distance column idx hreq
      (List.find?_some hfind)
    exact ⟨s, al, hs, hal, hshape⟩
  · intro s al hs hal hget hshape
    subst hs
    rw [helper_table, resolvedTableCase_some]
    split
    · rfl
    split
    · rfl
    split
    · rfl
    split
    · next err hidx => exact absurd hidx (hget err)
    · next idxs hidx =>
      split
      · rfl
      · next distance column hreq =>
        split
        · rfl
        · next idx hfind =>
          obtain ⟨al2, hal2, hshape2⟩ := shape_of_qualifying env scope s distance column idx
            hreq (List.find?_some hfind)
          rw [hal] at hal2
          cases hal2
          exact absurd hshape2 hshape

theorem C5_sort_key_shape_witness :
    (¬ distanceShape (exampleEnv.normalizeExpressions [] (ToExpressions idFields))) ∧
      replaceIdxOrderByDistanceHelper exampleEnv exampleCtx emptyScope (.ResolvedTable vectors)
          (some (.Sort idFields (.ResolvedTable vectors)))
        = .ok (.ResolvedTable vectors, SameTree) ∧
      distanceShape (exampleEnv.normalizeExpressions [] (ToExpressions distFields)) := by
  have hbad : ¬ distanceShape (exampleEnv.normalizeExpressions [] (ToExpressions idFields)) := by
    rintro ⟨lit, tbl, nm, h | h⟩ <;> cases h
  have hthm := C5_sort_key_shape exampleEnv exampleCtx emptyScope vectors
  refine ⟨hbad, ?_, ?_⟩
  · refine (hthm (some (.Sort idFields (.ResolvedTable vectors)))).2 _ [] rfl rfl ?_ hbad
    intro e h
    cases h
  · obtain ⟨s, al, hs, hal, hshape⟩ :=
      (hthm (some (.Sort distFields (.ResolvedTable vectors)))).1
        (.IndexedTableAccess vectors (exampleLookup none)) NewTree rfl (by intro h; cases h)
    cases hs
    have hal2 : (Except.ok [] : Except Err TableAliases) = .ok al := hal
    cases hal2
    exact hshape

/-! ## Sort nodes above a replaced table -/

/-- Every sortable node is its own sort context at line 127: when its child is of a
descended type and reports `NewTree`, the node is dropped and the rewritten child is
returned in its place, whatever sort context the node itself was reached with. -/
theorem sortable_dropped (env : Env) (ctx : Context) (scope : Scope) (sf : List SortField)
    (c r : Node) (sortNode : Option Sortable) (hd : c.isDescended = true)
    (h : replaceIdxOrderByDistanceHelper env ctx scope c (some (.Sort sf c)) = .ok (r, NewTree)) :
    replaceIdxOrderByDistanceHelper env ctx scope (.Sort sf c) sortNode = .ok (r, NewTree) := by
  rw [helper_inner env ctx scope (.Sort sf c) sortNode (by intro t ht; cases ht)]
  have hctx : sortContext (.Sort sf c) sortNode = some (.Sort sf c) := rfl
  rw [hctx]
  simp only [Node.Children]
  rw [visitChildren_cons, visitChildren_nil]
  unfold childResult
  rw [if_pos hd, h]
  simp only [loopStep, finish]
  have hself : isSortNode (.Sort sf c) (some (.Sort sf c)) = true :=
    isSortNode_self (.Sort sf c)
  rw [hself]
  rfl

/-- C2, evaluated: on `Sort(id) (Filter (Sort(distance) (vectors)))` the rule removes both
`Sort` nodes, the outer one with its own ordering included, and returns
`Filter (IndexedTableAccess vectors)`; C2 keeps the outer `Sort`. -/
theorem C2_outer_sort_dropped :
    replaceIdxOrderByDistance exampleEnv exampleCtx nestedSorts emptyScope
        = .ok (.Filter (.Other "cond") (.IndexedTableAccess vectors (exampleLookup none)),
            NewTree) ∧
      replaceIdxOrderByDistance exampleEnv exampleCtx nestedSorts emptyScope
        ≠ .ok (.Sort idFields
            (.Filter (.Other "cond") (.IndexedTableAccess vectors (exampleLookup none))),
            NewTree) := by
  refine ⟨rfl, ?_⟩
  intro h
  have h2 : (Except.ok (Node.Filter (.Other "cond")
      (.IndexedTableAccess vectors (exampleLookup none)), NewTree) :
        Except Err (Node × TreeIdentity))
      = .ok (.Sort idFields
          (.Filter (.Other "cond") (.IndexedTableAccess vectors (exampleLookup none))),
          NewTree) := h
  cases h2

/-! ## A `TopN` over a table -/

theorem over_isDescended (a : Ancestor) (child : Node) : (a.over child).isDescended = true := by
  cases a <;> rfl

/-- The helper on a node with one child that it descends into returns the node itself with
`SameTree` when the turn of the loop for the child does. -/
theorem over_same (env : Env) (ctx : Context) (scope : Scope) (a : Ancestor) (child : Node)
    (sortNode : Option Sortable)
    (h : childResult child (replaceIdxOrderByDistanceHelper env ctx scope child
      (sortContext (a.over child) sortNode)) = .ok (child, SameTree)) :
    replaceIdxOrderByDistanceHelper env ctx scope (a.over child) sortNode
      = .ok (a.over child, SameTree) := by
  rw [helper_inner env ctx scope (a.over child) sortNode (by intro t ht; cases a <;> cases ht)]
  have hch : (a.over child).Children = [child] := by cases a <;> rfl
  rw [hch, visitChildren_cons, visitChildren_nil, h]
  rfl

/-- A `TopN` below one or more ancestors of descended types is never visited: the helper
returns the tree itself with `SameTree`, whatever is below the `TopN` and whatever the
catalog answers. -/
theorem topN_below_ancestors (env : Env) (ctx : Context) (scope : Scope) (limit : Expr)
    (sf : List SortField) (c : Node) :
    ∀ (others : List Ancestor) (a : Ancestor) (sortNode : Option Sortable),
      replaceIdxOrderByDistanceHelper env ctx scope
          (underAncestors (a :: others) (.TopN limit sf c)) sortNode
        = .ok (underAncestors (a :: others) (.TopN limit sf c), SameTree) := by
  intro others
  induction others with
  | nil =>
    intro a sortNode
    exact over_same env ctx scope a (.TopN limit sf c) sortNode rfl
  | cons b rest ih =>
    intro a sortNode
    refine over_same env ctx scope a (underAncestors (b :: rest) (.TopN limit sf c)) sortNode ?_
    unfold childResult
    rw [if_pos (show (underAncestors (b :: rest) (Node.TopN limit sf c)).isDescended = true
      from over_isDescended b _)]
    exact ih b _

/-- C9, as stated, fails: in `Project (TopN (vectors))` the `TopN` has a single distance
sort key, the table has the qualifying index `v_idx` and the only ancestor is a `Project`,
a type the rule descends into; the rule returns the tree itself with `SameTree` and not
the projection over the indexed access, because `TopN` is not one of the child types of
line 111.  The same `TopN` as the root, and a `Sort` in its place, are rewritten. -/
theorem C9_counterexample :
    orderingRequirement exampleEnv emptyScope
        (.TopN (.Literal "5") distFields (.ResolvedTable vectors))
        = some (distExpr, .GetField "vectors" "v") ∧
      selectIndex exampleEnv distExpr (.GetField "vectors" "v") []
        [spatialIdx, primaryIdx, vIdx, vIdx2] = some vIdx ∧
      projectedTopN.isDescended = true ∧
      replaceIdxOrderByDistance exampleEnv exampleCtx projectedTopN emptyScope
        = .ok (projectedTopN, SameTree) ∧
      replaceIdxOrderByDistance exampleEnv exampleCtx projectedTopN emptyScope
        ≠ .ok (.Project [] (.IndexedTableAccess vectors (exampleLookup (some (.Literal "5")))),
            NewTree) ∧
      replaceIdxOrderByDistance exampleEnv exampleCtx
        (.TopN (.Literal "5") distFields (.ResolvedTable vectors)) emptyScope
        = .ok (.IndexedTableAccess vectors (exampleLookup (some (.Literal "5"))), NewTree) ∧
      replaceIdxOrderByDistance exampleEnv exampleCtx
        (.Project [] (.Sort distFields (.ResolvedTable vectors))) emptyScope
        = .ok (.Project [] (.IndexedTableAccess vectors (exampleLookup none)), NewTree) := by
  refine ⟨rfl, rfl, rfl, rfl, ?_, rfl, rfl⟩
  intro h
  have h2 : (Except.ok (projectedTopN, SameTree) : Except Err (Node × TreeIdentity))
      = .ok (.Project [] (.IndexedTableAccess vectors (exampleLookup (some (.Literal "5")))),
          NewTree) := h
  cases h2

/-- C9, amended: a `TopN` directly over a table scan is rewritten like a `Sort` only when it
is the root of the tree given to the rule.  When the table has index metadata and does not
opt out of index costing, `GetIndexes` succeeds, the sort keys of the `TopN` are a single
qualifying distance, an index qualifies and the constructor of the indexed access does not
fail, the rule on the `TopN` over the table returns `NewTree` with the indexed access over
the table, whose lookup has the chosen index, no ranges, the distance and the limit of the
`TopN`.  When the same `TopN` has one or more ancestors, each of a type the rule descends
into, the rule returns the tree unchanged with `SameTree`: `TopN` is not among the child
types of line 111, so the search stops above it. -/
theorem C9_topN_rewritten_at_root_only (env : Env) (ctx : Context) (scope : Scope)
    (t : Table) (limit : Expr) (sf : List SortField) (idxs : List Index)
    (distance column : Expr) (idx : Index)
    (haddr : t.isIndexAddressable = true)
    (hskip : (t.isIndexSearchable && t.SkipIndexCosting) = false)
    (hidx : env.GetIndexes ctx t = .ok idxs)
    (hreq : orderingRequirement env scope (.TopN limit sf (.ResolvedTable t))
      = some (distance, column))
    (hsel : selectIndex env distance column
      (env.aliasedExpressionsInNode (.TopN limit sf (.ResolvedTable t))) idxs = some idx)
    (hnew : env.staticAccessError t
      { Index := idx, Ranges := [],
        VectorOrderAndLimit := { OrderBy := distance, Limit := some limit } } = none) :
    replaceIdxOrderByDistance env ctx (.TopN limit sf (.ResolvedTable t)) scope
        = .ok (.IndexedTableAccess t
            { Index := idx, Ranges := [],
              VectorOrderAndLimit := { OrderBy := distance, Limit := some limit } },
            NewTree) ∧
      ∀ (a : Ancestor) (others : List Ancestor),
        replaceIdxOrderByDistance env ctx
            (underAncestors (a :: others) (.TopN limit sf (.ResolvedTable t))) scope
          = .ok (underAncestors (a :: others) (.TopN limit sf (.ResolvedTable t)),
              SameTree) := by
  refine ⟨?_, fun a others => topN_below_ancestors env ctx scope limit sf _ others a none⟩
  have htable : replaceIdxOrderByDistanceHelper env ctx scope (.ResolvedTable t)
      (some (.TopN limit sf (.ResolvedTable t)))
      = .ok (.IndexedTableAccess t
          { Index := idx, Ranges := [],
            VectorOrderAndLimit := { OrderBy := distance, Limit := some limit } },
          NewTree) := by
    rw [helper_table, resolvedTableCase_some, if_neg (by simp [haddr]),
      if_neg (by simp [hskip])]
    have hal : ∃ al, env.getTableAliases (.TopN limit sf (.ResolvedTable t)) scope = .ok al := by
      unfold orderingRequirement at hreq
      cases hg : env.getTableAliases (.TopN limit sf (.ResolvedTable t)) scope with
      | error e => rw [hg] at hreq; cases hreq
      | ok al => exact ⟨al, rfl⟩
    obtain ⟨al, hal⟩ := hal
    rw [selectIndex_eq_find] at hsel
    simp only [hal, hidx, hreq, hsel, lookupFor, sortLimit, NewStaticIndexedAccessForTableNode,
      hnew]
  unfold replaceIdxOrderByDistance
  rw [helper_inner env ctx scope _ none (by intro u hu; cases hu)]
  have hctx : sortContext (.TopN limit sf (.ResolvedTable t)) none
      = some (.TopN limit sf (.ResolvedTable t)) := rfl
  rw [hctx]
  simp only [Node.Children]
  rw [visitChildren_cons, visitChildren_nil]
  unfold childResult
  rw [if_pos (show (Node.ResolvedTable t).isDescended = true from rfl), htable]
  simp only [loopStep, finish]
  have hself : isSortNode (.TopN limit sf (.ResolvedTable t))
      (some (.TopN limit sf (.ResolvedTable t))) = true :=
    isSortNode_self (.TopN limit sf (.ResolvedTable t))
  rw [hself]
  rfl

theorem C9_topN_rewritten_at_root_only_witness :
    replaceIdxOrderByDistance exampleEnv exampleCtx
        (.TopN (.Literal "10") distFields (.ResolvedTable vectors)) emptyScope
        = .ok (.IndexedTableAccess vectors (exampleLookup (some (.Literal "10"))), NewTree) ∧
      ∀ (a : Ancestor) (others : List Ancestor),
        replaceIdxOrderByDistance exampleEnv exampleCtx
            (underAncestors (a :: others)
              (.TopN (.Literal "10") distFields (.ResolvedTable vectors))) emptyScope
          = .ok (underAncestors (a :: others)
              (.TopN (.Literal "10") distFields (.ResolvedTable vectors)), SameTree) :=
  C9_topN_rewritten_at_root_only exampleEnv exampleCtx emptyScope vectors (.Literal "10")
    distFields [spatialIdx, primaryIdx, vIdx, vIdx2] distExpr (.GetField "vectors" "v") vIdx
    rfl rfl rfl rfl rfl rfl

/-! ## Children the rule does not descend into -/

theorem visitChildren_keeps (env : Env) (ctx : Context) (scope : Scope)
    (sortNode : Option Sortable) :
    ∀ (cs newChildren : List Node) (allSame : TreeIdentity),
      visitChildren env ctx scope cs sortNode = .ok (newChildren, allSame) →
      ∀ (i : Nat) (c : Node), cs[i]? = some c → c.isDescended = false →
        newChildren[i]? = some c := by
  intro cs
  induction cs with
  | nil => intro _ _ _ i c hc; simp at hc
  | cons d others ih =>
    intro newChildren allSame h i c hc hnd
    rw [visitChildren_cons] at h
    unfold loopStep at h
    split at h
    · cases h
    · next newChild same hfirst =>
      split at h
      · cases h
      · next rest restSame hrest =>
        cases h
        cases i with
        | zero =>
          simp only [List.getElem?_cons_zero, Option.some.injEq] at hc
          subst hc
          unfold childResult at hfirst
          rw [if_neg (by simp [hnd])] at hfirst
          cases hfirst
          simp
        | succ j =>
          simp only [List.getElem?_cons_succ] at hc
          simp only [List.getElem?_cons_succ]
          exact ih rest restSame hrest j c hc hnd

theorem withChildren_children (n : Node) (cs : List Node) (r : Node)
    (h : n.WithChildren cs = .ok r) : r.Children = cs := by
  cases n <;> rcases cs with _ | ⟨c, _ | ⟨c2, cs⟩⟩ <;>
    simp only [Node.WithChildren] at h <;>
    first
      | (cases h; done)
      | (cases h; rfl)
      | (split at h <;> cases h; rfl)

theorem sortNode_children (node : Node) (sortNode : Option Sortable)
    (h : isSortNode node sortNode = true) : ∃ c, node.Children = [c] := by
  cases hs : node.asSortable with
  | none => rw [isSortNode_of_asSortable_none node sortNode hs] at h; cases h
  | some s =>
    cases node <;> first
      | (simp [Node.asSortable] at hs; done)
      | exact ⟨_, rfl⟩

theorem sortNode_count (node : Node) (sortNode : Option Sortable)
    (h : isSortNode node sortNode = true) :
    node.indexedAccesses = Node.indexedAccessesList node.Children := by
  cases hs : node.asSortable with
  | none => rw [isSortNode_of_asSortable_none node sortNode hs] at h; cases h
  | some s =>
    cases node <;> first
      | (simp [Node.asSortable] at hs; done)
      | simp [Node.indexedAccesses, Node.indexedAccessesList, Node.Children]

theorem visitChildren_length (env : Env) (ctx : Context) (scope : Scope)
    (sortNode : Option Sortable) :
    ∀ (cs newChildren : List Node) (allSame : TreeIdentity),
      visitChildren env ctx scope cs sortNode = .ok (newChildren, allSame) →
      newChildren.length = cs.length := by
  intro cs
  induction cs with
  | nil =>
    intro _ _ h
    rw [visitChildren_nil] at h
    cases h
    rfl
  | cons d others ih =>
    intro newChildren allSame h
    rw [visitChildren_cons] at h
    unfold loopStep at h
    split at h
    · cases h
    · split at h
      · cases h
      · next rest restSame hrest =>
        cases h
        simp [ih rest restSame hrest]

/-- C6 (children that are not descended into): a child whose type is not one of `Project`,
`TableAlias`, `ResolvedTable`, `Filter`, `Limit`, `Offset`, `Sort` and
`IndexedTableAccess` contributes itself with `SameTree` to the loop, and is the child at
the same position of whatever node the helper returns. -/
theorem C6_other_children_kept (env : Env) (ctx : Context) (scope : Scope) (node : Node)
    (sortNode : Option Sortable) (r : Node) (same : TreeIdentity)
    (h : replaceIdxOrderByDistanceHelper env ctx scope node sortNode = .ok (r, same))
    (i : Nat) (c : Node) (hc : node.Children[i]? = some c) (hnd : c.isDescended = false) :
    childResult c (replaceIdxOrderByDistanceHelper env ctx scope c (sortContext node sortNode))
        = .ok (c, SameTree) ∧
      r.Children[i]? = some c := by
  refine ⟨by unfold childResult; rw [if_neg (by simp [hnd])], ?_⟩
  have hnt : ∀ t, node ≠ .ResolvedTable t := by
    intro t ht
    subst ht
    simp [Node.Children] at hc
  rw [helper_inner env ctx scope node sortNode hnt] at h
  cases hv : visitChildren env ctx scope node.Children (sortContext node sortNode) with
  | error e => rw [hv] at h; cases h
  | ok p =>
    obtain ⟨newChildren, allSame⟩ := p
    have hkeep := visitChildren_keeps env ctx scope _ _ _ _ hv i c hc hnd
    rw [hv] at h
    unfold finish at h
    simp only at h
    split at h
    · cases h; exact hc
    · next hns =>
      split at h
      · next hsn =>
        obtain ⟨c0, hc0⟩ := sortNode_children node _ hsn
        rw [hc0] at hc hv
        have hi : c0 = c := by
          cases i with
          | zero => simpa using hc
          | succ j => simp at hc
        subst hi
        rw [visitChildren_cons, visitChildren_nil] at hv
        unfold childResult at hv
        rw [if_neg (by simp [hnd])] at hv
        cases hv
        exact absurd rfl hns
      · split at h
        · cases h
        · next newNode hw =>
          cases h
          rw [withChildren_children node newChildren _ hw]
          exact hkeep

theorem C6_other_children_kept_witness :
    (Node.TopN (.Literal "5") distFields (.ResolvedTable vectors)).isDescended = false ∧
      (Node.Other "Join"
        [.Sort distFields (.ResolvedTable vectors),
          .IndexedTableAccess vectors (exampleLookup none)]).Children[1]?
        = some (.IndexedTableAccess vectors (exampleLookup none)) ∧
      (Node.Other "Join"
        [.IndexedTableAccess vectors (exampleLookup none),
          .TopN (.Literal "5") distFields (.ResolvedTable vectors)]).Children[1]?
        = some (.TopN (.Literal "5") distFields (.ResolvedTable vectors)) :=
  ⟨rfl, rfl, (C6_other_children_kept exampleEnv exampleCtx emptyScope
    (.Other "Join" [.Sort distFields (.ResolvedTable vectors),
      .TopN (.Literal "5") distFields (.ResolvedTable vectors)]) none
    (.Other "Join" [.IndexedTableAccess vectors (exampleLookup none),
      .TopN (.Literal "5") distFields (.ResolvedTable vectors)]) NewTree rfl 1
    (.TopN (.Literal "5") distFields (.ResolvedTable vectors)) rfl rfl).2⟩

/-! ## Tree identity -/

theorem indexedAccessesList_cons (c : Node) (cs : List Node) :
    Node.indexedAccessesList (c :: cs) = c.indexedAccesses + Node.indexedAccessesList cs := by
  simp only [Node.indexedAccessesList]

theorem withChildren_count (n : Node) (cs : List Node) (r : Node)
    (h : n.WithChildren cs = .ok r) :
    r.indexedAccesses + Node.indexedAccessesList n.Children
      = n.indexedAccesses + Node.indexedAccessesList cs := by
  cases n <;> rcases cs with _ | ⟨c, _ | ⟨c2, cs⟩⟩ <;>
    simp only [Node.WithChildren] at h <;>
    first
      | (cases h; done)
      | (cases h; rfl)
      | (cases h; simp only [Node.indexedAccesses, Node.indexedAccessesList, Node.Children];
          omega)
      | (split at h <;> cases h;
          simp only [Node.indexedAccesses, Node.indexedAccessesList, Node.Children]; omega)

theorem finish_ok (node : Node) (sortNode : Option Sortable) (newChildren : List Node)
    (allSame : TreeIdentity) (r : Node) (same : TreeIdentity)
    (h : finish node sortNode (.ok (newChildren, allSame)) = .ok (r, same)) :
    same = allSame ∧ (allSame = true → r = node) ∧
      (allSame = false →
        (isSortNode node sortNode = true ∧ ∃ others, newChildren = r :: others) ∨
        (isSortNode node sortNode = false ∧ node.WithChildren newChildren = .ok r)) := by
  unfold finish at h
  simp only at h
  split at h
  · next hs =>
    cases h
    exact ⟨hs.symm, fun _ => rfl, fun hf => (by rw [hs] at hf; cases hf)⟩
  · next hs =>
    have hfalse : allSame = false := by simpa using hs
    split at h
    · next hsn =>
      split at h
      · next first others =>
        cases h
        exact ⟨hfalse.symm, fun ht => (by rw [hfalse] at ht; cases ht),
          fun _ => Or.inl ⟨hsn, others, rfl⟩⟩
      · cases h
    · next hsn =>
      split at h
      · cases h
      · next newNode hw =>
        cases h
        exact ⟨hfalse.symm, fun ht => (by rw [hfalse] at ht; cases ht),
          fun _ => Or.inr ⟨by simpa using hsn, hw⟩⟩

/-- What the loop over the children returns, when every child obeys the identity rule. -/
theorem visitChildren_identity (env : Env) (ctx : Context) (scope : Scope)
    (sortNode : Option Sortable) :
    ∀ (cs : List Node),
      (∀ c ∈ cs, ∀ r same, replaceIdxOrderByDistanceHelper env ctx scope c sortNode
          = .ok (r, same) →
        (same = true → r = c) ∧ (same = false → c.indexedAccesses < r.indexedAccesses)) →
      ∀ (newChildren : List Node) (allSame : TreeIdentity),
        visitChildren env ctx scope cs sortNode = .ok (newChildren, allSame) →
        (allSame = true → newChildren = cs) ∧
        (allSame = false →
          Node.indexedAccessesList cs < Node.indexedAccessesList newChildren) ∧
        Node.indexedAccessesList cs ≤ Node.indexedAccessesList newChildren ∧
        (allSame = false ↔ ∃ c ∈ cs, c.isDescended = true ∧
          ∃ r2, replaceIdxOrderByDistanceHelper env ctx scope c sortNode = .ok (r2, NewTree)) := by
  intro cs
  induction cs with
  | nil =>
    intro _ newChildren allSame h
    rw [visitChildren_nil] at h
    cases h
    simp
  | cons d others ih =>
    intro hQ newChildren allSame h
    rw [visitChildren_cons] at h
    unfold loopStep at h
    split at h
    · cases h
    · next newChild same hfirst =>
      split at h
      · cases h
      · next rest restSame hrest =>
        cases h
        obtain ⟨ih1, ih2, ih3, ih4⟩ :=
          ih (fun c hc => hQ c (List.mem_cons_of_mem _ hc)) rest restSame hrest
        have hd : (same = true → newChild = d) ∧
            (same = false → d.indexedAccesses < newChild.indexedAccesses) ∧
            (same = false ↔ (d.isDescended = true ∧
              ∃ r2, replaceIdxOrderByDistanceHelper env ctx scope d sortNode
                = .ok (r2, NewTree))) := by
          unfold childResult at hfirst
          split at hfirst
          · next hdesc =>
            obtain ⟨q1, q2⟩ := hQ d (List.mem_cons_self _ _) newChild same hfirst
            refine ⟨q1, q2, ?_⟩
            constructor
            · intro hs
              subst hs
              exact ⟨hdesc, newChild, hfirst⟩
            · rintro ⟨_, r2, hr2⟩
              rw [hfirst] at hr2
              cases hr2
              rfl
          · next hdesc =>
            cases hfirst
            refine ⟨fun _ => rfl, fun hf => (by cases hf), ?_⟩
            constructor
            · intro hf; cases hf
            · rintro ⟨hd1, _⟩
              exact absurd hd1 hdesc
        obtain ⟨hd1, hd2, hd3⟩ := hd
        have hdle : d.indexedAccesses ≤ newChild.indexedAccesses := by
          cases same with
          | true => rw [hd1 rfl]
          | false => exact Nat.le_of_lt (hd2 rfl)
        refine ⟨?_, ?_, ?_, ?_⟩
        · intro hall
          have hboth : same = true ∧ restSame = true := by simpa using hall
          rw [hd1 hboth.1, ih1 hboth.2]
        · intro hall
          rw [indexedAccessesList_cons, indexedAccessesList_cons]
          cases same with
          | false =>
            have := hd2 rfl
            omega
          | true =>
            have hr : restSame = false := by simpa using hall
            have := ih2 hr
            omega
        · rw [indexedAccessesList_cons, indexedAccessesList_cons]
          omega
        · constructor
          · intro hall
            cases same with
            | false =>
              obtain ⟨h1, h2⟩ := hd3.1 rfl
              exact ⟨d, List.mem_cons_self _ _, h1, h2⟩
            | true =>
              have hr : restSame = false := by simpa using hall
              obtain ⟨c, hc, h1, h2⟩ := ih4.1 hr
              exact ⟨c, List.mem_cons_of_mem _ hc, h1, h2⟩
          · rintro ⟨c, hc, h1, h2⟩
            rcases List.mem_cons.1 hc with rfl | hc
            · rw [hd3.2 ⟨h1, h2⟩]
              rfl
            · rw [ih4.2 ⟨c, hc, h1, h2⟩]
              simp

/-- The identity rule: with `SameTree` the helper returns its node, with `NewTree` a tree
with more indexed accesses. -/
theorem helper_identity (env : Env) (ctx : Context) (scope : Scope) :
    ∀ (n : Node) (sortNode : Option Sortable) (r : Node) (same : TreeIdentity),
      replaceIdxOrderByDistanceHelper env ctx scope n sortNode = .ok (r, same) →
      (same = true → r = n) ∧ (same = false → n.indexedAccesses < r.indexedAccesses) := by
  intro n
  induction n using Node.induct with
  | h n ih =>
    intro sortNode r same h
    by_cases htab : ∃ t, n = .ResolvedTable t
    · obtain ⟨t, rfl⟩ := htab
      by_cases hr : r = .ResolvedTable t
      · subst hr
        refine ⟨fun _ => rfl, ?_⟩
        intro hs
        by_contra _
        rw [helper_table] at h
        cases sortNode with
        | none =>
          have h2 : (Except.ok (Node.ResolvedTable t, SameTree) :
              Except Err (Node × TreeIdentity)) = .ok (.ResolvedTable t, same) := h
          cases h2
          cases hs
        | some s =>
          rw [resolvedTableCase_some] at h
          subst hs
          repeat' split at h
          all_goals first
            | (cases h; done)
            | (rename_i nn hnn
               have := newStaticIndexedAccess_ok env t _ nn hnn
               cases h
               cases this)
      · obtain ⟨s, idxs, distance, column, idx, _, _, _, _, hnn, hsame⟩ :=
          table_replaced env ctx scope t sortNode r same h hr
        rw [newStaticIndexedAccess_ok env t _ r hnn, hsame]
        refine ⟨fun hf => (by cases hf), fun _ => ?_⟩
        simp [Node.indexedAccesses]
    · have hnt : ∀ t, n ≠ .ResolvedTable t := fun t ht => htab ⟨t, ht⟩
      rw [helper_inner env ctx scope n sortNode hnt] at h
      cases hv : visitChildren env ctx scope n.Children (sortContext n sortNode) with
      | error e => rw [hv] at h; cases h
      | ok p =>
        obtain ⟨newChildren, allSame⟩ := p
        rw [hv] at h
        obtain ⟨v1, v2, _, _⟩ := visitChildren_identity env ctx scope (sortContext n sortNode)
          n.Children (fun c hc => ih c hc (sortContext n sortNode)) newChildren allSame hv
        obtain ⟨f1, f2, f3⟩ := finish_ok n _ newChildren allSame r same h
        subst f1
        refine ⟨f2, ?_⟩
        intro hs
        have hlt := v2 hs
        rcases f3 hs with ⟨hsn, others, hnc⟩ | ⟨_, hw⟩
        · obtain ⟨c0, hc0⟩ := sortNode_children n _ hsn
          have hcount := sortNode_count n _ hsn
          have hlen := visitChildren_length env ctx scope _ _ _ _ hv
          rw [hc0, hnc] at hlen
          have hnil : others = [] := by
            cases others with
            | nil => rfl
            | cons x xs => simp at hlen
          subst hnil
          subst hnc
          rw [indexedAccessesList_cons] at hlt
          simp only [Node.indexedAccessesList] at hlt
          omega
        · have hcount := withChildren_count n newChildren r hw
          omega

/-- C10 (tree identity of the helper): when the helper succeeds, it reports `NewTree` exactly
when the returned tree has more indexed accesses than the node it was given, that is
exactly when the node is a table that was replaced by an indexed access or one of its
descended children reported `NewTree`; and it reports `SameTree` exactly when the returned
node is the node it was given. -/
theorem C10_tree_identity (env : Env) (ctx : Context) (scope : Scope) (node : Node)
    (sortNode : Option Sortable) (r : Node) (same : TreeIdentity)
    (h : replaceIdxOrderByDistanceHelper env ctx scope node sortNode = .ok (r, same)) :
    (same = NewTree ↔ node.indexedAccesses < r.indexedAccesses) ∧
    (same = NewTree ↔
      ((∃ t lookup, node = .ResolvedTable t ∧ r = .IndexedTableAccess t lookup) ∨
        ∃ c ∈ node.Children, c.isDescended = true ∧
          ∃ r2, replaceIdxOrderByDistanceHelper env ctx scope c (sortContext node sortNode)
            = .ok (r2, NewTree))) ∧
    (same = SameTree ↔ r = node) := by
  obtain ⟨q1, q2⟩ := helper_identity env ctx scope node sortNode r same h
  have hsame : same = true ↔ r = node := by
    constructor
    · exact q1
    · intro hr
      cases hs : same with
      | true => rfl
      | false =>
        have := q2 hs
        rw [hr] at this
        exact absurd this (Nat.lt_irrefl _)
  refine ⟨?_, ?_, hsame⟩
  · constructor
    · exact q2
    · intro hlt
      cases hs : same with
      | false => rfl
      | true =>
        rw [q1 hs] at hlt
        exact absurd hlt (Nat.lt_irrefl _)
  · by_cases htab : ∃ t, node = .ResolvedTable t
    · obtain ⟨t, rfl⟩ := htab
      constructor
      · intro hs
        have hr : r ≠ .ResolvedTable t := by
          intro hr
          rw [hsame.2 hr] at hs
          cases hs
        obtain ⟨s, idxs, distance, column, idx, _, _, _, _, hnn, _⟩ :=
          table_replaced env ctx scope t sortNode r same h hr
        exact Or.inl ⟨t, _, rfl, newStaticIndexedAccess_ok env t _ r hnn⟩
      · rintro (⟨t2, lookup, _, hr⟩ | ⟨c, hc, _⟩)
        · cases hs : same with
          | false => rfl
          | true =>
            rw [q1 hs] at hr
            cases hr
        · simp [Node.Children] at hc
    · have hnt : ∀ t, node ≠ .ResolvedTable t := fun t ht => htab ⟨t, ht⟩
      rw [helper_inner env ctx scope node sortNode hnt] at h
      cases hv : visitChildren env ctx scope node.Children (sortContext node sortNode) with
      | error e => rw [hv] at h; cases h
      | ok p =>
        obtain ⟨newChildren, allSame⟩ := p
        rw [hv] at h
        obtain ⟨_, _, _, v4⟩ := visitChildren_identity env ctx scope
          (sortContext node sortNode) node.Children
          (fun c _ => helper_identity env ctx scope c (sortContext node sortNode))
          newChildren allSame hv
        obtain ⟨f1, _, _⟩ := finish_ok node _ newChildren allSame r same h
        subst f1
        constructor
        · intro hs
          exact Or.inr (v4.1 hs)
        · rintro (⟨t, _, ht, _⟩ | hex)
          · exact absurd ht (hnt t)
          · exact v4.2 hex

theorem C10_tree_identity_witness :
    (NewTree = NewTree ↔
      (Node.Project [] (.Sort distFields (.ResolvedTable vectors))).indexedAccesses
        < (Node.Project [] (.IndexedTableAccess vectors (exampleLookup none))).indexedAccesses) ∧
    (NewTree = NewTree ↔
      ((∃ t lookup, Node.Project [] (.Sort distFields (.ResolvedTable vectors))
            = .ResolvedTable t ∧
          Node.Project [] (.IndexedTableAccess vectors (exampleLookup none))
            = .IndexedTableAccess t lookup) ∨
        ∃ c ∈ (Node.Project [] (.Sort distFields (.ResolvedTable vectors))).Children,
          c.isDescended = true ∧
          ∃ r2, replaceIdxOrderByDistanceHelper exampleEnv exampleCtx emptyScope c
            (sortContext (Node.Project [] (.Sort distFields (.ResolvedTable vectors))) none)
            = .ok (r2, NewTree))) ∧
    (NewTree = SameTree ↔
      Node.Project [] (.IndexedTableAccess vectors (exampleLookup none))
        = Node.Project [] (.Sort distFields (.ResolvedTable vectors))) :=
  C10_tree_identity exampleEnv exampleCtx emptyScope
    (.Project [] (.Sort distFields (.ResolvedTable vectors))) none
    (.Project [] (.IndexedTableAccess vectors (exampleLookup none))) NewTree rfl

/-! ## Idempotence of the rule -/

theorem helper_indexedTableAccess (env : Env) (ctx : Context) (scope : Scope) (t : Table)
    (lookup : IndexLookup) (sortNode : Option Sortable) :
    replaceIdxOrderByDistanceHelper env ctx scope (.IndexedTableAccess t lookup) sortNode
      = .ok (.IndexedTableAccess t lookup, SameTree) := by
  simp [replaceIdxOrderByDistanceHelper, finish]

theorem childResult_stable (env : Env) (ctx : Context) (scope : Scope) (c : Node)
    (sortNode : Option Sortable)
    (h : replaceIdxOrderByDistanceHelper env ctx scope c sortNode = .ok (c, SameTree)) :
    childResult c (replaceIdxOrderByDistanceHelper env ctx scope c sortNode)
      = .ok (c, SameTree) := by
  unfold childResult
  split
  · exact h
  · rfl

theorem asSortable_none_of_not_sortNode (node : Node) (sortNode : Option Sortable)
    (h : isSortNode node (sortContext node sortNode) = false) : node.asSortable = none := by
  cases hs : node.asSortable with
  | none => rfl
  | some s =>
    have hctx : sortContext node sortNode = some s := by
      unfold sortContext
      rw [hs]
    have hnode : s.toNode = node := by
      cases node <;> simp only [Node.asSortable] at hs <;> first
        | (cases hs; done)
        | (cases hs; rfl)
    rw [hctx, ← hnode, isSortNode_self] at h
    cases h

theorem withChildren_kind (n : Node) (cs : List Node) (r : Node)
    (h : n.WithChildren cs = .ok r) (hnt : ∀ t, n ≠ .ResolvedTable t) :
    (∀ t, r ≠ .ResolvedTable t) ∧ (n.asSortable = none → r.asSortable = none) := by
  cases n <;> rcases cs with _ | ⟨c, _ | ⟨c2, cs⟩⟩ <;>
    simp only [Node.WithChildren] at h <;>
    first
      | (cases h; done)
      | (exact absurd rfl (hnt _))
      | (cases h;
          exact ⟨fun t ht => (by cases ht),
            fun hs => (by first | rfl | (simp [Node.asSortable] at hs))⟩)
      | (split at h <;> cases h; exact ⟨fun t ht => (by cases ht), fun _ => rfl⟩)

theorem children_of_not_other (n : Node) (h : ∀ k cs, n ≠ .Other k cs) :
    n.Children = [] ∨ ∃ c, n.Children = [c] := by
  cases n with
  | Other k cs => exact absurd rfl (h k cs)
  | ResolvedTable t => exact Or.inl rfl
  | IndexedTableAccess t l => exact Or.inl rfl
  | _ => exact Or.inr ⟨_, rfl⟩

theorem not_other_of_descended (c : Node) (h : c.isDescended = true) :
    ∀ k cs, c ≠ .Other k cs := by
  intro k cs hc
  subst hc
  simp [Node.isDescended] at h

/-- A second pass of the loop over children that the first pass returned, under the same
sort context, returns them unchanged. -/
theorem visitChildren_stable (env : Env) (ctx : Context) (scope : Scope)
    (sortNode : Option Sortable) :
    ∀ (cs : List Node),
      (∀ c ∈ cs, ∀ r same, replaceIdxOrderByDistanceHelper env ctx scope c sortNode
          = .ok (r, same) →
        replaceIdxOrderByDistanceHelper env ctx scope r sortNode = .ok (r, SameTree)) →
      ∀ (newChildren : List Node) (allSame : TreeIdentity),
        visitChildren env ctx scope cs sortNode = .ok (newChildren, allSame) →
        visitChildren env ctx scope newChildren sortNode = .ok (newChildren, SameTree) := by
  intro cs
  induction cs with
  | nil =>
    intro _ newChildren allSame h
    rw [visitChildren_nil] at h
    cases h
    exact visitChildren_nil env ctx scope sortNode
  | cons d others ih =>
    intro hQ newChildren allSame h
    rw [visitChildren_cons] at h
    unfold loopStep at h
    split at h
    · cases h
    · next newChild same hfirst =>
      split at h
      · cases h
      · next rest restSame hrest =>
        cases h
        have hrest2 := ih (fun c hc => hQ c (List.mem_cons_of_mem _ hc)) rest restSame hrest
        have hchild : childResult newChild
            (replaceIdxOrderByDistanceHelper env ctx scope newChild sortNode)
              = .ok (newChild, SameTree) := by
          unfold childResult at hfirst
          split at hfirst
          · exact childResult_stable env ctx scope newChild sortNode
              (hQ d (List.mem_cons_self _ _) newChild same hfirst)
          · next hnd =>
            cases hfirst
            unfold childResult
            rw [if_neg hnd]
        rw [visitChildren_cons, hchild, hrest2]
        rfl

/-- What the helper returns is stable: a second run on it under the same sort context
returns it with `SameTree`; when the node is not one of the other node types and the first
run reported `NewTree`, a second run returns it with `SameTree` under every sort context. -/
theorem helper_stable (env : Env) (ctx : Context) (scope : Scope) :
    ∀ (n : Node) (sortNode : Option Sortable) (r : Node) (same : TreeIdentity),
      replaceIdxOrderByDistanceHelper env ctx scope n sortNode = .ok (r, same) →
      replaceIdxOrderByDistanceHelper env ctx scope r sortNode = .ok (r, SameTree) ∧
      (same = NewTree → (∀ k cs, n ≠ .Other k cs) →
        ∀ sn2, replaceIdxOrderByDistanceHelper env ctx scope r sn2 = .ok (r, SameTree)) := by
  intro n
  induction n using Node.induct with
  | h n ih =>
    intro sortNode r same h
    obtain ⟨q1, q2⟩ := helper_identity env ctx scope n sortNode r same h
    cases same with
    | true =>
      have hr := q1 rfl
      subst hr
      exact ⟨h, fun hf => by cases hf⟩
    | false =>
      by_cases htab : ∃ t, n = .ResolvedTable t
      · obtain ⟨t, rfl⟩ := htab
        have hr : r ≠ .ResolvedTable t := by
          intro hr
          have := q2 rfl
          rw [hr] at this
          exact absurd this (Nat.lt_irrefl _)
        obtain ⟨s, idxs, distance, column, idx, _, _, _, _, hnn, _⟩ :=
          table_replaced env ctx scope t sortNode r NewTree h hr
        rw [newStaticIndexedAccess_ok env t _ r hnn]
        exact ⟨helper_indexedTableAccess env ctx scope _ _ _,
          fun _ _ sn2 => helper_indexedTableAccess env ctx scope _ _ sn2⟩
      · have hnt : ∀ t, n ≠ .ResolvedTable t := fun t ht => htab ⟨t, ht⟩
        rw [helper_inner env ctx scope n sortNode hnt] at h
        cases hv : visitChildren env ctx scope n.Children (sortContext n sortNode) with
        | error e => rw [hv] at h; cases h
        | ok p =>
          obtain ⟨newChildren, allSame⟩ := p
          rw [hv] at h
          obtain ⟨f1, _, f3⟩ := finish_ok n _ newChildren allSame r NewTree h
          rcases f3 f1.symm with ⟨hsn, others, hnc⟩ | ⟨hsn, hw⟩
          · -- a sortable node that is dropped: the result is the rewritten child
            obtain ⟨c0, hc0⟩ := sortNode_children n _ hsn
            have hlen := visitChildren_length env ctx scope _ _ _ _ hv
            rw [hc0, hnc] at hlen
            have hnil : others = [] := by
              cases others with
              | nil => rfl
              | cons x xs => simp at hlen
            subst hnil
            subst hnc
            rw [hc0, visitChildren_cons, visitChildren_nil] at hv
            have hchild : c0.isDescended = true ∧
                replaceIdxOrderByDistanceHelper env ctx scope c0 (sortContext n sortNode)
                  = .ok (r, NewTree) := by
              unfold loopStep childResult at hv
              split at hv
              · cases hv
              · next newChild same hfirst =>
                simp only [Except.ok.injEq, Prod.mk.injEq, List.cons.injEq, and_true] at hv
                obtain ⟨hv1, hv2⟩ := hv
                subst hv1
                have hs : same = false := by
                  rw [← f1] at hv2
                  simpa using hv2
                subst hs
                split at hfirst
                · next hdesc => exact ⟨hdesc, hfirst⟩
                · cases hfirst
            have hall := (ih c0 (by rw [hc0]; simp) _ r NewTree hchild.2).2 rfl
              (not_other_of_descended c0 hchild.1)
            exact ⟨hall sortNode, fun _ _ sn2 => hall sn2⟩
          · -- the node is rebuilt over the new children
            have hns := asSortable_none_of_not_sortNode n sortNode hsn
            have hctx : sortContext n sortNode = sortNode := by
              unfold sortContext
              rw [hns]
            obtain ⟨hrt, hrs⟩ := withChildren_kind n newChildren r hw hnt
            have hrch := withChildren_children n newChildren r hw
            have hrctx : ∀ sn2, sortContext r sn2 = sn2 := by
              intro sn2
              unfold sortContext
              rw [hrs hns]
            have hfin : ∀ sn2,
                visitChildren env ctx scope newChildren sn2 = .ok (newChildren, SameTree) →
                replaceIdxOrderByDistanceHelper env ctx scope r sn2 = .ok (r, SameTree) := by
              intro sn2 hloop
              rw [helper_inner env ctx scope r sn2 hrt, hrctx, hrch, hloop]
              rfl
            rw [hctx] at hv
            refine ⟨hfin sortNode ?_, ?_⟩
            · exact visitChildren_stable env ctx scope sortNode n.Children
                (fun c hc r2 same2 h2 => (ih c hc sortNode r2 same2 h2).1) newChildren allSame hv
            · intro _ hno sn2
              apply hfin
              rcases children_of_not_other n hno with hnil | ⟨c0, hc0⟩
              · rw [hnil, visitChildren_nil] at hv
                cases hv
                cases f1
              · rw [hc0, visitChildren_cons, visitChildren_nil] at hv
                unfold loopStep childResult at hv
                split at hv
                · cases hv
                · next newChild same hfirst =>
                  simp only [Except.ok.injEq, Prod.mk.injEq, and_true] at hv
                  obtain ⟨hv1, hv2⟩ := hv
                  subst hv1
                  have hs : same = false := by
                    rw [← f1] at hv2
                    simpa using hv2
                  subst hs
                  split at hfirst
                  · next hdesc =>
                    have hall := (ih c0 (by rw [hc0]; simp) _ newChild NewTree hfirst).2 rfl
                      (not_other_of_descended c0 hdesc)
                    rw [visitChildren_cons, visitChildren_nil,
                      childResult_stable env ctx scope newChild sn2 (hall sn2)]
                    rfl
                  · cases hfirst

/-- C11 (idempotence): when the rule succeeds on a tree with result `t2`, a second run of
the rule on `t2` with the same catalog answers returns `t2` itself with `SameTree`. -/
theorem C11_idempotent (env : Env) (ctx : Context) (scope : Scope) (t t2 : Node)
    (same : TreeIdentity)
    (h : replaceIdxOrderByDistance env ctx t scope = .ok (t2, same)) :
    replaceIdxOrderByDistance env ctx t2 scope = .ok (t2, SameTree) :=
  (helper_stable env ctx scope t none t2 same h).1

theorem C11_idempotent_witness :
    replaceIdxOrderByDistance exampleEnv exampleCtx nestedSorts emptyScope
        = .ok (.Filter (.Other "cond") (.IndexedTableAccess vectors (exampleLookup none)),
            NewTree) ∧
      replaceIdxOrderByDistance exampleEnv exampleCtx
          (.Filter (.Other "cond") (.IndexedTableAccess vectors (exampleLookup none))) emptyScope
        = .ok (.Filter (.Other "cond") (.IndexedTableAccess vectors (exampleLookup none)),
            SameTree) :=
  ⟨rfl, C11_idempotent exampleEnv exampleCtx emptyScope nestedSorts
    (.Filter (.Other "cond") (.IndexedTableAccess vectors (exampleLookup none))) NewTree rfl⟩

/-! ## Events: loading and the transform engine -/

theorem eventNode_induction {P : EventNode → Prop}
    (h : ∀ kind children, (∀ c ∈ children, P c) → P (.mk kind children)) :
    ∀ n : EventNode, P n := by
  intro n
  refine EventNode.rec (motive_1 := P) (motive_2 := fun l => ∀ c ∈ l, P c) ?_ ?_ ?_ n
  · intro kind children ih; exact h kind children ih
  · intro c hc; simp at hc
  · intro c cs ihc ihcs d hd
    rcases List.mem_cons.1 hd with rfl | hd
    · exact ihc
    · exact ihcs d hd

theorem transformNode_mk (f : EventNode → Except SqlError (EventNode × TreeIdentity))
    (kind : EventNodeKind) (children : List EventNode) :
    transformNode f (.mk kind children)
      = transformFinish f (.mk kind children) (transformChildren f children) := by
  simp only [transformNode]

theorem transformChildren_nil (f : EventNode → Except SqlError (EventNode × TreeIdentity)) :
    transformChildren f [] = .ok ([], SameTree) := by
  simp only [transformChildren]

theorem transformChildren_cons (f : EventNode → Except SqlError (EventNode × TreeIdentity))
    (child : EventNode) (others : List EventNode) :
    transformChildren f (child :: others)
      = transformStep child (transformNode f child) (transformChildren f others) := by
  simp only [transformChildren]

theorem hasEventNode_mk (kind : EventNodeKind) (children : List EventNode) :
    (EventNode.mk kind children).hasEventNode
      = (kind.loadsEvents || EventNode.hasEventNodeList children) := by
  simp only [EventNode.hasEventNode]

theorem hasEventNodeList_cons (c : EventNode) (cs : List EventNode) :
    EventNode.hasEventNodeList (c :: cs) = (c.hasEventNode || EventNode.hasEventNodeList cs) := by
  simp only [EventNode.hasEventNodeList]

/-- What the function of `loadEvents` does to a node: the children stay, the identity is
`SameTree` exactly for a node of another kind, and the function returns the node it made
when it is applied to it again, whatever the children. -/
theorem loadEventsInNode_ok (env : EventEnv) (ctx : Context) (kind : EventNodeKind)
    (children : List EventNode) (r : EventNode) (same : TreeIdentity)
    (h : loadEventsInNode env ctx (.mk kind children) = .ok (r, same)) :
    ∃ kind2, r = .mk kind2 children ∧ (same = SameTree ↔ kind.loadsEvents = false) ∧
      (same = SameTree → kind2 = kind) ∧
      ∀ cs2, loadEventsInNode env ctx (.mk kind2 cs2) = .ok (.mk kind2 cs2, same) := by
  cases kind with
  | Other tag =>
    simp only [loadEventsInNode] at h
    cases h
    exact ⟨.Other tag, rfl, by simp [EventNodeKind.loadsEvents], fun _ => rfl, fun _ => rfl⟩
  | ShowEvents db evs =>
    simp only [loadEventsInNode] at h
    split at h
    · cases h
    · next loaded hl =>
      cases h
      refine ⟨.ShowEvents db loaded, rfl, by simp [EventNodeKind.loadsEvents],
        fun hf => (by cases hf), fun cs2 => ?_⟩
      simp only [loadEventsInNode, hl]
  | ShowCreateEvent db name ev =>
    simp only [loadEventsInNode] at h
    split at h
    · cases h
    · next loaded hl =>
      cases h
      refine ⟨.ShowCreateEvent db name loaded, rfl, by simp [EventNodeKind.loadsEvents],
        fun hf => (by cases hf), fun cs2 => ?_⟩
      simp only [loadEventsInNode, hl]
  | AlterEvent db name ev =>
    simp only [loadEventsInNode] at h
    split at h
    · cases h
    · next loaded hl =>
      cases h
      refine ⟨.AlterEvent db name loaded, rfl, by simp [EventNodeKind.loadsEvents],
        fun hf => (by cases hf), fun cs2 => ?_⟩
      simp only [loadEventsInNode, hl]

/-- The loop of the transform engine over children that obey the rule of the second run. -/
theorem transformChildren_second (f : EventNode → Except SqlError (EventNode × TreeIdentity)) :
    ∀ (cs : List EventNode),
      (∀ c ∈ cs, ∀ c2 s, transformNode f c = .ok (c2, s) →
        transformNode f c2 = .ok (c2, s) ∧ (s = SameTree → c2 = c) ∧
        (s = SameTree ↔ c.hasEventNode = false)) →
      ∀ newChildren sameC, transformChildren f cs = .ok (newChildren, sameC) →
        transformChildren f newChildren = .ok (newChildren, sameC) ∧
        newChildren.length = cs.length ∧ (sameC = SameTree → newChildren = cs) ∧
        (sameC = SameTree ↔ EventNode.hasEventNodeList cs = false) := by
  intro cs
  induction cs with
  | nil =>
    intro _ newChildren sameC h
    rw [transformChildren_nil] at h
    cases h
    exact ⟨transformChildren_nil f, rfl, fun _ => rfl, by simp [EventNode.hasEventNodeList]⟩
  | cons d others ih =>
    intro hQ newChildren sameC h
    rw [transformChildren_cons] at h
    unfold transformStep at h
    split at h
    · cases h
    · next newChild same hfirst =>
      split at h
      · cases h
      · next rest restSame hrest =>
        cases h
        obtain ⟨i1, i2, i3, i4⟩ := ih (fun c hc => hQ c (List.mem_cons_of_mem _ hc)) rest
          restSame hrest
        obtain ⟨q1, q2, q3⟩ := hQ d (List.mem_cons_self _ _) newChild same hfirst
        refine ⟨?_, by simp [i2], ?_, ?_⟩
        · rw [transformChildren_cons, i1]
          cases same with
          | true =>
            simp only [if_true]
            rw [hfirst]
            rfl
          | false =>
            simp only [Bool.false_eq_true, if_false]
            rw [q1]
            rfl
        · intro hall
          have hboth : same = true ∧ restSame = true := by simpa using hall
          rw [hboth.1, i3 hboth.2]
          rfl
        · rw [hasEventNodeList_cons]
          constructor
          · intro hall
            have hboth : same = true ∧ restSame = true := by simpa using hall
            rw [q3.1 hboth.1, i4.1 hboth.2]
            rfl
          · intro hno
            have hboth : d.hasEventNode = false ∧ EventNode.hasEventNodeList others = false := by
              simpa using hno
            rw [q3.2 hboth.1, i4.2 hboth.2]
            rfl

/-- A second run of `loadEvents` returns the tree of the first run with the identity of the
first run, and the identity is `SameTree` exactly when the tree has no node to load. -/
theorem loadEvents_second (env : EventEnv) (ctx : Context) :
    ∀ (n n2 : EventNode) (same : TreeIdentity),
      transformNode (loadEventsInNode env ctx) n = .ok (n2, same) →
      transformNode (loadEventsInNode env ctx) n2 = .ok (n2, same) ∧
      (same = SameTree → n2 = n) ∧ (same = SameTree ↔ n.hasEventNode = false) := by
  intro n
  induction n using eventNode_induction with
  | h kind children ih =>
    intro n2 same h
    rw [transformNode_mk] at h
    cases hc : transformChildren (loadEventsInNode env ctx) children with
    | error e => rw [hc] at h; cases h
    | ok p =>
      obtain ⟨newChildren, sameC⟩ := p
      obtain ⟨c1, c2, c3, c4⟩ := transformChildren_second (loadEventsInNode env ctx) children
        (fun c hc => ih c hc) newChildren sameC hc
      rw [hc] at h
      have hrebuilt : (if sameC = true then (Except.ok (EventNode.mk kind children) :
          Except SqlError EventNode) else (EventNode.mk kind children).WithChildren newChildren)
          = .ok (.mk kind newChildren) := by
        cases sameC with
        | true => simp [c3 rfl]
        | false => simp [EventNode.WithChildren, c2]
      unfold transformFinish at h
      simp only [hrebuilt] at h
      split at h
      · cases h
      · next newNode sameN hf =>
        cases h
        obtain ⟨kind2, hk1, hk2, hk3, hk4⟩ :=
          loadEventsInNode_ok env ctx kind newChildren _ sameN hf
        subst hk1
        refine ⟨?_, ?_, ?_⟩
        · rw [transformNode_mk, c1]
          have hrebuilt2 : (if sameC = true then (Except.ok (EventNode.mk kind2 newChildren) :
              Except SqlError EventNode)
              else (EventNode.mk kind2 newChildren).WithChildren newChildren)
              = .ok (.mk kind2 newChildren) := by
            cases sameC <;> simp [EventNode.WithChildren]
          unfold transformFinish
          simp only [hrebuilt2, hk4 newChildren]
        · intro hall
          have hboth : sameC = true ∧ sameN = true := by simpa using hall
          rw [hk3 hboth.2, c3 hboth.1]
        · rw [hasEventNode_mk]
          constructor
          · intro hall
            have hboth : sameC = true ∧ sameN = true := by simpa using hall
            rw [hk2.1 hboth.2, c4.1 hboth.1]
            rfl
          · intro hno
            have hboth : kind.loadsEvents = false ∧
                EventNode.hasEventNodeList children = false := by simpa using hno
            rw [hk2.2 hboth.1, c4.2 hboth.2]
            rfl

theorem transformChildren_none (f : EventNode → Except SqlError (EventNode × TreeIdentity)) :
    ∀ (cs : List EventNode),
      (∀ c ∈ cs, c.hasEventNode = false → transformNode f c = .ok (c, SameTree)) →
      EventNode.hasEventNodeList cs = false →
      transformChildren f cs = .ok (cs, SameTree) := by
  intro cs
  induction cs with
  | nil => intro _ _; exact transformChildren_nil f
  | cons d others ih =>
    intro hQ hno
    rw [hasEventNodeList_cons] at hno
    have hboth : d.hasEventNode = false ∧ EventNode.hasEventNodeList others = false := by
      simpa using hno
    rw [transformChildren_cons, hQ d (List.mem_cons_self _ _) hboth.1,
      ih (fun c hc => hQ c (List.mem_cons_of_mem _ hc)) hboth.2]
    rfl

/-- On a tree without a node to load, `loadEvents` returns the tree with `SameTree`. -/
theorem loadEvents_none (env : EventEnv) (ctx : Context) :
    ∀ n : EventNode, n.hasEventNode = false →
      transformNode (loadEventsInNode env ctx) n = .ok (n, SameTree) := by
  intro n
  induction n using eventNode_induction with
  | h kind children ih =>
    intro hno
    rw [hasEventNode_mk] at hno
    have hboth : kind.loadsEvents = false ∧ EventNode.hasEventNodeList children = false := by
      simpa using hno
    rw [transformNode_mk,
      transformChildren_none (loadEventsInNode env ctx) children ih hboth.2]
    cases kind with
    | Other tag => rfl
    | _ => simp [EventNodeKind.loadsEvents] at hboth

/-- C13, as stated, fails: on a tree whose `ShowEvents` node has its events already loaded,
with the same catalog, `loadEvents` returns the same tree but reports `NewTree`, not
`SameTree`. -/
theorem C13_counterexample :
    loadEvents exampleEventEnv exampleCtx
        (.mk (.Other "Describe") [.mk (.ShowEvents mydb []) []])
        = .ok (loadedShowEvents, NewTree) ∧
      loadEvents exampleEventEnv exampleCtx loadedShowEvents = .ok (loadedShowEvents, NewTree) ∧
      loadEvents exampleEventEnv exampleCtx loadedShowEvents
        ≠ .ok (loadedShowEvents, SameTree) := by
  refine ⟨rfl, rfl, ?_⟩
  intro h
  have h2 : (Except.ok (loadedShowEvents, NewTree) : Except SqlError (EventNode × TreeIdentity))
      = .ok (loadedShowEvents, SameTree) := h
  cases h2

/-- C13, amended: for a tree that contains no `ShowEvents`, `ShowCreateEvent` or `AlterEvent`
node, `loadEvents` returns the input with `SameTree`; when `loadEvents` succeeds on a tree,
applying it again to its result (same catalog) returns that result once more with the same
identity, which is `NewTree` whenever the tree contains one of the three node kinds: the
events are loaded again and a new node is reported each time. -/
theorem C13_loadEvents_second_run (env : EventEnv) (ctx : Context) (n : EventNode) :
    (n.hasEventNode = false → loadEvents env ctx n = .ok (n, SameTree)) ∧
    (∀ n2 same, loadEvents env ctx n = .ok (n2, same) →
      loadEvents env ctx n2 = .ok (n2, same) ∧
      (n.hasEventNode = true → same = NewTree) ∧
      (same = SameTree → n2 = n)) := by
  refine ⟨loadEvents_none env ctx n, ?_⟩
  intro n2 same h
  obtain ⟨h1, h2, h3⟩ := loadEvents_second env ctx n n2 same h
  refine ⟨h1, ?_, h2⟩
  intro hhas
  cases hs : same with
  | false => rfl
  | true =>
    rw [h3.1 hs] at hhas
    cases hhas

theorem C13_loadEvents_second_run_witness :
    (EventNode.mk (.Other "Describe") [.mk (.ShowEvents mydb []) []]).hasEventNode = true ∧
      loadEvents exampleEventEnv exampleCtx loadedShowEvents = .ok (loadedShowEvents, NewTree) ∧
      (EventNode.mk (.Other "Describe") [.mk (.Other "Values") []]).hasEventNode = false ∧
      loadEvents exampleEventEnv exampleCtx
          (.mk (.Other "Describe") [.mk (.Other "Values") []])
        = .ok (.mk (.Other "Describe") [.mk (.Other "Values") []], SameTree) :=
  ⟨rfl,
    ((C13_loadEvents_second_run exampleEventEnv exampleCtx
      (.mk (.Other "Describe") [.mk (.ShowEvents mydb []) []])).2
        loadedShowEvents NewTree rfl).1,
    rfl,
    (C13_loadEvents_second_run exampleEventEnv exampleCtx
      (.mk (.Other "Describe") [.mk (.Other "Values") []])).1 rfl⟩

/-- C14 (failures of `loadEventFromDb`): the function returns the zero details with
`ErrEventsNotSupported` on the name of the database when the database is not an event
database, with the error of `GetEvent` when `GetEvent` fails, and with `ErrUnknownEvent` on
the name of the event when `GetEvent` says the event does not exist; in the remaining case
it returns what `GetEventDetailsFromEventDefinition` returns for the definition found. -/
theorem C14_loadEventFromDb_cases (env : EventEnv) (ctx : Context) (db : Database)
    (name : String) :
    (db.isEventDatabase = false →
      loadEventFromDb env ctx db name
        = (EventDetails.zero, some (ErrEventsNotSupported db.Name))) ∧
    (∀ err, db.isEventDatabase = true → env.GetEvent ctx db name = .error err →
      loadEventFromDb env ctx db name = (EventDetails.zero, some err)) ∧
    (∀ event, db.isEventDatabase = true → env.GetEvent ctx db name = .ok (event, false) →
      loadEventFromDb env ctx db name = (EventDetails.zero, some (ErrUnknownEvent name))) ∧
    (∀ event, db.isEventDatabase = true → env.GetEvent ctx db name = .ok (event, true) →
      loadEventFromDb env ctx db name = GetEventDetailsFromEventDefinition env ctx event) := by
  refine ⟨?_, ?_, ?_, ?_⟩
  · intro h
    simp [loadEventFromDb, h]
  · intro err h hg
    simp [loadEventFromDb, h, hg]
  · intro event h hg
    simp [loadEventFromDb, h, hg]
  · intro event h hg
    simp [loadEventFromDb, h, hg]

theorem C14_loadEventFromDb_cases_witness :
    loadEventFromDb exampleEventEnv exampleCtx plaindb "nightly"
        = (EventDetails.zero, some (ErrEventsNotSupported "plaindb")) ∧
      loadEventFromDb exampleEventEnv exampleCtx mydb "broken"
        = (EventDetails.zero, some { kind := "ErrCatalog", args := [] }) ∧
      loadEventFromDb exampleEventEnv exampleCtx mydb "weekly"
        = (EventDetails.zero, some (ErrUnknownEvent "weekly")) ∧
      loadEventFromDb exampleEventEnv exampleCtx mydb "nightly"
        = GetEventDetailsFromEventDefinition exampleEventEnv exampleCtx nightlyDefinition :=
  ⟨(C14_loadEventFromDb_cases exampleEventEnv exampleCtx plaindb "nightly").1 rfl,
    (C14_loadEventFromDb_cases exampleEventEnv exampleCtx mydb "broken").2.1 _ rfl rfl,
    (C14_loadEventFromDb_cases exampleEventEnv exampleCtx mydb "weekly").2.2.1
      nightlyDefinition rfl rfl,
    (C14_loadEventFromDb_cases exampleEventEnv exampleCtx mydb "nightly").2.2.2
      nightlyDefinition rfl rfl⟩

/-! ## The context -/

theorem visitChildren_context (env : Env) (ctx ctx2 : Context) (scope : Scope) :
    ∀ (cs : List Node) (sortNode : Option Sortable),
      (∀ c ∈ cs, ∀ sn, replaceIdxOrderByDistanceHelper env ctx scope c sn
        = replaceIdxOrderByDistanceHelper env ctx2 scope c sn) →
      visitChildren env ctx scope cs sortNode = visitChildren env ctx2 scope cs sortNode := by
  intro cs
  induction cs with
  | nil => intro _ _; rw [visitChildren_nil, visitChildren_nil]
  | cons d others ih =>
    intro sortNode hQ
    rw [visitChildren_cons, visitChildren_cons, hQ d (List.mem_cons_self _ _),
      ih sortNode (fun c hc => hQ c (List.mem_cons_of_mem _ hc))]

/-- The helper reads the context only through `GetIndexes`. -/
theorem helper_context (env : Env) (ctx ctx2 : Context) (scope : Scope)
    (hidx : ∀ t, env.GetIndexes ctx t = env.GetIndexes ctx2 t) :
    ∀ (n : Node) (sortNode : Option Sortable),
      replaceIdxOrderByDistanceHelper env ctx scope n sortNode
        = replaceIdxOrderByDistanceHelper env ctx2 scope n sortNode := by
  intro n
  induction n using Node.induct with
  | h n ih =>
    intro sortNode
    by_cases htab : ∃ t, n = .ResolvedTable t
    · obtain ⟨t, rfl⟩ := htab
      rw [helper_table, helper_table]
      simp only [resolvedTableCase, hidx]
    · have hnt : ∀ t, n ≠ .ResolvedTable t := fun t ht => htab ⟨t, ht⟩
      rw [helper_inner env ctx scope n sortNode hnt, helper_inner env ctx2 scope n sortNode hnt,
        visitChildren_context env ctx ctx2 scope n.Children _ (fun c hc sn => ih c hc sn)]

theorem loadEventsInNode_context (env : EventEnv) (ctx ctx2 : Context)
    (h : env.sameAnswers ctx ctx2) :
    loadEventsInNode env ctx = loadEventsInNode env ctx2 := by
  obtain ⟨h1, h2, h3, h4, h5⟩ := h
  have hdetails : ∀ event, GetEventDetailsFromEventDefinition env ctx event
      = GetEventDetailsFromEventDefinition env ctx2 event := by
    intro event
    simp only [GetEventDetailsFromEventDefinition, h3, h4, h5]
  have hlist : ∀ events, loadEventDetails env ctx events = loadEventDetails env ctx2 events := by
    intro events
    induction events with
    | nil => rfl
    | cons e es ih => simp only [loadEventDetails, hdetails, ih]
  have hall : loadEventsFromDb env ctx = loadEventsFromDb env ctx2 := by
    funext db
    simp only [loadEventsFromDb, h1, hlist]
  have hone : loadEventFromDb env ctx = loadEventFromDb env ctx2 := by
    funext db name
    simp only [loadEventFromDb, h2, hdetails]
  funext n
  obtain ⟨kind, children⟩ := n
  cases kind <;> simp only [loadEventsInNode, hall, hone]

/-- C12, as stated, fails: with a context whose cancellation signal has been triggered both
rules run to the end and return a result tree, not a cancellation error. -/
theorem C12_counterexample :
    cancelledCtx.cancelled = true ∧
      replaceIdxOrderByDistance exampleEnv cancelledCtx
          (.Sort distFields (.ResolvedTable vectors)) emptyScope
        = .ok (.IndexedTableAccess vectors (exampleLookup none), NewTree) ∧
      loadEvents exampleEventEnv cancelledCtx loadedShowEvents
        = .ok (loadedShowEvents, NewTree) :=
  ⟨rfl, rfl, rfl⟩

/-- C12, amended: neither `replaceIdxOrderByDistance` nor `loadEvents` looks at the
cancellation signal of the context; each only hands the context to the catalog
(`GetIndexes`; `GetEvents`, `GetEvent`, the plan builder), so under two contexts for which
the catalog answers the same, one of them cancelled or not, each rule returns the same
result. -/
theorem C12_context_not_inspected (env : Env) (eventEnv : EventEnv) (ctx ctx2 : Context)
    (scope : Scope) (n : Node) (m : EventNode)
    (hidx : ∀ t, env.GetIndexes ctx t = env.GetIndexes ctx2 t)
    (hev : eventEnv.sameAnswers ctx ctx2) :
    replaceIdxOrderByDistance env ctx n scope = replaceIdxOrderByDistance env ctx2 n scope ∧
      loadEvents eventEnv ctx m = loadEvents eventEnv ctx2 m := by
  refine ⟨helper_context env ctx ctx2 scope hidx n none, ?_⟩
  unfold loadEvents
  rw [loadEventsInNode_context eventEnv ctx ctx2 hev]

theorem C12_context_not_inspected_witness :
    (∀ t, exampleEnv.GetIndexes exampleCtx t = exampleEnv.GetIndexes cancelledCtx t) ∧
      exampleEventEnv.sameAnswers exampleCtx cancelledCtx ∧
      replaceIdxOrderByDistance exampleEnv exampleCtx nestedSorts emptyScope
        = replaceIdxOrderByDistance exampleEnv cancelledCtx nestedSorts emptyScope ∧
      loadEvents exampleEventEnv exampleCtx loadedShowEvents
        = loadEvents exampleEventEnv cancelledCtx loadedShowEvents :=
  ⟨fun _ => rfl, ⟨fun _ => rfl, fun _ _ => rfl, rfl, fun _ _ => rfl, fun _ _ _ _ _ => rfl⟩,
    C12_context_not_inspected exampleEnv exampleEventEnv exampleCtx cancelledCtx emptyScope
      nestedSorts loadedShowEvents (fun _ => rfl)
      ⟨fun _ => rfl, fun _ _ => rfl, rfl, fun _ _ => rfl, fun _ _ _ _ _ => rfl⟩⟩

/-! ## Expressions: the counters stamped by the constructors -/

theorem expression_induction {P : Expression → Prop}
    (hlit : ∀ v t, P (.Literal v t)) (hget : ∀ i t, P (.GetField i t))
    (hdiv : ∀ l r ops ds, P l → P r → P (.Div l r ops ds))
    (hint : ∀ l r ops, P l → P r → P (.IntDiv l r ops))
    (harith : ∀ l r op ops, P l → P r → P (.Arithmetic l r op ops))
    (hmod : ∀ l r ops, P l → P r → P (.Mod l r ops))
    (hneg : ∀ c, P c → P (.UnaryMinus c))
    (htup : ∀ es, (∀ e ∈ es, P e) → P (.Tuple es))
    (hother : ∀ n t, P (.Other n t)) : ∀ e : Expression, P e := by
  intro e
  refine Expression.rec (motive_1 := P) (motive_2 := fun l => ∀ c ∈ l, P c)
    ?_ ?_ ?_ ?_ ?_ ?_ ?_ ?_ ?_ ?_ ?_ e
  · exact hlit
  · exact hget
  · intro l r ops ds ihl ihr; exact hdiv l r ops ds ihl ihr
  · intro l r ops ihl ihr; exact hint l r ops ihl ihr
  · intro l r op ops ihl ihr; exact harith l r op ops ihl ihr
  · intro l r ops ihl ihr; exact hmod l r ops ihl ihr
  · intro c ih; exact hneg c ih
  · intro es ih; exact htup es ih
  · exact hother
  · intro c hc; simp at hc
  · intro c cs ihc ihcs d hd
    rcases List.mem_cons.1 hd with rfl | hd
    · exact ihc
    · exact ihcs d hd

theorem countArithmeticOps_setDivs (e : Expression) :
    ∀ k, countArithmeticOps (setDivs e k) = countArithmeticOps e := by
  refine expression_induction (P := fun e => ∀ k, countArithmeticOps (setDivs e k) =
    countArithmeticOps e) ?_ ?_ ?_ ?_ ?_ ?_ ?_ ?_ ?_ e
  · intro v t k; rfl
  · intro i t k; rfl
  · intro l r ops ds ihl ihr k; simp [setDivs, countArithmeticOps, ihl k, ihr k]
  · intro l r ops ihl ihr k; simp [setDivs, countArithmeticOps, ihl k, ihr k]
  · intro l r op ops ihl ihr k; simp [setDivs, countArithmeticOps, ihl k, ihr k]
  · intro l r ops ihl ihr k; simp [setDivs, countArithmeticOps, ihl k, ihr k]
  · intro c _ k; rfl
  · intro es _ k; simp [setDivs, countArithmeticOps]
  · intro n t k; rfl

theorem countArithmeticOps_setArithmeticOps (e : Expression) :
    ∀ k, countArithmeticOps (setArithmeticOps e k) = countArithmeticOps e := by
  refine expression_induction (P := fun e => ∀ k, countArithmeticOps (setArithmeticOps e k) =
    countArithmeticOps e) ?_ ?_ ?_ ?_ ?_ ?_ ?_ ?_ ?_ e
  · intro v t k; rfl
  · intro i t k; rfl
  · intro l r ops ds ihl ihr k; simp [setArithmeticOps, countArithmeticOps, ihl k, ihr k]
  · intro l r ops ihl ihr k; simp [setArithmeticOps, countArithmeticOps, ihl k, ihr k]
  · intro l r op ops ihl ihr k; simp [setArithmeticOps, countArithmeticOps, ihl k, ihr k]
  · intro l r ops ihl ihr k; simp [setArithmeticOps, countArithmeticOps, ihl k, ihr k]
  · intro c _ k; rfl
  · intro es _ k; simp [setArithmeticOps, countArithmeticOps]
  · intro n t k; rfl

theorem withoutCountersList_eq (f : Expression → Expression) (es : List Expression)
    (fl : List Expression → List Expression)
    (hnil : fl [] = []) (hcons : ∀ e es, fl (e :: es) = f e :: fl es)
    (h : ∀ e ∈ es, (f e).withoutCounters = e.withoutCounters) :
    withoutCountersList (fl es) = withoutCountersList es := by
  induction es with
  | nil => rw [hnil]
  | cons e es ih =>
    rw [hcons, withoutCountersList, withoutCountersList, h e (List.mem_cons_self _ _),
      ih (fun x hx => h x (List.mem_cons_of_mem _ hx))]

theorem withoutCounters_setDivs (e : Expression) :
    ∀ k, (setDivs e k).withoutCounters = e.withoutCounters := by
  refine expression_induction (P := fun e => ∀ k, (setDivs e k).withoutCounters =
    e.withoutCounters) ?_ ?_ ?_ ?_ ?_ ?_ ?_ ?_ ?_ e
  · intro v t k; rfl
  · intro i t k; rfl
  · intro l r ops ds ihl ihr k; simp [setDivs, Expression.withoutCounters, ihl k, ihr k]
  · intro l r ops ihl ihr k; simp [setDivs, Expression.withoutCounters, ihl k, ihr k]
  · intro l r op ops ihl ihr k; simp [setDivs, Expression.withoutCounters, ihl k, ihr k]
  · intro l r ops ihl ihr k; simp [setDivs, Expression.withoutCounters, ihl k, ihr k]
  · intro c _ k; rfl
  · intro es ih k
    simp only [setDivs, Expression.withoutCounters]
    rw [withoutCountersList_eq (fun e => setDivs e k) es (fun es => setDivsList es k)
      (by simp [setDivsList]) (by intro e es; simp [setDivsList]) (fun e he => ih e he k)]
  · intro n t k; rfl

theorem withoutCounters_setArithmeticOps (e : Expression) :
    ∀ k, (setArithmeticOps e k).withoutCounters = e.withoutCounters := by
  refine expression_induction (P := fun e => ∀ k, (setArithmeticOps e k).withoutCounters =
    e.withoutCounters) ?_ ?_ ?_ ?_ ?_ ?_ ?_ ?_ ?_ e
  · intro v t k; rfl
  · intro i t k; rfl
  · intro l r ops ds ihl ihr k
    simp [setArithmeticOps, Expression.withoutCounters, ihl k, ihr k]
  · intro l r ops ihl ihr k; simp [setArithmeticOps, Expression.withoutCounters, ihl k, ihr k]
  · intro l r op ops ihl ihr k
    simp [setArithmeticOps, Expression.withoutCounters, ihl k, ihr k]
  · intro l r ops ihl ihr k; simp [setArithmeticOps, Expression.withoutCounters, ihl k, ihr k]
  · intro c _ k; rfl
  · intro es ih k
    simp only [setArithmeticOps, Expression.withoutCounters]
    rw [withoutCountersList_eq (fun e => setArithmeticOps e k) es
      (fun es => setArithmeticOpsList es k)
      (by simp [setArithmeticOpsList]) (by intro e es; simp [setArithmeticOpsList])
      (fun e he => ih e he k)]
  · intro n t k; rfl

/-- The node that `NewDiv` returns: the operands stamped with the two counters. -/
theorem NewDiv_eq (l r : Expression) :
    NewDiv l r =
      .Div (setArithmeticOps (setDivs l (countDivs l + 1))
          (countArithmeticOps l + countArithmeticOps r + 1))
        (setArithmeticOps (setDivs r (countDivs l + 1))
          (countArithmeticOps l + countArithmeticOps r + 1))
        (countArithmeticOps l + countArithmeticOps r + 1) (countDivs l + 1) := by
  simp [NewDiv, countDivs, setDivs, setArithmeticOps, countArithmeticOps,
    countArithmeticOps_setDivs]

theorem NewIntDiv_eq (l r : Expression) :
    NewIntDiv l r =
      .IntDiv (setArithmeticOps l (countArithmeticOps l + countArithmeticOps r + 1))
        (setArithmeticOps r (countArithmeticOps l + countArithmeticOps r + 1))
        (countArithmeticOps l + countArithmeticOps r + 1) := by
  simp [NewIntDiv, setArithmeticOps, countArithmeticOps]

theorem NewArithmetic_eq (l r : Expression) (op : String) :
    NewArithmetic l r op =
      .Arithmetic (setArithmeticOps l (countArithmeticOps l + countArithmeticOps r + 1))
        (setArithmeticOps r (countArithmeticOps l + countArithmeticOps r + 1)) op
        (countArithmeticOps l + countArithmeticOps r + 1) := by
  simp [NewArithmetic, setArithmeticOps, countArithmeticOps]

theorem NewMod_eq (l r : Expression) :
    NewMod l r =
      .Mod (setArithmeticOps l (countArithmeticOps l + countArithmeticOps r + 1))
        (setArithmeticOps r (countArithmeticOps l + countArithmeticOps r + 1))
        (countArithmeticOps l + countArithmeticOps r + 1) := by
  simp [NewMod, setArithmeticOps, countArithmeticOps]

theorem NewDiv_outermost (l r : Expression) :
    isOutermostArithmeticOp (NewDiv l r)
      (countArithmeticOps l + countArithmeticOps r + 1) = true := by
  rw [NewDiv_eq]
  simp [isOutermostArithmeticOp, countArithmeticOps, countArithmeticOps_setArithmeticOps,
    countArithmeticOps_setDivs]

theorem toLower_char (c : Char) (x : Char) (hx : x.toNat < 65) (h : c.toLower = x) : c = x := by
  unfold Char.toLower at h
  by_cases hc : c.toNat ≥ 65 ∧ c.toNat ≤ 90
  · exfalso
    simp only [hc, and_self, if_true] at h
    obtain ⟨k, hk⟩ : ∃ k : Fin 26, c.toNat = k.val + 65 := ⟨⟨c.toNat - 65, by omega⟩, by simp; omega⟩
    rw [hk] at h
    have : ∀ k : Fin 26, 65 ≤ (Char.ofNat (k.val + 65 + 32)).toNat := by decide
    have := this k
    rw [h] at this
    omega
  · simpa [hc] using h

theorem toLower_eq_single (op : String) (x : Char) (hx : x.toNat < 65)
    (h : toLower op = String.mk [x]) : op = String.mk [x] := by
  have hd : op.data.map Char.toLower = [x] := congrArg String.data h
  cases op with
  | mk data =>
    cases data with
    | nil => simp at hd
    | cons c cs =>
      cases cs with
      | nil =>
        simp at hd
        rw [toLower_char c x hx hd]
      | cons d ds => simp at hd

/-! ## Reconstruction of the arithmetic nodes -/

theorem arithmetic_operator (l r : Expression) (op : String) :
    ∃ n, (if toLower op = DivStr then Except.ok (NewDiv l r)
        else if toLower op = ModStr then .ok (NewMod l r)
        else .ok (NewArithmetic l r op) : Except SqlError Expression) = .ok n ∧
      n.Operator = some op ∧ n.isUnaryMinus = false ∧
      n.Children = [setArithmeticOps (setDivs l (countDivs l + 1))
          (countArithmeticOps l + countArithmeticOps r + 1),
        setArithmeticOps (setDivs r (countDivs l + 1))
          (countArithmeticOps l + countArithmeticOps r + 1)] ∨
      (if toLower op = DivStr then Except.ok (NewDiv l r)
        else if toLower op = ModStr then .ok (NewMod l r)
        else .ok (NewArithmetic l r op) : Except SqlError Expression) = .ok n ∧
      n.Operator = some op ∧ n.isUnaryMinus = false ∧
      n.Children = [setArithmeticOps l (countArithmeticOps l + countArithmeticOps r + 1),
        setArithmeticOps r (countArithmeticOps l + countArithmeticOps r + 1)] := by
  by_cases hdiv : toLower op = DivStr
  · have hop : op = DivStr := toLower_eq_single op '/' (by decide) hdiv
    refine ⟨NewDiv l r, Or.inl ⟨by rw [if_pos hdiv], ?_, ?_, ?_⟩⟩
    · rw [NewDiv_eq, hop]; rfl
    · rw [NewDiv_eq]; rfl
    · rw [NewDiv_eq]; rfl
  · by_cases hmod : toLower op = ModStr
    · have hop : op = ModStr := toLower_eq_single op '%' (by decide) hmod
      refine ⟨NewMod l r, Or.inr ⟨by rw [if_neg hdiv, if_pos hmod], ?_, ?_, ?_⟩⟩
      · rw [NewMod_eq, hop]; rfl
      · rw [NewMod_eq]; rfl
      · rw [NewMod_eq]; rfl
    · refine ⟨NewArithmetic l r op, Or.inr ⟨by rw [if_neg hdiv, if_neg hmod], ?_, ?_, ?_⟩⟩
      · rw [NewArithmetic_eq]; rfl
      · rw [NewArithmetic_eq]; rfl
      · rw [NewArithmetic_eq]; rfl

/-- C19: `WithChildren` of a `Div`, an `IntDiv`, an `Arithmetic` or a `UnaryMinus` fails if
and only if the number of children given is not the arity of the node (2, and 1 for a
`UnaryMinus`), and then with `ErrInvalidChildrenNumber` of the node, the number given and the
arity; with the right number it returns, without error, a node with the same `Operator()` (so
an `Arithmetic` keeps its `Op`), a `UnaryMinus` for a `UnaryMinus`, whose children are as
many as the given ones and are the given ones in order, their scratch counters apart, which
the constructor stamps. -/
theorem C19_withChildren_arity (e : Expression) (children : List Expression)
    (res : Except SqlError Expression) (h : e.WithChildren children = some res) :
    ((∃ err, res = .error err) ↔ children.length ≠ e.arity) ∧
    (children.length ≠ e.arity →
      res = .error (ErrInvalidChildrenNumberOf e.describe children.length e.arity)) ∧
    (children.length = e.arity →
      ∃ n, res = .ok n ∧ n.Operator = e.Operator ∧ n.isUnaryMinus = e.isUnaryMinus ∧
        n.Children.length = children.length ∧
        n.Children.map Expression.withoutCounters =
          children.map Expression.withoutCounters) := by
  have key : (children.length ≠ e.arity →
      res = .error (ErrInvalidChildrenNumberOf e.describe children.length e.arity)) ∧
    (children.length = e.arity →
      ∃ n, res = .ok n ∧ n.Operator = e.Operator ∧ n.isUnaryMinus = e.isUnaryMinus ∧
        n.Children.length = children.length ∧
        n.Children.map Expression.withoutCounters =
          children.map Expression.withoutCounters) := by
    cases e with
    | Literal v t => simp [Expression.WithChildren] at h
    | GetField i t => simp [Expression.WithChildren] at h
    | Mod l r ops => simp [Expression.WithChildren] at h
    | Tuple es => simp [Expression.WithChildren] at h
    | Other n t => simp [Expression.WithChildren] at h
    | Div l r ops ds =>
      simp only [Expression.WithChildren, Option.some.injEq] at h
      subst h
      match children with
      | [] => exact ⟨fun _ => rfl, fun hlen => by simp [Expression.arity] at hlen⟩
      | [a] => exact ⟨fun _ => rfl, fun hlen => by simp [Expression.arity] at hlen⟩
      | a :: b :: c :: cs =>
        exact ⟨fun _ => rfl, fun hlen => by simp [Expression.arity] at hlen⟩
      | [a, b] =>
        refine ⟨fun hlen => by simp [Expression.arity] at hlen, fun _ => ?_⟩
        refine ⟨NewDiv a b, rfl, ?_, ?_, ?_, ?_⟩
        · rw [NewDiv_eq]; rfl
        · rw [NewDiv_eq]; rfl
        · rw [NewDiv_eq]; rfl
        · rw [NewDiv_eq]
          simp [Expression.Children, withoutCounters_setArithmeticOps,
            withoutCounters_setDivs]
    | IntDiv l r ops =>
      simp only [Expression.WithChildren, Option.some.injEq] at h
      subst h
      match children with
      | [] => exact ⟨fun _ => rfl, fun hlen => by simp [Expression.arity] at hlen⟩
      | [a] => exact ⟨fun _ => rfl, fun hlen => by simp [Expression.arity] at hlen⟩
      | a :: b :: c :: cs =>
        exact ⟨fun _ => rfl, fun hlen => by simp [Expression.arity] at hlen⟩
      | [a, b] =>
        refine ⟨fun hlen => by simp [Expression.arity] at hlen, fun _ => ?_⟩
        refine ⟨NewIntDiv a b, rfl, ?_, ?_, ?_, ?_⟩
        · rw [NewIntDiv_eq]; rfl
        · rw [NewIntDiv_eq]; rfl
        · rw [NewIntDiv_eq]; rfl
        · rw [NewIntDiv_eq]
          simp [Expression.Children, withoutCounters_setArithmeticOps]
    | Arithmetic l r op ops =>
      simp only [Expression.WithChildren, Option.some.injEq] at h
      subst h
      match children with
      | [] => exact ⟨fun _ => rfl, fun hlen => by simp [Expression.arity] at hlen⟩
      | [a] => exact ⟨fun _ => rfl, fun hlen => by simp [Expression.arity] at hlen⟩
      | a :: b :: c :: cs =>
        exact ⟨fun _ => rfl, fun hlen => by simp [Expression.arity] at hlen⟩
      | [a, b] =>
        refine ⟨fun hlen => by simp [Expression.arity] at hlen, fun _ => ?_⟩
        obtain ⟨n, hn⟩ := arithmetic_operator a b op
        rcases hn with ⟨hres, hop, hun, hch⟩ | ⟨hres, hop, hun, hch⟩
        · refine ⟨n, hres, hop, hun, by rw [hch]; rfl, ?_⟩
          rw [hch]
          simp [withoutCounters_setArithmeticOps, withoutCounters_setDivs]
        · refine ⟨n, hres, hop, hun, by rw [hch]; rfl, ?_⟩
          rw [hch]
          simp [withoutCounters_setArithmeticOps]
    | UnaryMinus c =>
      simp only [Expression.WithChildren, Option.some.injEq] at h
      subst h
      match children with
      | [] => exact ⟨fun _ => rfl, fun hlen => by simp [Expression.arity] at hlen⟩
      | a :: b :: cs => exact ⟨fun _ => rfl, fun hlen => by simp [Expression.arity] at hlen⟩
      | [a] =>
        refine ⟨fun hlen => by simp [Expression.arity] at hlen, fun _ => ?_⟩
        exact ⟨NewUnaryMinus a, rfl, rfl, rfl, rfl, rfl⟩
  refine ⟨⟨?_, ?_⟩, key.1, key.2⟩
  · rintro ⟨err, herr⟩ hlen
    obtain ⟨n, hn, _⟩ := key.2 hlen
    rw [herr] at hn
    cases hn
  · intro hlen
    exact ⟨_, key.1 hlen⟩

theorem C19_withChildren_arity_witness :
    (Expression.Arithmetic (int64Literal 1) (int64Literal 2) "/" 1).WithChildren
        [NewIntDiv (int64Literal 8) (int64Literal 3), int64Literal 2] =
      some (.ok (NewDiv (NewIntDiv (int64Literal 8) (int64Literal 3)) (int64Literal 2))) ∧
    ∃ n, Except.ok (NewDiv (NewIntDiv (int64Literal 8) (int64Literal 3)) (int64Literal 2)) =
        (.ok n : Except SqlError Expression) ∧
      n.Operator = some "/" ∧
      n.Children.map Expression.withoutCounters =
        [NewIntDiv (int64Literal 8) (int64Literal 3), int64Literal 2].map
          Expression.withoutCounters :=
  ⟨rfl,
    let ⟨n, hn, hop, _, _, hch⟩ :=
      (C19_withChildren_arity (.Arithmetic (int64Literal 1) (int64Literal 2) "/" 1)
        [NewIntDiv (int64Literal 8) (int64Literal 3), int64Literal 2] _ rfl).2.2 rfl
    ⟨n, hn, hop, hch⟩⟩

/-! ## Division by zero -/

theorem padLeftValue_null (t : SqlType) (v : Value) (h : v ≠ .null) :
    padLeftValue t v ≠ .null := by
  unfold padLeftValue
  split
  · split <;> simp
  · exact h

theorem divValues_zero (env : ExprEnv) (ctx : Option EvalContext) (cl cr : Value)
    (hrep : cr.isDivRepresentation = true) (hsame : cl.sameRepresentation cr = true)
    (hzero : cr.isZero = true) :
    divValues env ctx cl cr =
      (.null, none, arithmeticWarning ctx ERDivisionByZero "Division by 0") := by
  cases cr <;> cases cl <;>
    first
    | (simp [Value.isDivRepresentation] at hrep; done)
    | (simp [Value.sameRepresentation] at hsame; done)
    | (simp [Value.isZero] at hzero; simp [divValues, hzero])

theorem intDiv_zero (env : ExprEnv) (ctx : Option EvalContext) (cl cr : Value)
    (hrep : cr.isIntDivRepresentation = true) (hsame : cl.sameRepresentation cr = true)
    (hzero : cr.isZero = true) :
    intDiv env ctx cl cr =
      (.null, none, arithmeticWarning ctx ERDivisionByZero "Division by 0") := by
  cases cr <;> cases cl <;>
    first
    | (simp [Value.isIntDivRepresentation] at hrep; done)
    | (simp [Value.sameRepresentation] at hsame; done)
    | (simp [Value.isZero] at hzero; simp [intDiv, hzero])

theorem arithmeticWarning_mem (ctx : Option EvalContext) (c : EvalContext) (hc : ctx = some c)
    (hs : c.hasSession = true) (code : Nat) (msg : String) :
    ({ Level := "Warning", Code := code, Message := msg } : Warning) ∈
      arithmeticWarning ctx code msg := by
  subst hc
  simp [arithmeticWarning, hs]

/-- The evaluation of a `Div` whose children evaluate without error to values that are
not `nil`, up to the result of `div`. -/
theorem divEvalCore_values (env : ExprEnv) (ctx : Option EvalContext) (lTyp rTyp : SqlType)
    (ops : Int) (lv rv : Value) (wl wr : List Warning) (hlv : lv ≠ .null) (hrv : rv ≠ .null) :
    divEvalCore env ctx lTyp rTyp ops { val := lv, err := none, warnings := wl }
        { val := rv, err := none, warnings := wr } =
      match divValues env ctx (divOperands env ctx lTyp rTyp ops lv rv).1
          (divOperands env ctx lTyp rTyp ops lv rv).2 with
      | (_, some err, w3) =>
        { val := .null, err := some err,
          warnings := wl ++ wr ++
            (divConvertLeftRight env ctx (determineResultType lTyp rTyp ops) lTyp.IsTime
              rTyp.IsTime (padLeftValue lTyp lv) rv).2.2 ++ w3 }
      | (result, none, w3) =>
        { val := result, err := none,
          warnings := wl ++ wr ++
            (divConvertLeftRight env ctx (determineResultType lTyp rTyp ops) lTyp.IsTime
              rTyp.IsTime (padLeftValue lTyp lv) rv).2.2 ++ w3 } := by
  have hp := padLeftValue_null lTyp lv hlv
  simp [divEvalCore, divEvalLeftRight, divOperands, hp, hrv]

/-- C15: division by zero is NULL and a warning, never an error.  When the two children
of a `Div` (`/`) or of an `IntDiv` (`div`) evaluate without error to values that are not
`nil`, and `convertLeftRight` brings them to one representation of the operator (`float32`,
`float64` or decimal for `/`; `uint64`, `int64`, `float64` or decimal for `div`) in
which the right one is zero, `Eval` returns `nil` with a `nil` error, and the warning with
code 1365 and message "Division by 0" is among those recorded when the context has a
session. -/
theorem C15_division_by_zero (env : ExprEnv) (ctx : Option EvalContext) (row : List Value)
    (l r : Expression) (ops divScale : Int) (lv rv : Value) (wl wr : List Warning)
    (hl : l.Eval env ctx row = { val := lv, err := none, warnings := wl })
    (hr : r.Eval env ctx row = { val := rv, err := none, warnings := wr })
    (hlv : lv ≠ .null) (hrv : rv ≠ .null) :
    (∀ cl cr, divOperands env ctx (l.Type env) (r.Type env) ops lv rv = (cl, cr) →
      cr.isDivRepresentation = true → cl.sameRepresentation cr = true → cr.isZero = true →
      ((Expression.Div l r ops divScale).Eval env ctx row).isDivisionByZero ctx) ∧
    (∀ cl cr, intDivOperands env ctx (l.Type env) (r.Type env) lv rv = (cl, cr) →
      cr.isIntDivRepresentation = true → cl.sameRepresentation cr = true →
      cr.isZero = true →
      ((Expression.IntDiv l r ops).Eval env ctx row).isDivisionByZero ctx) := by
  constructor
  · intro cl cr hops hrep hsame hzero
    have hcore := divEvalCore_values env ctx (l.Type env) (r.Type env) ops lv rv wl wr hlv hrv
    rw [hops] at hcore
    simp only [divValues_zero env ctx cl cr hrep hsame hzero] at hcore
    rw [Expression.Eval, hl, hr, hcore]
    refine ⟨rfl, rfl, ?_⟩
    intro c hc hs
    simp only [divEvalFinish, divRoundResult, List.append_nil]
    exact List.mem_append_right _ (arithmeticWarning_mem ctx c hc hs _ _)
  · intro cl cr hops hrep hsame hzero
    have h1 : (intDivConvertLeftRight env ctx (l.Type env) (r.Type env) lv rv).1 = cl :=
      congrArg Prod.fst hops
    have h2 : (intDivConvertLeftRight env ctx (l.Type env) (r.Type env) lv rv).2.1 = cr :=
      congrArg Prod.snd hops
    rw [Expression.Eval, hl, hr]
    simp only [intDivEval, hlv, hrv, or_self, if_false, h1, h2,
      intDiv_zero env ctx cl cr hrep hsame hzero]
    refine ⟨rfl, rfl, ?_⟩
    intro c hc hs
    exact List.mem_append_right _ (arithmeticWarning_mem ctx c hc hs _ _)

theorem C15_division_by_zero_witness :
    ((NewDiv (int64Literal 1) (int64Literal 0)).Eval exampleExprEnv sessionCtx []).isDivisionByZero
        sessionCtx ∧
      ((NewIntDiv (int64Literal 1) (int64Literal 0)).Eval exampleExprEnv sessionCtx
        []).isDivisionByZero sessionCtx :=
  have h := C15_division_by_zero exampleExprEnv sessionCtx [] (int64Literal 1) (int64Literal 0)
    1 1 (.int64 1) (.int64 0) [] [] rfl rfl (by decide) (by decide)
  ⟨h.1 (.decimal (Decimal.New 1 0)) (.decimal (Decimal.New 0 0)) rfl rfl rfl (by decide),
    h.2 (.int64 1) (.int64 0) rfl rfl rfl rfl⟩

/-! ## The scale of a quotient -/

theorem Decimal.rescale_exp (d : Decimal) (exp : Int) : (d.rescale exp).exp = exp := by
  unfold Decimal.rescale
  split
  · assumption
  · simp only []
    split <;> rfl

theorem Decimal.Round_exp (d : Decimal) (places : Int) : (d.Round places).exp = -places := by
  unfold Decimal.Round
  split
  · assumption
  · simp only [Decimal.rescale_exp]
    omega

/-- The final scale of a `Div` that is the first of its chain: the counter `divScale` is
met at once, and the scale is that of the left value or of the declared type of the left
child, plus `divPrecInc`, at most 30. -/
theorem divFinalScale_first (env : ExprEnv) (leftType : SqlType) (lv : Value)
    (wl : List Warning) (leftScale : Int × Bool × List Warning) :
    divFinalScale env 1 0 leftType { val := lv, err := none, warnings := wl } leftScale =
      (((min 30 (max (GetPrecisionAndScale env.floatDecimal lv).2 leftType.declaredScale + 4) :
        Nat) : Int), true, wl) := by
  unfold divFinalScale SqlType.declaredScale
  simp only [zero_add, if_true, divPrecInc, DecimalTypeMaxScale]
  cases hdec : leftType.decimal with
  | none =>
    simp only [Prod.mk.injEq, and_true]
    split <;> omega
  | some ps =>
    obtain ⟨p, ts⟩ := ps
    simp only [Prod.mk.injEq, and_true]
    split <;> split <;> omega

/-- C16: the scale of a division result.  For a `Div` built by `NewDiv` over a left operand
with no division on its chain (`countDivs l = 0`), whose children evaluate without error
to values that are not `nil` and are converted to two decimals, the divisor not zero,
`Eval` returns without error a decimal with exactly `min(30, s + 4)` fractional digits,
where `s` is the larger of the scale of the evaluated left value and the scale of the
declared decimal type of the left child: the quotient of `div` rounded to that many
places. -/
theorem C16_div_result_scale (env : ExprEnv) (ctx : Option EvalContext) (row : List Value)
    (l r l2 r2 : Expression) (ops divScale : Int) (lv rv : Value) (wl wr : List Warning)
    (dl dr : Decimal)
    (hnodiv : countDivs l = 0)
    (hnode : NewDiv l r = .Div l2 r2 ops divScale)
    (hl : l2.Eval env ctx row = { val := lv, err := none, warnings := wl })
    (hr : r2.Eval env ctx row = { val := rv, err := none, warnings := wr })
    (hlv : lv ≠ .null) (hrv : rv ≠ .null)
    (hops : divOperands env ctx (l2.Type env) (r2.Type env) ops lv rv =
      (.decimal dl, .decimal dr))
    (hnz : dr.Equal (Decimal.NewFromInt 0) = false) :
    ∃ d ws, (NewDiv l r).Eval env ctx row = { val := .decimal d, err := none, warnings := ws } ∧
      d = (divDecimals dl dr).Round
        ((min 30 (max (GetPrecisionAndScale env.floatDecimal lv).2
          (l2.Type env).declaredScale + 4) : Nat) : Int) ∧
      d.exp = -((min 30 (max (GetPrecisionAndScale env.floatDecimal lv).2
          (l2.Type env).declaredScale + 4) : Nat) : Int) := by
  have hout := NewDiv_outermost l r
  have heq := NewDiv_eq l r
  rw [hnode] at heq hout
  have hopsEq : ops = countArithmeticOps l + countArithmeticOps r + 1 := by
    injection heq
  have hds : divScale = 1 := by
    have : divScale = countDivs l + 1 := by injection heq
    rw [this, hnodiv]; rfl
  rw [← hopsEq] at hout
  subst hds
  have hcore := divEvalCore_values env ctx (l2.Type env) (r2.Type env) ops lv rv wl wr hlv hrv
  rw [hops] at hcore
  simp only [divValues, hnz, Bool.false_eq_true, if_false] at hcore
  refine ⟨_, wl ++ wr ++
    (divConvertLeftRight env ctx (determineResultType (l2.Type env) (r2.Type env) ops)
      (l2.Type env).IsTime (r2.Type env).IsTime (padLeftValue (l2.Type env) lv) rv).2.2 ++ [] ++ wl,
    ?_, rfl, Decimal.Round_exp _ _⟩
  rw [hnode, Expression.Eval, hl, hr, hcore, divFinalScale_first]
  simp only [divEvalFinish, divRoundResult, hout, if_true]

theorem C16_div_result_scale_witness :
    ∃ d ws, (NewDiv (decimalLiteral 1000 4 3) (int64Literal 3)).Eval exampleExprEnv sessionCtx [] =
        { val := .decimal d, err := none, warnings := ws } ∧
      d = (divDecimals (Decimal.New 1000 (-3)) (Decimal.New 3 0)).Round
        ((min 30 (max (GetPrecisionAndScale exampleExprEnv.floatDecimal
          (.decimal (Decimal.New 1000 (-3)))).2
          ((decimalLiteral 1000 4 3).Type exampleExprEnv).declaredScale + 4) : Nat) : Int) ∧
      d.exp = -((min 30 (max (GetPrecisionAndScale exampleExprEnv.floatDecimal
          (.decimal (Decimal.New 1000 (-3)))).2
          ((decimalLiteral 1000 4 3).Type exampleExprEnv).declaredScale + 4) : Nat) : Int) :=
  C16_div_result_scale exampleExprEnv sessionCtx [] (decimalLiteral 1000 4 3) (int64Literal 3)
    (decimalLiteral 1000 4 3) (int64Literal 3) 1 1 (.decimal (Decimal.New 1000 (-3)))
    (.int64 3) [] [] (Decimal.New 1000 (-3)) (Decimal.New 3 0) rfl rfl rfl rfl (by decide)
    (by decide) rfl (by decide)

/-- The final scale of `(1 / 3 + 1) / 3`, whose left operand is an `Arithmetic` over a `Div`:
`divScale` is 2, the first branch of `getFinalScale` is not taken at the top, and the scale
is 4 more than the final scale 4 of the left operand, whatever the left operand evaluates
to. -/
theorem getFinalScale_nested_left :
    NewDiv (NewArithmetic (NewDiv (int64Literal 1) (int64Literal 3)) (int64Literal 1) PlusStr)
        (int64Literal 3) =
      .Div (.Arithmetic (.Div (int64Literal 1) (int64Literal 3) 3 2) (int64Literal 1) PlusStr 3)
        (int64Literal 3) 3 2 ∧
    (getFinalScale exampleExprEnv sessionCtx []
      (NewDiv (NewArithmetic (NewDiv (int64Literal 1) (int64Literal 3)) (int64Literal 1) PlusStr)
        (int64Literal 3)) 0).1 = 8 :=
  ⟨rfl, rfl⟩

/-! ## Quotients that are rounded twice -/

/-- C17: `NewDiv(literal 1000, literal 20000001).Eval` on two `int64` values, the
conversion to a decimal giving the decimal of the same value.  The exact quotient
0.0000499999975... rounded half away from zero to 4 places is 0.0000; `div` computes
`DivRound` with 11 digits, which rounds to 0.00005000000, truncates it to 0.000050000, and
`Eval` rounds that to 0.0001. -/
theorem C17_quotient_rounded_twice :
    (NewDiv (int64Literal 1000) (int64Literal 20000001)).Eval exampleExprEnv sessionCtx [] =
        { val := .decimal { value := 1, exp := -4 }, err := none, warnings := [] } ∧
      (Decimal.New 1000 0).DivRound (Decimal.New 20000001 0) 11 =
        { value := 5000000, exp := -11 } ∧
      divDecimals (Decimal.New 1000 0) (Decimal.New 20000001 0) =
        { value := 50000, exp := -9 } ∧
      roundedQuotient 1000 20000001 4 = { value := 0, exp := -4 } :=
  ⟨rfl, by decide, by decide, by decide⟩

/-- C18: `1.99 div 2.00` on two decimals, in every environment.  The exact quotient 0.995
truncated toward zero is 0; `intDiv` computes `DivRound` with 2 digits, which rounds to
1.00, and truncates that to 1. -/
theorem C18_intDiv_rounds_up (env : ExprEnv) (ctx : Option EvalContext) (row : List Value) :
    (NewIntDiv (decimalLiteral 199 3 2) (decimalLiteral 200 3 2)).Eval env ctx row =
        { val := .int64 1, err := none, warnings := [] } ∧
      (Decimal.New 199 (-2)).DivRound (Decimal.New 200 (-2)) 2 = { value := 100, exp := -2 } ∧
      truncatedQuotient (Decimal.New 199 (-2)) (Decimal.New 200 (-2)) = 0 :=
  ⟨rfl, by decide, by decide⟩

/-! ## The names of the rule identifiers -/

theorem ruleId_index_length : _RuleId_index.length = 108 := by decide

theorem ruleId_name_length : _RuleId_name.data.length = 1884 := by decide!

theorem ruleId_index_steps :
    ∀ i : Fin 107, _RuleId_index.getD i.val 0 < _RuleId_index.getD (i.val + 1) 0 ∧
      _RuleId_index.getD (i.val + 1) 0 ≤ 1884 := by decide

theorem sliceString_nonempty (s : String) (lo hi : Nat) (h1 : lo < hi)
    (h2 : hi ≤ s.data.length) :
    ∃ t, sliceString s lo hi = some t ∧ t ≠ "" ∧ t.data = (s.data.drop lo).take (hi - lo) ∧
      t.data.length = hi - lo := by
  have hlen : ((s.data.drop lo).take (hi - lo)).length = hi - lo := by
    rw [List.length_take, List.length_drop]
    omega
  refine ⟨String.mk ((s.data.drop lo).take (hi - lo)), ?_, ?_, rfl, hlen⟩
  · unfold sliceString
    rw [if_pos ⟨Nat.le_of_lt h1, h2⟩]
  · intro h
    have h0 : ((s.data.drop lo).take (hi - lo)).length = 0 := by
      rw [show (s.data.drop lo).take (hi - lo) = ([] : List Char) from congrArg String.data h]
      rfl
    omega

/-- C20: `RuleId.String` is a total lookup.  The offset table has 108 entries, is strictly
increasing, starts at 0 and ends at 1884, the length of the packed names (in bytes and
in characters); for every identifier from 0 to 106 the two offsets are in range and
`String` returns the non-empty piece of the packed names between them, without stopping on
a slice out of range; the identifiers 0, 11, 89, 103 and 106 are written
"validateOffsetAndLimit", "resolveTables", "rollback triggers", "addAutocommitNode" and
"clearWarnings"; every other value `n` is written "RuleId(n)" with `n` in decimal. -/
theorem C20_ruleId_string_total :
    _RuleId_index.length = 108 ∧
    List.Pairwise (fun a b => a < b) _RuleId_index ∧
    _RuleId_index.head? = some 0 ∧
    _RuleId_index.getLast? = some 1884 ∧
    byteLength _RuleId_name.data = 1884 ∧
    _RuleId_name.data.length = 1884 ∧
    (∀ i : Int, 0 ≤ i → i ≤ 106 →
      ∃ lo hi s, _RuleId_index.get? i.toNat = some lo ∧
        _RuleId_index.get? (i.toNat + 1) = some hi ∧ lo < hi ∧ hi ≤ 1884 ∧
        RuleId.String i = some s ∧ s ≠ "" ∧
        s.data = (_RuleId_name.data.drop lo).take (hi - lo) ∧ s.data.length = hi - lo) ∧
    RuleId.String 0 = some "validateOffsetAndLimit" ∧
    RuleId.String 11 = some "resolveTables" ∧
    RuleId.String 89 = some "rollback triggers" ∧
    RuleId.String 103 = some "addAutocommitNode" ∧
    RuleId.String 106 = some "clearWarnings" ∧
    (∀ n : Int, n < 0 ∨ 106 < n → RuleId.String n = some ("RuleId(" ++ toString n ++ ")")) := by
  refine ⟨by decide, by decide, by decide, by decide, by decide!, by decide!, ?_, by decide!,
    by decide!, by decide!, by decide!, by decide!, ?_⟩
  · intro i h0 h106
    have hi : i.toNat < 107 := by omega
    have hstep := ruleId_index_steps ⟨i.toNat, hi⟩
    have hlo : _RuleId_index.get? i.toNat = some (_RuleId_index.getD i.toNat 0) := by
      rw [List.getD_eq_getElem?_getD, List.get?_eq_getElem?]
      have : i.toNat < _RuleId_index.length := by rw [ruleId_index_length]; omega
      simp [List.getElem?_eq_getElem this]
    have hhi : _RuleId_index.get? (i.toNat + 1) = some (_RuleId_index.getD (i.toNat + 1) 0) := by
      rw [List.getD_eq_getElem?_getD, List.get?_eq_getElem?]
      have : i.toNat + 1 < _RuleId_index.length := by rw [ruleId_index_length]; omega
      simp [List.getElem?_eq_getElem this]
    obtain ⟨t, ht, hne, hdata, hlen⟩ :=
      sliceString_nonempty _RuleId_name _ _ hstep.1 (by rw [ruleId_name_length]; exact hstep.2)
    refine ⟨_, _, t, hlo, hhi, hstep.1, hstep.2, ?_, hne, hdata, hlen⟩
    have hcond : ¬ (i < 0 ∨ i ≥ ((_RuleId_index.length : Int) - 1)) := by
      rw [ruleId_index_length]
      show ¬ (i < (0 : Int) ∨ i ≥ ((108 : Nat) : Int) - 1)
      omega
    unfold RuleId.String
    rw [if_neg hcond, hlo, hhi]
    exact ht
  · intro n hn
    have hcond : n < 0 ∨ n ≥ ((_RuleId_index.length : Int) - 1) := by
      rw [ruleId_index_length]
      show n < (0 : Int) ∨ n ≥ ((108 : Nat) : Int) - 1
      omega
    unfold RuleId.String
    rw [if_pos hcond]

/-! ## Chains of divisions -/

theorem countDivs_nonneg (e : Expression) : 0 ≤ countDivs e := by
  refine expression_induction (P := fun e => 0 ≤ countDivs e) ?_ ?_ ?_ ?_ ?_ ?_ ?_ ?_ ?_ e
  · intro v t; simp [countDivs]
  · intro i t; simp [countDivs]
  · intro l r ops ds ihl _; simp only [countDivs]; omega
  · intro l r ops ihl _; simpa only [countDivs] using ihl
  · intro l r op ops ihl _; simpa only [countDivs] using ihl
  · intro l r ops ihl _; simpa only [countDivs] using ihl
  · intro c _; simp [countDivs]
  · intro es _; simp [countDivs]
  · intro n t; simp [countDivs]

/-- What `isOutermostDiv` computes: below the counter `dScale`, it is true exactly when the
left spine of the expression holds at least `dScale - d` divisions. -/
theorem isOutermostDiv_iff (e : Expression) :
    ∀ d dScale : Int, d < dScale →
      (isOutermostDiv e d dScale = true ↔ dScale ≤ d + countDivs e) := by
  refine expression_induction (P := fun e => ∀ d dScale : Int, d < dScale →
      (isOutermostDiv e d dScale = true ↔ dScale ≤ d + countDivs e))
    ?_ ?_ ?_ ?_ ?_ ?_ ?_ ?_ ?_ e
  · intro v t d k h; simp only [isOutermostDiv, countDivs]; constructor
    · intro hf; cases hf
    · intro hk; omega
  · intro i t d k h; simp only [isOutermostDiv, countDivs]; constructor
    · intro hf; cases hf
    · intro hk; omega
  · intro l r ops ds ihl _ d k h
    have hnn := countDivs_nonneg l
    simp only [isOutermostDiv, countDivs]
    by_cases hk : d + 1 = k
    · simp only [hk, if_true, true_iff]; omega
    · simp only [hk, if_false]
      rw [ihl (d + 1) k (by omega)]
      omega
  · intro l r ops ihl _ d k h; simpa only [isOutermostDiv, countDivs] using ihl d k h
  · intro l r op ops ihl _ d k h; simpa only [isOutermostDiv, countDivs] using ihl d k h
  · intro l r ops ihl _ d k h; simpa only [isOutermostDiv, countDivs] using ihl d k h
  · intro c _ d k h; simp only [isOutermostDiv, countDivs]; constructor
    · intro hf; cases hf
    · intro hk; omega
  · intro es _ d k h; simp only [isOutermostDiv, countDivs]; constructor
    · intro hf; cases hf
    · intro hk; omega
  · intro n t d k h; simp only [isOutermostDiv, countDivs]; constructor
    · intro hf; cases hf
    · intro hk; omega

/-- C30: `countDivs` counts the divisions on the left spine.  For every expression,
`countDivs` is the number of `Div` nodes among the nodes met when the left child is
followed for as long as the current node is an `ArithmeticOp`; it is 0 for an expression
that is not an `ArithmeticOp` and for `nil`; `24 / 3 / 2 / 1` gives 3.  The function is
total: it is defined by recursion on the expression tree. -/
theorem C30_countDivs_left_spine (e : Expression) :
    countDivs e = (leftSpineDivs e : Int) ∧
      (e.isArithmeticOp = false → countDivs e = 0) ∧
      countDivsOf none = 0 ∧ countDivsOf (some e) = (leftSpineDivs e : Int) ∧
      countDivs chainOfThree = 3 ∧ leftSpineDivs chainOfThree = 3 := by
  have key : ∀ e : Expression, countDivs e = (leftSpineDivs e : Int) := by
    intro e
    refine expression_induction (P := fun e => countDivs e = (leftSpineDivs e : Int))
      ?_ ?_ ?_ ?_ ?_ ?_ ?_ ?_ ?_ e
    · intro v t; simp [countDivs, leftSpineDivs, leftSpine, Expression.isDiv]
    · intro i t; simp [countDivs, leftSpineDivs, leftSpine, Expression.isDiv]
    · intro l r ops ds ihl _
      simp only [leftSpineDivs] at ihl
      simp [countDivs, leftSpineDivs, leftSpine, Expression.isDiv, ihl]
    · intro l r ops ihl _
      simp only [leftSpineDivs] at ihl
      simp [countDivs, leftSpineDivs, leftSpine, Expression.isDiv, ihl]
    · intro l r op ops ihl _
      simp only [leftSpineDivs] at ihl
      simp [countDivs, leftSpineDivs, leftSpine, Expression.isDiv, ihl]
    · intro l r ops ihl _
      simp only [leftSpineDivs] at ihl
      simp [countDivs, leftSpineDivs, leftSpine, Expression.isDiv, ihl]
    · intro c _; simp [countDivs, leftSpineDivs, leftSpine, Expression.isDiv]
    · intro es _; simp [countDivs, leftSpineDivs, leftSpine, Expression.isDiv]
    · intro n t; simp [countDivs, leftSpineDivs, leftSpine, Expression.isDiv]
  refine ⟨key e, ?_, rfl, key e, rfl, rfl⟩
  intro h
  cases e <;> first | rfl | (simp [Expression.isArithmeticOp] at h)

/-- C29: in `(1 / 2) / (3 / 4)`, built with `NewDiv`, the right operand `3 / 4` is the top
and only division of its chain, and `isOutermostDiv(x, 0, x.divScale)` is false for it:
`setDivs` has stored in it the count 2 of the chain of the left operand.  In
`1 / (2 / 3 / 4)` the division `2 / 3` lies below the top of its chain, and
`isOutermostDiv(x, 0, x.divScale)` is true for it: the count stored is 1. -/
theorem C29_right_chain_misjudged :
    divOfDivs.Children =
        [.Div (int64Literal 1) (int64Literal 2) 3 2, .Div (int64Literal 3) (int64Literal 4) 3 2] ∧
      leftSpine (.Div (int64Literal 3) (int64Literal 4) 3 2) =
        [.Div (int64Literal 3) (int64Literal 4) 3 2, int64Literal 3] ∧
      isOutermostDiv (.Div (int64Literal 3) (int64Literal 4) 3 2) 0
        (Expression.Div (int64Literal 3) (int64Literal 4) 3 2).divScale = false ∧
      divByChain.Children =
        [int64Literal 1,
          .Div (.Div (int64Literal 2) (int64Literal 3) 3 1) (int64Literal 4) 3 1] ∧
      leftSpine (.Div (.Div (int64Literal 2) (int64Literal 3) 3 1) (int64Literal 4) 3 1) =
        [.Div (.Div (int64Literal 2) (int64Literal 3) 3 1) (int64Literal 4) 3 1,
          .Div (int64Literal 2) (int64Literal 3) 3 1, int64Literal 2] ∧
      isOutermostDiv (.Div (int64Literal 2) (int64Literal 3) 3 1) 0
        (Expression.Div (int64Literal 2) (int64Literal 3) 3 1).divScale = true :=
  ⟨rfl, rfl, rfl, rfl, rfl, rfl⟩

theorem countDivs_setDivs (e : Expression) : ∀ k, countDivs (setDivs e k) = countDivs e := by
  refine expression_induction (P := fun e => ∀ k, countDivs (setDivs e k) = countDivs e)
    ?_ ?_ ?_ ?_ ?_ ?_ ?_ ?_ ?_ e
  · intro v t k; rfl
  · intro i t k; rfl
  · intro l r ops ds ihl _ k; simp [setDivs, countDivs, ihl k]
  · intro l r ops ihl _ k; simp [setDivs, countDivs, ihl k]
  · intro l r op ops ihl _ k; simp [setDivs, countDivs, ihl k]
  · intro l r ops ihl _ k; simp [setDivs, countDivs, ihl k]
  · intro c _ k; rfl
  · intro es _ k; simp [setDivs, countDivs]
  · intro n t k; rfl

theorem countDivs_setArithmeticOps (e : Expression) :
    ∀ k, countDivs (setArithmeticOps e k) = countDivs e := by
  refine expression_induction (P := fun e => ∀ k, countDivs (setArithmeticOps e k) =
    countDivs e) ?_ ?_ ?_ ?_ ?_ ?_ ?_ ?_ ?_ e
  · intro v t k; rfl
  · intro i t k; rfl
  · intro l r ops ds ihl _ k; simp [setArithmeticOps, countDivs, ihl k]
  · intro l r ops ihl _ k; simp [setArithmeticOps, countDivs, ihl k]
  · intro l r op ops ihl _ k; simp [setArithmeticOps, countDivs, ihl k]
  · intro l r ops ihl _ k; simp [setArithmeticOps, countDivs, ihl k]
  · intro c _ k; rfl
  · intro es _ k; simp [setArithmeticOps, countDivs]
  · intro n t k; rfl

/-- The divisions on the left spine of a stamped expression carry the counter that was
stamped, and their own left spines hold no more divisions than that of the expression. -/
theorem leftSpine_stamped (e : Expression) :
    ∀ (k ops : Int) (y : Expression), y ∈ leftSpine (setArithmeticOps (setDivs e k) ops) →
      y.isDiv = true → y.divScale = k ∧ countDivs y ≤ countDivs e := by
  refine expression_induction (P := fun e => ∀ (k ops : Int) (y : Expression),
      y ∈ leftSpine (setArithmeticOps (setDivs e k) ops) →
      y.isDiv = true → y.divScale = k ∧ countDivs y ≤ countDivs e)
    ?_ ?_ ?_ ?_ ?_ ?_ ?_ ?_ ?_ e
  · intro v t k ops y hy hd
    simp [setDivs, setArithmeticOps, leftSpine] at hy
    subst hy; cases hd
  · intro i t k ops y hy hd
    simp [setDivs, setArithmeticOps, leftSpine] at hy
    subst hy; cases hd
  · intro l r o ds ihl _ k ops y hy hd
    simp only [setDivs, setArithmeticOps, leftSpine, List.mem_cons] at hy
    rcases hy with rfl | hy
    · refine ⟨rfl, ?_⟩
      simp [countDivs, countDivs_setArithmeticOps, countDivs_setDivs]
    · have := ihl k ops y hy hd
      refine ⟨this.1, ?_⟩
      simp only [countDivs]; omega
  · intro l r o ihl _ k ops y hy hd
    simp only [setDivs, setArithmeticOps, leftSpine, List.mem_cons] at hy
    rcases hy with rfl | hy
    · cases hd
    · simpa only [countDivs] using ihl k ops y hy hd
  · intro l r op o ihl _ k ops y hy hd
    simp only [setDivs, setArithmeticOps, leftSpine, List.mem_cons] at hy
    rcases hy with rfl | hy
    · cases hd
    · simpa only [countDivs] using ihl k ops y hy hd
  · intro l r o ihl _ k ops y hy hd
    simp only [setDivs, setArithmeticOps, leftSpine, List.mem_cons] at hy
    rcases hy with rfl | hy
    · cases hd
    · simpa only [countDivs] using ihl k ops y hy hd
  · intro c _ k ops y hy hd
    simp [setDivs, setArithmeticOps, leftSpine] at hy
    subst hy; cases hd
  · intro es _ k ops y hy hd
    simp [setDivs, setArithmeticOps, leftSpine] at hy
    subst hy; cases hd
  · intro n t k ops y hy hd
    simp [setDivs, setArithmeticOps, leftSpine] at hy
    subst hy; cases hd

/-- On the chain of the node that `NewDiv` has just built, `isOutermostDiv` is right: it is
true for the node, and false for every division below it on its left spine. -/
theorem isOutermostDiv_root_chain (l r : Expression) :
    isOutermostDiv (NewDiv l r) 0 (NewDiv l r).divScale = true ∧
      ∀ y ∈ (leftSpine (NewDiv l r)).tail, y.isDiv = true →
        y.divScale = (NewDiv l r).divScale ∧ isOutermostDiv y 0 y.divScale = false := by
  have hnn := countDivs_nonneg l
  rw [NewDiv_eq]
  simp only [leftSpine, List.tail_cons]
  constructor
  · show isOutermostDiv _ 0 (countDivs l + 1) = true
    rw [isOutermostDiv_iff _ 0 _ (by omega)]
    simp only [countDivs, countDivs_setArithmeticOps, countDivs_setDivs]
    omega
  · intro y hy hd
    obtain ⟨h1, h2⟩ := leftSpine_stamped l _ _ y hy hd
    refine ⟨h1, ?_⟩
    rw [h1]
    cases hb : isOutermostDiv y 0 (countDivs l + 1) with
    | false => rfl
    | true =>
      rw [isOutermostDiv_iff _ 0 _ (by omega)] at hb
      omega

/-! ## Precision and scale of a numeral -/

theorem digit_ne (c x : Char) (hx : x.isDigit = false) (h : c.isDigit = true) : c ≠ x := by
  intro hc
  rw [hc, hx] at h
  cases h

theorem digit_utf8Size (c : Char) (h : c.isDigit = true) : c.utf8Size = 1 := by
  have h2 : c.val ≤ 57 := by
    simp only [Char.isDigit, Bool.and_eq_true, decide_eq_true_eq] at h
    exact h.2
  have h2n : c.val.toNat ≤ 57 := h2
  have h3 : c.val ≤ 127 := by
    show c.val.toNat ≤ 127
    omega
  simp [Char.utf8Size, h3]

theorem byteLength_digits (cs : List Char) (h : ∀ c ∈ cs, c.isDigit = true) :
    byteLength cs = cs.length := by
  induction cs with
  | nil => rfl
  | cons c cs ih =>
    have hc := digit_utf8Size c (h c (List.mem_cons_self _ _))
    have ih2 := ih (fun x hx => h x (List.mem_cons_of_mem _ hx))
    simp only [byteLength, List.map_cons, List.sum_cons, List.length_cons] at ih2 ⊢
    omega

theorem splitDots_digits (cs : List Char) (h : ∀ c ∈ cs, c.isDigit = true) :
    splitDots cs = [cs] := by
  induction cs with
  | nil => rfl
  | cons c cs ih =>
    have hc : c ≠ '.' := digit_ne c '.' (by decide) (h c (List.mem_cons_self _ _))
    simp [splitDots, hc, ih (fun x hx => h x (List.mem_cons_of_mem _ hx))]

theorem splitDots_digits_dot (ds fs : List Char) (hds : ∀ c ∈ ds, c.isDigit = true)
    (hfs : ∀ c ∈ fs, c.isDigit = true) : splitDots (ds ++ '.' :: fs) = [ds, fs] := by
  induction ds with
  | nil => simp [splitDots, splitDots_digits fs hfs]
  | cons c cs ih =>
    have hc : c ≠ '.' := digit_ne c '.' (by decide) (hds c (List.mem_cons_self _ _))
    simp [splitDots, hc, ih (fun x hx => hds x (List.mem_cons_of_mem _ hx))]

theorem trimMinus_numeral (negative : Bool) (ds rest : List Char)
    (hds : ∀ c ∈ ds, c.isDigit = true) (hne : ds ≠ []) :
    trimMinus (numeralSign negative ++ ds ++ rest) = ds ++ rest := by
  cases negative with
  | true => simp [numeralSign, trimMinus]
  | false =>
    cases ds with
    | nil => exact absurd rfl hne
    | cons c cs =>
      have hc : c ≠ '-' := digit_ne c '-' (by decide) (hds c (List.mem_cons_self _ _))
      simp only [numeralSign, Bool.false_eq_true, if_false, List.nil_append, List.cons_append]
      unfold trimMinus
      split
      · rename_i heq
        injection heq with h1 _
        exact absurd h1 hc
      · rfl

/-- C28: `GetDecimalPrecisionAndScale` on a decimal numeral.  For a text made of an optional
leading `-`, at least one digit and, optionally, a `.` followed by `f` digits, the scale
is `f` and the precision is the number of all the digits, each modulo 256; without `.` the
scale is 0; the sign is not counted. -/
theorem C28_precision_and_scale (negative : Bool) (ds fs : List Char)
    (hds : ∀ c ∈ ds, c.isDigit = true) (hfs : ∀ c ∈ fs, c.isDigit = true) (hne : ds ≠ []) :
    GetDecimalPrecisionAndScale (String.mk (numeralSign negative ++ ds)) =
        (ds.length % 256, 0) ∧
      GetDecimalPrecisionAndScale (String.mk (numeralSign negative ++ ds ++ '.' :: fs)) =
        ((ds.length + fs.length) % 256, fs.length % 256) := by
  constructor
  · have h := trimMinus_numeral negative ds [] hds hne
    simp only [List.append_nil] at h
    simp [GetDecimalPrecisionAndScale, h, splitDots_digits ds hds, byteLength_digits ds hds]
  · have h := trimMinus_numeral negative ds ('.' :: fs) hds hne
    rw [List.append_assoc] at h
    simp [GetDecimalPrecisionAndScale, h, splitDots_digits_dot ds fs hds hfs,
      byteLength_digits ds hds, byteLength_digits fs hfs]

theorem C28_precision_and_scale_witness :
    GetDecimalPrecisionAndScale "-314" = (3, 0) ∧
      GetDecimalPrecisionAndScale "-314.15926" = (8, 5) :=
  C28_precision_and_scale true ['3', '1', '4'] ['1', '5', '9', '2', '6'] (by decide) (by decide)
    (by decide)

/-! ## The array of collations -/

theorem collationArray_length : collationArray.length = 310 := by decide!

theorem collationArray_entries :
    ∀ i : Fin 310,
      ((collationArray.getD i.val Collation.zero).ID = 0 ∧
          (collationArray.getD i.val Collation.zero).Name = "" ∨
        (collationArray.getD i.val Collation.zero).ID = i.val) := by decide!

theorem declaredCollations_entries :
    ∀ c ∈ declaredCollations, c < 310 ∧ (collationArray.getD c Collation.zero).ID = c := by
  decide!

theorem collationArray_get (c : Nat) (h : c < 310) :
    collationArray.get? c = some (collationArray.getD c Collation.zero) := by
  have hlen : c < collationArray.length := by rw [collationArray_length]; exact h
  rw [List.getD_eq_getElem?_getD, List.get?_eq_getElem?, List.getElem?_eq_getElem hlen]
  rfl

theorem collationAt_returns (c : Nat) (h : c < 310) :
    collationAt c = .returns (collationArray.getD c Collation.zero) := by
  unfold collationAt
  rw [collationArray_get c h]

/-- C21: `collationArray` is indexed by collation ID.  The array has 310 entries; the entry
at every index `i` from 0 to 309 is an unused entry (ID 0, empty name) or has the ID `i`;
every constant `c` of the `const` block is below 310 and the entry at `c` has the ID `c`,
so `Collation`, `Name`, `CharacterSet`, `SortLength`, `PadAttribute`, `IsDefault`,
`IsCompiled`, `Sorter` and `String` return the field of that entry and do not stop on an
index out of range. -/
theorem C21_array_indexed_by_id :
    collationArray.length = 310 ∧
    (∀ i : Nat, i < 310 → ∃ entry, collationArray.get? i = some entry ∧
      ((entry.ID = 0 ∧ entry.Name = "") ∨ entry.ID = i)) ∧
    (∀ c ∈ declaredCollations, c < 310 ∧
      ∃ entry, CollationID.Collation c = .returns entry ∧ entry.ID = c ∧
        CollationID.Name c = .returns entry.Name ∧
        CollationID.CharacterSet c = .returns entry.CharacterSet ∧
        CollationID.SortLength c = .returns (entry.SortLength : Int) ∧
        CollationID.PadAttribute c = .returns entry.PadAttribute ∧
        CollationID.IsDefault c = .returns (if entry.IsDefault then "Yes" else "") ∧
        CollationID.IsCompiled c = .returns (if entry.IsCompiled then "Yes" else "") ∧
        CollationID.Sorter c = .returns entry.Sorter ∧
        CollationID.String c = .returns entry.Name) := by
  refine ⟨collationArray_length, ?_, ?_⟩
  · intro i hi
    exact ⟨_, collationArray_get i hi, collationArray_entries ⟨i, hi⟩⟩
  · intro c hc
    obtain ⟨hlt, hid⟩ := declaredCollations_entries c hc
    have hat := collationAt_returns c hlt
    refine ⟨hlt, _, hat, hid, ?_, ?_, ?_, ?_, ?_, ?_, ?_, ?_⟩ <;>
      simp only [CollationID.Name, CollationID.CharacterSet, CollationID.SortLength,
        CollationID.PadAttribute, CollationID.IsDefault, CollationID.IsCompiled,
        CollationID.Sorter, CollationID.String, hat, Completion.bind]

/-! ## The iterator over the collations -/

theorem nextFrom_spec (l : List Collation) :
    ∀ idx : Nat,
      (nextFrom l idx).1 =
          (match (l.filter (fun c => decide (c.ID ≠ 0))).head? with
            | some c => (c, true)
            | none => (Collation.zero, false)) ∧
        idx ≤ (nextFrom l idx).2 ∧
        (l.drop ((nextFrom l idx).2 - idx)).filter (fun c => decide (c.ID ≠ 0)) =
          (l.filter (fun c => decide (c.ID ≠ 0))).tail := by
  induction l with
  | nil => intro idx; simp [nextFrom]
  | cons c rest ih =>
    intro idx
    by_cases hc : c.ID = 0
    · obtain ⟨h1, h2, h3⟩ := ih (idx + 1)
      have hf : (c :: rest).filter (fun c => decide (c.ID ≠ 0)) =
          rest.filter (fun c => decide (c.ID ≠ 0)) := by simp [hc]
      have hn : nextFrom (c :: rest) idx = nextFrom rest (idx + 1) := by simp [nextFrom, hc]
      rw [hf, hn]
      refine ⟨h1, by omega, ?_⟩
      have hsub : (nextFrom rest (idx + 1)).2 - idx = ((nextFrom rest (idx + 1)).2 - (idx + 1)) + 1 := by
        omega
      rw [hsub, List.drop_succ_cons]
      exact h3
    · have hf : (c :: rest).filter (fun c => decide (c.ID ≠ 0)) =
          c :: rest.filter (fun c => decide (c.ID ≠ 0)) := by simp [hc]
      have hn : nextFrom (c :: rest) idx = ((c, true), idx + 1) := by simp [nextFrom, hc]
      rw [hf, hn]
      refine ⟨rfl, by simp, ?_⟩
      simp

theorem next_spec (ci : CollationsIterator) :
    ci.Next.1 =
        (match ((collationArray.drop ci.idx).filter (fun c => decide (c.ID ≠ 0))).head? with
          | some c => (c, true)
          | none => (Collation.zero, false)) ∧
      (collationArray.drop ci.Next.2.idx).filter (fun c => decide (c.ID ≠ 0)) =
        ((collationArray.drop ci.idx).filter (fun c => decide (c.ID ≠ 0))).tail := by
  obtain ⟨h1, h2, h3⟩ := nextFrom_spec (collationArray.drop ci.idx) ci.idx
  refine ⟨h1, ?_⟩
  show (collationArray.drop (nextFrom (collationArray.drop ci.idx) ci.idx).2).filter _ = _
  rw [← h3, List.drop_drop]
  congr 2
  omega

theorem after_spec (n : Nat) :
    ∀ ci : CollationsIterator,
      (ci.after n).Next.1 =
        (match ((collationArray.drop ci.idx).filter (fun c => decide (c.ID ≠ 0))).get? n with
          | some c => (c, true)
          | none => (Collation.zero, false)) := by
  induction n with
  | zero =>
    intro ci
    show ci.Next.1 = _
    rw [(next_spec ci).1]
    cases ((collationArray.drop ci.idx).filter (fun c => decide (c.ID ≠ 0))) <;> rfl
  | succ n ih =>
    intro ci
    show ((ci.Next.2).after n).Next.1 = _
    rw [ih ci.Next.2, (next_spec ci).2]
    cases ((collationArray.drop ci.idx).filter (fun c => decide (c.ID ≠ 0))) <;> rfl

theorem definedCollations_increasing :
    List.Pairwise (fun a b => a < b) (definedCollations.map Collation.ID) := by decide!

/-- C22: `CollationsIterator` enumerates every collation once, in ascending order of ID, and
then stops.  After `n` calls on a new iterator, the next call returns the entry number
`n` of the entries of `collationArray` whose ID is not zero, in the order of the array, with
`true`, and once these 272 entries are used up it returns the zero `Collation` and `false`,
at every further call; the IDs of the entries are strictly increasing, so each entry is
returned once. -/
theorem C22_iterator_enumerates (n : Nat) :
    ((NewCollationsIterator.after n).Next.1 =
        match definedCollations.get? n with
        | some c => (c, true)
        | none => (Collation.zero, false)) ∧
      (n < 272 → ∃ c, definedCollations.get? n = some c ∧ c ∈ collationArray ∧ c.ID ≠ 0 ∧
        (NewCollationsIterator.after n).Next.1 = (c, true)) ∧
      (272 ≤ n → (NewCollationsIterator.after n).Next.1 = (Collation.zero, false)) ∧
      definedCollations.length = 272 ∧
      (∀ c, c ∈ definedCollations ↔ c ∈ collationArray ∧ c.ID ≠ 0) ∧
      List.Pairwise (fun a b => a < b) (definedCollations.map Collation.ID) ∧
      definedCollations.Nodup := by
  have hlen : definedCollations.length = 272 := by decide!
  have hmain := after_spec n NewCollationsIterator
  have hmem : ∀ c, c ∈ definedCollations ↔ c ∈ collationArray ∧ c.ID ≠ 0 := by
    intro c
    simp [definedCollations, List.mem_filter]
  have hmain2 : (NewCollationsIterator.after n).Next.1 =
      match definedCollations.get? n with
      | some c => (c, true)
      | none => (Collation.zero, false) := hmain
  refine ⟨hmain2, ?_, ?_, hlen, hmem, definedCollations_increasing, ?_⟩
  · intro hn
    have hget : definedCollations.get? n = some (definedCollations.get ⟨n, by omega⟩) :=
      List.get?_eq_get (by omega)
    refine ⟨_, hget, ((hmem _).1 (List.get_mem _ _ _)).1, ((hmem _).1 (List.get_mem _ _ _)).2, ?_⟩
    rw [hmain2, hget]
  · intro hn
    have hget : definedCollations.get? n = none := List.get?_eq_none.2 (by omega)
    rw [hmain2, hget]
  · have hinj := definedCollations_increasing
    rw [List.pairwise_map] at hinj
    exact hinj.imp (fun h heq => by rw [heq] at h; exact lt_irrefl _ h)

/-! ## Parsing a collation -/

theorem mapGet_none_iff (m : CollationMap) (key : String) :
    mapGet m key = none ↔ key ∉ m.map Prod.fst := by
  induction m with
  | nil => simp [mapGet]
  | cons kv rest ih =>
    obtain ⟨k, v⟩ := kv
    by_cases h : k = key
    · simp [mapGet, h]
    · have h2 : ¬ key = k := fun e => h e.symm
      simp [mapGet, h, h2, ih]

theorem mapGet_mem (m : CollationMap) (key : String) (value : CollationID)
    (h : mapGet m key = some value) : (key, value) ∈ m := by
  induction m with
  | nil => simp [mapGet] at h
  | cons kv rest ih =>
    obtain ⟨k, v⟩ := kv
    by_cases hk : k = key
    · simp [mapGet, hk] at h
      subst hk; subst h
      exact List.mem_cons_self _ _
    · simp [mapGet, hk] at h
      exact List.mem_cons_of_mem _ (ih h)

/-- The keys of the map that `init` builds: the names of the entries of the array whose ID
is not zero, and the 28 names of lines 684-711. -/
theorem collationStringToID_keys :
    collationStringToID.map Prod.fst =
      (initAliases.map Prod.fst).reverse ++ (definedCollations.map Collation.Name).reverse := by
  decide!

theorem collationStringToID_values :
    ∀ kv ∈ collationStringToID, 0 < kv.2 ∧ kv.2 < 310 := by decide!

theorem mapGet_unknown (name : String)
    (h : name ∉ definedCollations.map Collation.Name ++ initAliases.map Prod.fst) :
    mapGet collationStringToID name = none := by
  rw [mapGet_none_iff, collationStringToID_keys]
  simp only [List.mem_append, List.mem_reverse, not_or] at h ⊢
  exact ⟨h.2, h.1⟩

theorem mapGet_known (name : String) (c : CollationID)
    (h : mapGet collationStringToID name = some c) : 0 < c ∧ c < 310 :=
  collationStringToID_values (name, c) (mapGet_mem _ _ _ h)

theorem isNilOrEmpty_some (text : String) (h : text ≠ "") : isNilOrEmpty (some text) = false := by
  cases text with
  | mk data =>
    cases data with
    | nil => exact absurd rfl h
    | cons c cs => rfl

theorem isNilOrEmpty_of (s : Option String) (h : s = none ∨ s = some "") :
    isNilOrEmpty s = true := by
  rcases h with rfl | rfl <;> rfl

/-- C23, as stated, fails for `binaryAttribute = true`: with no character set and no
collation `ParseCollation` returns the binary collation of the character set of the default
collation, which for `utf8mb4` is `utf8mb4_bin` (ID 46), not `utf8mb4_0900_bin` (ID 309). -/
theorem C23_counterexample :
    ParseCollation exampleCollationEnv none none true = .returns (Collation_utf8mb4_bin, none) ∧
      Collation_utf8mb4_bin = 46 ∧ Collation_Default = 309 ∧
      ParseCollation exampleCollationEnv none none true ≠ .returns (Collation_Default, none) := by
  decide!

/-- C23, amended: with a nil or empty character set and a nil or empty collation,
`ParseCollation` returns a nil error and, when `binaryAttribute` is false, the default
collation `Collation_Default` (`utf8mb4_0900_bin`, ID 309); when `binaryAttribute` is true it
returns `Collation_Default.CharacterSet().BinaryCollation()`, the binary collation of the
character set `utf8mb4`. -/
theorem C23_default_collation (env : CollationEnv) (characterSetStr collationStr : Option String)
    (binaryAttribute : Bool)
    (hcs : characterSetStr = none ∨ characterSetStr = some "")
    (hcoll : collationStr = none ∨ collationStr = some "") :
    ParseCollation env characterSetStr collationStr binaryAttribute =
        .returns (if binaryAttribute then env.BinaryCollation CharacterSet_utf8mb4
          else Collation_Default, none) ∧
      Collation_Default = 309 ∧
      CollationID.Name Collation_Default = .returns "utf8mb4_0900_bin" ∧
      CollationID.CharacterSet Collation_Default = .returns CharacterSet_utf8mb4 := by
  have hcsd : CollationID.CharacterSet Collation_Default = .returns CharacterSet_utf8mb4 := by
    decide!
  refine ⟨?_, rfl, by decide!, hcsd⟩
  unfold ParseCollation
  rw [isNilOrEmpty_of _ hcs, isNilOrEmpty_of _ hcoll]
  cases binaryAttribute with
  | true => simp only [if_true, hcsd, Completion.bind]
  | false => rfl

theorem C23_default_collation_witness :
    ParseCollation exampleCollationEnv (some "") none false = .returns (309, none) ∧
      ParseCollation exampleCollationEnv (some "") none true = .returns (46, none) :=
  ⟨(C23_default_collation exampleCollationEnv (some "") none false (Or.inr rfl) (Or.inl rfl)).1,
    (C23_default_collation exampleCollationEnv (some "") none true (Or.inr rfl) (Or.inl rfl)).1⟩

/-- C24: unknown collation names are rejected.  For a collation string that is not empty, is
none of the keys that `init` puts into the name table (the names of the entries of
`collationArray` with an ID other than zero, and the 28 `utf8_*` names) and is not
"invalid", `ParseCollation` returns `Collation_Invalid` and the error
`ErrCollationUnknown` with that string, when no character set is given and when a character
set is given that `ParseCharacterSet` accepts. -/
theorem C24_unknown_collation (env : CollationEnv) (collation : String) (binaryAttribute : Bool)
    (hne : collation ≠ "")
    (hunknown : collation ∉ definedCollations.map Collation.Name ++ initAliases.map Prod.fst)
    (hinvalid : collation ≠ "invalid") :
    (∀ characterSetStr, characterSetStr = none ∨ characterSetStr = some "" →
      ParseCollation env characterSetStr (some collation) binaryAttribute =
        .returns (Collation_Invalid, some (ErrCollationUnknown collation))) ∧
    (∀ characterSetStr characterSet, characterSetStr ≠ "" →
      env.ParseCharacterSet characterSetStr = .ok characterSet →
      ParseCollation env (some characterSetStr) (some collation) binaryAttribute =
        .returns (Collation_Invalid, some (ErrCollationUnknown collation))) ∧
    initAliases.length = 28 := by
  have hget := mapGet_unknown collation hunknown
  have hname : CollationID.Name Collation_Invalid = .returns "invalid" := by decide!
  refine ⟨?_, ?_, rfl⟩
  · intro cs hcs
    unfold ParseCollation
    rw [isNilOrEmpty_of _ hcs, isNilOrEmpty_some _ hne]
    simp only [if_true, Bool.false_eq_true, if_false, Option.getD_some, hget, hname,
      Completion.bind, hinvalid]
  · intro cs characterSet hcs hparse
    unfold ParseCollation
    rw [isNilOrEmpty_some _ hcs, isNilOrEmpty_some _ hne]
    simp only [Bool.false_eq_true, if_false, Option.getD_some, hparse, hget]

theorem C24_unknown_collation_witness :
    ParseCollation exampleCollationEnv none (some "klingon_ci") false =
        .returns (Collation_Invalid, some (ErrCollationUnknown "klingon_ci")) ∧
      ParseCollation exampleCollationEnv (some "latin1") (some "klingon_ci") false =
        .returns (Collation_Invalid, some (ErrCollationUnknown "klingon_ci")) :=
  have h := C24_unknown_collation exampleCollationEnv "klingon_ci" false (by decide)
    (by decide!) (by decide)
  ⟨h.1 none (Or.inl rfl), h.2.1 "latin1" CharacterSet_latin1 (by decide) rfl⟩

theorem ParseCollation_error_invalid (env : CollationEnv)
    (characterSetStr collationStr : Option String) (binaryAttribute : Bool)
    (id : CollationID) (err : SqlError)
    (h : ParseCollation env characterSetStr collationStr binaryAttribute =
      .returns (id, some err)) : id = Collation_Invalid := by
  unfold ParseCollation at h
  have hname : CollationID.Name Collation_Invalid = .returns "invalid" := by decide!
  have hcsd : CollationID.CharacterSet Collation_Default = .returns CharacterSet_utf8mb4 := by
    decide!
  split at h
  · split at h
    · split at h
      · rw [hcsd] at h
        simp only [Completion.bind, Completion.returns.injEq, Prod.mk.injEq] at h
        cases h.2
      · simp only [Completion.returns.injEq, Prod.mk.injEq] at h
        cases h.2
    · split at h
      · rename_i collation hget
        split at h
        · have hr := mapGet_known _ _ hget
          simp only [CollationID.CharacterSet, collationAt_returns collation hr.2,
            Completion.bind, Completion.returns.injEq, Prod.mk.injEq] at h
          cases h.2
        · simp only [Completion.returns.injEq, Prod.mk.injEq] at h
          cases h.2
      · rw [hname] at h
        simp only [Completion.bind] at h
        split at h
        · simp only [Completion.returns.injEq, Prod.mk.injEq] at h
          cases h.2
        · simp only [Completion.returns.injEq, Prod.mk.injEq] at h
          exact h.1.symm
  · split at h
    · simp only [Completion.returns.injEq, Prod.mk.injEq] at h
      exact h.1.symm
    · split at h
      · split at h
        · simp only [Completion.returns.injEq, Prod.mk.injEq] at h
          cases h.2
        · simp only [Completion.returns.injEq, Prod.mk.injEq] at h
          cases h.2
      · split at h
        · simp only [Completion.returns.injEq, Prod.mk.injEq] at h
          exact h.1.symm
        · rename_i collation hget
          have hr := mapGet_known _ _ hget
          simp only [CollationID.WorksWithCharacterSet, CollationID.String,
            collationAt_returns collation hr.2, Completion.bind] at h
          split at h
          · simp only [Completion.returns.injEq, Prod.mk.injEq] at h
            exact h.1.symm
          · simp only [Completion.returns.injEq, Prod.mk.injEq] at h
            cases h.2

/-- C25: `ParseCollation` with a character set and a collation.  When the character set
string is accepted by `ParseCharacterSet` as `cs` and the collation string is a key of the
name table with the value `c`, `ParseCollation` returns `c` with no error if and only if
`c.WorksWithCharacterSet(cs)`, that is, the character set of the entry of `c` is `cs`;
otherwise it returns `Collation_Invalid` and an error.  Whenever `ParseCollation` returns an
error, the collation it returns is `Collation_Invalid`. -/
theorem C25_character_set_and_collation (env : CollationEnv) (characterSetStr collationStr : String)
    (binaryAttribute : Bool) (cs : CharacterSetID) (c : CollationID)
    (hcs : characterSetStr ≠ "") (hcoll : collationStr ≠ "")
    (hparse : env.ParseCharacterSet characterSetStr = .ok cs)
    (hknown : mapGet collationStringToID collationStr = some c) :
    (∃ entry, collationArray.get? c = some entry ∧
      CollationID.WorksWithCharacterSet c cs = .returns (decide (entry.CharacterSet = cs)) ∧
      (ParseCollation env (some characterSetStr) (some collationStr) binaryAttribute =
          .returns (c, none) ↔ entry.CharacterSet = cs) ∧
      (entry.CharacterSet ≠ cs →
        ∃ err, ParseCollation env (some characterSetStr) (some collationStr) binaryAttribute =
          .returns (Collation_Invalid, some err))) ∧
    (∀ (env2 : CollationEnv) (s1 s2 : Option String) (b : Bool) (id : CollationID)
      (err : SqlError),
      ParseCollation env2 s1 s2 b = .returns (id, some err) → id = Collation_Invalid) := by
  have hr := mapGet_known _ _ hknown
  have hat := collationAt_returns c hr.2
  have hpc : ParseCollation env (some characterSetStr) (some collationStr) binaryAttribute =
      if (collationArray.getD c Collation.zero).CharacterSet = cs then .returns (c, none)
      else .returns (Collation_Invalid,
        some { kind := "fmt.Errorf",
               args := [env.characterSetString cs ++ " is not a valid character set for " ++
                 (collationArray.getD c Collation.zero).Name] }) := by
    unfold ParseCollation
    rw [isNilOrEmpty_some _ hcs, isNilOrEmpty_some _ hcoll]
    simp only [Bool.false_eq_true, if_false, Option.getD_some, hparse, hknown,
      CollationID.WorksWithCharacterSet, CollationID.String, hat, Completion.bind]
    by_cases hw : (collationArray.getD c Collation.zero).CharacterSet = cs
    · simp [hw]
    · simp [hw]
  refine ⟨⟨_, collationArray_get c hr.2, ?_, ?_, ?_⟩, ?_⟩
  · simp only [CollationID.WorksWithCharacterSet, hat, Completion.bind]
  · rw [hpc]
    constructor
    · intro h
      by_contra hw
      rw [if_neg hw] at h
      simp only [Completion.returns.injEq, Prod.mk.injEq] at h
      cases h.2
    · intro hw
      rw [if_pos hw]
  · intro hw
    rw [hpc, if_neg hw]
    exact ⟨_, rfl⟩
  · intro env2 s1 s2 b id err h
    exact ParseCollation_error_invalid env2 s1 s2 b id err h

theorem C25_character_set_and_collation_witness :
    ParseCollation exampleCollationEnv (some "latin1") (some "latin1_bin") false =
        .returns (Collation_latin1_bin, none) ∧
      ∃ err, ParseCollation exampleCollationEnv (some "utf8mb4") (some "latin1_bin") false =
        .returns (Collation_Invalid, some err) :=
  have h1 := (C25_character_set_and_collation exampleCollationEnv "latin1" "latin1_bin" false
    CharacterSet_latin1 Collation_latin1_bin (by decide) (by decide) rfl (by decide!)).1
  have h2 := (C25_character_set_and_collation exampleCollationEnv "utf8mb4" "latin1_bin" false
    CharacterSet_utf8mb4 Collation_latin1_bin (by decide) (by decide) rfl (by decide!)).1
  ⟨by
      obtain ⟨entry, hentry, _, hiff, _⟩ := h1
      have he : entry = collationArray.getD Collation_latin1_bin Collation.zero := by
        rw [collationArray_get _ (by decide)] at hentry
        exact (Option.some.inj hentry).symm
      exact hiff.2 (by rw [he]; decide!),
    by
      obtain ⟨entry, hentry, _, _, hne⟩ := h2
      have he : entry = collationArray.getD Collation_latin1_bin Collation.zero := by
        rw [collationArray_get _ (by decide)] at hentry
        exact (Option.some.inj hentry).symm
      exact hne (by rw [he]; decide!)⟩

/-! ## Hashing a string -/

/-- On a string that is not empty `utf8.DecodeRuneInString` reads from one to four
bytes. -/
theorem DecodeRuneInString_size (b : Nat) (bs : List Nat) :
    1 ≤ (DecodeRuneInString (b :: bs)).2 ∧ (DecodeRuneInString (b :: bs)).2 ≤ 4 := by
  unfold DecodeRuneInString
  simp only []
  split
  · simp
  · split
    · simp
    · split
      · split <;> [(split <;> simp); simp]
      · split
        · split <;> [(split <;> simp); simp]
        · split <;> [(split <;> simp); simp]

theorem hashRunes_test (b : Nat) (bs : List Nat) :
    ¬ ((DecodeRuneInString (b :: bs)).2 = 0 ∨
      ((DecodeRuneInString (b :: bs)).2 : Int) = RuneError) := by
  have h := DecodeRuneInString_size b bs
  unfold RuneError
  omega

/-- The loop of `HashToUint` on a well-formed string, with a `Sorter`: it writes the four
bytes of the weight of every rune, in order. -/
theorem hashRunes_runes (env : CollationEnv) (sorter : RuneWeight) :
    ∀ (steps : Nat) (s : List Nat) (rs : List Int) (written : List Nat),
      runesOf steps s = some rs →
      hashRunes env (some sorter) steps s written =
        .returns (written ++ (rs.map (fun r => weightBytes (sorter.apply env r))).flatten,
          none) := by
  intro steps
  induction steps with
  | zero =>
    intro s rs written h
    cases s with
    | nil =>
      simp only [runesOf, Option.some.injEq] at h
      subst h
      simp [hashRunes]
    | cons b bs => simp [runesOf] at h
  | succ steps ih =>
    intro s rs written h
    cases s with
    | nil =>
      simp only [runesOf, Option.some.injEq] at h
      subst h
      simp [hashRunes]
    | cons b bs =>
      simp only [runesOf] at h
      split at h
      · cases h
      · cases hrest : runesOf steps ((b :: bs).drop (DecodeRuneInString (b :: bs)).2) with
        | none => rw [hrest] at h; cases h
        | some rest =>
          rw [hrest] at h
          simp only [Option.map_some', Option.some.injEq] at h
          subst h
          simp only [hashRunes, hashRunes_test b bs, if_false]
          rw [ih _ rest _ hrest]
          simp

/-- The loop of `HashToUint` ends within as many steps as the string has bytes. -/
theorem hashRunes_finishes (env : CollationEnv) (getRuneWeight : Option RuneWeight) :
    ∀ (steps : Nat) (s : List Nat) (written : List Nat), s.length ≤ steps →
      hashRunes env getRuneWeight steps s written ≠ .unfinished := by
  intro steps
  induction steps with
  | zero =>
    intro s written h
    cases s with
    | nil => simp [hashRunes]
    | cons b bs => simp at h
  | succ steps ih =>
    intro s written h
    cases s with
    | nil => simp [hashRunes]
    | cons b bs =>
      simp only [hashRunes, hashRunes_test b bs, if_false]
      cases getRuneWeight with
      | none => simp
      | some sorter =>
        simp only []
        apply ih
        have hsz := DecodeRuneInString_size b bs
        simp only [List.length_drop, List.length_cons] at h ⊢
        omega

theorem HashToUint_finishes (env : CollationEnv) (c : CollationID) (s : List Nat) :
    CollationID.HashToUint env c s ≠ .unfinished := by
  unfold CollationID.HashToUint
  split
  · simp
  · unfold collationAt
    cases collationArray.get? c with
    | none => simp [Completion.bind]
    | some collation =>
      simp only [Completion.bind]
      have h := hashRunes_finishes env collation.Sorter s.length s [] (le_refl _)
      cases hr : hashRunes env collation.Sorter s.length s [] with
      | unfinished => exact absurd hr h
      | panics m => simp
      | returns result =>
        simp only []
        cases result.2 <;> simp

/-- C26: `HashToUint` depends only on the rune weights.  For a collation other than
`binary` whose entry has a `Sorter`, and two well-formed strings with the same number of runes
whose runes have pairwise equal weights under that `Sorter`, `HashToUint` returns for
both, without error, the same hash: the hash of the bytes of the weights. -/
theorem C26_hash_depends_on_weights (env : CollationEnv) (c : CollationID) (entry : Collation)
    (sorter : RuneWeight) (s t : List Nat) (rs rt : List Int)
    (hbinary : c ≠ Collation_binary)
    (hentry : collationArray.get? c = some entry) (hsorter : entry.Sorter = some sorter)
    (hs : runes s = some rs) (ht : runes t = some rt)
    (hlen : rs.length = rt.length)
    (hweights : ∀ i r1 r2, rs.get? i = some r1 → rt.get? i = some r2 →
      sorter.apply env r1 = sorter.apply env r2) :
    ∃ hash, CollationID.HashToUint env c s = .returns (hash, none) ∧
      CollationID.HashToUint env c t = .returns (hash, none) ∧
      hash = env.Sum64 ((rs.map (fun r => weightBytes (sorter.apply env r))).flatten) % 2 ^ 64 := by
  have hmap : rs.map (sorter.apply env) = rt.map (sorter.apply env) := by
    apply List.ext_get?
    intro i
    rw [List.get?_eq_getElem?, List.get?_eq_getElem?, List.getElem?_map, List.getElem?_map,
      ← List.get?_eq_getElem?, ← List.get?_eq_getElem?]
    cases h1 : rs.get? i with
    | none =>
      have : rt.get? i = none := by
        rw [List.get?_eq_none] at h1 ⊢
        omega
      rw [this]
    | some r1 =>
      cases h2 : rt.get? i with
      | none =>
        have : rs.get? i = none := by
          rw [List.get?_eq_none] at h2 ⊢
          omega
        rw [this] at h1
        cases h1
      | some r2 =>
        simp only [Option.map_some']
        rw [hweights i r1 r2 h1 h2]
  have hbytes : (rs.map (fun r => weightBytes (sorter.apply env r))) =
      (rt.map (fun r => weightBytes (sorter.apply env r))) := by
    have := congrArg (List.map weightBytes) hmap
    simpa [List.map_map] using this
  have hat : collationAt c = .returns entry := by
    unfold collationAt
    rw [hentry]
  refine ⟨_, ?_, ?_, rfl⟩
  · unfold CollationID.HashToUint
    rw [if_neg hbinary, hat]
    simp only [Completion.bind, hsorter, hashRunes_runes env sorter s.length s rs [] hs,
      List.nil_append]
  · unfold CollationID.HashToUint
    rw [if_neg hbinary, hat]
    simp only [Completion.bind, hsorter, hashRunes_runes env sorter t.length t rt [] ht,
      List.nil_append, hbytes]

theorem C26_hash_depends_on_weights_witness :
    ∃ hash, CollationID.HashToUint exampleCollationEnv Collation_Invalid [104, 195, 169] =
        .returns (hash, none) ∧
      CollationID.HashToUint exampleCollationEnv Collation_Invalid [226, 130, 172, 33] =
        .returns (hash, none) ∧
      hash = exampleCollationEnv.Sum64 [0, 0, 0, 0, 0, 0, 0, 0] % 2 ^ 64 :=
  C26_hash_depends_on_weights exampleCollationEnv Collation_Invalid
    (collationArray.getD 0 Collation.zero) (.constant 0) [104, 195, 169] [226, 130, 172, 33]
    [104, 233] [8364, 33] (by decide) (by decide!) (by decide!) (by decide) (by decide) rfl
    (fun _ _ _ _ _ => rfl)

theorem HashToUint_range (env : CollationEnv) (c : CollationID) (s : List Nat) (hash : Nat)
    (h : CollationID.HashToUint env c s = .returns (hash, none)) : hash < 2 ^ 64 := by
  unfold CollationID.HashToUint at h
  split at h
  · simp only [Completion.returns.injEq, Prod.mk.injEq, and_true] at h
    rw [← h]
    exact Nat.mod_lt _ (by norm_num)
  · cases hat : collationAt c with
    | panics m => rw [hat] at h; simp [Completion.bind] at h
    | unfinished => rw [hat] at h; simp [Completion.bind] at h
    | returns collation =>
      rw [hat] at h
      simp only [Completion.bind] at h
      cases hr : hashRunes env collation.Sorter s.length s [] with
      | panics m => rw [hr] at h; simp at h
      | unfinished => rw [hr] at h; simp at h
      | returns result =>
        rw [hr] at h
        simp only [] at h
        cases he : result.2 with
        | some err => rw [he] at h; simp at h
        | none =>
          rw [he] at h
          simp only [Completion.returns.injEq, Prod.mk.injEq, and_true] at h
          rw [← h]
          exact Nat.mod_lt _ (by norm_num)

theorem littleEndian_bytes (hash : Nat) (h : hash < 2 ^ 64) :
    littleEndian [hash % 256, (hash / 2 ^ 8) % 256, (hash / 2 ^ 16) % 256,
      (hash / 2 ^ 24) % 256, (hash / 2 ^ 32) % 256, (hash / 2 ^ 40) % 256,
      (hash / 2 ^ 48) % 256, (hash / 2 ^ 56) % 256] = hash := by
  simp only [littleEndian]
  norm_num at h ⊢
  omega

/-- C27: `HashToBytes` is `HashToUint` in little-endian bytes.  For every collation and
string: when `HashToUint` returns an error, `HashToBytes` returns a nil slice and the same
error; when `HashToUint` returns a hash without error, `HashToBytes` returns without error
a slice of exactly 8 bytes `b` with the sum of `b[i] * 256 ^ i` equal to the hash; when
`HashToUint` stops the program, so does `HashToBytes`; and both end. -/
theorem C27_hashToBytes_little_endian (env : CollationEnv) (c : CollationID) (s : List Nat) :
    (∀ hash err, CollationID.HashToUint env c s = .returns (hash, some err) →
      CollationID.HashToBytes env c s = .returns (none, some err)) ∧
    (∀ hash, CollationID.HashToUint env c s = .returns (hash, none) →
      ∃ b, CollationID.HashToBytes env c s = .returns (some b, none) ∧ b.length = 8 ∧
        (∀ x ∈ b, x < 256) ∧ littleEndian b = hash) ∧
    (∀ message, CollationID.HashToUint env c s = .panics message →
      CollationID.HashToBytes env c s = .panics message) ∧
    CollationID.HashToUint env c s ≠ .unfinished ∧
    CollationID.HashToBytes env c s ≠ .unfinished := by
  refine ⟨?_, ?_, ?_, HashToUint_finishes env c s, ?_⟩
  · intro hash err h
    simp only [CollationID.HashToBytes, h, Completion.bind]
  · intro hash h
    have hr := HashToUint_range env c s hash h
    refine ⟨[hash % 256, (hash / 2 ^ 8) % 256, (hash / 2 ^ 16) % 256,
        (hash / 2 ^ 24) % 256, (hash / 2 ^ 32) % 256, (hash / 2 ^ 40) % 256,
        (hash / 2 ^ 48) % 256, (hash / 2 ^ 56) % 256],
      by simp only [CollationID.HashToBytes, h, Completion.bind], rfl, ?_,
      littleEndian_bytes hash hr⟩
    intro x hx
    simp only [List.mem_cons, List.mem_singleton, List.not_mem_nil, or_false] at hx
    rcases hx with rfl | rfl | rfl | rfl | rfl | rfl | rfl | rfl <;>
      exact Nat.mod_lt _ (by norm_num)
  · intro message h
    simp only [CollationID.HashToBytes, h, Completion.bind]
  · have hf := HashToUint_finishes env c s
    unfold CollationID.HashToBytes
    cases hu : CollationID.HashToUint env c s with
    | unfinished => exact absurd hu hf
    | panics m => simp [Completion.bind]
    | returns result =>
      simp only [Completion.bind]
      cases result.2 <;> simp

/-! ## The internal quotient -/

theorem Decimal.QuoRem_exp (d d2 : Decimal) (precision : Int) :
    (d.QuoRem d2 precision).1.exp = -precision := by
  unfold Decimal.QuoRem
  simp only []
  split <;> rfl

theorem Decimal.Add_exp (d d2 : Decimal) : (d.Add d2).exp = min d.exp d2.exp := rfl

theorem Decimal.Sub_exp (d d2 : Decimal) : (d.Sub d2).exp = min d.exp d2.exp := rfl

theorem Decimal.DivRound_exp (d d2 : Decimal) (precision : Int) :
    (d.DivRound d2 precision).exp = -precision := by
  have hq := Decimal.QuoRem_exp d d2 precision
  unfold Decimal.DivRound
  simp only []
  split
  · exact hq
  · split
    · rw [Decimal.Sub_exp, hq]; simp [Decimal.New]
    · rw [Decimal.Add_exp, hq]; simp [Decimal.New]

theorem ceilDiv9_nat (n : Nat) : ceilDiv9 (n : Int) = (ceilNinth n : Int) := by
  unfold ceilDiv9 ceilNinth
  show -((-(n : Int)) / 9) = (((n + 8) / 9 : Nat) : Int)
  omega

theorem divDecimals_eq (l r : Decimal) :
    divDecimals l r =
      ((l.Truncate (divInternalScale l r)).DivRound (r.Truncate (divInternalScale l r))
        (divInternalScale l r + 2)).Truncate (divInternalScale l r) := rfl

/-- The scale computed by `div` is the scale of the claim. -/
theorem divInternalScale_eq (l r : Decimal) (ls rs : Nat) (hl : l.exp = -(ls : Int))
    (hr : r.exp = -(rs : Int)) : divInternalScale l r = (quotientScale ls rs : Int) := by
  have h1 : -1 * l.Exponent = (ls : Int) := by simp [Decimal.Exponent, hl]
  have h2 : -1 * r.Exponent = (rs : Int) := by simp [Decimal.Exponent, hr]
  have h3 : ((ls : Int) + (rs : Int) + (divPrecInc : Nat)) = ((ls + rs + 4 : Nat) : Int) := by
    simp [divPrecInc]
  unfold divInternalScale quotientScale
  simp only [h1, h2, h3, ceilDiv9_nat, divIntPrecInc]
  by_cases hz : ls ≠ 0 ∧ rs ≠ 0
  · have hz2 : (ls : Int) ≠ 0 ∧ (rs : Int) ≠ 0 := ⟨by omega, by omega⟩
    rw [if_pos hz, if_pos hz2]
    by_cases hgt : ((ceilNinth ls : Int) + (ceilNinth rs : Int)) > (ceilNinth (ls + rs + 4) : Int)
    · rw [if_pos hgt]
      rw [max_eq_right (by omega)]
      push_cast
      ring
    · rw [if_neg hgt]
      rw [max_eq_left (by omega)]
      push_cast
      ring
  · have hz2 : ¬ ((ls : Int) ≠ 0 ∧ (rs : Int) ≠ 0) := by
      intro h
      exact hz ⟨by omega, by omega⟩
    rw [if_neg hz, if_neg hz2]
    rw [max_eq_left (by omega)]
    push_cast
    ring

/-- The scale of the internal quotient: for two decimals with `ls` and `rs` fractional
digits, the result of lines 239-256 has exactly `quotientScale ls rs` fractional digits. -/
theorem divDecimals_exp (l r : Decimal) (ls rs : Nat) (hl : l.exp = -(ls : Int))
    (hr : r.exp = -(rs : Int)) :
    (divDecimals l r).exp = -(quotientScale ls rs : Int) := by
  rw [divDecimals_eq, divInternalScale_eq l r ls rs hl hr]
  unfold Decimal.Truncate
  rw [if_pos ⟨by omega, by rw [Decimal.DivRound_exp]; omega⟩, Decimal.rescale_exp]

/-- C31: the internal quotient of 1000 by 20000001, two decimals of scale 0.  The scale is
9, as the claim says, and truncating the operands to it changes nothing; the exact quotient
0.0000499999975... truncated to 9 fractional digits is 0.000049999, and `div` returns
0.000050000: `DivRound` with the two extra digits rounds the quotient to 0.00005000000, where
the truncation to 11 digits is 0.00004999999, and the carry stays when the two digits are
cut off. -/
theorem C31_quotient_not_truncated (env : ExprEnv) (ctx : Option EvalContext) :
    divValues env ctx (.decimal (Decimal.New 1000 0)) (.decimal (Decimal.New 20000001 0)) =
        (.decimal { value := 50000, exp := -9 }, none, []) ∧
      quotientScale 0 0 = 9 ∧
      (Decimal.New 1000 0).Truncate 9 = Decimal.New 1000 0 ∧
      (Decimal.New 20000001 0).Truncate 9 = Decimal.New 20000001 0 ∧
      truncatedQuotientTo (Decimal.New 1000 0) (Decimal.New 20000001 0) 9 =
        { value := 49999, exp := -9 } ∧
      (Decimal.New 1000 0).DivRound (Decimal.New 20000001 0) 11 =
        { value := 5000000, exp := -11 } ∧
      truncatedQuotientTo (Decimal.New 1000 0) (Decimal.New 20000001 0) 11 =
        { value := 4999999, exp := -11 } :=
  ⟨rfl, by decide, by decide, by decide, by decide, by decide, by decide⟩

/-! ## The operator count stamped by the constructors -/

theorem countArithmeticOps_nonneg (e : Expression) : 0 ≤ countArithmeticOps e := by
  refine expression_induction (P := fun e => 0 ≤ countArithmeticOps e) ?_ ?_ ?_ ?_ ?_ ?_ ?_ ?_ ?_ e
  · intro v t; simp [countArithmeticOps]
  · intro i t; simp [countArithmeticOps]
  · intro l r ops ds ihl ihr; simp only [countArithmeticOps]; omega
  · intro l r ops ihl ihr; simp only [countArithmeticOps]; omega
  · intro l r op ops ihl ihr; simp only [countArithmeticOps]; omega
  · intro l r ops ihl ihr; simp only [countArithmeticOps]; omega
  · intro c _; simp [countArithmeticOps]
  · intro es _; simp [countArithmeticOps]
  · intro n t; simp [countArithmeticOps]

/-- Every arithmetic operator reached in a stamped expression carries the count that was
stamped. -/
theorem arithmeticOps_stamped (e : Expression) :
    ∀ (k : Int) (y : Expression), y ∈ arithmeticOps (setArithmeticOps e k) → y.ops = k := by
  refine expression_induction (P := fun e => ∀ (k : Int) (y : Expression),
    y ∈ arithmeticOps (setArithmeticOps e k) → y.ops = k) ?_ ?_ ?_ ?_ ?_ ?_ ?_ ?_ ?_ e
  · intro v t k y hy; simp [setArithmeticOps, arithmeticOps] at hy
  · intro i t k y hy; simp [setArithmeticOps, arithmeticOps] at hy
  · intro l r ops ds ihl ihr k y hy
    simp only [setArithmeticOps, arithmeticOps, List.mem_cons, List.mem_append] at hy
    rcases hy with rfl | hy | hy
    · rfl
    · exact ihl k y hy
    · exact ihr k y hy
  · intro l r ops ihl ihr k y hy
    simp only [setArithmeticOps, arithmeticOps, List.mem_cons, List.mem_append] at hy
    rcases hy with rfl | hy | hy
    · rfl
    · exact ihl k y hy
    · exact ihr k y hy
  · intro l r op ops ihl ihr k y hy
    simp only [setArithmeticOps, arithmeticOps, List.mem_cons, List.mem_append] at hy
    rcases hy with rfl | hy | hy
    · rfl
    · exact ihl k y hy
    · exact ihr k y hy
  · intro l r ops ihl ihr k y hy
    simp only [setArithmeticOps, arithmeticOps, List.mem_cons, List.mem_append] at hy
    rcases hy with rfl | hy | hy
    · rfl
    · exact ihl k y hy
    · exact ihr k y hy
  · intro c _ k y hy; simp [setArithmeticOps, arithmeticOps] at hy
  · intro es _ k y hy; simp [setArithmeticOps, arithmeticOps] at hy
  · intro n t k y hy; simp [setArithmeticOps, arithmeticOps] at hy

/-- An arithmetic operator reached in an expression has no more operators under it than the
expression. -/
theorem arithmeticOps_count_le (e : Expression) :
    ∀ y : Expression, y ∈ arithmeticOps e → countArithmeticOps y ≤ countArithmeticOps e := by
  refine expression_induction (P := fun e => ∀ y : Expression, y ∈ arithmeticOps e →
    countArithmeticOps y ≤ countArithmeticOps e) ?_ ?_ ?_ ?_ ?_ ?_ ?_ ?_ ?_ e
  · intro v t y hy; simp [arithmeticOps] at hy
  · intro i t y hy; simp [arithmeticOps] at hy
  · intro l r ops ds ihl ihr y hy
    have h1 := countArithmeticOps_nonneg l
    have h2 := countArithmeticOps_nonneg r
    simp only [arithmeticOps, List.mem_cons, List.mem_append] at hy
    rcases hy with rfl | hy | hy
    · exact le_refl _
    · have := ihl y hy; simp only [countArithmeticOps]; omega
    · have := ihr y hy; simp only [countArithmeticOps]; omega
  · intro l r ops ihl ihr y hy
    have h1 := countArithmeticOps_nonneg l
    have h2 := countArithmeticOps_nonneg r
    simp only [arithmeticOps, List.mem_cons, List.mem_append] at hy
    rcases hy with rfl | hy | hy
    · exact le_refl _
    · have := ihl y hy; simp only [countArithmeticOps]; omega
    · have := ihr y hy; simp only [countArithmeticOps]; omega
  · intro l r op ops ihl ihr y hy
    have h1 := countArithmeticOps_nonneg l
    have h2 := countArithmeticOps_nonneg r
    simp only [arithmeticOps, List.mem_cons, List.mem_append] at hy
    rcases hy with rfl | hy | hy
    · exact le_refl _
    · have := ihl y hy; simp only [countArithmeticOps]; omega
    · have := ihr y hy; simp only [countArithmeticOps]; omega
  · intro l r ops ihl ihr y hy
    have h1 := countArithmeticOps_nonneg l
    have h2 := countArithmeticOps_nonneg r
    simp only [arithmeticOps, List.mem_cons, List.mem_append] at hy
    rcases hy with rfl | hy | hy
    · exact le_refl _
    · have := ihl y hy; simp only [countArithmeticOps]; omega
    · have := ihr y hy; simp only [countArithmeticOps]; omega
  · intro c _ y hy; simp [arithmeticOps] at hy
  · intro es _ y hy; simp [arithmeticOps] at hy
  · intro n t y hy; simp [arithmeticOps] at hy

/-- The stamping of a node with two stamped children `l2` and `r2`, whose count is `k`. -/
theorem stamped_node (x l2 r2 l0 r0 : Expression) (k : Int)
    (hops : x.ops = k) (hcount : countArithmeticOps x = k)
    (hk : k = countArithmeticOps l2 + countArithmeticOps r2 + 1)
    (hl : l2 = setArithmeticOps l0 k) (hr : r2 = setArithmeticOps r0 k)
    (hlist : arithmeticOps x = x :: (arithmeticOps l2 ++ arithmeticOps r2)) :
    (∀ y ∈ arithmeticOps x, y.ops = x.ops) ∧
      isOutermostArithmeticOp x x.ops = true ∧
      (∀ y ∈ (arithmeticOps x).tail, isOutermostArithmeticOp y y.ops = false) := by
  have h1 := countArithmeticOps_nonneg l2
  have h2 := countArithmeticOps_nonneg r2
  have hall : ∀ y ∈ arithmeticOps l2 ++ arithmeticOps r2,
      y.ops = k ∧ countArithmeticOps y < k := by
    intro y hy
    rcases List.mem_append.1 hy with hy | hy
    · refine ⟨arithmeticOps_stamped l0 k y (by rw [← hl]; exact hy), ?_⟩
      have := arithmeticOps_count_le l2 y hy
      omega
    · refine ⟨arithmeticOps_stamped r0 k y (by rw [← hr]; exact hy), ?_⟩
      have := arithmeticOps_count_le r2 y hy
      omega
  refine ⟨?_, ?_, ?_⟩
  · intro y hy
    rw [hlist] at hy
    rcases List.mem_cons.1 hy with rfl | hy
    · rfl
    · rw [hops]; exact (hall y hy).1
  · simp [isOutermostArithmeticOp, hops, hcount]
  · intro y hy
    rw [hlist, List.tail_cons] at hy
    obtain ⟨ho, hc⟩ := hall y hy
    simp only [isOutermostArithmeticOp, ho, beq_eq_false_iff_ne, ne_eq]
    omega

/-- The evaluation of a `Div` that is not the outermost arithmetic operator: the result of
`div`, not rounded. -/
theorem div_eval_not_outermost (env : ExprEnv) (ctx : Option EvalContext) (row : List Value)
    (l r : Expression) (ops divScale : Int)
    (h : isOutermostArithmeticOp (.Div l r ops divScale) ops = false) :
    (Expression.Div l r ops divScale).Eval env ctx row =
      divEvalCore env ctx (l.Type env) (r.Type env) ops (l.Eval env ctx row)
        (r.Eval env ctx row) := by
  rw [Expression.Eval]
  generalize divEvalCore env ctx (l.Type env) (r.Type env) ops (l.Eval env ctx row)
    (r.Eval env ctx row) = core
  generalize divFinalScale env divScale 0 (l.Type env) (l.Eval env ctx row)
    (getFinalScale env ctx row l 1) = fs
  obtain ⟨val, err, warnings⟩ := core
  cases err with
  | some e => rfl
  | none =>
    cases val <;> simp [divEvalFinish, divRoundResult, h]

/-- C33: the operator count stamped by the constructors.  For `x` built by `NewArithmetic`,
`NewDiv` or `NewIntDiv` over `l` and `r`: `x.ops` is `countArithmeticOps(x)`, which is
`1 + countArithmeticOps(l) + countArithmeticOps(r)`; every arithmetic operator reached from
`x` through the left and right children of arithmetic operators carries that value;
`isOutermostArithmeticOp(y, y.ops)` is true for `x` and false for each of its proper
descendants among them; and a `Div` among these descendants evaluates to the result of `div`
without rounding it. -/
theorem C33_operator_count (l r : Expression) (op : String) (x : Expression)
    (hx : x = NewArithmetic l r op ∨ x = NewDiv l r ∨ x = NewIntDiv l r) :
    x.ops = countArithmeticOps x ∧
      countArithmeticOps x = 1 + countArithmeticOps l + countArithmeticOps r ∧
      (∀ y ∈ arithmeticOps x, y.ops = x.ops) ∧
      isOutermostArithmeticOp x x.ops = true ∧
      (∀ y ∈ (arithmeticOps x).tail, isOutermostArithmeticOp y y.ops = false) ∧
      (∀ (env : ExprEnv) (ctx : Option EvalContext) (row : List Value)
        (yl yr : Expression) (ops divScale : Int),
        Expression.Div yl yr ops divScale ∈ (arithmeticOps x).tail →
        (Expression.Div yl yr ops divScale).Eval env ctx row =
          divEvalCore env ctx (yl.Type env) (yr.Type env) ops (yl.Eval env ctx row)
            (yr.Eval env ctx row)) := by
  have key : x.ops = countArithmeticOps x ∧
      countArithmeticOps x = 1 + countArithmeticOps l + countArithmeticOps r ∧
      (∀ y ∈ arithmeticOps x, y.ops = x.ops) ∧
      isOutermostArithmeticOp x x.ops = true ∧
      (∀ y ∈ (arithmeticOps x).tail, isOutermostArithmeticOp y y.ops = false) := by
    rcases hx with rfl | rfl | rfl
    · rw [NewArithmetic_eq]
      have hc : countArithmeticOps (Expression.Arithmetic
          (setArithmeticOps l (countArithmeticOps l + countArithmeticOps r + 1))
          (setArithmeticOps r (countArithmeticOps l + countArithmeticOps r + 1)) op
          (countArithmeticOps l + countArithmeticOps r + 1)) =
          countArithmeticOps l + countArithmeticOps r + 1 := by
        simp [countArithmeticOps, countArithmeticOps_setArithmeticOps]
      refine ⟨Eq.trans rfl hc.symm, (by rw [hc]; ring), ?_⟩
      exact stamped_node _ _ _ l r (countArithmeticOps l + countArithmeticOps r + 1) rfl hc
        (by simp [countArithmeticOps_setArithmeticOps]) rfl rfl rfl
    · rw [NewDiv_eq]
      have hc : countArithmeticOps (Expression.Div
          (setArithmeticOps (setDivs l (countDivs l + 1))
            (countArithmeticOps l + countArithmeticOps r + 1))
          (setArithmeticOps (setDivs r (countDivs l + 1))
            (countArithmeticOps l + countArithmeticOps r + 1))
          (countArithmeticOps l + countArithmeticOps r + 1) (countDivs l + 1)) =
          countArithmeticOps l + countArithmeticOps r + 1 := by
        simp [countArithmeticOps, countArithmeticOps_setArithmeticOps,
          countArithmeticOps_setDivs]
      refine ⟨Eq.trans rfl hc.symm, (by rw [hc]; ring), ?_⟩
      exact stamped_node _ _ _ (setDivs l (countDivs l + 1)) (setDivs r (countDivs l + 1))
        (countArithmeticOps l + countArithmeticOps r + 1) rfl hc
        (by simp [countArithmeticOps_setArithmeticOps, countArithmeticOps_setDivs]) rfl rfl rfl
    · rw [NewIntDiv_eq]
      have hc : countArithmeticOps (Expression.IntDiv
          (setArithmeticOps l (countArithmeticOps l + countArithmeticOps r + 1))
          (setArithmeticOps r (countArithmeticOps l + countArithmeticOps r + 1))
          (countArithmeticOps l + countArithmeticOps r + 1)) =
          countArithmeticOps l + countArithmeticOps r + 1 := by
        simp [countArithmeticOps, countArithmeticOps_setArithmeticOps]
      refine ⟨Eq.trans rfl hc.symm, (by rw [hc]; ring), ?_⟩
      exact stamped_node _ _ _ l r (countArithmeticOps l + countArithmeticOps r + 1) rfl hc
        (by simp [countArithmeticOps_setArithmeticOps]) rfl rfl rfl
  refine ⟨key.1, key.2.1, key.2.2.1, key.2.2.2.1, key.2.2.2.2, ?_⟩
  intro env ctx row yl yr ops divScale hy
  exact div_eval_not_outermost env ctx row yl yr ops divScale (key.2.2.2.2 _ hy)

theorem C33_operator_count_witness :
    chainOfThree.ops = 3 ∧ countArithmeticOps chainOfThree = 3 ∧
      (arithmeticOps chainOfThree).tail =
        [.Div (.Div (int64Literal 24) (int64Literal 3) 3 3) (int64Literal 2) 3 3,
          .Div (int64Literal 24) (int64Literal 3) 3 3] ∧
      isOutermostArithmeticOp chainOfThree chainOfThree.ops = true ∧
      (∀ y ∈ (arithmeticOps chainOfThree).tail, isOutermostArithmeticOp y y.ops = false) :=
  have h := C33_operator_count
    (NewDiv (NewDiv (int64Literal 24) (int64Literal 3)) (int64Literal 2)) (int64Literal 1) "/"
    chainOfThree (Or.inr (Or.inl rfl))
  ⟨rfl, rfl, rfl, h.2.2.2.1, h.2.2.2.2.1⟩

/-- The loop of `HashToUint` with a `Sorter` never takes the branch of line 830: the width
that `utf8.DecodeRuneInString` returns for a string that is not empty is from 1 to 4, and the
test compares it with 0 and with `utf8.RuneError`. -/
theorem hashRunes_never_rejects (env : CollationEnv) (sorter : RuneWeight) :
    ∀ (steps : Nat) (s : List Nat) (written : List Nat), s.length ≤ steps →
      ∃ w, hashRunes env (some sorter) steps s written = .returns (w, none) := by
  intro steps
  induction steps with
  | zero =>
    intro s written h
    cases s with
    | nil => exact ⟨written, by simp [hashRunes]⟩
    | cons b bs => simp at h
  | succ steps ih =>
    intro s written h
    cases s with
    | nil => exact ⟨written, by simp [hashRunes]⟩
    | cons b bs =>
      simp only [hashRunes, hashRunes_test b bs, if_false]
      apply ih
      have hsz := DecodeRuneInString_size b bs
      simp only [List.length_drop, List.length_cons] at h ⊢
      omega

theorem HashToUint_never_rejects (env : CollationEnv) (c : CollationID) (entry : Collation)
    (sorter : RuneWeight) (s : List Nat) (hbinary : c ≠ Collation_binary)
    (hentry : collationArray.get? c = some entry) (hsorter : entry.Sorter = some sorter) :
    ∃ hash, CollationID.HashToUint env c s = .returns (hash, none) := by
  have hat : collationAt c = .returns entry := by
    unfold collationAt
    rw [hentry]
  obtain ⟨w, hw⟩ := hashRunes_never_rejects env sorter s.length s [] (le_refl _)
  refine ⟨env.Sum64 w % 2 ^ 64, ?_⟩
  unfold CollationID.HashToUint
  rw [if_neg hbinary, hat]
  simp only [Completion.bind, hsorter, hw]

/-- C32: the string of the two bytes `0x68 0xFF` is not valid UTF-8 (`0xFF` is no encoding,
`utf8.DecodeRuneInString` returns `(RuneError, 1)` for it), and `HashToUint` of the collation
`utf8mb4_0900_bin`, which has a `Sorter`, returns a hash and no error for it: line 829
compares the width `strRead`, which is 1, with 0 and with `utf8.RuneError`, not the rune.
For no collation other than `binary` with a `Sorter` and no string does `HashToUint` return an
error. -/
theorem C32_malformed_not_rejected :
    runes [104, 255] = none ∧
      DecodeRuneInString [255] = (RuneError, 1) ∧
      Collation_utf8mb4_0900_bin ≠ Collation_binary ∧
      CollationID.Sorter Collation_utf8mb4_0900_bin =
        .returns (some (.encodings "Utf8mb4_0900_bin_RuneWeight")) ∧
      CollationID.HashToUint exampleCollationEnv Collation_utf8mb4_0900_bin [104, 255] =
        .returns (612, none) ∧
      (∀ (env : CollationEnv) (c : CollationID) (entry : Collation) (sorter : RuneWeight)
        (s : List Nat), c ≠ Collation_binary → collationArray.get? c = some entry →
        entry.Sorter = some sorter →
        ∃ hash, CollationID.HashToUint env c s = .returns (hash, none)) := by
  refine ⟨by decide, by decide, by decide, by decide!, by decide!, ?_⟩
  intro env c entry sorter s hbinary hentry hsorter
  exact HashToUint_never_rejects env c entry sorter s hbinary hentry hsorter

end GMS
